import Mathlib

/-!
# ArtemisMoonOrbiterSim: physics core

A shallow embedding of the orbital-mechanics engine (`Orbit`, `Spacecraft`,
the scenario set-up of `Application`) together with theorems about it.

C++ `double` values are idealised as real numbers.  Where the program can
produce an IEEE infinity or NaN from ordinary inputs, the value is carried by
`Dbl` (fields of `OrbitalElements`) or the result is `none`
(`Orbit.computeStateFromElements`, whose output vectors are then not finite).
-/

noncomputable section

/-! ## Constants (core/Constants.h) -/

namespace Constants

/-- Gravitational parameter of the Moon, `4902.800066e9` m^3/s^2. -/
def MOON_MU : ℝ := 4902800066000

/-- Radius of the Moon in metres. -/
def MOON_RADIUS : ℝ := 1737400

/-- Standard gravity used for specific-impulse calculations. -/
def G0 : ℝ := 9.80665

/-- Default spacecraft mass in kilograms. -/
def DEFAULT_MASS : ℝ := 26000

/-- Default dry mass in kilograms. -/
def DEFAULT_DRY_MASS : ℝ := 18000

/-- Default maximum thrust in newtons. -/
def DEFAULT_MAX_THRUST : ℝ := 25000

/-- Default specific impulse in seconds. -/
def DEFAULT_ISP : ℝ := 320

/-- The source writes the literal `3.14159265358979323846`, the double nearest
to the circle constant; in the real-number idealisation it is that constant. -/
def PI : ℝ := Real.pi

/-- The constant `2.0 * PI`. -/
def TWO_PI : ℝ := 2.0 * PI

/-- The constant `PI / 180.0`. -/
def DEG_TO_RAD : ℝ := PI / 180.0

end Constants

/-! ## Standard-library helpers -/

/-- The function `std::min(a, b)`, which is `(b < a) ? b : a`. -/
def stdMin (a b : ℝ) : ℝ := if b < a then b else a

/-- The function `std::max(a, b)`, which is `(a < b) ? b : a`. -/
def stdMax (a b : ℝ) : ℝ := if a < b then b else a

/-- The function `std::clamp(v, lo, hi)`, which is `(v < lo) ? lo : (hi < v) ? hi : v`. -/
def stdClamp (v lo hi : ℝ) : ℝ := if v < lo then lo else if hi < v then hi else v

/-! ## Vectors and matrices (glm) -/

/-- A `glm::dvec3`. -/
@[ext] structure Vec3 where
  x : ℝ
  y : ℝ
  z : ℝ

namespace Vec3

/-- The vector `glm::dvec3(0.0)`. -/
def zero : Vec3 := ⟨0, 0, 0⟩

/-- Componentwise sum `a + b`. -/
def add (a b : Vec3) : Vec3 := ⟨a.x + b.x, a.y + b.y, a.z + b.z⟩

/-- Componentwise difference `a - b`. -/
def sub (a b : Vec3) : Vec3 := ⟨a.x - b.x, a.y - b.y, a.z - b.z⟩

/-- Unary minus `-a`. -/
def neg (a : Vec3) : Vec3 := ⟨-a.x, -a.y, -a.z⟩

/-- Vector times scalar `a * s`. -/
def scale (a : Vec3) (s : ℝ) : Vec3 := ⟨a.x * s, a.y * s, a.z * s⟩

/-- Scalar times vector `s * a`. -/
def lscale (s : ℝ) (a : Vec3) : Vec3 := ⟨s * a.x, s * a.y, s * a.z⟩

/-- Vector divided by scalar `a / s`. -/
def divs (a : Vec3) (s : ℝ) : Vec3 := ⟨a.x / s, a.y / s, a.z / s⟩

/-- The function `glm::dot`. -/
def dot (a b : Vec3) : ℝ := a.x * b.x + a.y * b.y + a.z * b.z

/-- The function `glm::cross`. -/
def cross (a b : Vec3) : Vec3 :=
  ⟨a.y * b.z - b.y * a.z, a.z * b.x - b.z * a.x, a.x * b.y - b.x * a.y⟩

/-- The function `glm::length`, `sqrt(dot(a, a))`. -/
def length (a : Vec3) : ℝ := Real.sqrt (dot a a)

/-- The function `glm::normalize`, `a * inversesqrt(dot(a, a))`. -/
def normalize (a : Vec3) : Vec3 := scale a (1 / Real.sqrt (dot a a))

end Vec3

/-- A `glm::dmat3`, stored by columns: `m[c]` is column `c` and `m[c][r]` its
entry in row `r`. -/
structure Mat3 where
  c0 : Vec3
  c1 : Vec3
  c2 : Vec3

namespace Mat3

/-- The product `m * v` of glm: the columns of `m` weighted by the components
of `v`. -/
def mulVec (m : Mat3) (v : Vec3) : Vec3 :=
  ⟨m.c0.x * v.x + m.c1.x * v.y + m.c2.x * v.z,
   m.c0.y * v.x + m.c1.y * v.y + m.c2.y * v.z,
   m.c0.z * v.x + m.c1.z * v.y + m.c2.z * v.z⟩

/-- The matrix product `a * b`: column `j` of the result is `a * (column j of b)`. -/
def mul (a b : Mat3) : Mat3 := ⟨mulVec a b.c0, mulVec a b.c1, mulVec a b.c2⟩

end Mat3

/-- A `glm::dquat` in the order `(w, x, y, z)`. -/
structure Quat where
  w : ℝ
  x : ℝ
  y : ℝ
  z : ℝ

/-! ## Doubles that may be infinite -/

/-- A `double` whose value may be finite, an infinity, or NaN. -/
inductive Dbl where
  | fin (x : ℝ)
  | posInf
  | negInf
  | nan

namespace Dbl

/-- IEEE product of an extended value with a finite one. -/
def mulReal : Dbl → ℝ → Dbl
  | fin a, x => fin (a * x)
  | posInf, x => if 0 < x then posInf else if x < 0 then negInf else nan
  | negInf, x => if 0 < x then negInf else if x < 0 then posInf else nan
  | nan, _ => nan

/-- IEEE difference of an extended value and a finite one. -/
def subReal : Dbl → ℝ → Dbl
  | fin a, x => fin (a - x)
  | posInf, _ => posInf
  | negInf, _ => negInf
  | nan, _ => nan

/-- IEEE negation. -/
def neg : Dbl → Dbl
  | fin a => fin (-a)
  | posInf => negInf
  | negInf => posInf
  | nan => nan

/-- The comparison `a > 0`, false for NaN. -/
def gtZero : Dbl → Prop
  | fin a => 0 < a
  | posInf => True
  | negInf => False
  | nan => False

/-- The comparison `a < 0`, false for NaN. -/
def ltZero : Dbl → Prop
  | fin a => a < 0
  | posInf => False
  | negInf => True
  | nan => False

instance decGtZero (a : Dbl) : Decidable (gtZero a) :=
  match a with
  | fin x => inferInstanceAs (Decidable (0 < x))
  | posInf => isTrue trivial
  | negInf => isFalse id
  | nan => isFalse id

instance decLtZero (a : Dbl) : Decidable (ltZero a) :=
  match a with
  | fin x => inferInstanceAs (Decidable (x < 0))
  | posInf => isFalse id
  | negInf => isTrue trivial
  | nan => isFalse id

end Dbl

/-! ## Orbit math (physics/Orbit.h, physics/Orbit.cpp) -/

/-- The struct `OrbitalElements`, with its default member initialisers. -/
structure OrbitalElements where
  semiMajorAxis : Dbl := Dbl.fin 0
  eccentricity : ℝ := 0
  inclination : ℝ := 0
  raan : ℝ := 0
  argOfPeriapsis : ℝ := 0
  trueAnomaly : ℝ := 0
  periapsisAltitude : Dbl := Dbl.fin 0
  apoapsisAltitude : Dbl := Dbl.fin 0
  orbitalPeriod : Dbl := Dbl.fin 0
  specificEnergy : ℝ := 0
  angularMomentum : ℝ := 0

namespace Orbit

/-- The function `Orbit::computePeriod`, `TWO_PI * sqrt(a * a * a / mu)`, for
`mu > 0`: an infinite semi-major axis gives an infinite period and a negative
radicand gives NaN. -/
def computePeriod (semiMajorAxis : Dbl) (mu : ℝ) : Dbl :=
  match semiMajorAxis with
  | Dbl.fin a =>
      if 0 ≤ a * a * a / mu then Dbl.fin (Constants.TWO_PI * Real.sqrt (a * a * a / mu))
      else Dbl.nan
  | Dbl.posInf => Dbl.posInf
  | Dbl.negInf => Dbl.nan
  | Dbl.nan => Dbl.nan

/-- The function `Orbit::computeAltitude`. -/
def computeAltitude (position : Vec3) (bodyRadius : ℝ) : ℝ :=
  Vec3.length position - bodyRadius

/-- The local variable `eVec` of `Orbit::computeElements`, the eccentricity
vector `((v*v - mu/r) * position - dot(position, velocity) * velocity) / mu`. -/
def eccentricityVector (position velocity : Vec3) (mu : ℝ) : Vec3 :=
  let r := Vec3.length position
  let v := Vec3.length velocity
  Vec3.divs
    (Vec3.sub (Vec3.lscale (v * v - mu / r) position)
      (Vec3.lscale (Vec3.dot position velocity) velocity)) mu

/-- The function `Orbit::computeElements`.  The model is exact where the source
divides by non-zero numbers only, that is for `position ≠ 0` and `mu ≠ 0`. -/
def computeElements (position velocity : Vec3) (mu : ℝ) : OrbitalElements :=
  let r := Vec3.length position
  let v := Vec3.length velocity
  let specificEnergy := (v * v) / 2.0 - mu / r
  let h := Vec3.cross position velocity
  let hMag := Vec3.length h
  let k : Vec3 := ⟨0.0, 0.0, 1.0⟩
  let n := Vec3.cross k h
  let nMag := Vec3.length n
  let eVec := Vec3.divs
    (Vec3.sub (Vec3.lscale (v * v - mu / r) position)
      (Vec3.lscale (Vec3.dot position velocity) velocity)) mu
  let eccentricity := Vec3.length eVec
  let semiMajorAxis : Dbl :=
    if |eccentricity - 1.0| > 1e-10 then Dbl.fin (-mu / (2.0 * specificEnergy))
    else Dbl.posInf
  let inclination : ℝ :=
    if hMag > 1e-10 then Real.arccos (stdClamp (h.z / hMag) (-1.0) 1.0) else 0
  let raan : ℝ :=
    if nMag > 1e-10 then
      let raan0 := Real.arccos (stdClamp (n.x / nMag) (-1.0) 1.0)
      if n.y < 0 then Constants.TWO_PI - raan0 else raan0
    else 0
  let argOfPeriapsis : ℝ :=
    if nMag > 1e-10 ∧ eccentricity > 1e-10 then
      let eDotN := Vec3.dot eVec n
      let w0 := Real.arccos (stdClamp (eDotN / (eccentricity * nMag)) (-1.0) 1.0)
      if eVec.z < 0 then Constants.TWO_PI - w0 else w0
    else 0
  let trueAnomaly : ℝ :=
    if eccentricity > 1e-10 then
      let eDotr := Vec3.dot eVec position
      let nu0 := Real.arccos (stdClamp (eDotr / (eccentricity * r)) (-1.0) 1.0)
      if Vec3.dot position velocity < 0 then Constants.TWO_PI - nu0 else nu0
    else if nMag > 1e-10 then
      let nDotr := Vec3.dot n position
      let nu0 := Real.arccos (stdClamp (nDotr / (nMag * r)) (-1.0) 1.0)
      if position.z < 0 then Constants.TWO_PI - nu0 else nu0
    else 0
  let apsides : Dbl × Dbl × Dbl :=
    if Dbl.gtZero semiMajorAxis ∧ eccentricity < 1.0 then
      let periapsis := Dbl.mulReal semiMajorAxis (1.0 - eccentricity)
      let apoapsis := Dbl.mulReal semiMajorAxis (1.0 + eccentricity)
      (Dbl.subReal periapsis Constants.MOON_RADIUS,
       Dbl.subReal apoapsis Constants.MOON_RADIUS,
       computePeriod semiMajorAxis mu)
    else if eccentricity ≥ 1.0 then
      let periapsis0 := Dbl.mulReal semiMajorAxis (1.0 - eccentricity)
      let periapsis :=
        if Dbl.ltZero semiMajorAxis then
          Dbl.mulReal (Dbl.neg semiMajorAxis) (eccentricity - 1.0)
        else periapsis0
      (Dbl.subReal periapsis Constants.MOON_RADIUS, Dbl.posInf, Dbl.posInf)
    else (Dbl.fin 0, Dbl.fin 0, Dbl.fin 0)
  { semiMajorAxis := semiMajorAxis
    eccentricity := eccentricity
    inclination := inclination
    raan := raan
    argOfPeriapsis := argOfPeriapsis
    trueAnomaly := trueAnomaly
    periapsisAltitude := apsides.1
    apoapsisAltitude := apsides.2.1
    orbitalPeriod := apsides.2.2
    specificEnergy := specificEnergy
    angularMomentum := hMag }

/-- The matrix `rotMat` that `Orbit::computeStateFromElements` fills, entry by
entry: the source's `rotMat[c][r]` is row `r` of column `c`. -/
def rotMat (omega i w : ℝ) : Mat3 :=
  let cosOmega := Real.cos omega
  let sinOmega := Real.sin omega
  let cosW := Real.cos w
  let sinW := Real.sin w
  let cosI := Real.cos i
  let sinI := Real.sin i
  { c0 := ⟨cosOmega * cosW - sinOmega * sinW * cosI,
           -cosOmega * sinW - sinOmega * cosW * cosI,
           sinOmega * sinI⟩
    c1 := ⟨sinOmega * cosW + cosOmega * sinW * cosI,
           -sinOmega * sinW + cosOmega * cosW * cosI,
           -cosOmega * sinI⟩
    c2 := ⟨sinW * sinI, cosW * sinI, cosI⟩ }

/-- The function `Orbit::computeStateFromElements`, returning
`(outPosition, outVelocity)`.  The result is `none` exactly when the source
produces vectors that are not finite: an infinite or NaN semi-major axis, a
zero denominator `1 + e cos(nu)`, or `mu * p <= 0` (square root of a negative
number, or division by `h = 0`). -/
def computeStateFromElements (elements : OrbitalElements) (mu : ℝ) :
    Option (Vec3 × Vec3) :=
  match elements.semiMajorAxis with
  | Dbl.fin a =>
      let e := elements.eccentricity
      let i := elements.inclination
      let omega := elements.raan
      let w := elements.argOfPeriapsis
      let nu := elements.trueAnomaly
      let p := a * (1.0 - e * e)
      if 1.0 + e * Real.cos nu = 0 ∨ mu * p ≤ 0 then none
      else
        let r := p / (1.0 + e * Real.cos nu)
        let rPQW : Vec3 := ⟨r * Real.cos nu, r * Real.sin nu, 0.0⟩
        let h := Real.sqrt (mu * p)
        let vPQW := Vec3.scale ⟨-Real.sin nu, e + Real.cos nu, 0.0⟩ (mu / h)
        some (Mat3.mulVec (rotMat omega i w) rPQW, Mat3.mulVec (rotMat omega i w) vPQW)
  | _ => none

/-- The function `Orbit::createCircularOrbit`. -/
def createCircularOrbit (altitude inclination raan trueAnomaly mu bodyRadius : ℝ) :
    Option (Vec3 × Vec3) :=
  let r := bodyRadius + altitude
  computeStateFromElements
    { semiMajorAxis := Dbl.fin r
      eccentricity := 0.0
      inclination := inclination
      raan := raan
      argOfPeriapsis := 0.0
      trueAnomaly := trueAnomaly } mu

/-- The function `Orbit::createEllipticalOrbit`. -/
def createEllipticalOrbit (periapsisAltitude apoapsisAltitude inclination raan
    argOfPeriapsis trueAnomaly mu bodyRadius : ℝ) : Option (Vec3 × Vec3) :=
  let rp := bodyRadius + periapsisAltitude
  let ra := bodyRadius + apoapsisAltitude
  let a := (rp + ra) / 2.0
  let e := (ra - rp) / (ra + rp)
  computeStateFromElements
    { semiMajorAxis := Dbl.fin a
      eccentricity := e
      inclination := inclination
      raan := raan
      argOfPeriapsis := argOfPeriapsis
      trueAnomaly := trueAnomaly } mu

end Orbit

/-! ## Spacecraft dynamics model (physics/Spacecraft.h, physics/Spacecraft.cpp) -/

/-- The struct `SpacecraftState`, with its default member initialisers. -/
structure SpacecraftState where
  position : Vec3 := ⟨0.0, 0.0, 0.0⟩
  velocity : Vec3 := ⟨0.0, 0.0, 0.0⟩
  attitude : Quat := ⟨1.0, 0.0, 0.0, 0.0⟩
  angularVelocity : Vec3 := ⟨0.0, 0.0, 0.0⟩
  mass : ℝ := 26000.0

/-- The enum `Spacecraft::ThrustMode`. -/
inductive ThrustMode where
  | Prograde
  | Retrograde
  | RadialIn
  | RadialOut
  | Normal
  | AntiNormal
  | Custom
  deriving DecidableEq

/-- The data members of class `Spacecraft`, with their default member
initialisers. -/
structure Spacecraft where
  m_state : SpacecraftState := {}
  m_initialState : SpacecraftState := {}
  m_dryMass : ℝ := 18000.0
  m_maxThrust : ℝ := 25000.0
  m_isp : ℝ := 320.0
  m_throttle : ℝ := 0.0
  m_thrustDirection : Vec3 := ⟨1.0, 0.0, 0.0⟩
  m_thrustMode : ThrustMode := ThrustMode.Prograde

namespace Spacecraft

/-- The method `Spacecraft::init`. -/
def init (s : Spacecraft) : Spacecraft :=
  let st : SpacecraftState := { ({} : SpacecraftState) with mass := Constants.DEFAULT_MASS }
  { s with
    m_state := st
    m_dryMass := Constants.DEFAULT_DRY_MASS
    m_maxThrust := Constants.DEFAULT_MAX_THRUST
    m_isp := Constants.DEFAULT_ISP
    m_throttle := 0.0
    m_thrustMode := ThrustMode.Prograde
    m_initialState := st }

/-- The method `Spacecraft::setMass`. -/
def setMass (s : Spacecraft) (mass dryMass : ℝ) : Spacecraft :=
  { s with
    m_state := { s.m_state with mass := stdMax mass dryMass }
    m_dryMass := dryMass }

/-- The method `Spacecraft::setThrust`. -/
def setThrust (s : Spacecraft) (maxThrust isp : ℝ) : Spacecraft :=
  { s with m_maxThrust := maxThrust, m_isp := isp }

/-- The method `Spacecraft::setState`; a write through the reference returned
by the non-const `getState()` has the same effect. -/
def setState (s : Spacecraft) (state : SpacecraftState) : Spacecraft :=
  { s with m_state := state }

/-- The method `Spacecraft::hasFuel`. -/
def hasFuel (s : Spacecraft) : Prop := s.m_state.mass > s.m_dryMass

instance decHasFuel (s : Spacecraft) : Decidable (hasFuel s) :=
  inferInstanceAs (Decidable (s.m_state.mass > s.m_dryMass))

/-- The method `Spacecraft::setThrottle`. -/
def setThrottle (s : Spacecraft) (throttle : ℝ) : Spacecraft :=
  { s with m_throttle := stdClamp throttle 0.0 1.0 }

/-- The method `Spacecraft::setThrustMode`. -/
def setThrustMode (s : Spacecraft) (mode : ThrustMode) : Spacecraft :=
  { s with m_thrustMode := mode }

/-- The method `Spacecraft::setThrustDirection`. -/
def setThrustDirection (s : Spacecraft) (direction : Vec3) : Spacecraft :=
  let len := Vec3.length direction
  if len > 1e-10 then { s with m_thrustDirection := Vec3.divs direction len } else s

/-- The method `Spacecraft::computeThrustVector`. -/
def computeThrustVector (s : Spacecraft) : Vec3 :=
  if s.m_throttle < 1e-10 ∨ ¬ hasFuel s then Vec3.zero
  else
    let radial := Vec3.normalize s.m_state.position
    let prograde := Vec3.normalize s.m_state.velocity
    let normal0 := Vec3.cross radial prograde
    let normal :=
      if Vec3.length normal0 > 1e-10 then Vec3.normalize normal0 else ⟨0.0, 0.0, 1.0⟩
    let direction : Vec3 :=
      match s.m_thrustMode with
      | ThrustMode.Prograde => prograde
      | ThrustMode.Retrograde => Vec3.neg prograde
      | ThrustMode.RadialIn => Vec3.neg radial
      | ThrustMode.RadialOut => radial
      | ThrustMode.Normal => normal
      | ThrustMode.AntiNormal => Vec3.neg normal
      | ThrustMode.Custom => s.m_thrustDirection
    Vec3.scale (Vec3.scale direction s.m_throttle) s.m_maxThrust

/-- The method `Spacecraft::applyThrust`: the returned mass consumed and the
spacecraft after the call. -/
def applyThrust (s : Spacecraft) (dt : ℝ) : ℝ × Spacecraft :=
  if s.m_throttle < 1e-10 ∨ ¬ hasFuel s then (0.0, s)
  else
    let thrust := s.m_throttle * s.m_maxThrust
    let massFlowRate := thrust / (s.m_isp * Constants.G0)
    let massConsumed0 := massFlowRate * dt
    let fuelAvailable := s.m_state.mass - s.m_dryMass
    let massConsumed := stdMin massConsumed0 fuelAvailable
    let mass1 := s.m_state.mass - massConsumed
    (massConsumed, { s with m_state := { s.m_state with mass := stdMax mass1 s.m_dryMass } })

/-- The method `Spacecraft::reset`. -/
def reset (s : Spacecraft) : Spacecraft :=
  { s with m_state := s.m_initialState, m_throttle := 0.0 }

/-- The values the private member `m_thrustDirection` can hold: its default
`(1, 0, 0)` or a vector stored by `setThrustDirection`. -/
def StoredDirection (d : Vec3) : Prop :=
  d = ⟨1.0, 0.0, 0.0⟩ ∨ ∃ v : Vec3, Vec3.length v > 1e-10 ∧ d = Vec3.divs v (Vec3.length v)

/-- One call of a state-changing public method of `Spacecraft`, with its
arguments. -/
inductive Op where
  | init
  | setMass (mass dryMass : ℝ)
  | setThrust (maxThrust isp : ℝ)
  | setThrottle (throttle : ℝ)
  | setThrustMode (mode : ThrustMode)
  | setThrustDirection (direction : Vec3)
  | applyThrust (dt : ℝ)
  | reset
  | setState (state : SpacecraftState)

/-- The spacecraft after one operation. -/
def Op.run (s : Spacecraft) : Op → Spacecraft
  | Op.init => Spacecraft.init s
  | Op.setMass mass dryMass => Spacecraft.setMass s mass dryMass
  | Op.setThrust maxThrust isp => Spacecraft.setThrust s maxThrust isp
  | Op.setThrottle throttle => Spacecraft.setThrottle s throttle
  | Op.setThrustMode mode => Spacecraft.setThrustMode s mode
  | Op.setThrustDirection direction => Spacecraft.setThrustDirection s direction
  | Op.applyThrust dt => (Spacecraft.applyThrust s dt).2
  | Op.reset => Spacecraft.reset s
  | Op.setState state => Spacecraft.setState s state

/-- The spacecraft after a sequence of operations, first to last. -/
def runOps (s : Spacecraft) (ops : List Op) : Spacecraft := ops.foldl Op.run s

end Spacecraft

/-! ## Scenario set-up (core/Application.cpp) -/

namespace Application

/-- The spacecraft part of `Application::initScenario`: `m_spacecraft.init()`
followed by the write of the scenario's position and velocity through
`getState()`.  The result is `none` when the orbit constructor yields vectors
that are not finite; an index outside `0..2` matches no case of the switch. -/
def initScenario (index : ℤ) (sc : Spacecraft) : Option Spacecraft :=
  let sc1 := Spacecraft.init sc
  let orbit : Option (Vec3 × Vec3) :=
    if index = 0 then
      Orbit.createCircularOrbit 100000.0 (28.0 * Constants.DEG_TO_RAD) 0.0 0.0
        Constants.MOON_MU Constants.MOON_RADIUS
    else if index = 1 then
      Orbit.createEllipticalOrbit 100000.0 5000000.0 (90.0 * Constants.DEG_TO_RAD) 0.0 0.0
        (180.0 * Constants.DEG_TO_RAD) Constants.MOON_MU Constants.MOON_RADIUS
    else if index = 2 then
      Orbit.createEllipticalOrbit 15000.0 120000.0 (45.0 * Constants.DEG_TO_RAD) 0.0 0.0 0.0
        Constants.MOON_MU Constants.MOON_RADIUS
    else some (sc1.m_state.position, sc1.m_state.velocity)
  match orbit with
  | some (position, velocity) =>
      some { sc1 with m_state := { sc1.m_state with position := position, velocity := velocity } }
  | none => none

end Application

/-! ## Integrator (physics/Integrator.h, physics/Integrator.cpp) -/

/-- The enum `Integrator::Type`, by its underlying value: `Application::update`
obtains it by `static_cast` from the `int` selected in the UI, so any value
can occur. -/
structure IntegratorType where
  value : ℤ
  deriving DecidableEq

namespace IntegratorType

/-- The enumerator `Integrator::Type::Euler`. -/
def Euler : IntegratorType := ⟨0⟩

/-- The enumerator `Integrator::Type::SemiImplicitEuler`. -/
def SemiImplicitEuler : IntegratorType := ⟨1⟩

/-- The enumerator `Integrator::Type::RK4`. -/
def RK4 : IntegratorType := ⟨2⟩

end IntegratorType

namespace Integrator

/-- The method `Integrator::stepEuler`.  A `DerivativeFunc` is modelled by the
pair `(accel, velocityDeriv)` it writes for a given state. -/
def stepEuler (state : SpacecraftState) (dt : ℝ)
    (computeDerivatives : SpacecraftState → Vec3 × Vec3) : SpacecraftState :=
  let accel := (computeDerivatives state).1
  let position1 := Vec3.add state.position (Vec3.scale state.velocity dt)
  let velocity1 := Vec3.add state.velocity (Vec3.scale accel dt)
  { state with position := position1, velocity := velocity1 }

/-- The method `Integrator::stepSemiImplicitEuler`. -/
def stepSemiImplicitEuler (state : SpacecraftState) (dt : ℝ)
    (computeDerivatives : SpacecraftState → Vec3 × Vec3) : SpacecraftState :=
  let accel := (computeDerivatives state).1
  let velocity1 := Vec3.add state.velocity (Vec3.scale accel dt)
  let position1 := Vec3.add state.position (Vec3.scale velocity1 dt)
  { state with position := position1, velocity := velocity1 }

/-- The method `Integrator::stepRK4`. -/
def stepRK4 (state : SpacecraftState) (dt : ℝ)
    (computeDerivatives : SpacecraftState → Vec3 × Vec3) : SpacecraftState :=
  let k1a := (computeDerivatives state).1
  let k1v := state.velocity
  let state2 : SpacecraftState :=
    { state with
      position := Vec3.add state.position (Vec3.scale k1v (dt * 0.5))
      velocity := Vec3.add state.velocity (Vec3.scale k1a (dt * 0.5)) }
  let k2a := (computeDerivatives state2).1
  let k2v := state2.velocity
  let state3 : SpacecraftState :=
    { state with
      position := Vec3.add state.position (Vec3.scale k2v (dt * 0.5))
      velocity := Vec3.add state.velocity (Vec3.scale k2a (dt * 0.5)) }
  let k3a := (computeDerivatives state3).1
  let k3v := state3.velocity
  let state4 : SpacecraftState :=
    { state with
      position := Vec3.add state.position (Vec3.scale k3v dt)
      velocity := Vec3.add state.velocity (Vec3.scale k3a dt) }
  let k4a := (computeDerivatives state4).1
  let k4v := state4.velocity
  { state with
    position := Vec3.add state.position
      (Vec3.scale (Vec3.add (Vec3.add (Vec3.add k1v (Vec3.lscale 2.0 k2v)) (Vec3.lscale 2.0 k3v))
        k4v) (dt / 6.0))
    velocity := Vec3.add state.velocity
      (Vec3.scale (Vec3.add (Vec3.add (Vec3.add k1a (Vec3.lscale 2.0 k2a)) (Vec3.lscale 2.0 k3a))
        k4a) (dt / 6.0)) }

/-- The method `Integrator::step`: `RK4` is also the `default` case of the
switch. -/
def step (state : SpacecraftState) (dt : ℝ) (type : IntegratorType)
    (computeDerivatives : SpacecraftState → Vec3 × Vec3) : SpacecraftState :=
  if type = IntegratorType.Euler then stepEuler state dt computeDerivatives
  else if type = IntegratorType.SemiImplicitEuler then
    stepSemiImplicitEuler state dt computeDerivatives
  else stepRK4 state dt computeDerivatives

/-- The `while` loop of `Integrator::predictTrajectory`, entered with
`remaining = maxSteps - steps` iterations left, the elapsed time `t` and the
current state; the value is the list of positions the loop pushes from here
on, in order. -/
def predictLoop (duration dt : ℝ) (computeDerivatives : SpacecraftState → Vec3 × Vec3)
    (bodyRadius : ℝ) : ℕ → ℝ → SpacecraftState → List Vec3
  | 0, _, _ => []
  | remaining + 1, t, state =>
      if t < duration then
        let state1 := stepRK4 state dt computeDerivatives
        if bodyRadius > 0.0 ∧ Vec3.length state1.position ≤ bodyRadius then
          [state1.position]
        else
          state1.position ::
            predictLoop duration dt computeDerivatives bodyRadius remaining (t + dt) state1
      else []

/-- The method `Integrator::predictTrajectory`, for `maxSteps >= 0`: the
initial position followed by the positions pushed by the loop. -/
def predictTrajectory (initialState : SpacecraftState) (duration dt : ℝ) (maxSteps : ℕ)
    (computeDerivatives : SpacecraftState → Vec3 × Vec3) (bodyRadius : ℝ) : List Vec3 :=
  initialState.position ::
    predictLoop duration dt computeDerivatives bodyRadius maxSteps 0.0 initialState

/-- The state after `k` calls of `stepRK4`, the `k`-th RK4 iterate. -/
def rk4Iterate (initialState : SpacecraftState) (dt : ℝ)
    (computeDerivatives : SpacecraftState → Vec3 × Vec3) : ℕ → SpacecraftState
  | 0 => initialState
  | k + 1 => stepRK4 (rk4Iterate initialState dt computeDerivatives k) dt computeDerivatives

end Integrator

/-! ## Simulation clock (core/Time.h, core/Time.cpp) -/

/-- The function `std::clamp(v, lo, hi)` on `int`. -/
def stdClampInt (v lo hi : ℤ) : ℤ := if v < lo then lo else if hi < v then hi else v

namespace Constants

/-- Fixed physics timestep in seconds. -/
def FIXED_TIMESTEP : ℝ := 0.02

/-- Largest time-warp multiplier. -/
def MAX_TIME_WARP : ℤ := 100

end Constants

/-- The data members of class `Time`; the two `time_point` members are clock
readings in seconds. -/
structure Time where
  m_startTime : ℝ := 0
  m_lastFrameTime : ℝ := 0
  m_deltaTime : ℝ := 0.0
  m_simulationTime : ℝ := 0.0
  m_realTime : ℝ := 0.0
  m_accumulator : ℝ := 0.0
  m_timeWarp : ℤ := 1
  m_paused : Bool := false
  m_frameTime : ℝ := 0.0
  m_physicsTime : ℝ := 0.0
  m_renderTime : ℝ := 0.0
  m_warpLevelIndex : ℤ := 0

namespace Time

/-- The constant `Time::NUM_WARP_LEVELS`. -/
def NUM_WARP_LEVELS : ℤ := 6

/-- The array `Time::TIME_WARP_LEVELS = {1, 2, 5, 10, 50, 100}`, read at index
`i`.  The source reads it at indices `0..5` only; other indices give 0 here. -/
def TIME_WARP_LEVELS (i : ℤ) : ℤ :=
  if i = 0 then 1 else if i = 1 then 2 else if i = 2 then 5 else if i = 3 then 10
  else if i = 4 then 50 else if i = 5 then 100 else 0

/-- The method `Time::init`; `now` is the clock reading it takes. -/
def init (t : Time) (now : ℝ) : Time :=
  { t with
    m_startTime := now
    m_lastFrameTime := now
    m_simulationTime := 0.0
    m_realTime := 0.0
    m_accumulator := 0.0
    m_timeWarp := 1
    m_warpLevelIndex := 0
    m_paused := false }

/-- The method `Time::update`; `now` is the clock reading it takes. -/
def update (t : Time) (now : ℝ) : Time :=
  let elapsed := now - t.m_lastFrameTime
  let deltaTime := stdMin elapsed 0.25
  let frameTime := deltaTime * 1000.0
  let realTime := now - t.m_startTime
  { t with
    m_deltaTime := deltaTime
    m_lastFrameTime := now
    m_frameTime := frameTime
    m_realTime := realTime
    m_simulationTime :=
      if ¬ t.m_paused then t.m_simulationTime + deltaTime * (t.m_timeWarp : ℝ)
      else t.m_simulationTime }

/-- The `for` loop of `Time::setTimeWarp`, entered at index `i` with
`remaining = NUM_WARP_LEVELS - i` iterations left: the first index from `i` on
whose table entry equals `warp`, if there is one. -/
def findWarpLevel (warp : ℤ) : ℕ → ℤ → Option ℤ
  | 0, _ => none
  | remaining + 1, i =>
      if TIME_WARP_LEVELS i = warp then some i else findWarpLevel warp remaining (i + 1)

/-- The method `Time::setTimeWarp`. -/
def setTimeWarp (t : Time) (warp : ℤ) : Time :=
  let timeWarp := stdClampInt warp 1 Constants.MAX_TIME_WARP
  match findWarpLevel timeWarp 6 0 with
  | some i => { t with m_timeWarp := timeWarp, m_warpLevelIndex := i }
  | none => { t with m_timeWarp := timeWarp }

/-- The method `Time::increaseTimeWarp`. -/
def increaseTimeWarp (t : Time) : Time :=
  if t.m_warpLevelIndex < NUM_WARP_LEVELS - 1 then
    { t with
      m_warpLevelIndex := t.m_warpLevelIndex + 1
      m_timeWarp := TIME_WARP_LEVELS (t.m_warpLevelIndex + 1) }
  else t

/-- The method `Time::decreaseTimeWarp`. -/
def decreaseTimeWarp (t : Time) : Time :=
  if t.m_warpLevelIndex > 0 then
    { t with
      m_warpLevelIndex := t.m_warpLevelIndex - 1
      m_timeWarp := TIME_WARP_LEVELS (t.m_warpLevelIndex - 1) }
  else t

/-- The method `Time::togglePause`. -/
def togglePause (t : Time) : Time := { t with m_paused := !t.m_paused }

/-- The method `Time::setPaused`. -/
def setPaused (t : Time) (paused : Bool) : Time := { t with m_paused := paused }

/-- The method `Time::reset`. -/
def reset (t : Time) : Time := { t with m_simulationTime := 0.0, m_accumulator := 0.0 }

/-- One call of a state-changing method of `Time` after `init`, with its
arguments; `update` carries the clock reading it takes. -/
inductive Op where
  | setTimeWarp (warp : ℤ)
  | increaseTimeWarp
  | decreaseTimeWarp
  | togglePause
  | setPaused (paused : Bool)
  | update (now : ℝ)
  | reset

/-- The clock after one operation. -/
def Op.run (t : Time) : Op → Time
  | Op.setTimeWarp warp => Time.setTimeWarp t warp
  | Op.increaseTimeWarp => Time.increaseTimeWarp t
  | Op.decreaseTimeWarp => Time.decreaseTimeWarp t
  | Op.togglePause => Time.togglePause t
  | Op.setPaused paused => Time.setPaused t paused
  | Op.update now => Time.update t now
  | Op.reset => Time.reset t

/-- The clock after a sequence of operations, first to last. -/
def runOps (t : Time) (ops : List Op) : Time := ops.foldl Op.run t

/-- The discrete levels `1, 2, 5, 10, 50, 100`. -/
def IsWarpLevel (w : ℤ) : Prop := w = 1 ∨ w = 2 ∨ w = 5 ∨ w = 10 ∨ w = 50 ∨ w = 100

/-- An operation whose `setTimeWarp` argument, if any, clamps to a discrete
level. -/
def Op.snapsToLevel : Op → Prop
  | Op.setTimeWarp warp => IsWarpLevel (stdClampInt warp 1 Constants.MAX_TIME_WARP)
  | _ => True

/-- The `k`-fold application of `increaseTimeWarp`. -/
def increaseTimes (t : Time) : ℕ → Time
  | 0 => t
  | k + 1 => increaseTimeWarp (increaseTimes t k)

end Time

/-! ## Physics tick (core/Application.cpp) -/

namespace Application

/-- The method `Application::computeDerivatives`, returning
`(outAccel, outVelDeriv)`. -/
def computeDerivatives (state : SpacecraftState) : Vec3 × Vec3 :=
  let r := Vec3.length state.position
  let outAccel : Vec3 :=
    if r > 1.0 then Vec3.divs (Vec3.lscale (-Constants.MOON_MU) state.position) (r * r * r)
    else Vec3.zero
  (outAccel, state.velocity)

/-- The local `thrustAccel` of one iteration of the stepping loop of
`Application::update`, computed before `applyThrust` is called. -/
def thrustAccel (sc : Spacecraft) : Vec3 :=
  if sc.m_throttle > 0.0 ∧ Spacecraft.hasFuel sc then
    Vec3.divs (Spacecraft.computeThrustVector sc) sc.m_state.mass
  else Vec3.zero

/-- The lambda `derivatives` of the stepping loop, which captures `thrustAccel`
by value. -/
def derivatives (thrustAccel : Vec3) (s : SpacecraftState) : Vec3 × Vec3 :=
  ((Vec3.add (computeDerivatives s).1 thrustAccel), (computeDerivatives s).2)

/-- One iteration of the stepping loop of `Application::update` up to and
including `Integrator::step`, on the spacecraft: thrust acceleration, fuel
depletion, integration. -/
def integrateStep (sc : Spacecraft) (integratorType : IntegratorType) : Spacecraft :=
  let dt := Constants.FIXED_TIMESTEP
  let accel := thrustAccel sc
  let sc1 :=
    if sc.m_throttle > 0.0 ∧ Spacecraft.hasFuel sc then (Spacecraft.applyThrust sc dt).2
    else sc
  { sc1 with m_state := Integrator.step sc1.m_state dt integratorType (derivatives accel) }

end Application

namespace Spec

/-- The state `state` with its position and velocity replaced: a stage state
of a Runge-Kutta step. -/
def stage (state : SpacecraftState) (p v : Vec3) : SpacecraftState :=
  { state with position := p, velocity := v }

/-- One step of classical fourth-order Runge-Kutta on `dp/dt = v`,
`dv/dt = a(state)`, as the specification words it: `k1 = (v, a(p, v))`, `k2` at
`(p + k1v*dt/2, v + k1a*dt/2)`, `k3` at `(p + k2v*dt/2, v + k2a*dt/2)`, `k4` at
`(p + k3v*dt, v + k3a*dt)`, each `kiv` the velocity of the stage state, and the
weights `(k1 + 2 k2 + 2 k3 + k4) * dt / 6`. -/
def classicalRK4 (state : SpacecraftState) (dt : ℝ) (a : SpacecraftState → Vec3) :
    SpacecraftState :=
  let p := state.position
  let v := state.velocity
  let k1v := v
  let k1a := a (stage state p v)
  let s2 := stage state (Vec3.add p (Vec3.scale k1v (dt / 2))) (Vec3.add v (Vec3.scale k1a (dt / 2)))
  let k2v := s2.velocity
  let k2a := a s2
  let s3 := stage state (Vec3.add p (Vec3.scale k2v (dt / 2))) (Vec3.add v (Vec3.scale k2a (dt / 2)))
  let k3v := s3.velocity
  let k3a := a s3
  let s4 := stage state (Vec3.add p (Vec3.scale k3v dt)) (Vec3.add v (Vec3.scale k3a dt))
  let k4v := s4.velocity
  let k4a := a s4
  stage state
    (Vec3.add p (Vec3.scale
      (Vec3.add (Vec3.add (Vec3.add k1v (Vec3.lscale 2 k2v)) (Vec3.lscale 2 k3v)) k4v) (dt / 6)))
    (Vec3.add v (Vec3.scale
      (Vec3.add (Vec3.add (Vec3.add k1a (Vec3.lscale 2 k2a)) (Vec3.lscale 2 k3a)) k4a) (dt / 6)))

end Spec

namespace Time

/-- The class invariant of the clock that holds whatever the arguments: the
level index stays in `0..5` and the time-warp in `1..100`. -/
def InRange (t : Time) : Prop :=
  0 ≤ t.m_warpLevelIndex ∧ t.m_warpLevelIndex ≤ 5 ∧ 1 ≤ t.m_timeWarp ∧ t.m_timeWarp ≤ 100

end Time

namespace Sample

/-- A force-free derivative function: zero acceleration. -/
def coastDerivatives (s : SpacecraftState) : Vec3 × Vec3 := (Vec3.zero, s.velocity)

/-- A state at `(2, 0, 0)` moving with velocity `(1, 0, 0)`. -/
def approachState : SpacecraftState := { position := ⟨2, 0, 0⟩, velocity := ⟨1, 0, 0⟩ }

/-- A derivative function with the constant acceleration `(0, 0, 1)`. -/
def liftDerivatives (s : SpacecraftState) : Vec3 × Vec3 := (⟨0, 0, 1⟩, s.velocity)

/-- A clock that has just been initialised at reading 0. -/
def freshClock : Time := Time.init {} 0

end Sample

/-! ## Scaled two-body quantities

One RK4 step of size `h` under `Application::computeDerivatives` keeps the
position and `h` times the velocity in the plane spanned by `p` and `u = h v`.
The definitions below express the step in that basis, with the dimensionless
quantities `x = h^2 mu / r^3`, `b = (p . u) / (p . p)` and
`w = (u . u) / (p . p)`. -/

namespace Kepler

/-- The coefficients of one RK4 step in the basis `(p, h v)`, from the scaled
stage accelerations `y2, y3, y4` (and `y1 = x`). -/
structure Coeffs where
  α : ℝ
  β : ℝ
  γ : ℝ
  δ : ℝ

/-- The coefficients of the RK4 update under gravity: the new position is
`α p + β (h v)` and `h` times the new velocity is `γ p + δ (h v)`. -/
def coeffs (x y2 y3 y4 : ℝ) : Coeffs :=
  { α := 1 - (x + y2 + y3 * (1 - x / 4)) / 6
    β := 1 - (y2 + y3) / 12
    γ := -(x + 2 * y2 + 2 * y3 * (1 - x / 4) + y4 * (1 - y2 / 2)) / 6
    δ := 1 - (y2 + y3 + y4 * (1 - y2 / 4)) / 6 }

/-- The squared length of `α p + β u` divided by `p . p`, for
`b = (p . u) / (p . p)` and `w = (u . u) / (p . p)`. -/
def nrm (b w α β : ℝ) : ℝ := α ^ 2 + 2 * α * β * b + β ^ 2 * w

/-- The product `(α p + β u) . (γ p + δ u)` divided by `p . p`. -/
def mix (b w α β γ δ : ℝ) : ℝ := α * γ + (α * δ + β * γ) * b + β * δ * w

/-- The scaled gravity factor at a stage whose squared distance is `N` times
the squared distance of the step's start: `x / (sqrt N)^3`. -/
def yOf (x N : ℝ) : ℝ := x / (Real.sqrt N * Real.sqrt N * Real.sqrt N)

/-- The scaled gravity factor at the second stage, at `p + u / 2`. -/
def stageY2 (x b w : ℝ) : ℝ := yOf x (nrm b w 1 (1 / 2))

/-- The scaled gravity factor at the third stage, at `(1 - x/4) p + u / 2`. -/
def stageY3 (x b w : ℝ) : ℝ := yOf x (nrm b w (1 - x / 4) (1 / 2))

/-- The scaled gravity factor at the fourth stage, at
`(1 - y2/2) p + (1 - y2/4) u`. -/
def stageY4 (x b w : ℝ) : ℝ :=
  yOf x (nrm b w (1 - stageY2 x b w / 2) (1 - stageY2 x b w / 4))

/-- The coefficients of one RK4 step from a state with scaled gravity factor
`x`, scaled radial product `b` and scaled squared speed `w`. -/
def stepCoeffs (x b w : ℝ) : Coeffs :=
  coeffs x (stageY2 x b w) (stageY3 x b w) (stageY4 x b w)

/-- The linear combination `a p + c u`. -/
def comb (a c : ℝ) (p u : Vec3) : Vec3 := Vec3.add (Vec3.lscale a p) (Vec3.lscale c u)

/-- The acceleration `Application::computeDerivatives` writes for a state at
position `q`. -/
def gravAt (q : Vec3) : Vec3 :=
  (Application.computeDerivatives { position := q }).1

/-- The scaled gravity factor `h^2 mu / r^3` of a state. -/
def sx (h : ℝ) (s : SpacecraftState) : ℝ :=
  h * h * Constants.MOON_MU /
    (Vec3.length s.position * Vec3.length s.position * Vec3.length s.position)

/-- The scaled radial product `h (p . v) / (p . p)` of a state. -/
def sb (h : ℝ) (s : SpacecraftState) : ℝ :=
  Vec3.dot s.position (Vec3.lscale h s.velocity) / Vec3.dot s.position s.position

/-- The scaled squared speed `h^2 (v . v) / (p . p)` of a state. -/
def sw (h : ℝ) (s : SpacecraftState) : ℝ :=
  Vec3.dot (Vec3.lscale h s.velocity) (Vec3.lscale h s.velocity) /
    Vec3.dot s.position s.position

/-- Specific orbital energy of a state, `v^2/2 - mu/r`. -/
def energy (s : SpacecraftState) : ℝ :=
  (Orbit.computeElements s.position s.velocity Constants.MOON_MU).specificEnergy

/-- Magnitude of the specific angular momentum of a state, `|r x v|`. -/
def momentum (s : SpacecraftState) : ℝ :=
  (Orbit.computeElements s.position s.velocity Constants.MOON_MU).angularMomentum

/-- The bounds that hold for the state `s` reached after `n` RK4 steps of size
`h` from the state `s0`: on the squared radius, the scaled gravity factor, the
scaled radial product, the departure of the scaled squared speed from the
circular value, the energy and the angular momentum. -/
structure Inv (h : ℝ) (s0 : SpacecraftState) (n : ℕ) (s : SpacecraftState) : Prop where
  pLo : Vec3.dot s0.position s0.position * (1 - n * (3 / 10 ^ 9)) ≤
    Vec3.dot s.position s.position
  pHi : Vec3.dot s.position s.position ≤
    Vec3.dot s0.position s0.position * (1 + n * (3 / 10 ^ 9))
  xPos : 0 < sx h s
  xHi : sx h s ≤ sx h s0 * (1 + n * (6 / 10 ^ 9))
  bAbs : |sb h s| ≤ n * (1 / 10 ^ 13)
  dAbs : |sw h s - sx h s| ≤ n * (9 / 10 ^ 18)
  eAbs : |h * h * energy s - h * h * energy s0| ≤
    n * (2 * Vec3.dot s0.position s0.position * (7 / 10 ^ 27))
  lAbs : |momentum s - momentum s0| ≤ n * (2 / 10 ^ 17) * momentum s0

end Kepler

/-! ## Steering axes (physics/Spacecraft.cpp) -/

namespace Spacecraft

/-- The locals `radial`, `prograde` and `normal` of
`Spacecraft::computeThrustVector`, in this order. -/
def steeringAxes (s : Spacecraft) : Vec3 × Vec3 × Vec3 :=
  let radial := Vec3.normalize s.m_state.position
  let prograde := Vec3.normalize s.m_state.velocity
  let normal0 := Vec3.cross radial prograde
  let normal :=
    if Vec3.length normal0 > 1e-10 then Vec3.normalize normal0 else ⟨0.0, 0.0, 1.0⟩
  (radial, prograde, normal)

end Spacecraft

namespace Sample

/-- A velocity of magnitude 2 along the y axis: from `unitPosition` about
`mu = 1` it gives a hyperbola of eccentricity 3. -/
def fastVelocity : Vec3 := ⟨0, 2, 0⟩

/-- A spacecraft at `(1, 0, 0)` climbing with velocity `(3, 4, 0)`. -/
def climbing : Spacecraft :=
  { m_state := { position := ⟨1, 0, 0⟩, velocity := ⟨3, 4, 0⟩ } }

/-- A spacecraft at `(0, 0, 1)` whose velocity `(2e11, 0, 1e22 - 1)`, of
magnitude `1e22 + 1`, makes an angle of about `2e-11` with the position. -/
def grazing : Spacecraft :=
  { m_state := { position := ⟨0, 0, 1⟩, velocity := ⟨2 * 10 ^ 11, 0, 10 ^ 22 - 1⟩ } }

end Sample

namespace Time

/-- The time-warp is the table entry at the level index. -/
def Synced (t : Time) : Prop := t.m_timeWarp = TIME_WARP_LEVELS t.m_warpLevelIndex

end Time

/-! ## Conversion of a `double` to `float` -/

namespace Binary32

/-- The integer nearest to `y`, the even one when `y` is halfway between two:
the rounding of IEEE 754 in its default mode. -/
def roundNearestEven (y : ℝ) : ℤ :=
  if y - (⌊y⌋ : ℝ) < 1 / 2 then ⌊y⌋
  else if 1 / 2 < y - (⌊y⌋ : ℝ) then ⌊y⌋ + 1
  else if ⌊y⌋ % 2 = 0 then ⌊y⌋
  else ⌊y⌋ + 1

/-- The binary exponent of the `float` values next to `x`: `floor (log2 |x|)`,
and `-126`, the exponent of the subnormal values, below `2^-126`. -/
def exponent (x : ℝ) : ℤ := max (Int.log 2 |x|) (-126)

/-- The spacing of the `float` values next to `x`; a `float` has 24
significant bits. -/
def spacing (x : ℝ) : ℝ := (2 : ℝ) ^ (exponent x - 23)

/-- The multiple of `spacing x` nearest to `x`, ties to even. -/
def nearest (x : ℝ) : ℝ := (roundNearestEven (x / spacing x) : ℝ) * spacing x

end Binary32

/-! ## Telemetry history and command state (ui/Ui.h, ui/Ui.cpp) -/

/-- The data members of class `Ui` that the physics tick reads or writes:
integrator selection, maneuver-planner commands, the impact flag and the
telemetry history (`std::deque<double>`, front first; the three deques
that are filled with values converted to `float` can hold an infinity); its
default member initialisers.  The callbacks, the scenario and camera selections, the burn
timer and the window flags are left out. -/
structure Ui where
  m_selectedIntegrator : ℤ := 2
  m_throttle : ℝ := 0.0
  m_thrustMode : ThrustMode := ThrustMode.Prograde
  m_burnActive : Bool := false
  m_impactOccurred : Bool := false
  m_timeHistory : List ℝ := []
  m_altitudeHistory : List Dbl := []
  m_speedHistory : List Dbl := []
  m_eccentricityHistory : List Dbl := []
  m_lastRecordTime : ℝ := 0.0

namespace Ui

/-- The constant `Ui::MAX_HISTORY_POINTS`. -/
def MAX_HISTORY_POINTS : ℕ := 500

/-- The conversion `static_cast<float>(x)` of a finite `double`, as the value
that `push_back` then stores: `x` rounded to the nearest `float` (IEEE 754
binary32, ties to even), an infinity when that is `2^128` or more in
magnitude. -/
def toFloat (x : ℝ) : Dbl :=
  let y := Binary32.nearest x
  if (2 : ℝ) ^ 128 ≤ y then Dbl.posInf
  else if y ≤ -(2 : ℝ) ^ 128 then Dbl.negInf
  else Dbl.fin y

/-- The method `Ui::setImpactOccurred`. -/
def setImpactOccurred (ui : Ui) (impact : Bool) : Ui := { ui with m_impactOccurred := impact }

/-- The `while` loop of `Ui::recordTelemetry` that trims the history:
`pop_front` on the four deques while the time history holds more than
`MAX_HISTORY_POINTS` entries.  (`pop_front` on an empty deque, which the
source never reaches, leaves it empty here.) -/
def trimHistory (ui : Ui) : Ui :=
  if _h : ui.m_timeHistory.length > MAX_HISTORY_POINTS then
    trimHistory
      { ui with
        m_timeHistory := ui.m_timeHistory.tail
        m_altitudeHistory := ui.m_altitudeHistory.tail
        m_speedHistory := ui.m_speedHistory.tail
        m_eccentricityHistory := ui.m_eccentricityHistory.tail }
  else ui
termination_by ui.m_timeHistory.length
decreasing_by
  simp only [List.length_tail]
  unfold MAX_HISTORY_POINTS at *
  omega

/-- The method `Ui::recordTelemetry`. -/
def recordTelemetry (ui : Ui) (simTime altitude speed eccentricity : ℝ) : Ui :=
  if simTime - ui.m_lastRecordTime < 1.0 then ui
  else
    trimHistory
      { ui with
        m_lastRecordTime := simTime
        m_timeHistory := ui.m_timeHistory ++ [simTime]
        m_altitudeHistory := ui.m_altitudeHistory ++ [toFloat (altitude / 1000.0)]
        m_speedHistory := ui.m_speedHistory ++ [toFloat speed]
        m_eccentricityHistory := ui.m_eccentricityHistory ++ [toFloat eccentricity] }

/-- The arguments of one call of `Ui::recordTelemetry`. -/
structure TelemetryCall where
  simTime : ℝ
  altitude : ℝ
  speed : ℝ
  eccentricity : ℝ

/-- The `Ui` after a sequence of `recordTelemetry` calls, first to last. -/
def recordAll (ui : Ui) (calls : List TelemetryCall) : Ui :=
  calls.foldl (fun u c => recordTelemetry u c.simTime c.altitude c.speed c.eccentricity) ui

end Ui

namespace Spec

/-- The calls of a sequence that are accepted as samples, in order: a call is
accepted when its simulation time is not less than 1.0 after the time of the
last accepted sample (`lastRecordTime` before the first). -/
def acceptedSamples (lastRecordTime : ℝ) : List Ui.TelemetryCall → List Ui.TelemetryCall
  | [] => []
  | c :: cs =>
      if c.simTime - lastRecordTime < 1.0 then acceptedSamples lastRecordTime cs
      else c :: acceptedSamples c.simTime cs

/-- The last `n` entries of a list, in order. -/
def lastN {α : Type} (n : ℕ) (xs : List α) : List α := xs.drop (xs.length - n)

end Spec

namespace Ui

/-- The history holds the last `MAX_HISTORY_POINTS` samples of the list `pre`
of all samples accepted so far. -/
structure Holds (ui : Ui) (pre : List TelemetryCall) : Prop where
  time : ui.m_timeHistory = Spec.lastN MAX_HISTORY_POINTS (pre.map TelemetryCall.simTime)
  altitude : ui.m_altitudeHistory =
    Spec.lastN MAX_HISTORY_POINTS (pre.map (fun c => toFloat (c.altitude / 1000.0)))
  speed : ui.m_speedHistory =
    Spec.lastN MAX_HISTORY_POINTS (pre.map (fun c => toFloat c.speed))
  eccentricity : ui.m_eccentricityHistory =
    Spec.lastN MAX_HISTORY_POINTS (pre.map (fun c => toFloat c.eccentricity))

end Ui

namespace Sample

/-- The call `recordTelemetry(1, 1234567.89, 1500, 0.5)`. -/
def surveyCall : Ui.TelemetryCall :=
  { simTime := 1, altitude := 1234567.89, speed := 1500, eccentricity := 0.5 }

end Sample

/-! ## The orchestrator (core/Application.h, core/Application.cpp) -/

namespace Constants

/-- Number of samples of the trajectory forecast. -/
def ORBIT_PREDICTION_STEPS : ℕ := 2000

/-- Horizon of the trajectory forecast in seconds. -/
def ORBIT_PREDICTION_HORIZON : ℝ := 7200.0

end Constants

namespace Time

/-- The method `Time::setPhysicsTime`. -/
def setPhysicsTime (t : Time) (time : ℝ) : Time := { t with m_physicsTime := time }

end Time

/-- The data members of class `Application` that the physics tick reads or
writes, with their default member initialisers.  The window, the renderer with
its camera and the mouse state are left out. -/
structure Application where
  m_time : Time := {}
  m_spacecraft : Spacecraft := {}
  m_ui : Ui := {}
  m_currentElements : OrbitalElements := {}
  m_predictedTrajectory : List Vec3 := []
  m_physicsAccumulator : ℝ := 0.0
  m_trajectoryUpdateTimer : ℝ := 0.0

namespace Application

/-- The method `Application::updateTrajectoryPrediction`. -/
def updateTrajectoryPrediction (app : Application) : Application :=
  let predictionDt := Constants.ORBIT_PREDICTION_HORIZON / (Constants.ORBIT_PREDICTION_STEPS : ℝ)
  { app with
    m_predictedTrajectory :=
      Integrator.predictTrajectory app.m_spacecraft.m_state Constants.ORBIT_PREDICTION_HORIZON
        predictionDt Constants.ORBIT_PREDICTION_STEPS computeDerivatives Constants.MOON_RADIUS }

/-- The whole of `Application::initScenario`; its spacecraft part is
`initScenario`.  The result is `none` when the orbit constructor yields vectors
that are not finite. -/
def initScenarioAll (index : ℤ) (app : Application) : Option Application :=
  match initScenario index app.m_spacecraft with
  | some sc =>
      some (updateTrajectoryPrediction
        { app with
          m_spacecraft := sc
          m_time := Time.reset app.m_time
          m_physicsAccumulator := 0.0
          m_currentElements :=
            Orbit.computeElements sc.m_state.position sc.m_state.velocity Constants.MOON_MU })
  | none => none

/-- The stepping loop `while (m_physicsAccumulator >= dt)` of
`Application::update`, run for at most `fuel` iterations: the application
after the loop together with the number of calls of `Integrator::step` made,
or `none` when `fuel` iterations do not end the loop. -/
def stepLoop (integratorType : IntegratorType) : ℕ → Application → Option (Application × ℕ)
  | 0, app =>
      if app.m_physicsAccumulator ≥ Constants.FIXED_TIMESTEP then none else some (app, 0)
  | fuel + 1, app =>
      if app.m_physicsAccumulator ≥ Constants.FIXED_TIMESTEP then
        let sc := integrateStep app.m_spacecraft integratorType
        let altitude := Orbit.computeAltitude sc.m_state.position Constants.MOON_RADIUS
        if altitude ≤ 0 then
          some ({ app with
            m_ui := Ui.setImpactOccurred app.m_ui true
            m_spacecraft := Spacecraft.setThrottle sc 0.0 }, 1)
        else
          match stepLoop integratorType fuel
              { app with
                m_spacecraft := sc
                m_physicsAccumulator := app.m_physicsAccumulator - Constants.FIXED_TIMESTEP } with
          | some (app1, k) => some (app1, k + 1)
          | none => none
      else some (app, 0)

/-- The part of `Application::update` before the stepping loop: accumulator
with its cap, throttle and thrust mode from the UI. -/
def beginTick (app : Application) : Application :=
  let frameTime := app.m_time.m_deltaTime * (app.m_time.m_timeWarp : ℝ)
  let accumulator0 := app.m_physicsAccumulator + frameTime
  let maxAccumulator : ℝ := 0.5
  let accumulator := if accumulator0 > maxAccumulator then maxAccumulator else accumulator0
  let sc1 :=
    if app.m_ui.m_burnActive then app.m_spacecraft
    else Spacecraft.setThrottle app.m_spacecraft 0.0
  let sc2 := Spacecraft.setThrustMode sc1 app.m_ui.m_thrustMode
  let sc3 := if app.m_ui.m_burnActive then Spacecraft.setThrottle sc2 app.m_ui.m_throttle else sc2
  { app with m_physicsAccumulator := accumulator, m_spacecraft := sc3 }

/-- The part of `Application::update` after the stepping loop: orbital
elements, telemetry, the forecast every 0.5 s and the measured duration
`physicsTime` of the call (the camera update is left out). -/
def endTick (app : Application) (physicsTime : ℝ) : Application :=
  let elements := Orbit.computeElements app.m_spacecraft.m_state.position
    app.m_spacecraft.m_state.velocity Constants.MOON_MU
  let altitude := Orbit.computeAltitude app.m_spacecraft.m_state.position Constants.MOON_RADIUS
  let speed := Vec3.length app.m_spacecraft.m_state.velocity
  let ui := Ui.recordTelemetry app.m_ui app.m_time.m_simulationTime altitude speed
    elements.eccentricity
  let timer := app.m_trajectoryUpdateTimer + app.m_time.m_deltaTime
  let app1 : Application := { app with m_currentElements := elements, m_ui := ui }
  let app2 : Application :=
    if timer ≥ 0.5 then
      { updateTrajectoryPrediction { app1 with m_trajectoryUpdateTimer := timer } with
        m_trajectoryUpdateTimer := 0.0 }
    else { app1 with m_trajectoryUpdateTimer := timer }
  { app2 with m_time := Time.setPhysicsTime app2.m_time physicsTime }

/-- The method `Application::update`, with the stepping loop run for at most
`fuel` iterations; `physicsTime` is the duration the call measures for itself.
The result carries the number of calls of `Integrator::step` made. -/
def update (app : Application) (physicsTime : ℝ) (fuel : ℕ) : Option (Application × ℕ) :=
  if app.m_ui.m_impactOccurred = true ∨ app.m_time.m_paused = true then some (app, 0)
  else
    match stepLoop ⟨app.m_ui.m_selectedIntegrator⟩ fuel (beginTick app) with
    | some (app1, k) => some (endTick app1 physicsTime, k)
    | none => none

/-- What reaches the application in one frame of `Application::run`: the clock
commands and the maneuver commands issued by the UI since the previous frame,
the clock reading `now` taken by `Time::update` and the duration `physicsTime`
measured by `Application::update`. -/
structure FrameInput where
  clockOps : List Time.Op := []
  selectedIntegrator : ℤ := 2
  throttle : ℝ := 0.0
  thrustMode : ThrustMode := ThrustMode.Prograde
  burnActive : Bool := false
  now : ℝ
  physicsTime : ℝ := 0

/-- The clock when `Application::update` is called in a frame: the UI's clock
commands, then `Time::update`. -/
def frameClock (t : Time) (inp : FrameInput) : Time :=
  Time.update (Time.runOps t inp.clockOps) inp.now

/-- One frame of `Application::run` as far as the physics goes: the commands
of the UI, `m_time.update()` and `update()`. -/
def frame (app : Application) (inp : FrameInput) (fuel : ℕ) : Option (Application × ℕ) :=
  update
    { app with
      m_time := frameClock app.m_time inp
      m_ui :=
        { app.m_ui with
          m_selectedIntegrator := inp.selectedIntegrator
          m_throttle := inp.throttle
          m_thrustMode := inp.thrustMode
          m_burnActive := inp.burnActive } }
    inp.physicsTime fuel

/-- A run of frames, first to last, with the total number of calls of
`Integrator::step`. -/
def runFrames (fuel : ℕ) : Application → List FrameInput → Option (Application × ℕ)
  | app, [] => some (app, 0)
  | app, inp :: rest =>
      match frame app inp fuel with
      | some (app1, k) =>
          match runFrames fuel app1 rest with
          | some (app2, m) => some (app2, k + m)
          | none => none
      | none => none

/-- The clock commands of the time-warp buttons. -/
def isWarpCommand : Time.Op → Prop
  | Time.Op.setTimeWarp _ => True
  | Time.Op.increaseTimeWarp => True
  | Time.Op.decreaseTimeWarp => True
  | _ => False

/-- A run of frames that stays below the accumulator cap: in every frame the
clock commands are time-warp commands, the clock reading is not before the
previous one, and the clamped clock delta times the time-warp is at most
`0.48`. -/
def BelowCap : Time → List FrameInput → Prop
  | _, [] => True
  | t, inp :: rest =>
      (∀ op ∈ inp.clockOps, isWarpCommand op) ∧
      (Time.runOps t inp.clockOps).m_lastFrameTime ≤ inp.now ∧
      (frameClock t inp).m_deltaTime * ((frameClock t inp).m_timeWarp : ℝ) ≤ 0.48 ∧
      BelowCap (Time.setPhysicsTime (frameClock t inp) inp.physicsTime) rest

end Application

namespace Sample

/-- An application whose clock has just been initialised at reading 0. -/
def freshApplication : Application := { m_time := Time.init {} 0 }

/-- An application whose spacecraft sits at the origin, with one second in the
physics accumulator. -/
def groundedApplication : Application := { m_physicsAccumulator := 1 }

/-- An application on which an impact has been signalled. -/
def crashedApplication : Application := { m_ui := { m_impactOccurred := true } }

/-- A frame a quarter of a second after reading 0 in which the UI has set the
time-warp to 100. -/
def warpedFrame : Application.FrameInput :=
  { clockOps := [Time.Op.setTimeWarp 100], now := 0.25 }

/-- A frame a twentieth of a second after reading 0, with no command from the
UI. -/
def calmFrame : Application.FrameInput := { now := 0.05 }

end Sample

/-! ## Reference formulas and sample inputs -/

namespace Spec

/-- Rotation about the z axis by `t`, as a column-stored matrix. -/
def Rz (t : ℝ) : Mat3 :=
  { c0 := ⟨Real.cos t, Real.sin t, 0⟩
    c1 := ⟨-Real.sin t, Real.cos t, 0⟩
    c2 := ⟨0, 0, 1⟩ }

/-- Rotation about the x axis by `t`, as a column-stored matrix. -/
def Rx (t : ℝ) : Mat3 :=
  { c0 := ⟨1, 0, 0⟩
    c1 := ⟨0, Real.cos t, Real.sin t⟩
    c2 := ⟨0, -Real.sin t, Real.cos t⟩ }

/-- The 3-1-3 rotation `Rz(raan) * Rx(inclination) * Rz(argOfPeriapsis)` of the
specification. -/
def rotation313 (raan inclination argOfPeriapsis : ℝ) : Mat3 :=
  Mat3.mul (Mat3.mul (Rz raan) (Rx inclination)) (Rz argOfPeriapsis)

/-- The perifocal position `(r cos nu, r sin nu, 0)` with `r = p / (1 + e cos nu)`
and `p = a (1 - e^2)`. -/
def rPQW (a e nu : ℝ) : Vec3 :=
  let p := a * (1 - e ^ 2)
  let r := p / (1 + e * Real.cos nu)
  ⟨r * Real.cos nu, r * Real.sin nu, 0⟩

/-- The perifocal velocity `(mu / sqrt(mu p)) * (-sin nu, e + cos nu, 0)`. -/
def vPQW (a e nu mu : ℝ) : Vec3 :=
  let p := a * (1 - e ^ 2)
  Vec3.lscale (mu / Real.sqrt (mu * p)) ⟨-Real.sin nu, e + Real.cos nu, 0⟩

/-- The state the specification describes for finite elements: the 3-1-3
rotation applied to the perifocal position and velocity. -/
def stateFromElements (a e i raan w nu mu : ℝ) : Vec3 × Vec3 :=
  (Mat3.mulVec (rotation313 raan i w) (rPQW a e nu),
   Mat3.mulVec (rotation313 raan i w) (vPQW a e nu mu))

end Spec

namespace Sample

/-- A spacecraft at full throttle with the default masses and engine, at
position `(1, 0, 0)` with velocity `(0, 1, 0)`. -/
def burning : Spacecraft :=
  { m_state := { position := ⟨1, 0, 0⟩, velocity := ⟨0, 1, 0⟩ }
    m_throttle := 1 }

/-- A position on the x axis at unit distance. -/
def unitPosition : Vec3 := ⟨1, 0, 0⟩

/-- A slow velocity of magnitude `5e-6`, for which the orbit about `mu = 1`
from `unitPosition` has eccentricity `1 - 2.5e-11`. -/
def slowVelocity : Vec3 := ⟨0, 3 / 1000000, 4 / 1000000⟩

/-- A velocity of magnitude `1/2`, for which the orbit about `mu = 1` from
`unitPosition` has eccentricity `3/4`. -/
def halfVelocity : Vec3 := ⟨0, 3 / 10, 4 / 10⟩

/-- A velocity of magnitude `6/5` perpendicular to `unitPosition`, for which
the orbit about `mu = 1` is an ellipse of eccentricity `11/25` at periapsis,
inclined by `arccos(3/5)`. -/
def periapsisVelocity : Vec3 := ⟨0, 18 / 25, 24 / 25⟩

/-- A spacecraft with the engine off. -/
def coasting : Spacecraft := {}

end Sample

/-! ## Arithmetic helpers -/

theorem stdMin_eq_min (a b : ℝ) : stdMin a b = min a b := by
  unfold stdMin
  split_ifs with h
  · exact (min_eq_right h.le).symm
  · exact (min_eq_left (not_lt.mp h)).symm

theorem stdMax_eq_max (a b : ℝ) : stdMax a b = max a b := by
  unfold stdMax
  split_ifs with h
  · exact (max_eq_right h.le).symm
  · exact (max_eq_left (not_lt.mp h)).symm

theorem stdClamp_of_mem (v lo hi : ℝ) (h1 : lo ≤ v) (h2 : v ≤ hi) : stdClamp v lo hi = v := by
  unfold stdClamp
  rw [if_neg (not_lt.mpr h1), if_neg (not_lt.mpr h2)]

namespace Vec3

theorem dot_self_nonneg (a : Vec3) : 0 ≤ dot a a := by
  unfold dot
  nlinarith [mul_self_nonneg a.x, mul_self_nonneg a.y, mul_self_nonneg a.z]

theorem dot_self_pos (a : Vec3) (h : a ≠ zero) : 0 < dot a a := by
  rcases lt_or_eq_of_le (dot_self_nonneg a) with hlt | heq
  · exact hlt
  · exfalso
    apply h
    unfold dot at heq
    have hx : a.x = 0 := by nlinarith [mul_self_nonneg a.x, mul_self_nonneg a.y, mul_self_nonneg a.z]
    have hy : a.y = 0 := by nlinarith [mul_self_nonneg a.x, mul_self_nonneg a.y, mul_self_nonneg a.z]
    have hz : a.z = 0 := by nlinarith [mul_self_nonneg a.x, mul_self_nonneg a.y, mul_self_nonneg a.z]
    ext <;> simp [zero, hx, hy, hz]

theorem length_nonneg (a : Vec3) : 0 ≤ length a := Real.sqrt_nonneg _

theorem length_mul_self (a : Vec3) : length a * length a = dot a a :=
  Real.mul_self_sqrt (dot_self_nonneg a)

theorem length_pos (a : Vec3) (h : a ≠ zero) : 0 < length a :=
  Real.sqrt_pos.mpr (dot_self_pos a h)

theorem dot_scale_scale (a b : Vec3) (s t : ℝ) :
    dot (scale a s) (scale b t) = s * t * dot a b := by
  simp only [dot, scale]; ring

theorem length_scale (a : Vec3) (s : ℝ) (hs : 0 ≤ s) : length (scale a s) = length a * s := by
  unfold length
  rw [dot_scale_scale, show s * s * dot a a = dot a a * (s * s) by ring,
    Real.sqrt_mul (dot_self_nonneg a), Real.sqrt_mul_self hs]

theorem length_neg (a : Vec3) : length (neg a) = length a := by
  unfold length
  congr 1
  simp only [dot, neg]; ring

theorem length_normalize (a : Vec3) (h : a ≠ zero) : length (normalize a) = 1 := by
  have hp := length_pos a h
  unfold normalize
  rw [length_scale a _ (by positivity)]
  unfold length at hp ⊢
  field_simp

theorem length_divs_length (a : Vec3) (h : 0 < length a) : length (divs a (length a)) = 1 := by
  have e : divs a (length a) = scale a (1 / length a) := by
    ext <;> simp [divs, scale, div_eq_mul_inv]
  rw [e, length_scale a _ (by positivity)]
  field_simp

theorem normalize_eq_divs (a : Vec3) : normalize a = divs a (length a) := by
  ext <;> simp [normalize, divs, scale, length, div_eq_mul_inv]

theorem ne_zero_of_length_eq_one (a : Vec3) (h : length a = 1) : a ≠ zero := by
  intro e
  rw [e] at h
  simp [length, dot, zero] at h

theorem lscale_eq_scale (s : ℝ) (a : Vec3) : lscale s a = scale a s := by
  ext <;> simp [lscale, scale, mul_comm]

theorem scale_scale (a : Vec3) (s t : ℝ) : scale (scale a s) t = lscale (s * t) a := by
  ext <;> simp [lscale, scale] <;> ring

theorem scale_scale_neg (a : Vec3) (s t : ℝ) :
    scale (scale (neg a) s) t = neg (lscale (s * t) a) := by
  ext <;> simp [lscale, scale, neg] <;> ring

theorem length_lscale (s : ℝ) (a : Vec3) (hs : 0 ≤ s) : length (lscale s a) = s * length a := by
  rw [lscale_eq_scale, length_scale a s hs, mul_comm]

theorem length_unitZ : length ⟨0.0, 0.0, 1.0⟩ = 1 := by
  norm_num [length, dot]

theorem ne_zero_of_length_pos (a : Vec3) (h : 0 < length a) : a ≠ zero := by
  intro e
  rw [e] at h
  simp [length, dot, zero] at h

end Vec3

/-! ## Orbit: the rotation filled by `computeStateFromElements` -/

namespace Mat3

theorem mulVec_mul (a b : Mat3) (v : Vec3) : mulVec (mul a b) v = mulVec a (mulVec b v) := by
  ext <;> simp only [mulVec, mul] <;> ring

end Mat3

namespace Spec

theorem dot_Rz (t : ℝ) (u v : Vec3) :
    Vec3.dot (Mat3.mulVec (Rz t) u) (Mat3.mulVec (Rz t) v) = Vec3.dot u v := by
  have h := Real.sin_sq_add_cos_sq t
  simp only [Vec3.dot, Mat3.mulVec, Rz]
  linear_combination (u.x * v.x + u.y * v.y) * h

theorem dot_Rx (t : ℝ) (u v : Vec3) :
    Vec3.dot (Mat3.mulVec (Rx t) u) (Mat3.mulVec (Rx t) v) = Vec3.dot u v := by
  have h := Real.sin_sq_add_cos_sq t
  simp only [Vec3.dot, Mat3.mulVec, Rx]
  linear_combination (u.y * v.y + u.z * v.z) * h

theorem dot_rotation313 (raan i w : ℝ) (u v : Vec3) :
    Vec3.dot (Mat3.mulVec (rotation313 raan i w) u) (Mat3.mulVec (rotation313 raan i w) v) =
      Vec3.dot u v := by
  unfold rotation313
  rw [Mat3.mulVec_mul, Mat3.mulVec_mul, Mat3.mulVec_mul, Mat3.mulVec_mul, dot_Rz, dot_Rx, dot_Rz]

end Spec

namespace Orbit

/-- The matrix the source fills is the transpose of the 3-1-3 rotation
`Rz(raan) Rx(i) Rz(w)`: it is the rotation with the angles negated and taken in
the opposite order. -/
theorem rotMat_eq_reversed_rotation (omega i w : ℝ) :
    rotMat omega i w = Spec.rotation313 (-w) (-i) (-omega) := by
  simp only [rotMat, Spec.rotation313, Spec.Rz, Spec.Rx, Mat3.mul, Mat3.mulVec, Real.cos_neg,
    Real.sin_neg, Mat3.mk.injEq, Vec3.mk.injEq]
  refine ⟨⟨?_, ?_, ?_⟩, ⟨?_, ?_, ?_⟩, ⟨?_, ?_, ?_⟩⟩ <;> ring

theorem dot_rotMat (omega i w : ℝ) (u v : Vec3) :
    Vec3.dot (Mat3.mulVec (rotMat omega i w) u) (Mat3.mulVec (rotMat omega i w) v) =
      Vec3.dot u v := by
  rw [rotMat_eq_reversed_rotation, Spec.dot_rotation313]

theorem length_rotMat (omega i w : ℝ) (u : Vec3) :
    Vec3.length (Mat3.mulVec (rotMat omega i w) u) = Vec3.length u := by
  unfold Vec3.length
  rw [dot_rotMat]

end Orbit


namespace Orbit

theorem computeStateFromElements_of_finite (el : OrbitalElements) (mu a : ℝ)
    (ha : el.semiMajorAxis = Dbl.fin a)
    (hden : 1 + el.eccentricity * Real.cos el.trueAnomaly ≠ 0)
    (hmp : 0 < mu * (a * (1 - el.eccentricity * el.eccentricity))) :
    computeStateFromElements el mu = some
      (Mat3.mulVec (rotMat el.raan el.inclination el.argOfPeriapsis)
        ⟨a * (1 - el.eccentricity * el.eccentricity) /
            (1 + el.eccentricity * Real.cos el.trueAnomaly) * Real.cos el.trueAnomaly,
          a * (1 - el.eccentricity * el.eccentricity) /
            (1 + el.eccentricity * Real.cos el.trueAnomaly) * Real.sin el.trueAnomaly, 0⟩,
       Mat3.mulVec (rotMat el.raan el.inclination el.argOfPeriapsis)
        (Vec3.scale ⟨-Real.sin el.trueAnomaly, el.eccentricity + Real.cos el.trueAnomaly, 0⟩
          (mu / Real.sqrt (mu * (a * (1 - el.eccentricity * el.eccentricity)))))) := by
  unfold computeStateFromElements
  rw [ha]
  have h1 : (1.0 : ℝ) = 1 := by norm_num
  have h0 : (0.0 : ℝ) = 0 := by norm_num
  simp only [h1, h0]
  rw [if_neg]
  rintro (h | h)
  · exact hden h
  · exact absurd hmp (not_lt.mpr h)

theorem computeStateFromElements_of_not_finite (el : OrbitalElements) (mu : ℝ)
    (ha : el.semiMajorAxis = Dbl.posInf) : computeStateFromElements el mu = none := by
  unfold computeStateFromElements
  rw [ha]

end Orbit


/-! ## Orbit: the fields computed by `computeElements` -/

namespace Orbit

theorem computeElements_eccentricity (position velocity : Vec3) (mu : ℝ) :
    (computeElements position velocity mu).eccentricity =
      Vec3.length (eccentricityVector position velocity mu) := rfl

theorem computeElements_specificEnergy (position velocity : Vec3) (mu : ℝ) :
    (computeElements position velocity mu).specificEnergy =
      Vec3.length velocity * Vec3.length velocity / 2 - mu / Vec3.length position := by
  show Vec3.length velocity * Vec3.length velocity / 2.0 - mu / Vec3.length position = _
  norm_num

theorem computeElements_semiMajorAxis (position velocity : Vec3) (mu : ℝ) :
    (computeElements position velocity mu).semiMajorAxis =
      if |(computeElements position velocity mu).eccentricity - 1| > 1e-10 then
        Dbl.fin (-mu / (2 * (computeElements position velocity mu).specificEnergy))
      else Dbl.posInf := by
  show (if |(computeElements position velocity mu).eccentricity - 1.0| > 1e-10 then
        Dbl.fin (-mu / (2.0 * (computeElements position velocity mu).specificEnergy))
      else Dbl.posInf) = _
  norm_num

theorem computeElements_trueAnomaly (position velocity : Vec3) (mu : ℝ)
    (he : (computeElements position velocity mu).eccentricity > 1e-10) :
    (computeElements position velocity mu).trueAnomaly =
      if Vec3.dot position velocity < 0 then
        Constants.TWO_PI - Real.arccos (stdClamp
          (Vec3.dot (eccentricityVector position velocity mu) position /
            ((computeElements position velocity mu).eccentricity * Vec3.length position))
          (-1) 1)
      else
        Real.arccos (stdClamp
          (Vec3.dot (eccentricityVector position velocity mu) position /
            ((computeElements position velocity mu).eccentricity * Vec3.length position))
          (-1) 1) := by
  show (if (computeElements position velocity mu).eccentricity > 1e-10 then
      if Vec3.dot position velocity < 0 then
        Constants.TWO_PI - Real.arccos (stdClamp
          (Vec3.dot (eccentricityVector position velocity mu) position /
            ((computeElements position velocity mu).eccentricity * Vec3.length position))
          (-1.0) 1.0)
      else
        Real.arccos (stdClamp
          (Vec3.dot (eccentricityVector position velocity mu) position /
            ((computeElements position velocity mu).eccentricity * Vec3.length position))
          (-1.0) 1.0)
      else _) = _
  rw [if_pos he]
  norm_num

theorem computeElements_apsides_of_elliptic (position velocity : Vec3) (mu a : ℝ)
    (ha : (computeElements position velocity mu).semiMajorAxis = Dbl.fin a) (hpos : 0 < a)
    (he : (computeElements position velocity mu).eccentricity < 1) :
    (computeElements position velocity mu).periapsisAltitude =
        Dbl.fin (a * (1 - (computeElements position velocity mu).eccentricity) -
          Constants.MOON_RADIUS) ∧
    (computeElements position velocity mu).apoapsisAltitude =
        Dbl.fin (a * (1 + (computeElements position velocity mu).eccentricity) -
          Constants.MOON_RADIUS) := by
  have hcond : Dbl.gtZero (computeElements position velocity mu).semiMajorAxis ∧
      (computeElements position velocity mu).eccentricity < 1.0 := by
    rw [ha]
    exact ⟨hpos, by norm_num; exact he⟩
  constructor
  · show (if Dbl.gtZero (computeElements position velocity mu).semiMajorAxis ∧
        (computeElements position velocity mu).eccentricity < 1.0 then
        (Dbl.subReal (Dbl.mulReal (computeElements position velocity mu).semiMajorAxis
            (1.0 - (computeElements position velocity mu).eccentricity)) Constants.MOON_RADIUS,
          Dbl.subReal (Dbl.mulReal (computeElements position velocity mu).semiMajorAxis
            (1.0 + (computeElements position velocity mu).eccentricity)) Constants.MOON_RADIUS,
          computePeriod (computeElements position velocity mu).semiMajorAxis mu)
        else _).1 = _
    rw [if_pos hcond, ha]
    show Dbl.fin _ = Dbl.fin _
    norm_num
  · show (if Dbl.gtZero (computeElements position velocity mu).semiMajorAxis ∧
        (computeElements position velocity mu).eccentricity < 1.0 then
        (Dbl.subReal (Dbl.mulReal (computeElements position velocity mu).semiMajorAxis
            (1.0 - (computeElements position velocity mu).eccentricity)) Constants.MOON_RADIUS,
          Dbl.subReal (Dbl.mulReal (computeElements position velocity mu).semiMajorAxis
            (1.0 + (computeElements position velocity mu).eccentricity)) Constants.MOON_RADIUS,
          computePeriod (computeElements position velocity mu).semiMajorAxis mu)
        else _).2.1 = _
    rw [if_pos hcond, ha]
    show Dbl.fin _ = Dbl.fin _
    norm_num

end Orbit


namespace Orbit

theorem createEllipticalOrbit_at_periapsis (bodyRadius periapsisAltitude apoapsisAltitude
    inclination raan argOfPeriapsis mu : ℝ)
    (hrp : 0 < bodyRadius + periapsisAltitude)
    (hle : bodyRadius + periapsisAltitude ≤ bodyRadius + apoapsisAltitude) (hmu : 0 < mu) :
    ∃ position velocity : Vec3,
      createEllipticalOrbit periapsisAltitude apoapsisAltitude inclination raan argOfPeriapsis
        0 mu bodyRadius = some (position, velocity) ∧
      computeAltitude position bodyRadius = periapsisAltitude := by
  set rp := bodyRadius + periapsisAltitude with hrp_def
  set ra := bodyRadius + apoapsisAltitude with hra_def
  have hsum : 0 < ra + rp := by linarith
  have hra : 0 < ra := by linarith
  have he0 : 0 ≤ (ra - rp) / (ra + rp) := div_nonneg (by linarith) hsum.le
  have hp : (rp + ra) / 2 * (1 - (ra - rp) / (ra + rp) * ((ra - rp) / (ra + rp))) =
      2 * ra * rp / (ra + rp) := by
    field_simp
    ring
  have hppos : 0 < 2 * ra * rp / (ra + rp) := by positivity
  have h2 : (2.0 : ℝ) = 2 := by norm_num
  have hstate := computeStateFromElements_of_finite
    { semiMajorAxis := Dbl.fin ((rp + ra) / 2.0)
      eccentricity := (ra - rp) / (ra + rp)
      inclination := inclination
      raan := raan
      argOfPeriapsis := argOfPeriapsis
      trueAnomaly := 0 } mu ((rp + ra) / 2.0) rfl
    (by
      show 1 + (ra - rp) / (ra + rp) * Real.cos 0 ≠ 0
      rw [Real.cos_zero]
      linarith)
    (by
      show 0 < mu * ((rp + ra) / 2.0 * (1 - (ra - rp) / (ra + rp) * ((ra - rp) / (ra + rp))))
      rw [h2, hp]
      positivity)
  refine ⟨_, _, hstate, ?_⟩
  unfold computeAltitude
  rw [length_rotMat]
  show Vec3.length ⟨(rp + ra) / 2.0 * (1 - (ra - rp) / (ra + rp) * ((ra - rp) / (ra + rp))) /
      (1 + (ra - rp) / (ra + rp) * Real.cos 0) * Real.cos 0,
    (rp + ra) / 2.0 * (1 - (ra - rp) / (ra + rp) * ((ra - rp) / (ra + rp))) /
      (1 + (ra - rp) / (ra + rp) * Real.cos 0) * Real.sin 0, 0⟩ - bodyRadius = periapsisAltitude
  rw [h2, hp, Real.cos_zero, Real.sin_zero]
  have hr : 2 * ra * rp / (ra + rp) / (1 + (ra - rp) / (ra + rp) * 1) * 1 = rp := by
    field_simp
    ring
  rw [hr]
  have hlen : Vec3.length ⟨rp, rp * 0, 0⟩ = rp := by
    unfold Vec3.length Vec3.dot
    simp only [mul_zero, add_zero]
    exact Real.sqrt_mul_self hrp.le
  have hrp0 : rp * 0 = 2 * ra * rp / (ra + rp) / (1 + (ra - rp) / (ra + rp) * 1) * 0 := by
    simp
  rw [← hrp0, hlen, hrp_def]
  ring

end Orbit


/-! ## Orbit: rotation-invariant quantities of the generated state -/

namespace Orbit

theorem state_invariants (el : OrbitalElements) (mu a : ℝ)
    (ha : el.semiMajorAxis = Dbl.fin a)
    (hden : 1 + el.eccentricity * Real.cos el.trueAnomaly ≠ 0)
    (hmp : 0 < mu * (a * (1 - el.eccentricity * el.eccentricity))) :
    ∃ position velocity : Vec3,
      computeStateFromElements el mu = some (position, velocity) ∧
      Vec3.dot position position =
        (a * (1 - el.eccentricity * el.eccentricity) /
          (1 + el.eccentricity * Real.cos el.trueAnomaly)) ^ 2 ∧
      Vec3.dot velocity velocity =
        mu ^ 2 / (mu * (a * (1 - el.eccentricity * el.eccentricity))) *
          (1 + 2 * (el.eccentricity * Real.cos el.trueAnomaly) + el.eccentricity ^ 2) ∧
      Vec3.dot position velocity =
        a * (1 - el.eccentricity * el.eccentricity) /
          (1 + el.eccentricity * Real.cos el.trueAnomaly) *
          (mu / Real.sqrt (mu * (a * (1 - el.eccentricity * el.eccentricity)))) *
          (el.eccentricity * Real.sin el.trueAnomaly) := by
  refine ⟨_, _, computeStateFromElements_of_finite el mu a ha hden hmp, ?_, ?_, ?_⟩
  · rw [dot_rotMat]
    simp only [Vec3.dot]
    linear_combination (a * (1 - el.eccentricity * el.eccentricity) /
      (1 + el.eccentricity * Real.cos el.trueAnomaly)) ^ 2 *
        Real.sin_sq_add_cos_sq el.trueAnomaly
  · rw [dot_rotMat]
    have hs : Real.sqrt (mu * (a * (1 - el.eccentricity * el.eccentricity))) ^ 2 =
        mu * (a * (1 - el.eccentricity * el.eccentricity)) := Real.sq_sqrt hmp.le
    have hq : (mu / Real.sqrt (mu * (a * (1 - el.eccentricity * el.eccentricity)))) ^ 2 =
        mu ^ 2 / (mu * (a * (1 - el.eccentricity * el.eccentricity))) := by
      rw [div_pow, hs]
    rw [← hq]
    simp only [Vec3.dot, Vec3.scale]
    linear_combination (mu / Real.sqrt (mu * (a * (1 - el.eccentricity * el.eccentricity)))) ^ 2 *
        Real.sin_sq_add_cos_sq el.trueAnomaly
  · rw [dot_rotMat]
    simp only [Vec3.dot, Vec3.scale]
    ring

theorem length_eq_of_dot_eq_sq (a : Vec3) (l : ℝ) (hl : 0 ≤ l) (h : Vec3.dot a a = l ^ 2) :
    Vec3.length a = l := by
  unfold Vec3.length
  rw [h]
  exact Real.sqrt_sq hl

theorem computeElements_of_circular_state (position velocity : Vec3) (mu r : ℝ)
    (hr : 0 < r) (hmu : 0 < mu) (hlen : Vec3.length position = r)
    (hv : Vec3.length velocity * Vec3.length velocity = mu / r)
    (hB : Vec3.dot position velocity = 0) :
    (computeElements position velocity mu).eccentricity = 0 ∧
    (computeElements position velocity mu).semiMajorAxis = Dbl.fin r ∧
    (computeElements position velocity mu).periapsisAltitude =
      Dbl.fin (r - Constants.MOON_RADIUS) ∧
    (computeElements position velocity mu).apoapsisAltitude =
      Dbl.fin (r - Constants.MOON_RADIUS) := by
  have hE : eccentricityVector position velocity mu = ⟨0, 0, 0⟩ := by
    unfold eccentricityVector
    simp only [hlen, hv, hB]
    ext <;> simp [Vec3.divs, Vec3.sub, Vec3.lscale]
  have hecc : (computeElements position velocity mu).eccentricity = 0 := by
    rw [computeElements_eccentricity, hE]
    simp [Vec3.length, Vec3.dot]
  have hsma : (computeElements position velocity mu).semiMajorAxis = Dbl.fin r := by
    rw [computeElements_semiMajorAxis, hecc, computeElements_specificEnergy, hlen, hv,
      if_pos (by norm_num)]
    congr 1
    have hr0 : r ≠ 0 := ne_of_gt hr
    have hmu0 : mu ≠ 0 := ne_of_gt hmu
    have hden : 2 * (mu / r / 2 - mu / r) = -(mu / r) := by ring
    rw [hden]
    field_simp
  obtain ⟨hper, hapo⟩ := computeElements_apsides_of_elliptic position velocity mu r hsma hr
    (by rw [hecc]; norm_num)
  rw [hecc] at hper hapo
  refine ⟨hecc, hsma, ?_, ?_⟩
  · rw [hper]; norm_num
  · rw [hapo]; norm_num

end Orbit


/-! ## Orbit: round trip through the elements -/

namespace Vec3

theorem dot_cross_self (a b : Vec3) :
    dot (cross a b) (cross a b) = dot a a * dot b b - dot a b ^ 2 := by
  simp only [dot, cross]
  ring

theorem dot_sq_le (a b : Vec3) : dot a b ^ 2 ≤ dot a a * dot b b := by
  have h := dot_self_nonneg (cross a b)
  rw [dot_cross_self] at h
  linarith

end Vec3

namespace Orbit

theorem dot_eccentricityVector_self (position velocity : Vec3) (mu : ℝ) (hmu : mu ≠ 0)
    (hr : Vec3.length position ≠ 0) :
    Vec3.dot (eccentricityVector position velocity mu) (eccentricityVector position velocity mu) =
      1 + 2 * (Vec3.length velocity * Vec3.length velocity / 2 - mu / Vec3.length position) *
        Vec3.dot (Vec3.cross position velocity) (Vec3.cross position velocity) / mu ^ 2 := by
  have hP := Vec3.length_mul_self position
  have hV := Vec3.length_mul_self velocity
  rw [Vec3.dot_cross_self, ← hP, ← hV]
  have hexp : Vec3.dot (eccentricityVector position velocity mu)
      (eccentricityVector position velocity mu) =
      ((Vec3.length velocity * Vec3.length velocity - mu / Vec3.length position) ^ 2 *
          Vec3.dot position position -
        2 * (Vec3.length velocity * Vec3.length velocity - mu / Vec3.length position) *
          Vec3.dot position velocity * Vec3.dot position velocity +
        Vec3.dot position velocity ^ 2 * Vec3.dot velocity velocity) / mu ^ 2 := by
    simp only [eccentricityVector, Vec3.dot, Vec3.divs, Vec3.sub, Vec3.lscale]
    field_simp
    ring
  rw [hexp, ← hP, ← hV]
  field_simp
  ring

theorem dot_eccentricityVector_position (position velocity : Vec3) (mu : ℝ) (hmu : mu ≠ 0)
    (hr : Vec3.length position ≠ 0) :
    Vec3.dot (eccentricityVector position velocity mu) position =
      Vec3.dot (Vec3.cross position velocity) (Vec3.cross position velocity) / mu -
        Vec3.length position := by
  have hP := Vec3.length_mul_self position
  have hV := Vec3.length_mul_self velocity
  rw [Vec3.dot_cross_self, ← hP, ← hV]
  have hexp : Vec3.dot (eccentricityVector position velocity mu) position =
      ((Vec3.length velocity * Vec3.length velocity - mu / Vec3.length position) *
          Vec3.dot position position -
        Vec3.dot position velocity * Vec3.dot position velocity) / mu := by
    simp only [eccentricityVector, Vec3.dot, Vec3.divs, Vec3.sub, Vec3.lscale]
    field_simp
    ring
  rw [hexp, ← hP]
  field_simp
  ring

end Orbit


namespace Orbit

theorem two_pi_eq : Constants.TWO_PI = 2 * Real.pi := by
  unfold Constants.TWO_PI Constants.PI
  norm_num

/-- The cosine argument of the true anomaly lies in `[-1, 1]`, so the clamp
leaves it unchanged. -/
theorem trueAnomaly_arg_mem (position velocity : Vec3) (mu : ℝ)
    (he : 0 < Vec3.length (eccentricityVector position velocity mu))
    (hr : 0 < Vec3.length position) :
    -1 ≤ Vec3.dot (eccentricityVector position velocity mu) position /
        (Vec3.length (eccentricityVector position velocity mu) * Vec3.length position) ∧
    Vec3.dot (eccentricityVector position velocity mu) position /
        (Vec3.length (eccentricityVector position velocity mu) * Vec3.length position) ≤ 1 := by
  have hcs := Vec3.dot_sq_le (eccentricityVector position velocity mu) position
  rw [← Vec3.length_mul_self, ← Vec3.length_mul_self position] at hcs
  have hprod : 0 < Vec3.length (eccentricityVector position velocity mu) * Vec3.length position :=
    mul_pos he hr
  have habs : |Vec3.dot (eccentricityVector position velocity mu) position| ≤
      Vec3.length (eccentricityVector position velocity mu) * Vec3.length position := by
    apply abs_le_of_sq_le_sq _ hprod.le
    nlinarith
  rw [abs_le] at habs
  constructor
  · rw [le_div_iff₀ hprod]; linarith [habs.1]
  · rw [div_le_iff₀ hprod]; linarith [habs.2]

theorem cos_trueAnomaly (position velocity : Vec3) (mu : ℝ)
    (he : (computeElements position velocity mu).eccentricity > 1e-10)
    (hr : 0 < Vec3.length position) :
    Real.cos (computeElements position velocity mu).trueAnomaly =
      Vec3.dot (eccentricityVector position velocity mu) position /
        ((computeElements position velocity mu).eccentricity * Vec3.length position) := by
  have he0 : 0 < Vec3.length (eccentricityVector position velocity mu) := by
    rw [← computeElements_eccentricity]
    exact lt_trans (by norm_num) he
  obtain ⟨hlo, hhi⟩ := trueAnomaly_arg_mem position velocity mu he0 hr
  rw [computeElements_trueAnomaly position velocity mu he, computeElements_eccentricity,
    stdClamp_of_mem _ _ _ hlo hhi]
  split_ifs
  · rw [two_pi_eq, Real.cos_two_pi_sub, Real.cos_arccos hlo hhi]
  · rw [Real.cos_arccos hlo hhi]

theorem sin_trueAnomaly (position velocity : Vec3) (mu : ℝ)
    (he : (computeElements position velocity mu).eccentricity > 1e-10)
    (hr : 0 < Vec3.length position) :
    Real.sin (computeElements position velocity mu).trueAnomaly =
      (if Vec3.dot position velocity < 0 then -1 else 1) *
        Real.sqrt (1 - (Vec3.dot (eccentricityVector position velocity mu) position /
          ((computeElements position velocity mu).eccentricity * Vec3.length position)) ^ 2) := by
  have he0 : 0 < Vec3.length (eccentricityVector position velocity mu) := by
    rw [← computeElements_eccentricity]
    exact lt_trans (by norm_num) he
  obtain ⟨hlo, hhi⟩ := trueAnomaly_arg_mem position velocity mu he0 hr
  rw [computeElements_trueAnomaly position velocity mu he, computeElements_eccentricity,
    stdClamp_of_mem _ _ _ hlo hhi]
  split_ifs
  · rw [two_pi_eq, Real.sin_two_pi_sub, Real.sin_arccos]
    ring
  · rw [Real.sin_arccos]
    ring

end Orbit


namespace Orbit

/-- Real-number core of the round trip: from the eccentricity identity and the
true anomaly the code stores, the perifocal state has the radius, speed and
radial product of the original state. -/
theorem perifocal_identities (mu r lv B H2 e cosNu sinNu : ℝ)
    (hmu : 0 < mu) (hr : 0 < r) (he0 : 0 < e) (he1 : e < 1) (hH : 0 ≤ H2)
    (hH2 : H2 = r * r * (lv * lv) - B ^ 2)
    (hee : e * e = 1 + 2 * (lv * lv / 2 - mu / r) * H2 / mu ^ 2)
    (hcos : cosNu = (H2 / mu - r) / (e * r))
    (hsin : sinNu = (if B < 0 then -1 else 1) * Real.sqrt (1 - ((H2 / mu - r) / (e * r)) ^ 2)) :
    0 < H2 ∧ lv * lv / 2 - mu / r < 0 ∧
    -mu / (2 * (lv * lv / 2 - mu / r)) * (1 - e * e) = H2 / mu ∧
    1 + e * cosNu = H2 / (mu * r) ∧
    H2 / mu / (H2 / (mu * r)) = r ∧
    mu ^ 2 / (mu * (H2 / mu)) * (1 + 2 * (e * cosNu) + e ^ 2) = lv * lv ∧
    r * (mu / Real.sqrt (mu * (H2 / mu))) * (e * sinNu) = B := by
  have hmu0 : mu ≠ 0 := ne_of_gt hmu
  have hr0 : r ≠ 0 := ne_of_gt hr
  have he00 : e ≠ 0 := ne_of_gt he0
  have hlt : e * e < 1 := by nlinarith
  have hprod : (lv * lv / 2 - mu / r) * H2 < 0 := by
    have h1 : 2 * (lv * lv / 2 - mu / r) * H2 / mu ^ 2 < 0 := by linarith
    have h2 : 2 * (lv * lv / 2 - mu / r) * H2 < 0 := by
      by_contra hc
      have : 0 ≤ 2 * (lv * lv / 2 - mu / r) * H2 / mu ^ 2 :=
        div_nonneg (not_lt.mp hc) (by positivity)
      linarith
    linarith
  have hHpos : 0 < H2 := by
    rcases lt_or_eq_of_le hH with h | h
    · exact h
    · rw [← h] at hprod; simp at hprod
  have heps : lv * lv / 2 - mu / r < 0 := by
    by_contra hc
    have : 0 ≤ (lv * lv / 2 - mu / r) * H2 := mul_nonneg (not_lt.mp hc) hH
    linarith
  have heps0 : lv * lv / 2 - mu / r ≠ 0 := ne_of_lt heps
  have hH0 : H2 ≠ 0 := ne_of_gt hHpos
  have hp : -mu / (2 * (lv * lv / 2 - mu / r)) * (1 - e * e) = H2 / mu := by
    rw [hee]
    generalize lv * lv / 2 - mu / r = eps at heps0
    field_simp
    ring
  have hecos : e * cosNu = H2 / (mu * r) - 1 := by
    rw [hcos]
    field_simp
    ring
  have hden : 1 + e * cosNu = H2 / (mu * r) := by
    rw [hecos]; ring
  have hrr : H2 / mu / (H2 / (mu * r)) = r := by
    field_simp
    ring
  have hvv : mu ^ 2 / (mu * (H2 / mu)) * (1 + 2 * (e * cosNu) + e ^ 2) = lv * lv := by
    rw [hecos, pow_two e, hee]
    field_simp
    ring
  refine ⟨hHpos, heps, hp, hden, hrr, hvv, ?_⟩
  have hmuH : mu * (H2 / mu) = H2 := by field_simp
  rw [hmuH]
  have hsqH : 0 < Real.sqrt H2 := Real.sqrt_pos.mpr hHpos
  set c := (H2 / mu - r) / (e * r) with hc
  have hec : e * c = H2 / (mu * r) - 1 := by
    rw [hc]
    field_simp
    ring
  -- the square of the magnitude
  have hmag_nonneg : 0 ≤ r * (mu / Real.sqrt H2) * (e * Real.sqrt (1 - c ^ 2)) := by
    have := Real.sqrt_nonneg (1 - c ^ 2)
    positivity
  have hc2 : 0 ≤ 1 - c ^ 2 := by
    have hBsq : r ^ 2 * mu ^ 2 * (e ^ 2 - (e * c) ^ 2) = B ^ 2 * H2 := by
      rw [hec, pow_two e, hee]
      have hB2 : B ^ 2 = r * r * (lv * lv) - H2 := by rw [hH2]; ring
      rw [hB2]
      field_simp
      ring
    have : 0 ≤ r ^ 2 * mu ^ 2 * (e ^ 2 * (1 - c ^ 2)) := by
      have : r ^ 2 * mu ^ 2 * (e ^ 2 * (1 - c ^ 2)) = B ^ 2 * H2 := by
        rw [← hBsq]; ring
      rw [this]
      positivity
    by_contra hneg
    have hneg2 : 1 - c ^ 2 < 0 := not_le.mp hneg
    have : r ^ 2 * mu ^ 2 * (e ^ 2 * (1 - c ^ 2)) < 0 := by
      apply mul_neg_of_pos_of_neg (by positivity)
      exact mul_neg_of_pos_of_neg (by positivity) hneg2
    linarith
  have hmag_sq : (r * (mu / Real.sqrt H2) * (e * Real.sqrt (1 - c ^ 2))) ^ 2 = B ^ 2 := by
    have hs1 : Real.sqrt H2 ^ 2 = H2 := Real.sq_sqrt hH
    have hs2 : Real.sqrt (1 - c ^ 2) ^ 2 = 1 - c ^ 2 := Real.sq_sqrt hc2
    have hexp : (r * (mu / Real.sqrt H2) * (e * Real.sqrt (1 - c ^ 2))) ^ 2 =
        r ^ 2 * mu ^ 2 * (e ^ 2 - (e * c) ^ 2) / H2 := by
      rw [mul_pow, mul_pow, div_pow, mul_pow, hs1, hs2]
      field_simp
      ring
    rw [hexp, hec, pow_two e, hee]
    have hB2 : B ^ 2 = r * r * (lv * lv) - H2 := by rw [hH2]; ring
    rw [hB2]
    field_simp
    ring
  have hmag : r * (mu / Real.sqrt H2) * (e * Real.sqrt (1 - c ^ 2)) = |B| := by
    rw [← abs_of_nonneg hmag_nonneg]
    exact (sq_eq_sq_iff_abs_eq_abs _ _).mp hmag_sq
  rw [hsin]
  split_ifs with hB
  · have : r * (mu / Real.sqrt H2) * (e * (-1 * Real.sqrt (1 - c ^ 2))) =
        -(r * (mu / Real.sqrt H2) * (e * Real.sqrt (1 - c ^ 2))) := by ring
    rw [this, hmag, abs_of_neg hB]
    ring
  · have : r * (mu / Real.sqrt H2) * (e * (1 * Real.sqrt (1 - c ^ 2))) =
        r * (mu / Real.sqrt H2) * (e * Real.sqrt (1 - c ^ 2)) := by ring
    rw [this, hmag, abs_of_nonneg (not_lt.mp hB)]

end Orbit


namespace Orbit

theorem computeElements_inclination (position velocity : Vec3) (mu : ℝ) :
    (computeElements position velocity mu).inclination =
      if Vec3.length (Vec3.cross position velocity) > 1e-10 then
        Real.arccos (stdClamp
          ((Vec3.cross position velocity).z / Vec3.length (Vec3.cross position velocity)) (-1) 1)
      else 0 := by
  show (if Vec3.length (Vec3.cross position velocity) > 1e-10 then
        Real.arccos (stdClamp
          ((Vec3.cross position velocity).z / Vec3.length (Vec3.cross position velocity))
          (-1.0) 1.0)
      else 0) = _
  norm_num

theorem length_unitPosition : Vec3.length Sample.unitPosition = 1 :=
  length_eq_of_dot_eq_sq _ 1 (by norm_num) (by norm_num [Vec3.dot, Sample.unitPosition])

theorem length_slowVelocity : Vec3.length Sample.slowVelocity = 5 / 1000000 :=
  length_eq_of_dot_eq_sq _ _ (by norm_num) (by norm_num [Vec3.dot, Sample.slowVelocity])

theorem length_halfVelocity : Vec3.length Sample.halfVelocity = 1 / 2 :=
  length_eq_of_dot_eq_sq _ _ (by norm_num) (by norm_num [Vec3.dot, Sample.halfVelocity])

theorem eccentricity_slow :
    (computeElements Sample.unitPosition Sample.slowVelocity 1).eccentricity =
      1 - 25 / 1000000000000 := by
  rw [computeElements_eccentricity]
  apply length_eq_of_dot_eq_sq _ _ (by norm_num)
  unfold eccentricityVector
  simp only [length_unitPosition, length_slowVelocity]
  norm_num [Vec3.dot, Vec3.divs, Vec3.sub, Vec3.lscale, Sample.unitPosition, Sample.slowVelocity]

theorem eccentricity_half :
    (computeElements Sample.unitPosition Sample.halfVelocity 1).eccentricity = 3 / 4 := by
  rw [computeElements_eccentricity]
  apply length_eq_of_dot_eq_sq _ _ (by norm_num)
  unfold eccentricityVector
  simp only [length_unitPosition, length_halfVelocity]
  norm_num [Vec3.dot, Vec3.divs, Vec3.sub, Vec3.lscale, Sample.unitPosition, Sample.halfVelocity]

theorem length_cross_slow :
    Vec3.length (Vec3.cross Sample.unitPosition Sample.slowVelocity) = 5 / 1000000 :=
  length_eq_of_dot_eq_sq _ _ (by norm_num)
    (by norm_num [Vec3.dot, Vec3.cross, Sample.unitPosition, Sample.slowVelocity])

theorem length_node_slow :
    Vec3.length (Vec3.cross ⟨0.0, 0.0, 1.0⟩
      (Vec3.cross Sample.unitPosition Sample.slowVelocity)) = 4 / 1000000 :=
  length_eq_of_dot_eq_sq _ _ (by norm_num)
    (by norm_num [Vec3.dot, Vec3.cross, Sample.unitPosition, Sample.slowVelocity])

end Orbit


namespace Orbit

theorem computeElements_raan (position velocity : Vec3) (mu : ℝ) :
    (computeElements position velocity mu).raan =
      if Vec3.length (Vec3.cross ⟨0.0, 0.0, 1.0⟩ (Vec3.cross position velocity)) > 1e-10 then
        if (Vec3.cross ⟨0.0, 0.0, 1.0⟩ (Vec3.cross position velocity)).y < 0 then
          Constants.TWO_PI - Real.arccos (stdClamp
            ((Vec3.cross ⟨0.0, 0.0, 1.0⟩ (Vec3.cross position velocity)).x /
              Vec3.length (Vec3.cross ⟨0.0, 0.0, 1.0⟩ (Vec3.cross position velocity))) (-1) 1)
        else
          Real.arccos (stdClamp
            ((Vec3.cross ⟨0.0, 0.0, 1.0⟩ (Vec3.cross position velocity)).x /
              Vec3.length (Vec3.cross ⟨0.0, 0.0, 1.0⟩ (Vec3.cross position velocity))) (-1) 1)
      else 0 := by
  show (if Vec3.length (Vec3.cross ⟨0.0, 0.0, 1.0⟩ (Vec3.cross position velocity)) > 1e-10 then
        if (Vec3.cross ⟨0.0, 0.0, 1.0⟩ (Vec3.cross position velocity)).y < 0 then
          Constants.TWO_PI - Real.arccos (stdClamp
            ((Vec3.cross ⟨0.0, 0.0, 1.0⟩ (Vec3.cross position velocity)).x /
              Vec3.length (Vec3.cross ⟨0.0, 0.0, 1.0⟩ (Vec3.cross position velocity)))
            (-1.0) 1.0)
        else
          Real.arccos (stdClamp
            ((Vec3.cross ⟨0.0, 0.0, 1.0⟩ (Vec3.cross position velocity)).x /
              Vec3.length (Vec3.cross ⟨0.0, 0.0, 1.0⟩ (Vec3.cross position velocity)))
            (-1.0) 1.0)
      else 0) = _
  norm_num

theorem length_periapsisVelocity : Vec3.length Sample.periapsisVelocity = 6 / 5 :=
  length_eq_of_dot_eq_sq _ _ (by norm_num) (by norm_num [Vec3.dot, Sample.periapsisVelocity])

theorem eccentricity_periapsis :
    (computeElements Sample.unitPosition Sample.periapsisVelocity 1).eccentricity = 11 / 25 := by
  rw [computeElements_eccentricity]
  apply length_eq_of_dot_eq_sq _ _ (by norm_num)
  unfold eccentricityVector
  simp only [length_unitPosition, length_periapsisVelocity]
  norm_num [Vec3.dot, Vec3.divs, Vec3.sub, Vec3.lscale, Sample.unitPosition,
    Sample.periapsisVelocity]

theorem semiMajorAxis_periapsis :
    (computeElements Sample.unitPosition Sample.periapsisVelocity 1).semiMajorAxis =
      Dbl.fin (25 / 14) := by
  rw [computeElements_semiMajorAxis, eccentricity_periapsis, computeElements_specificEnergy,
    length_unitPosition, length_periapsisVelocity, if_pos (by norm_num [abs_of_neg])]
  norm_num

theorem inclination_periapsis :
    (computeElements Sample.unitPosition Sample.periapsisVelocity 1).inclination =
      Real.arccos (3 / 5) := by
  have hlen : Vec3.length (Vec3.cross Sample.unitPosition Sample.periapsisVelocity) = 6 / 5 :=
    length_eq_of_dot_eq_sq _ _ (by norm_num)
      (by norm_num [Vec3.dot, Vec3.cross, Sample.unitPosition, Sample.periapsisVelocity])
  have hz : (Vec3.cross Sample.unitPosition Sample.periapsisVelocity).z = 18 / 25 := by
    norm_num [Vec3.cross, Sample.unitPosition, Sample.periapsisVelocity]
  rw [computeElements_inclination, hlen, if_pos (by norm_num), hz,
    stdClamp_of_mem _ _ _ (by norm_num) (by norm_num)]
  norm_num

theorem raan_periapsis :
    (computeElements Sample.unitPosition Sample.periapsisVelocity 1).raan = 0 := by
  have hlen : Vec3.length (Vec3.cross ⟨0.0, 0.0, 1.0⟩
      (Vec3.cross Sample.unitPosition Sample.periapsisVelocity)) = 24 / 25 :=
    length_eq_of_dot_eq_sq _ _ (by norm_num)
      (by norm_num [Vec3.dot, Vec3.cross, Sample.unitPosition, Sample.periapsisVelocity])
  have hx : (Vec3.cross ⟨0.0, 0.0, 1.0⟩
      (Vec3.cross Sample.unitPosition Sample.periapsisVelocity)).x = 24 / 25 := by
    norm_num [Vec3.cross, Sample.unitPosition, Sample.periapsisVelocity]
  have hy : (Vec3.cross ⟨0.0, 0.0, 1.0⟩
      (Vec3.cross Sample.unitPosition Sample.periapsisVelocity)).y = 0 := by
    norm_num [Vec3.cross, Sample.unitPosition, Sample.periapsisVelocity]
  rw [computeElements_raan, hlen, if_pos (by norm_num), hy, if_neg (lt_irrefl 0), hx,
    stdClamp_of_mem _ _ _ (by norm_num) (by norm_num)]
  norm_num

theorem trueAnomaly_periapsis :
    (computeElements Sample.unitPosition Sample.periapsisVelocity 1).trueAnomaly = 0 := by
  have hB : Vec3.dot Sample.unitPosition Sample.periapsisVelocity = 0 := by
    norm_num [Vec3.dot, Sample.unitPosition, Sample.periapsisVelocity]
  have hE : Vec3.dot (eccentricityVector Sample.unitPosition Sample.periapsisVelocity 1)
      Sample.unitPosition = 11 / 25 := by
    unfold eccentricityVector
    simp only [length_unitPosition, length_periapsisVelocity]
    norm_num [Vec3.dot, Vec3.divs, Vec3.sub, Vec3.lscale, Sample.unitPosition,
      Sample.periapsisVelocity]
  rw [computeElements_trueAnomaly _ _ _ (by rw [eccentricity_periapsis]; norm_num), hB,
    if_neg (lt_irrefl 0), hE, eccentricity_periapsis, length_unitPosition,
    stdClamp_of_mem _ _ _ (by norm_num) (by norm_num)]
  norm_num

/-- The state the round trip returns for the periapsis sample: the velocity
comes back with a negative z component, the original one being `24/25`. -/
theorem roundtrip_periapsis_velocity :
    ∃ position2 velocity2 : Vec3,
      computeStateFromElements
        (computeElements Sample.unitPosition Sample.periapsisVelocity 1) 1 =
        some (position2, velocity2) ∧ velocity2.z < 0 := by
  have hnum : (25 / 14 : ℝ) * (1 - 11 / 25 * (11 / 25)) = 36 / 25 := by norm_num
  refine ⟨_, _, computeStateFromElements_of_finite _ 1 (25 / 14) semiMajorAxis_periapsis
    (by rw [eccentricity_periapsis, trueAnomaly_periapsis, Real.cos_zero]; norm_num)
    (by rw [eccentricity_periapsis]; norm_num), ?_⟩
  rw [eccentricity_periapsis, trueAnomaly_periapsis, raan_periapsis, inclination_periapsis,
    hnum]
  have hsq : 0 < Real.sqrt (1 * (36 / 25) : ℝ) := Real.sqrt_pos.mpr (by norm_num)
  have hsin : 0 < Real.sin (Real.arccos (3 / 5)) := by
    rw [Real.sin_arccos]
    exact Real.sqrt_pos.mpr (by norm_num)
  simp only [Mat3.mulVec, rotMat, Vec3.scale, Real.cos_zero, Real.sin_zero]
  have hk : 0 < 1 / Real.sqrt (1 * (36 / 25) : ℝ) := by positivity
  nlinarith [mul_pos hsin hk]

end Orbit

/-! ## Orbit: claims -/

/-- C1 (counterexample): two states that satisfy every hypothesis of the
round-trip law, with `mu = 1` and position `(1, 0, 0)`.  For the velocity
`(0, 3e-6, 4e-6)` the angular momentum is non-zero, the eccentricity
`1 - 2.5e-11` lies strictly between `1e-10` and 1, the inclination lies
strictly between 0 and pi and the node vector is non-zero; yet
`computeElements` stores an infinite semi-major axis (parabolic guard
`|e - 1| <= 1e-10`) and `computeStateFromElements` returns no finite state.
For the velocity `(0, 18/25, 24/25)` (eccentricity `11/25`, inclination
`arccos(3/5)`) a finite state comes back, but its velocity has a negative z
component while the original one is `24/25`. -/
theorem roundtrip_fails_inside_parabolic_guard :
    (0 : ℝ) < 1 ∧ 0 < Vec3.length Sample.unitPosition ∧
    Vec3.length (Vec3.cross Sample.unitPosition Sample.slowVelocity) ≠ 0 ∧
    1e-10 < (Orbit.computeElements Sample.unitPosition Sample.slowVelocity 1).eccentricity ∧
    (Orbit.computeElements Sample.unitPosition Sample.slowVelocity 1).eccentricity < 1 ∧
    0 < (Orbit.computeElements Sample.unitPosition Sample.slowVelocity 1).inclination ∧
    (Orbit.computeElements Sample.unitPosition Sample.slowVelocity 1).inclination < Real.pi ∧
    Vec3.length (Vec3.cross ⟨0.0, 0.0, 1.0⟩
      (Vec3.cross Sample.unitPosition Sample.slowVelocity)) ≠ 0 ∧
    Orbit.computeStateFromElements
      (Orbit.computeElements Sample.unitPosition Sample.slowVelocity 1) 1 = none ∧
    Orbit.computeStateFromElements
      (Orbit.computeElements Sample.unitPosition Sample.slowVelocity 1) 1 ≠
        some (Sample.unitPosition, Sample.slowVelocity) ∧
    Vec3.length (Vec3.cross Sample.unitPosition Sample.periapsisVelocity) ≠ 0 ∧
    1e-10 < (Orbit.computeElements Sample.unitPosition Sample.periapsisVelocity 1).eccentricity ∧
    (Orbit.computeElements Sample.unitPosition Sample.periapsisVelocity 1).eccentricity < 1 ∧
    0 < (Orbit.computeElements Sample.unitPosition Sample.periapsisVelocity 1).inclination ∧
    (Orbit.computeElements Sample.unitPosition Sample.periapsisVelocity 1).inclination <
      Real.pi ∧
    Vec3.length (Vec3.cross ⟨0.0, 0.0, 1.0⟩
      (Vec3.cross Sample.unitPosition Sample.periapsisVelocity)) ≠ 0 ∧
    (∃ position2 velocity2 : Vec3,
      Orbit.computeStateFromElements
        (Orbit.computeElements Sample.unitPosition Sample.periapsisVelocity 1) 1 =
        some (position2, velocity2) ∧ velocity2.z < 0) ∧
    Orbit.computeStateFromElements
      (Orbit.computeElements Sample.unitPosition Sample.periapsisVelocity 1) 1 ≠
        some (Sample.unitPosition, Sample.periapsisVelocity) := by
  have hnone : Orbit.computeStateFromElements
      (Orbit.computeElements Sample.unitPosition Sample.slowVelocity 1) 1 = none := by
    apply Orbit.computeStateFromElements_of_not_finite
    rw [Orbit.computeElements_semiMajorAxis, Orbit.eccentricity_slow, if_neg]
    norm_num [abs_of_neg]
  have hincl : (Orbit.computeElements Sample.unitPosition Sample.slowVelocity 1).inclination =
      Real.arccos (3 / 5) := by
    rw [Orbit.computeElements_inclination, Orbit.length_cross_slow, if_pos (by norm_num)]
    have hz : (Vec3.cross Sample.unitPosition Sample.slowVelocity).z = 3 / 1000000 := by
      norm_num [Vec3.cross, Sample.unitPosition, Sample.slowVelocity]
    rw [hz, stdClamp_of_mem _ _ _ (by norm_num) (by norm_num)]
    norm_num
  have hcrossP : Vec3.length (Vec3.cross Sample.unitPosition Sample.periapsisVelocity) =
      6 / 5 :=
    Orbit.length_eq_of_dot_eq_sq _ _ (by norm_num)
      (by norm_num [Vec3.dot, Vec3.cross, Sample.unitPosition, Sample.periapsisVelocity])
  have hnodeP : Vec3.length (Vec3.cross ⟨0.0, 0.0, 1.0⟩
      (Vec3.cross Sample.unitPosition Sample.periapsisVelocity)) = 24 / 25 :=
    Orbit.length_eq_of_dot_eq_sq _ _ (by norm_num)
      (by norm_num [Vec3.dot, Vec3.cross, Sample.unitPosition, Sample.periapsisVelocity])
  refine ⟨by norm_num, ?_, ?_, ?_, ?_, ?_, ?_, ?_, hnone, ?_, ?_, ?_, ?_, ?_, ?_, ?_,
    Orbit.roundtrip_periapsis_velocity, ?_⟩
  · rw [Orbit.length_unitPosition]; norm_num
  · rw [Orbit.length_cross_slow]; norm_num
  · rw [Orbit.eccentricity_slow]; norm_num
  · rw [Orbit.eccentricity_slow]; norm_num
  · rw [hincl, Real.arccos_pos]; norm_num
  · rw [hincl]
    have hhalf : Real.arccos (3 / 5) < Real.pi / 2 :=
      Real.arccos_lt_pi_div_two.mpr (by norm_num)
    linarith [Real.pi_pos]
  · rw [Orbit.length_node_slow]; norm_num
  · rw [hnone]; exact Option.noConfusion
  · rw [hcrossP]; norm_num
  · rw [Orbit.eccentricity_periapsis]; norm_num
  · rw [Orbit.eccentricity_periapsis]; norm_num
  · rw [Orbit.inclination_periapsis, Real.arccos_pos]; norm_num
  · rw [Orbit.inclination_periapsis]
    have hhalf : Real.arccos (3 / 5) < Real.pi / 2 :=
      Real.arccos_lt_pi_div_two.mpr (by norm_num)
    linarith [Real.pi_pos]
  · rw [hnodeP]; norm_num
  · obtain ⟨position2, velocity2, hstate, hz⟩ := Orbit.roundtrip_periapsis_velocity
    rw [hstate]
    intro heq
    have hv : velocity2 = Sample.periapsisVelocity := by
      injection heq with h1
      exact (Prod.mk.inj h1).2
    rw [hv] at hz
    norm_num [Sample.periapsisVelocity] at hz

/-- C1 (amended): for `mu > 0`, `|position| > 0` and a computed eccentricity
with `1e-10 < e < 1 - 1e-10` (so that `computeElements` stores a finite
semi-major axis), `computeStateFromElements(computeElements(position,
velocity, mu), mu)` returns a finite state with the same radius `|position|`,
the same speed `|velocity|` and the same product `dot(position, velocity)` as
the original state. -/
theorem roundtrip_preserves_radius_speed_and_radial_product (position velocity : Vec3) (mu : ℝ)
    (hmu : mu > 0) (hpos : Vec3.length position > 0)
    (he1 : (Orbit.computeElements position velocity mu).eccentricity > 1e-10)
    (he2 : (Orbit.computeElements position velocity mu).eccentricity < 1 - 1e-10) :
    ∃ position2 velocity2 : Vec3,
      Orbit.computeStateFromElements (Orbit.computeElements position velocity mu) mu =
        some (position2, velocity2) ∧
      Vec3.length position2 = Vec3.length position ∧
      Vec3.length velocity2 = Vec3.length velocity ∧
      Vec3.dot position2 velocity2 = Vec3.dot position velocity := by
  have hmu0 : mu ≠ 0 := ne_of_gt hmu
  have hr0 : Vec3.length position ≠ 0 := ne_of_gt hpos
  have hecc := Orbit.computeElements_eccentricity position velocity mu
  have he0 : 0 < (Orbit.computeElements position velocity mu).eccentricity :=
    lt_trans (by norm_num) he1
  have helt : (Orbit.computeElements position velocity mu).eccentricity < 1 :=
    lt_trans he2 (by norm_num)
  have hee : (Orbit.computeElements position velocity mu).eccentricity *
      (Orbit.computeElements position velocity mu).eccentricity =
      1 + 2 * (Vec3.length velocity * Vec3.length velocity / 2 - mu / Vec3.length position) *
        Vec3.dot (Vec3.cross position velocity) (Vec3.cross position velocity) / mu ^ 2 := by
    rw [hecc, Vec3.length_mul_self]
    exact Orbit.dot_eccentricityVector_self position velocity mu hmu0 hr0
  have hH2 : Vec3.dot (Vec3.cross position velocity) (Vec3.cross position velocity) =
      Vec3.length position * Vec3.length position *
        (Vec3.length velocity * Vec3.length velocity) - Vec3.dot position velocity ^ 2 := by
    rw [Vec3.dot_cross_self, Vec3.length_mul_self, Vec3.length_mul_self]
  have hcos := Orbit.cos_trueAnomaly position velocity mu he1 hpos
  have hsin := Orbit.sin_trueAnomaly position velocity mu he1 hpos
  rw [Orbit.dot_eccentricityVector_position position velocity mu hmu0 hr0] at hcos hsin
  obtain ⟨hHpos, heps, hp, hden, hrr, hvv, hB⟩ := Orbit.perifocal_identities mu
    (Vec3.length position) (Vec3.length velocity) (Vec3.dot position velocity)
    (Vec3.dot (Vec3.cross position velocity) (Vec3.cross position velocity))
    (Orbit.computeElements position velocity mu).eccentricity
    (Real.cos (Orbit.computeElements position velocity mu).trueAnomaly)
    (Real.sin (Orbit.computeElements position velocity mu).trueAnomaly)
    hmu hpos he0 helt (Vec3.dot_self_nonneg _) hH2 hee hcos hsin
  have hsma : (Orbit.computeElements position velocity mu).semiMajorAxis =
      Dbl.fin (-mu / (2 * (Vec3.length velocity * Vec3.length velocity / 2 -
        mu / Vec3.length position))) := by
    rw [Orbit.computeElements_semiMajorAxis, Orbit.computeElements_specificEnergy, if_pos]
    rw [abs_of_neg (by linarith)]
    linarith
  obtain ⟨position2, velocity2, hstate, hP, hV, hPV⟩ := Orbit.state_invariants
    (Orbit.computeElements position velocity mu) mu _ hsma
    (by rw [hden]; positivity)
    (by rw [hp]; positivity)
  rw [hp, hden, hrr] at hP hPV
  rw [hp, hvv] at hV
  refine ⟨position2, velocity2, hstate, ?_, ?_, ?_⟩
  · exact Orbit.length_eq_of_dot_eq_sq position2 _ hpos.le hP
  · apply Orbit.length_eq_of_dot_eq_sq velocity2 _ (Vec3.length_nonneg velocity)
    rw [hV]; ring
  · rw [hPV]; exact hB

/-- Witness for the amended C1 at `mu = 1`, position `(1, 0, 0)` and velocity
`(0, 0.3, 0.4)`, an orbit of eccentricity `3/4`. -/
theorem roundtrip_preserves_radius_speed_and_radial_product_witness :
    ∃ position2 velocity2 : Vec3,
      Orbit.computeStateFromElements
        (Orbit.computeElements Sample.unitPosition Sample.halfVelocity 1) 1 =
        some (position2, velocity2) ∧
      Vec3.length position2 = Vec3.length Sample.unitPosition ∧
      Vec3.length velocity2 = Vec3.length Sample.halfVelocity ∧
      Vec3.dot position2 velocity2 = Vec3.dot Sample.unitPosition Sample.halfVelocity :=
  roundtrip_preserves_radius_speed_and_radial_product Sample.unitPosition Sample.halfVelocity 1
    (by norm_num) (by rw [Orbit.length_unitPosition]; norm_num)
    (by rw [Orbit.eccentricity_half]; norm_num)
    (by rw [Orbit.eccentricity_half]; norm_num)

/-- C2 (violated by the code): for the finite elements `a = 1`, `e = 0`,
`inclination = pi/2`, `raan = 0`, `argOfPeriapsis = 0`, `trueAnomaly = pi/2`
and `mu = 1`, `Orbit::computeStateFromElements` returns the position
`(0, 0, -1)`, whereas `Rz(raan) * Rx(inclination) * Rz(argOfPeriapsis) * rPQW`
is `(0, 0, 1)`: the matrix is filled as `rotMat[row][column]` although glm
indexes `[column][row]`, so the transposed (inverse) rotation is applied. -/
theorem computeStateFromElements_applies_transposed_rotation :
    Orbit.computeStateFromElements
        { semiMajorAxis := Dbl.fin 1, eccentricity := 0, inclination := Real.pi / 2,
          raan := 0, argOfPeriapsis := 0, trueAnomaly := Real.pi / 2 } 1 =
      some (⟨0, 0, -1⟩, ⟨-1, 0, 0⟩) ∧
    Spec.stateFromElements 1 0 (Real.pi / 2) 0 0 (Real.pi / 2) 1 = (⟨0, 0, 1⟩, ⟨-1, 0, 0⟩) := by
  constructor
  · rw [Orbit.computeStateFromElements_of_finite _ 1 1 rfl (by simp) (by simp)]
    simp [Orbit.rotMat, Mat3.mulVec, Vec3.scale]
  · simp [Spec.stateFromElements, Spec.rotation313, Spec.Rz, Spec.Rx, Spec.rPQW, Spec.vPQW,
      Mat3.mul, Mat3.mulVec, Vec3.lscale]

/-- C3: for `MOON_RADIUS + h > 0` and `mu > 0`, and any inclination, raan and
true anomaly, the state produced by `Orbit::createCircularOrbit(h, ...)` with
body radius `MOON_RADIUS` is mapped by `Orbit::computeElements` to
eccentricity 0, semi-major axis `MOON_RADIUS + h` and periapsis and apoapsis
altitude `h`. -/
theorem circular_orbit_elements (h inclination raan trueAnomaly mu : ℝ)
    (hr : Constants.MOON_RADIUS + h > 0) (hmu : mu > 0) :
    ∃ position velocity : Vec3,
      Orbit.createCircularOrbit h inclination raan trueAnomaly mu Constants.MOON_RADIUS =
        some (position, velocity) ∧
      (Orbit.computeElements position velocity mu).eccentricity = 0 ∧
      (Orbit.computeElements position velocity mu).semiMajorAxis =
        Dbl.fin (Constants.MOON_RADIUS + h) ∧
      (Orbit.computeElements position velocity mu).periapsisAltitude = Dbl.fin h ∧
      (Orbit.computeElements position velocity mu).apoapsisAltitude = Dbl.fin h := by
  have h0 : (0.0 : ℝ) = 0 := by norm_num
  obtain ⟨position, velocity, hstate, hP, hV, hB⟩ := Orbit.state_invariants
    { semiMajorAxis := Dbl.fin (Constants.MOON_RADIUS + h)
      eccentricity := 0.0
      inclination := inclination
      raan := raan
      argOfPeriapsis := 0.0
      trueAnomaly := trueAnomaly } mu (Constants.MOON_RADIUS + h) rfl
    (by
      show 1 + (0.0 : ℝ) * Real.cos trueAnomaly ≠ 0
      rw [h0]; norm_num)
    (by
      show 0 < mu * ((Constants.MOON_RADIUS + h) * (1 - (0.0 : ℝ) * 0.0))
      rw [h0]
      have : 0 < Constants.MOON_RADIUS + h := hr
      positivity)
  simp only [h0, zero_mul, sub_zero, mul_one, add_zero, div_one, mul_zero, zero_pow,
    ne_eq, OfNat.ofNat_ne_zero, not_false_eq_true] at hP hV hB
  have hlen : Vec3.length position = Constants.MOON_RADIUS + h :=
    Orbit.length_eq_of_dot_eq_sq position _ hr.le hP
  have hv : Vec3.length velocity * Vec3.length velocity = mu / (Constants.MOON_RADIUS + h) := by
    rw [Vec3.length_mul_self, hV]
    have hr0 : Constants.MOON_RADIUS + h ≠ 0 := ne_of_gt hr
    have hmu0 : mu ≠ 0 := ne_of_gt hmu
    field_simp
    ring
  obtain ⟨hecc, hsma, hper, hapo⟩ := Orbit.computeElements_of_circular_state position velocity
    mu (Constants.MOON_RADIUS + h) hr hmu hlen hv hB
  refine ⟨position, velocity, hstate, hecc, hsma, ?_, ?_⟩
  · rw [hper]; congr 1; ring
  · rw [hapo]; congr 1; ring

/-- Witness for C3: the 100 km orbit about `mu = 1`. -/
theorem circular_orbit_elements_witness :
    ∃ position velocity : Vec3,
      Orbit.createCircularOrbit 100000 0 0 0 1 Constants.MOON_RADIUS =
        some (position, velocity) ∧
      (Orbit.computeElements position velocity 1).eccentricity = 0 ∧
      (Orbit.computeElements position velocity 1).semiMajorAxis =
        Dbl.fin (Constants.MOON_RADIUS + 100000) ∧
      (Orbit.computeElements position velocity 1).periapsisAltitude = Dbl.fin 100000 ∧
      (Orbit.computeElements position velocity 1).apoapsisAltitude = Dbl.fin 100000 :=
  circular_orbit_elements 100000 0 0 0 1 (by norm_num [Constants.MOON_RADIUS]) (by norm_num)

/-- C4: for `bodyRadius > 0`, `0 < bodyRadius + periapsisAltitude <=
bodyRadius + apoapsisAltitude`, any inclination, raan and argument of periapsis
and `mu > 0`, `Orbit::createEllipticalOrbit` with `trueAnomaly = 0` returns a
position whose `Orbit::computeAltitude` is `periapsisAltitude`; and the state
set up by `Application::initScenario(2)` has altitude exactly 15000 m. -/
theorem elliptical_orbit_starts_at_periapsis_altitude :
    (∀ bodyRadius periapsisAltitude apoapsisAltitude inclination raan argOfPeriapsis mu : ℝ,
      0 < bodyRadius → 0 < bodyRadius + periapsisAltitude →
      bodyRadius + periapsisAltitude ≤ bodyRadius + apoapsisAltitude → 0 < mu →
      ∃ position velocity : Vec3,
        Orbit.createEllipticalOrbit periapsisAltitude apoapsisAltitude inclination raan
          argOfPeriapsis 0 mu bodyRadius = some (position, velocity) ∧
        Orbit.computeAltitude position bodyRadius = periapsisAltitude) ∧
    (∀ sc : Spacecraft, ∃ sc2 : Spacecraft,
      Application.initScenario 2 sc = some sc2 ∧
      Orbit.computeAltitude sc2.m_state.position Constants.MOON_RADIUS = 15000) := by
  constructor
  · intro bodyRadius periapsisAltitude apoapsisAltitude inclination raan argOfPeriapsis mu
      _ hrp hle hmu
    exact Orbit.createEllipticalOrbit_at_periapsis bodyRadius periapsisAltitude
      apoapsisAltitude inclination raan argOfPeriapsis mu hrp hle hmu
  · intro sc
    obtain ⟨position, velocity, hstate, halt⟩ :=
      Orbit.createEllipticalOrbit_at_periapsis Constants.MOON_RADIUS 15000.0 120000.0
        (45.0 * Constants.DEG_TO_RAD) 0.0 0.0 Constants.MOON_MU
        (by norm_num [Constants.MOON_RADIUS]) (by norm_num)
        (by norm_num [Constants.MOON_MU])
    have h0 : (0.0 : ℝ) = 0 := by norm_num
    rw [← h0] at hstate
    refine ⟨{ Spacecraft.init sc with
      m_state := { (Spacecraft.init sc).m_state with
        position := position, velocity := velocity } }, ?_, ?_⟩
    · unfold Application.initScenario
      simp only [show ¬ ((2 : ℤ) = 0) by decide, show ¬ ((2 : ℤ) = 1) by decide, if_false,
        if_true, hstate]
    · show Orbit.computeAltitude position Constants.MOON_RADIUS = 15000
      rw [halt]
      norm_num

/-- Witness for C4: a 15 km by 120 km orbit about a body of radius 1737400 m
with `mu = 1`. -/
theorem elliptical_orbit_starts_at_periapsis_altitude_witness :
    ∃ position velocity : Vec3,
      Orbit.createEllipticalOrbit 15000 120000 0 0 0 0 1 1737400 = some (position, velocity) ∧
      Orbit.computeAltitude position 1737400 = 15000 :=
  elliptical_orbit_starts_at_periapsis_altitude.1 1737400 15000 120000 0 0 0 1
    (by norm_num) (by norm_num) (by norm_num) (by norm_num)

/-! ## Spacecraft: fuel bookkeeping -/

namespace Spacecraft

theorem applyThrust_of_guard (s : Spacecraft) (dt : ℝ)
    (h : s.m_throttle < 1e-10 ∨ ¬ hasFuel s) : applyThrust s dt = (0, s) := by
  unfold applyThrust
  rw [if_pos h]
  norm_num

theorem applyThrust_of_burn (s : Spacecraft) (dt : ℝ)
    (h1 : ¬ s.m_throttle < 1e-10) (h2 : hasFuel s) :
    applyThrust s dt =
      (min (s.m_throttle * s.m_maxThrust / (s.m_isp * Constants.G0) * dt)
          (s.m_state.mass - s.m_dryMass),
       { s with m_state := { s.m_state with
          mass := s.m_state.mass -
            min (s.m_throttle * s.m_maxThrust / (s.m_isp * Constants.G0) * dt)
              (s.m_state.mass - s.m_dryMass) } }) := by
  unfold applyThrust
  rw [if_neg (by tauto)]
  simp only [stdMin_eq_min, stdMax_eq_max]
  have hle : min (s.m_throttle * s.m_maxThrust / (s.m_isp * Constants.G0) * dt)
      (s.m_state.mass - s.m_dryMass) ≤ s.m_state.mass - s.m_dryMass := min_le_right _ _
  rw [max_eq_left (by linarith)]

theorem computeThrustVector_of_guard (s : Spacecraft)
    (h : s.m_throttle < 1e-10 ∨ ¬ hasFuel s) : computeThrustVector s = Vec3.zero := by
  unfold computeThrustVector
  rw [if_pos h]

theorem storedDirection_length (d : Vec3) (h : StoredDirection d) : Vec3.length d = 1 := by
  rcases h with h | ⟨v, hv, h⟩
  · rw [h]; norm_num [Vec3.length, Vec3.dot]
  · rw [h]
    exact Vec3.length_divs_length v (lt_trans (by norm_num) hv)

theorem computeThrustVector_of_burn (s : Spacecraft)
    (h1 : ¬ s.m_throttle < 1e-10) (h2 : hasFuel s) :
    computeThrustVector s =
      Vec3.scale (Vec3.scale
        (match s.m_thrustMode with
          | ThrustMode.Prograde => Vec3.normalize s.m_state.velocity
          | ThrustMode.Retrograde => Vec3.neg (Vec3.normalize s.m_state.velocity)
          | ThrustMode.RadialIn => Vec3.neg (Vec3.normalize s.m_state.position)
          | ThrustMode.RadialOut => Vec3.normalize s.m_state.position
          | ThrustMode.Normal =>
              if Vec3.length (Vec3.cross (Vec3.normalize s.m_state.position)
                  (Vec3.normalize s.m_state.velocity)) > 1e-10 then
                Vec3.normalize (Vec3.cross (Vec3.normalize s.m_state.position)
                  (Vec3.normalize s.m_state.velocity))
              else ⟨0.0, 0.0, 1.0⟩
          | ThrustMode.AntiNormal =>
              Vec3.neg (if Vec3.length (Vec3.cross (Vec3.normalize s.m_state.position)
                  (Vec3.normalize s.m_state.velocity)) > 1e-10 then
                Vec3.normalize (Vec3.cross (Vec3.normalize s.m_state.position)
                  (Vec3.normalize s.m_state.velocity))
              else ⟨0.0, 0.0, 1.0⟩)
          | ThrustMode.Custom => s.m_thrustDirection) s.m_throttle) s.m_maxThrust := by
  unfold computeThrustVector
  rw [if_neg (by tauto)]

theorem length_normal_axis (c : Vec3) :
    Vec3.length (if Vec3.length c > 1e-10 then Vec3.normalize c else ⟨0.0, 0.0, 1.0⟩) = 1 := by
  split_ifs with h
  · exact Vec3.length_normalize c (Vec3.ne_zero_of_length_pos c (lt_trans (by norm_num) h))
  · exact Vec3.length_unitZ

theorem length_computeThrustVector (s : Spacecraft)
    (hthr : s.m_throttle ≥ 1e-10) (hfuel : s.m_state.mass > s.m_dryMass)
    (hmax : 0 ≤ s.m_maxThrust) (hp : s.m_state.position ≠ Vec3.zero)
    (hv : s.m_state.velocity ≠ Vec3.zero) (hdir : StoredDirection s.m_thrustDirection) :
    Vec3.length (computeThrustVector s) = s.m_throttle * s.m_maxThrust := by
  have hthr0 : 0 ≤ s.m_throttle := le_trans (by norm_num) hthr
  rw [computeThrustVector_of_burn s (not_lt.mpr hthr) hfuel,
    Vec3.length_scale _ _ hmax, Vec3.length_scale _ _ hthr0]
  have hunit : ∀ d : Vec3, Vec3.length d = 1 →
      Vec3.length d * s.m_throttle * s.m_maxThrust = s.m_throttle * s.m_maxThrust := by
    intro d hd
    rw [hd, one_mul]
  apply hunit
  cases s.m_thrustMode
  · exact Vec3.length_normalize _ hv
  · show Vec3.length (Vec3.neg _) = 1
    rw [Vec3.length_neg]; exact Vec3.length_normalize _ hv
  · show Vec3.length (Vec3.neg _) = 1
    rw [Vec3.length_neg]; exact Vec3.length_normalize _ hp
  · exact Vec3.length_normalize _ hp
  · exact length_normal_axis _
  · show Vec3.length (Vec3.neg _) = 1
    rw [Vec3.length_neg]; exact length_normal_axis _
  · exact storedDirection_length _ hdir

theorem run_initialState (s s0 : Spacecraft) (op : Op)
    (h : s.m_initialState = (init s0).m_state) :
    (Op.run s op).m_initialState = (init s0).m_state := by
  cases op with
  | init => rfl
  | setMass mass dryMass => exact h
  | setThrust maxThrust isp => exact h
  | setThrottle throttle => exact h
  | setThrustMode mode => exact h
  | setThrustDirection direction =>
      show (setThrustDirection s direction).m_initialState = _
      unfold setThrustDirection
      dsimp only
      split_ifs <;> exact h
  | applyThrust dt =>
      show (applyThrust s dt).2.m_initialState = _
      unfold applyThrust
      split_ifs <;> exact h
  | reset => exact h
  | setState state => exact h

theorem runOps_initialState (ops : List Op) (s s0 : Spacecraft)
    (h : s.m_initialState = (init s0).m_state) :
    (runOps s ops).m_initialState = (init s0).m_state := by
  induction ops generalizing s with
  | nil => exact h
  | cons op rest ih => exact ih (Op.run s op) (run_initialState s s0 op h)

theorem run_storedDirection (s : Spacecraft) (op : Op)
    (h : StoredDirection s.m_thrustDirection) :
    StoredDirection (Op.run s op).m_thrustDirection := by
  cases op with
  | init => exact h
  | setMass mass dryMass => exact h
  | setThrust maxThrust isp => exact h
  | setThrottle throttle => exact h
  | setThrustMode mode => exact h
  | setThrustDirection direction =>
      show StoredDirection (setThrustDirection s direction).m_thrustDirection
      unfold setThrustDirection
      dsimp only
      split_ifs with hlen
      · exact Or.inr ⟨direction, hlen, rfl⟩
      · exact h
  | applyThrust dt =>
      show StoredDirection (applyThrust s dt).2.m_thrustDirection
      unfold applyThrust
      split_ifs <;> exact h
  | reset => exact h
  | setState state => exact h

theorem runOps_storedDirection (ops : List Op) (s : Spacecraft)
    (h : StoredDirection s.m_thrustDirection) :
    StoredDirection (runOps s ops).m_thrustDirection := by
  induction ops generalizing s with
  | nil => exact h
  | cons op rest ih => exact ih (Op.run s op) (run_storedDirection s op h)

theorem storedDirection_of_constructed (ops : List Op) :
    StoredDirection (runOps (init {}) ops).m_thrustDirection :=
  runOps_storedDirection ops _ (Or.inl rfl)

end Spacecraft

/-! ## Spacecraft: claims -/

/-- C5: if `mass >= dryMass` before `Spacecraft::applyThrust(dt)` then
`mass >= dryMass` after it, for every `dt`, throttle, thrust and specific
impulse; and when `dt >= 0`, `maxThrust >= 0` and `isp > 0` the mass after the
call is at most the mass before it. -/
theorem applyThrust_keeps_mass_above_dry (s : Spacecraft) (dt : ℝ)
    (h : s.m_state.mass ≥ s.m_dryMass) :
    (Spacecraft.applyThrust s dt).2.m_state.mass ≥ (Spacecraft.applyThrust s dt).2.m_dryMass ∧
    (0 ≤ dt → 0 ≤ s.m_maxThrust → 0 < s.m_isp →
      (Spacecraft.applyThrust s dt).2.m_state.mass ≤ s.m_state.mass) := by
  by_cases hg : s.m_throttle < 1e-10 ∨ ¬ Spacecraft.hasFuel s
  · rw [Spacecraft.applyThrust_of_guard s dt hg]
    exact ⟨h, fun _ _ _ => le_refl _⟩
  · have h1 : ¬ s.m_throttle < 1e-10 := fun c => hg (Or.inl c)
    have h2 : Spacecraft.hasFuel s := by
      by_contra c
      exact hg (Or.inr c)
    rw [Spacecraft.applyThrust_of_burn s dt h1 h2]
    have hfuel : 0 < s.m_state.mass - s.m_dryMass := by
      unfold Spacecraft.hasFuel at h2
      linarith
    refine ⟨?_, ?_⟩
    · have := min_le_right (s.m_throttle * s.m_maxThrust / (s.m_isp * Constants.G0) * dt)
        (s.m_state.mass - s.m_dryMass)
      show s.m_state.mass - _ ≥ s.m_dryMass
      linarith
    · intro hdt hT hisp
      have hthr : 0 ≤ s.m_throttle := le_trans (by norm_num) (not_lt.mp h1)
      have hflow : 0 ≤ s.m_throttle * s.m_maxThrust / (s.m_isp * Constants.G0) * dt := by
        have : 0 < s.m_isp * Constants.G0 := by
          unfold Constants.G0
          positivity
        positivity
      have := le_min hflow hfuel.le
      show s.m_state.mass - _ ≤ s.m_state.mass
      linarith

/-- Witness for C5 on a burning spacecraft with one second of thrust. -/
theorem applyThrust_keeps_mass_above_dry_witness :
    Sample.burning.m_state.mass ≥ Sample.burning.m_dryMass ∧
    (Spacecraft.applyThrust Sample.burning 1).2.m_state.mass ≥
      (Spacecraft.applyThrust Sample.burning 1).2.m_dryMass ∧
    (Spacecraft.applyThrust Sample.burning 1).2.m_state.mass ≤ Sample.burning.m_state.mass :=
  have h : Sample.burning.m_state.mass ≥ Sample.burning.m_dryMass := by
    norm_num [Sample.burning]
  ⟨h, (applyThrust_keeps_mass_above_dry Sample.burning 1 h).1,
    (applyThrust_keeps_mass_above_dry Sample.burning 1 h).2 (by norm_num)
      (by norm_num [Sample.burning]) (by norm_num [Sample.burning])⟩

/-- C6: `computeThrustVector` and `applyThrust` share the zero-thrust guard.
If `throttle < 1e-10` or `mass <= dryMass`, the thrust vector is zero and
`applyThrust(dt)` returns 0 and changes nothing.  If `throttle >= 1e-10`,
`mass > dryMass`, `maxThrust > 0`, `isp > 0`, `dt > 0` and position and
velocity are non-zero (the custom direction being one the class can hold),
the thrust vector is non-zero and `applyThrust(dt)` returns a strictly
positive mass. -/
theorem thrust_guard_agreement (s : Spacecraft) (dt : ℝ) :
    ((s.m_throttle < 1e-10 ∨ s.m_state.mass ≤ s.m_dryMass) →
      Spacecraft.computeThrustVector s = Vec3.zero ∧ Spacecraft.applyThrust s dt = (0, s)) ∧
    (s.m_throttle ≥ 1e-10 → s.m_state.mass > s.m_dryMass → s.m_maxThrust > 0 →
      s.m_isp > 0 → dt > 0 → s.m_state.position ≠ Vec3.zero →
      s.m_state.velocity ≠ Vec3.zero → Spacecraft.StoredDirection s.m_thrustDirection →
      Spacecraft.computeThrustVector s ≠ Vec3.zero ∧ 0 < (Spacecraft.applyThrust s dt).1) := by
  constructor
  · intro h
    have hg : s.m_throttle < 1e-10 ∨ ¬ Spacecraft.hasFuel s := by
      rcases h with h | h
      · exact Or.inl h
      · exact Or.inr (not_lt.mpr h)
    exact ⟨Spacecraft.computeThrustVector_of_guard s hg, Spacecraft.applyThrust_of_guard s dt hg⟩
  · intro hthr hfuel hmax hisp hdt hp hv hdir
    have h1 : ¬ s.m_throttle < 1e-10 := not_lt.mpr hthr
    have hthr0 : 0 < s.m_throttle := lt_of_lt_of_le (by norm_num) hthr
    constructor
    · apply Vec3.ne_zero_of_length_pos
      rw [Spacecraft.length_computeThrustVector s hthr hfuel hmax.le hp hv hdir]
      positivity
    · rw [Spacecraft.applyThrust_of_burn s dt h1 hfuel]
      have hG : 0 < s.m_isp * Constants.G0 := by
        unfold Constants.G0
        positivity
      have hflow : 0 < s.m_throttle * s.m_maxThrust / (s.m_isp * Constants.G0) * dt := by
        positivity
      exact lt_min hflow (sub_pos.mpr hfuel)

/-- Witness for C6: the guard half on a coasting spacecraft, the burn half on a
burning one. -/
theorem thrust_guard_agreement_witness :
    (Spacecraft.computeThrustVector Sample.coasting = Vec3.zero ∧
      Spacecraft.applyThrust Sample.coasting 1 = (0, Sample.coasting)) ∧
    (Spacecraft.computeThrustVector Sample.burning ≠ Vec3.zero ∧
      0 < (Spacecraft.applyThrust Sample.burning 1).1) :=
  ⟨(thrust_guard_agreement Sample.coasting 1).1 (Or.inl (by norm_num [Sample.coasting])),
   (thrust_guard_agreement Sample.burning 1).2
      (by norm_num [Sample.burning]) (by norm_num [Sample.burning])
      (by norm_num [Sample.burning]) (by norm_num [Sample.burning]) (by norm_num)
      (by
        intro h
        have hx := congrArg Vec3.x h
        norm_num [Sample.burning, Vec3.zero] at hx)
      (by
        intro h
        have hy := congrArg Vec3.y h
        norm_num [Sample.burning, Vec3.zero] at hy)
      (Or.inl rfl)⟩

/-- C7: with `throttle >= 1e-10` and `mass > dryMass`, for every `dt`,
`applyThrust(dt)` returns
`min(throttle * maxThrust / (isp * 9.80665) * dt, mass - dryMass)`, the new mass
is the old mass minus the returned value, and every other member is
unchanged. -/
theorem applyThrust_returns_clamped_flow (s : Spacecraft) (dt : ℝ)
    (hthr : s.m_throttle ≥ 1e-10) (hfuel : s.m_state.mass > s.m_dryMass) :
    (Spacecraft.applyThrust s dt).1 =
        min (s.m_throttle * s.m_maxThrust / (s.m_isp * 9.80665) * dt)
          (s.m_state.mass - s.m_dryMass) ∧
    (Spacecraft.applyThrust s dt).2.m_state.mass =
        s.m_state.mass - (Spacecraft.applyThrust s dt).1 ∧
    (Spacecraft.applyThrust s dt).2.m_state.position = s.m_state.position ∧
    (Spacecraft.applyThrust s dt).2.m_state.velocity = s.m_state.velocity ∧
    (Spacecraft.applyThrust s dt).2.m_state.attitude = s.m_state.attitude ∧
    (Spacecraft.applyThrust s dt).2.m_state.angularVelocity = s.m_state.angularVelocity ∧
    (Spacecraft.applyThrust s dt).2.m_throttle = s.m_throttle ∧
    (Spacecraft.applyThrust s dt).2.m_dryMass = s.m_dryMass ∧
    (Spacecraft.applyThrust s dt).2.m_maxThrust = s.m_maxThrust ∧
    (Spacecraft.applyThrust s dt).2.m_isp = s.m_isp ∧
    (Spacecraft.applyThrust s dt).2.m_thrustDirection = s.m_thrustDirection ∧
    (Spacecraft.applyThrust s dt).2.m_thrustMode = s.m_thrustMode ∧
    (Spacecraft.applyThrust s dt).2.m_initialState = s.m_initialState := by
  rw [Spacecraft.applyThrust_of_burn s dt (not_lt.mpr hthr) hfuel]
  refine ⟨?_, rfl, rfl, rfl, rfl, rfl, rfl, rfl, rfl, rfl, rfl, rfl, rfl⟩
  simp only [Constants.G0]

/-- Witness for C7 on a burning spacecraft with one second of thrust. -/
theorem applyThrust_returns_clamped_flow_witness :
    (Spacecraft.applyThrust Sample.burning 1).1 =
        min (Sample.burning.m_throttle * Sample.burning.m_maxThrust /
            (Sample.burning.m_isp * 9.80665) * 1)
          (Sample.burning.m_state.mass - Sample.burning.m_dryMass) ∧
    (Spacecraft.applyThrust Sample.burning 1).2.m_state.mass =
        Sample.burning.m_state.mass - (Spacecraft.applyThrust Sample.burning 1).1 :=
  have h := applyThrust_returns_clamped_flow Sample.burning 1
    (by norm_num [Sample.burning]) (by norm_num [Sample.burning])
  ⟨h.1, h.2.1⟩

/-- C8 (violated by the code): after `init()`, `setMass(50000, 30000)` and
`reset()` the mass is 26000 and the dry mass 30000, so `mass >= dryMass` does
not hold in this reachable state: `reset()` restores the mass captured by
`init()` without the floor at `dryMass` that `setMass` and `applyThrust`
apply. -/
theorem reset_after_setMass_breaks_mass_floor (s0 : Spacecraft) :
    (Spacecraft.runOps (Spacecraft.init s0)
        [Spacecraft.Op.setMass 50000 30000, Spacecraft.Op.reset]).m_state.mass = 26000 ∧
    (Spacecraft.runOps (Spacecraft.init s0)
        [Spacecraft.Op.setMass 50000 30000, Spacecraft.Op.reset]).m_dryMass = 30000 ∧
    ¬ ((Spacecraft.runOps (Spacecraft.init s0)
        [Spacecraft.Op.setMass 50000 30000, Spacecraft.Op.reset]).m_state.mass ≥
      (Spacecraft.runOps (Spacecraft.init s0)
        [Spacecraft.Op.setMass 50000 30000, Spacecraft.Op.reset]).m_dryMass) := by
  have hm : (Spacecraft.runOps (Spacecraft.init s0)
      [Spacecraft.Op.setMass 50000 30000, Spacecraft.Op.reset]).m_state.mass = 26000 := by
    simp [Spacecraft.runOps, Spacecraft.Op.run, Spacecraft.reset, Spacecraft.setMass,
      Spacecraft.init, Constants.DEFAULT_MASS]
  have hd : (Spacecraft.runOps (Spacecraft.init s0)
      [Spacecraft.Op.setMass 50000 30000, Spacecraft.Op.reset]).m_dryMass = 30000 := by
    simp [Spacecraft.runOps, Spacecraft.Op.run, Spacecraft.reset, Spacecraft.setMass]
  refine ⟨hm, hd, ?_⟩
  rw [hm, hd]
  norm_num

/-- C9: with `throttle >= 1e-10`, `mass > dryMass`, `maxThrust >= 0`, non-zero
position `p` and velocity `v`, and a custom direction that is the default or
one stored by `setThrustDirection`, the thrust vector has Euclidean norm
`throttle * maxThrust` in every steering mode; it is `throttle*maxThrust*v/|v|`
for Prograde, its negation for Retrograde, `throttle*maxThrust*p/|p|` for
RadialOut, its negation for RadialIn, and for Normal / AntiNormal plus / minus
`throttle*maxThrust` times the normalised `cross(p/|p|, v/|v|)`, or times
`(0,0,1)` when that cross product has length `<= 1e-10`; for Custom it is
`throttle*maxThrust` times the stored direction. -/
theorem computeThrustVector_norm_and_direction (s : Spacecraft)
    (hthr : s.m_throttle ≥ 1e-10) (hfuel : s.m_state.mass > s.m_dryMass)
    (hmax : 0 ≤ s.m_maxThrust) (hp : s.m_state.position ≠ Vec3.zero)
    (hv : s.m_state.velocity ≠ Vec3.zero)
    (hdir : Spacecraft.StoredDirection s.m_thrustDirection) :
    Vec3.length (Spacecraft.computeThrustVector s) = s.m_throttle * s.m_maxThrust ∧
    (s.m_thrustMode = ThrustMode.Prograde → Spacecraft.computeThrustVector s =
      Vec3.lscale (s.m_throttle * s.m_maxThrust)
        (Vec3.divs s.m_state.velocity (Vec3.length s.m_state.velocity))) ∧
    (s.m_thrustMode = ThrustMode.Retrograde → Spacecraft.computeThrustVector s =
      Vec3.neg (Vec3.lscale (s.m_throttle * s.m_maxThrust)
        (Vec3.divs s.m_state.velocity (Vec3.length s.m_state.velocity)))) ∧
    (s.m_thrustMode = ThrustMode.RadialOut → Spacecraft.computeThrustVector s =
      Vec3.lscale (s.m_throttle * s.m_maxThrust)
        (Vec3.divs s.m_state.position (Vec3.length s.m_state.position))) ∧
    (s.m_thrustMode = ThrustMode.RadialIn → Spacecraft.computeThrustVector s =
      Vec3.neg (Vec3.lscale (s.m_throttle * s.m_maxThrust)
        (Vec3.divs s.m_state.position (Vec3.length s.m_state.position)))) ∧
    (s.m_thrustMode = ThrustMode.Normal → Spacecraft.computeThrustVector s =
      Vec3.lscale (s.m_throttle * s.m_maxThrust)
        (if Vec3.length (Vec3.cross
              (Vec3.divs s.m_state.position (Vec3.length s.m_state.position))
              (Vec3.divs s.m_state.velocity (Vec3.length s.m_state.velocity))) ≤ 1e-10
          then ⟨0, 0, 1⟩
          else Vec3.divs
            (Vec3.cross (Vec3.divs s.m_state.position (Vec3.length s.m_state.position))
              (Vec3.divs s.m_state.velocity (Vec3.length s.m_state.velocity)))
            (Vec3.length (Vec3.cross
              (Vec3.divs s.m_state.position (Vec3.length s.m_state.position))
              (Vec3.divs s.m_state.velocity (Vec3.length s.m_state.velocity)))))) ∧
    (s.m_thrustMode = ThrustMode.AntiNormal → Spacecraft.computeThrustVector s =
      Vec3.neg (Vec3.lscale (s.m_throttle * s.m_maxThrust)
        (if Vec3.length (Vec3.cross
              (Vec3.divs s.m_state.position (Vec3.length s.m_state.position))
              (Vec3.divs s.m_state.velocity (Vec3.length s.m_state.velocity))) ≤ 1e-10
          then ⟨0, 0, 1⟩
          else Vec3.divs
            (Vec3.cross (Vec3.divs s.m_state.position (Vec3.length s.m_state.position))
              (Vec3.divs s.m_state.velocity (Vec3.length s.m_state.velocity)))
            (Vec3.length (Vec3.cross
              (Vec3.divs s.m_state.position (Vec3.length s.m_state.position))
              (Vec3.divs s.m_state.velocity (Vec3.length s.m_state.velocity))))))) ∧
    (s.m_thrustMode = ThrustMode.Custom → Spacecraft.computeThrustVector s =
      Vec3.lscale (s.m_throttle * s.m_maxThrust) s.m_thrustDirection) := by
  have hburn := Spacecraft.computeThrustVector_of_burn s (not_lt.mpr hthr) hfuel
  have hnormal : (if Vec3.length (Vec3.cross (Vec3.normalize s.m_state.position)
        (Vec3.normalize s.m_state.velocity)) > 1e-10 then
        Vec3.normalize (Vec3.cross (Vec3.normalize s.m_state.position)
          (Vec3.normalize s.m_state.velocity))
      else (⟨0.0, 0.0, 1.0⟩ : Vec3)) =
      (if Vec3.length (Vec3.cross
              (Vec3.divs s.m_state.position (Vec3.length s.m_state.position))
              (Vec3.divs s.m_state.velocity (Vec3.length s.m_state.velocity))) ≤ 1e-10
          then ⟨0, 0, 1⟩
          else Vec3.divs
            (Vec3.cross (Vec3.divs s.m_state.position (Vec3.length s.m_state.position))
              (Vec3.divs s.m_state.velocity (Vec3.length s.m_state.velocity)))
            (Vec3.length (Vec3.cross
              (Vec3.divs s.m_state.position (Vec3.length s.m_state.position))
              (Vec3.divs s.m_state.velocity (Vec3.length s.m_state.velocity))))) := by
    simp only [Vec3.normalize_eq_divs]
    split_ifs with h1 h2 h2
    · exact absurd h1 (not_lt.mpr h2)
    · rfl
    · norm_num
    · exact absurd (not_lt.mp h1) h2
  refine ⟨Spacecraft.length_computeThrustVector s hthr hfuel hmax hp hv hdir,
    ?_, ?_, ?_, ?_, ?_, ?_, ?_⟩
  all_goals intro hmode
  all_goals rw [hburn, hmode]
  · simp only [Vec3.scale_scale, Vec3.normalize_eq_divs]
  · simp only [Vec3.scale_scale_neg, Vec3.normalize_eq_divs]
  · simp only [Vec3.scale_scale, Vec3.normalize_eq_divs]
  · simp only [Vec3.scale_scale_neg, Vec3.normalize_eq_divs]
  · simp only [hnormal, Vec3.scale_scale]
  · simp only [hnormal, Vec3.scale_scale_neg]
  · simp only [Vec3.scale_scale]

/-- Witness for C9 on a burning spacecraft in the default Prograde mode. -/
theorem computeThrustVector_norm_and_direction_witness :
    Vec3.length (Spacecraft.computeThrustVector Sample.burning) =
      Sample.burning.m_throttle * Sample.burning.m_maxThrust :=
  (computeThrustVector_norm_and_direction Sample.burning
      (by norm_num [Sample.burning]) (by norm_num [Sample.burning])
      (by norm_num [Sample.burning])
      (by
        intro h
        have hx := congrArg Vec3.x h
        norm_num [Sample.burning, Vec3.zero] at hx)
      (by
        intro h
        have hy := congrArg Vec3.y h
        norm_num [Sample.burning, Vec3.zero] at hy)
      (Or.inl rfl)).1

/-- C10: after `init()` and any sequence of operations (direct writes of the
flight state and further `init()` calls included), `reset()` leaves the flight state equal to the one
that existed when `init()` returned and sets the throttle to 0, while dry
mass, maximum thrust, specific impulse, thrust mode and custom thrust
direction keep the values they had just before `reset()`. -/
theorem reset_restores_init_flight_state (s0 : Spacecraft) (ops : List Spacecraft.Op) :
    (Spacecraft.reset (Spacecraft.runOps (Spacecraft.init s0) ops)).m_state =
      (Spacecraft.init s0).m_state ∧
    (Spacecraft.reset (Spacecraft.runOps (Spacecraft.init s0) ops)).m_throttle = 0 ∧
    (Spacecraft.reset (Spacecraft.runOps (Spacecraft.init s0) ops)).m_dryMass =
      (Spacecraft.runOps (Spacecraft.init s0) ops).m_dryMass ∧
    (Spacecraft.reset (Spacecraft.runOps (Spacecraft.init s0) ops)).m_maxThrust =
      (Spacecraft.runOps (Spacecraft.init s0) ops).m_maxThrust ∧
    (Spacecraft.reset (Spacecraft.runOps (Spacecraft.init s0) ops)).m_isp =
      (Spacecraft.runOps (Spacecraft.init s0) ops).m_isp ∧
    (Spacecraft.reset (Spacecraft.runOps (Spacecraft.init s0) ops)).m_thrustMode =
      (Spacecraft.runOps (Spacecraft.init s0) ops).m_thrustMode ∧
    (Spacecraft.reset (Spacecraft.runOps (Spacecraft.init s0) ops)).m_thrustDirection =
      (Spacecraft.runOps (Spacecraft.init s0) ops).m_thrustDirection := by
  refine ⟨?_, ?_, rfl, rfl, rfl, rfl, rfl⟩
  · show (Spacecraft.runOps (Spacecraft.init s0) ops).m_initialState = _
    exact Spacecraft.runOps_initialState ops _ s0 rfl
  · show (0.0 : ℝ) = 0
    norm_num

/-! ## Integrator: stepping schemes -/

namespace Integrator

theorem step_of_other (state : SpacecraftState) (dt : ℝ) (type : IntegratorType)
    (f : SpacecraftState → Vec3 × Vec3) (h1 : type ≠ IntegratorType.Euler)
    (h2 : type ≠ IntegratorType.SemiImplicitEuler) :
    step state dt type f = stepRK4 state dt f := by
  unfold step
  rw [if_neg h1, if_neg h2]

theorem stepRK4_eq_classical (state : SpacecraftState) (dt : ℝ)
    (f : SpacecraftState → Vec3 × Vec3) :
    stepRK4 state dt f = Spec.classicalRK4 state dt (fun s => (f s).1) := by
  have h1 : dt * 0.5 = dt / 2 := by norm_num; ring
  have h2 : (2.0 : ℝ) = 2 := by norm_num
  have h3 : dt / 6.0 = dt / 6 := by norm_num
  simp only [stepRK4, Spec.classicalRK4, Spec.stage, h1, h2, h3]

end Integrator

/-- C12: for every state, step `dt` and derivative function,
`Integrator::step` with `Type::RK4`, and with any `Type` value other than
`Euler` and `SemiImplicitEuler`, is one step of classical fourth-order
Runge-Kutta on `dp/dt = v`, `dv/dt = a(p, v)` with the stages and weights of
`Spec.classicalRK4`, `a` being the acceleration the derivative function
reports. -/
theorem step_rk4_is_classical_runge_kutta (state : SpacecraftState) (dt : ℝ)
    (f : SpacecraftState → Vec3 × Vec3) :
    Integrator.step state dt IntegratorType.RK4 f =
      Spec.classicalRK4 state dt (fun s => (f s).1) ∧
    ∀ type : IntegratorType, type ≠ IntegratorType.Euler →
      type ≠ IntegratorType.SemiImplicitEuler →
      Integrator.step state dt type f = Spec.classicalRK4 state dt (fun s => (f s).1) := by
  constructor
  · rw [Integrator.step_of_other state dt _ f (by decide) (by decide)]
    exact Integrator.stepRK4_eq_classical state dt f
  · intro type h1 h2
    rw [Integrator.step_of_other state dt type f h1 h2]
    exact Integrator.stepRK4_eq_classical state dt f

/-- Witness for C12: the out-of-range selector value 7 on a sample state. -/
theorem step_rk4_is_classical_runge_kutta_witness :
    Integrator.step Sample.approachState 1 ⟨7⟩ Sample.liftDerivatives =
      Spec.classicalRK4 Sample.approachState 1 (fun s => (Sample.liftDerivatives s).1) :=
  (step_rk4_is_classical_runge_kutta Sample.approachState 1 Sample.liftDerivatives).2 ⟨7⟩
    (by decide) (by decide)

/-- C13: with `a` the acceleration reported at the start state,
`Integrator::step` with `Type::Euler` yields position `p + v*dt` and velocity
`v + a*dt`, and with `Type::SemiImplicitEuler` velocity `v + a*dt` and position
`p + (v + a*dt)*dt`; the two schemes give the same velocity and their
positions differ by exactly `a*dt^2`. -/
theorem euler_and_semi_implicit_euler_steps (state : SpacecraftState) (dt : ℝ)
    (f : SpacecraftState → Vec3 × Vec3) :
    (Integrator.step state dt IntegratorType.Euler f).position =
      Vec3.add state.position (Vec3.scale state.velocity dt) ∧
    (Integrator.step state dt IntegratorType.Euler f).velocity =
      Vec3.add state.velocity (Vec3.scale (f state).1 dt) ∧
    (Integrator.step state dt IntegratorType.SemiImplicitEuler f).velocity =
      Vec3.add state.velocity (Vec3.scale (f state).1 dt) ∧
    (Integrator.step state dt IntegratorType.SemiImplicitEuler f).position =
      Vec3.add state.position
        (Vec3.scale (Vec3.add state.velocity (Vec3.scale (f state).1 dt)) dt) ∧
    (Integrator.step state dt IntegratorType.SemiImplicitEuler f).velocity =
      (Integrator.step state dt IntegratorType.Euler f).velocity ∧
    Vec3.sub (Integrator.step state dt IntegratorType.SemiImplicitEuler f).position
        (Integrator.step state dt IntegratorType.Euler f).position =
      Vec3.scale (f state).1 (dt ^ 2) := by
  have hE : Integrator.step state dt IntegratorType.Euler f = Integrator.stepEuler state dt f := by
    unfold Integrator.step
    rw [if_pos rfl]
  have hS : Integrator.step state dt IntegratorType.SemiImplicitEuler f =
      Integrator.stepSemiImplicitEuler state dt f := by
    unfold Integrator.step
    rw [if_neg (by decide), if_pos rfl]
  rw [hE, hS]
  refine ⟨rfl, rfl, rfl, rfl, rfl, ?_⟩
  simp only [Integrator.stepEuler, Integrator.stepSemiImplicitEuler, Vec3.sub, Vec3.add,
    Vec3.scale]
  ext <;> simp <;> ring

/-! ## Integrator: trajectory prediction -/

namespace Integrator

theorem rk4Iterate_step (s : SpacecraftState) (dt : ℝ) (f : SpacecraftState → Vec3 × Vec3)
    (k : ℕ) : rk4Iterate (stepRK4 s dt f) dt f k = rk4Iterate s dt f (k + 1) := by
  induction k with
  | zero => rfl
  | succ k ih =>
      show stepRK4 (rk4Iterate (stepRK4 s dt f) dt f k) dt f = _
      rw [ih]
      rfl

theorem predictLoop_length_le (duration dt : ℝ) (f : SpacecraftState → Vec3 × Vec3)
    (bodyRadius : ℝ) (n : ℕ) :
    ∀ (t : ℝ) (s : SpacecraftState), (predictLoop duration dt f bodyRadius n t s).length ≤ n := by
  induction n with
  | zero => intro t s; simp [predictLoop]
  | succ n ih =>
      intro t s
      unfold predictLoop
      dsimp only
      split_ifs with h1 h2
      · simp
      · simp only [List.length_cons]
        exact Nat.succ_le_succ (ih _ _)
      · simp

/-- The positions pushed by the loop when the first iterate inside the body
is the `k`-th one and the loop condition holds up to it. -/
theorem predictLoop_of_first_collision (duration dt : ℝ)
    (f : SpacecraftState → Vec3 × Vec3) (bodyRadius : ℝ) (hR : 0 < bodyRadius) (n : ℕ) :
    ∀ (t : ℝ) (s : SpacecraftState) (k : ℕ), 1 ≤ k → k ≤ n →
      (∀ j : ℕ, 1 ≤ j → j ≤ k → t + ((j : ℝ) - 1) * dt < duration) →
      Vec3.length (rk4Iterate s dt f k).position ≤ bodyRadius →
      (∀ j : ℕ, 1 ≤ j → j < k → bodyRadius < Vec3.length (rk4Iterate s dt f j).position) →
      predictLoop duration dt f bodyRadius n t s =
        (List.range k).map (fun i => (rk4Iterate s dt f (i + 1)).position) := by
  induction n with
  | zero =>
      intro t s k hk1 hkn
      omega
  | succ n ih =>
      intro t s k hk1 hkn hbudget hcoll hfirst
      have ht : t < duration := by
        have := hbudget 1 le_rfl hk1
        simpa using this
      have hR0 : bodyRadius > 0.0 := by norm_num; exact hR
      unfold predictLoop
      rw [if_pos ht]
      rcases Nat.eq_or_lt_of_le hk1 with hk | hk
      · -- the first iterate is inside the body
        subst hk
        have hc : Vec3.length (stepRK4 s dt f).position ≤ bodyRadius := hcoll
        simp only [hR0, hc, and_self, if_true]
        rfl
      · have hnc : ¬ (bodyRadius > 0.0 ∧ Vec3.length (stepRK4 s dt f).position ≤ bodyRadius) := by
          intro hc
          have := hfirst 1 le_rfl hk
          exact absurd hc.2 (not_le.mpr this)
        simp only [hnc, if_false]
        obtain ⟨m, rfl⟩ : ∃ m, k = m + 1 := ⟨k - 1, by omega⟩
        have hrec := ih (t + dt) (stepRK4 s dt f) m (by omega) (by omega)
          (by
            intro j hj1 hjm
            have := hbudget (j + 1) (by omega) (by omega)
            push_cast at this
            linarith)
          (by rw [rk4Iterate_step]; exact hcoll)
          (by
            intro j hj1 hjm
            rw [rk4Iterate_step]
            exact hfirst (j + 1) (by omega) (by omega))
        rw [hrec, List.range_succ_eq_map, List.map_cons, List.map_map]
        congr 1
        apply List.map_congr_left
        intro i _
        simp only [Function.comp, rk4Iterate_step]

theorem range_map_eq_cons (g : ℕ → Vec3) (k : ℕ) :
    (List.range (k + 1)).map g = g 0 :: (List.range k).map (fun i => g (i + 1)) := by
  rw [List.range_succ_eq_map, List.map_cons, List.map_map]
  rfl

end Integrator

namespace Integrator

theorem stepRK4_coast_position (s : SpacecraftState) (dt : ℝ) :
    (stepRK4 s dt Sample.coastDerivatives).position =
      Vec3.add s.position (Vec3.scale s.velocity dt) := by
  simp only [stepRK4, Sample.coastDerivatives, Vec3.add, Vec3.scale, Vec3.lscale, Vec3.zero]
  ext <;> simp <;> ring

theorem stepRK4_coast_velocity (s : SpacecraftState) (dt : ℝ) :
    (stepRK4 s dt Sample.coastDerivatives).velocity = s.velocity := by
  simp only [stepRK4, Sample.coastDerivatives, Vec3.add, Vec3.scale, Vec3.lscale, Vec3.zero]
  ext <;> simp

theorem approach_iterate_one :
    (rk4Iterate Sample.approachState (-1) Sample.coastDerivatives 1).position = ⟨1, 0, 0⟩ := by
  show (stepRK4 Sample.approachState (-1) Sample.coastDerivatives).position = _
  rw [stepRK4_coast_position]
  simp only [Sample.approachState, Vec3.add, Vec3.scale]
  ext <;> norm_num

theorem approach_iterate_two :
    (rk4Iterate Sample.approachState (-1) Sample.coastDerivatives 2).position = ⟨0, 0, 0⟩ := by
  show (stepRK4 (stepRK4 Sample.approachState (-1) Sample.coastDerivatives) (-1)
    Sample.coastDerivatives).position = _
  rw [stepRK4_coast_position, stepRK4_coast_velocity, stepRK4_coast_position]
  simp only [Sample.approachState, Vec3.add, Vec3.scale]
  ext <;> norm_num

theorem length_origin : Vec3.length ⟨0, 0, 0⟩ = 0 := by
  simp [Vec3.length, Vec3.dot]

theorem length_unitX : Vec3.length ⟨1, 0, 0⟩ = 1 := by
  simp [Vec3.length, Vec3.dot]

end Integrator

/-- C11 (counterexample): with the force-free derivative function, the state
at `(2, 0, 0)` with velocity `(1, 0, 0)`, `dt = -1`, `duration = -1/2`,
`maxSteps = 2` and `bodyRadius = 1/2`, the second RK4 iterate is `(0, 0, 0)`,
inside the body, and it is the first iterate `k` with `1 <= k <= maxSteps`,
`(k-1)*dt < duration` and radius `<= bodyRadius`; yet the loop condition
`t < duration` fails at `t = 0`, so the result is the initial position alone
and its last element is not that iterate. -/
theorem predictTrajectory_stops_before_budgeted_collision :
    (0 : ℝ) < 1 / 2 ∧ 1 ≤ 2 ∧ (((2 : ℕ) : ℝ) - 1) * (-1) < -1 / 2 ∧
    Vec3.length (Integrator.rk4Iterate Sample.approachState (-1) Sample.coastDerivatives
      2).position ≤ 1 / 2 ∧
    (∀ j : ℕ, 1 ≤ j → j < 2 → ¬ (((j : ℝ) - 1) * (-1) < -1 / 2 ∧
      Vec3.length (Integrator.rk4Iterate Sample.approachState (-1) Sample.coastDerivatives
        j).position ≤ 1 / 2)) ∧
    Integrator.predictTrajectory Sample.approachState (-1 / 2) (-1) 2 Sample.coastDerivatives
      (1 / 2) = [⟨2, 0, 0⟩] ∧
    (Integrator.predictTrajectory Sample.approachState (-1 / 2) (-1) 2 Sample.coastDerivatives
      (1 / 2)).getLast? ≠
      some (Integrator.rk4Iterate Sample.approachState (-1) Sample.coastDerivatives 2).position := by
  have htraj : Integrator.predictTrajectory Sample.approachState (-1 / 2) (-1) 2
      Sample.coastDerivatives (1 / 2) = [⟨2, 0, 0⟩] := by
    unfold Integrator.predictTrajectory Integrator.predictLoop
    rw [if_neg (by norm_num)]
    rfl
  refine ⟨by norm_num, by norm_num, by norm_num, ?_, ?_, htraj, ?_⟩
  · rw [Integrator.approach_iterate_two, Integrator.length_origin]
    norm_num
  · intro j hj1 hj2
    have hj : j = 1 := by omega
    subst hj
    intro h
    norm_num at h
  · rw [htraj, Integrator.approach_iterate_two]
    intro h
    have hx : (2 : ℝ) = 0 := by
      have := Option.some.inj h
      exact congrArg Vec3.x this
    norm_num at hx

/-- C11 (amended): for every initial state, derivative function, `dt`,
`duration`, `maxSteps` and `bodyRadius > 0`, `Integrator::predictTrajectory`
returns a non-empty sequence whose first element is the initial position and
whose length is at most `maxSteps + 1`; and, provided `dt >= 0` or
`duration > 0`, if `k` is the first RK4 iterate with `1 <= k <= maxSteps`,
`(k-1)*dt < duration` and radius `<= bodyRadius`, then the result is the
positions of iterates `0..k`, its last element is that iterate, and every
element strictly between the first and the last has radius `> bodyRadius`. -/
theorem predictTrajectory_ends_at_first_collision (initialState : SpacecraftState)
    (duration dt : ℝ) (maxSteps : ℕ) (f : SpacecraftState → Vec3 × Vec3) (bodyRadius : ℝ)
    (hR : 0 < bodyRadius) :
    Integrator.predictTrajectory initialState duration dt maxSteps f bodyRadius ≠ [] ∧
    (Integrator.predictTrajectory initialState duration dt maxSteps f bodyRadius).head? =
      some initialState.position ∧
    (Integrator.predictTrajectory initialState duration dt maxSteps f bodyRadius).length ≤
      maxSteps + 1 ∧
    ((0 ≤ dt ∨ 0 < duration) →
      ∀ k : ℕ, 1 ≤ k → k ≤ maxSteps → ((k : ℝ) - 1) * dt < duration →
        Vec3.length (Integrator.rk4Iterate initialState dt f k).position ≤ bodyRadius →
        (∀ j : ℕ, 1 ≤ j → j < k → ¬ (((j : ℝ) - 1) * dt < duration ∧
          Vec3.length (Integrator.rk4Iterate initialState dt f j).position ≤ bodyRadius)) →
        Integrator.predictTrajectory initialState duration dt maxSteps f bodyRadius =
          (List.range (k + 1)).map (fun i => (Integrator.rk4Iterate initialState dt f i).position) ∧
        (Integrator.predictTrajectory initialState duration dt maxSteps f bodyRadius).getLast? =
          some (Integrator.rk4Iterate initialState dt f k).position ∧
        ∀ i : ℕ, 0 < i → i < k →
          (Integrator.predictTrajectory initialState duration dt maxSteps f bodyRadius)[i]? =
            some (Integrator.rk4Iterate initialState dt f i).position ∧
          bodyRadius < Vec3.length (Integrator.rk4Iterate initialState dt f i).position) := by
  refine ⟨?_, rfl, ?_, ?_⟩
  · unfold Integrator.predictTrajectory
    exact List.cons_ne_nil _ _
  · unfold Integrator.predictTrajectory
    simp only [List.length_cons]
    exact Nat.succ_le_succ (Integrator.predictLoop_length_le duration dt f bodyRadius maxSteps _ _)
  · intro hdt k hk1 hkn hbudget hcoll hfirst
    have hbud : ∀ j : ℕ, 1 ≤ j → j ≤ k → ((j : ℝ) - 1) * dt < duration := by
      intro j hj1 hjk
      have hj0 : (0 : ℝ) ≤ (j : ℝ) - 1 := by
        have : (1 : ℝ) ≤ (j : ℝ) := by exact_mod_cast hj1
        linarith
      have hjk' : (j : ℝ) - 1 ≤ (k : ℝ) - 1 := by
        have : (j : ℝ) ≤ (k : ℝ) := by exact_mod_cast hjk
        linarith
      rcases hdt with h | h
      · exact lt_of_le_of_lt (mul_le_mul_of_nonneg_right hjk' h) hbudget
      · by_cases hd : 0 ≤ dt
        · exact lt_of_le_of_lt (mul_le_mul_of_nonneg_right hjk' hd) hbudget
        · have : ((j : ℝ) - 1) * dt ≤ 0 :=
            mul_nonpos_of_nonneg_of_nonpos hj0 (le_of_lt (not_le.mp hd))
          linarith
    have hclear : ∀ j : ℕ, 1 ≤ j → j < k →
        bodyRadius < Vec3.length (Integrator.rk4Iterate initialState dt f j).position := by
      intro j hj1 hjk
      by_contra hc
      exact hfirst j hj1 hjk ⟨hbud j hj1 hjk.le, not_lt.mp hc⟩
    have hloop := Integrator.predictLoop_of_first_collision duration dt f bodyRadius hR maxSteps
      0.0 initialState k hk1 hkn
      (by
        intro j hj1 hjk
        have := hbud j hj1 hjk
        norm_num
        exact this)
      hcoll hclear
    have htraj : Integrator.predictTrajectory initialState duration dt maxSteps f bodyRadius =
        (List.range (k + 1)).map
          (fun i => (Integrator.rk4Iterate initialState dt f i).position) := by
      unfold Integrator.predictTrajectory
      rw [hloop, Integrator.range_map_eq_cons]
      rfl
    refine ⟨htraj, ?_, ?_⟩
    · rw [htraj, List.range_succ, List.map_append, List.map_singleton]
      simp
    · intro i hi0 hik
      refine ⟨?_, hclear i hi0 hik⟩
      rw [htraj]
      simp [List.getElem?_map, List.getElem?_range, show i < k + 1 by omega]

/-- Witness for the amended C11: the force-free state at `(2, 0, 0)` moving
with velocity `(1, 0, 0)` and `dt = -1` reaches the body of radius `1/2` at
the second iterate when `duration = 10`; with `duration = -1/2` the result is
still non-empty, starts at the initial position and has at most
`maxSteps + 1` elements. -/
theorem predictTrajectory_ends_at_first_collision_witness :
    Integrator.predictTrajectory Sample.approachState 10 (-1) 5 Sample.coastDerivatives (1 / 2) =
      (List.range (2 + 1)).map
        (fun i => (Integrator.rk4Iterate Sample.approachState (-1)
          Sample.coastDerivatives i).position) ∧
    (Integrator.predictTrajectory Sample.approachState 10 (-1) 5 Sample.coastDerivatives
      (1 / 2)).getLast? =
      some (Integrator.rk4Iterate Sample.approachState (-1) Sample.coastDerivatives 2).position ∧
    Integrator.predictTrajectory Sample.approachState (-1 / 2) (-1) 2 Sample.coastDerivatives
      (1 / 2) ≠ [] ∧
    (Integrator.predictTrajectory Sample.approachState (-1 / 2) (-1) 2 Sample.coastDerivatives
      (1 / 2)).head? = some Sample.approachState.position ∧
    (Integrator.predictTrajectory Sample.approachState (-1 / 2) (-1) 2 Sample.coastDerivatives
      (1 / 2)).length ≤ 2 + 1 :=
  have h := (predictTrajectory_ends_at_first_collision Sample.approachState 10 (-1) 5
    Sample.coastDerivatives (1 / 2) (by norm_num)).2.2.2 (Or.inr (by norm_num)) 2
    (by norm_num) (by norm_num) (by norm_num)
    (by rw [Integrator.approach_iterate_two, Integrator.length_origin]; norm_num)
    (by
      intro j hj1 hj2
      have hj : j = 1 := by omega
      subst hj
      rw [Integrator.approach_iterate_one, Integrator.length_unitX]
      norm_num)
  have g := predictTrajectory_ends_at_first_collision Sample.approachState (-1 / 2) (-1) 2
    Sample.coastDerivatives (1 / 2) (by norm_num)
  ⟨h.1, h.2.1, g.1, g.2.1, g.2.2.1⟩


/-! ## Physics tick: derivative function -/

namespace Application

theorem thrustAccel_eq_thrust_over_mass (sc : Spacecraft) :
    thrustAccel sc = Vec3.divs (Spacecraft.computeThrustVector sc) sc.m_state.mass := by
  unfold thrustAccel
  split_ifs with h
  · rfl
  · have hg : sc.m_throttle < 1e-10 ∨ ¬ Spacecraft.hasFuel sc := by
      by_cases hf : Spacecraft.hasFuel sc
      · left
        have h0 : ¬ sc.m_throttle > 0.0 := fun ht => h ⟨ht, hf⟩
        have : sc.m_throttle ≤ 0 := by
          have := not_lt.mp h0
          norm_num at this
          exact this
        exact lt_of_le_of_lt this (by norm_num)
      · exact Or.inr hf
    unfold Spacecraft.computeThrustVector
    rw [if_pos hg]
    ext <;> simp [Vec3.divs, Vec3.zero]

theorem gravity_of_far (state : SpacecraftState) (h : 1 < Vec3.length state.position) :
    (computeDerivatives state).1 =
      Vec3.lscale (-(Constants.MOON_MU / Vec3.length state.position ^ 3)) state.position := by
  unfold computeDerivatives
  have h1 : Vec3.length state.position > 1.0 := by norm_num; exact h
  simp only [if_pos h1]
  ext <;> simp [Vec3.divs, Vec3.lscale] <;> ring

end Application

/-- C14: `Application::computeDerivatives` reports the acceleration
`-MOON_MU * position / |position|^3` when `|position| > 1` and the zero vector
otherwise, and the state's velocity as position derivative; for
`|position| > 1` the acceleration is a negative multiple of the position with
magnitude `MOON_MU / |position|^2`.  In one iteration of the tick the
derivative function handed to `Integrator::step` reports, at every state it
is evaluated on, that acceleration plus `computeThrustVector() / mass` taken
before the step (and before fuel is depleted). -/
theorem tick_derivative_is_gravity_plus_fixed_thrust (state : SpacecraftState) (sc : Spacecraft)
    (integratorType : IntegratorType) :
    (Application.computeDerivatives state).1 =
      (if Vec3.length state.position > 1 then
        Vec3.divs (Vec3.lscale (-Constants.MOON_MU) state.position)
          (Vec3.length state.position ^ 3)
      else Vec3.zero) ∧
    (Application.computeDerivatives state).2 = state.velocity ∧
    (Vec3.length state.position > 1 →
      (Application.computeDerivatives state).1 =
        Vec3.lscale (-(Constants.MOON_MU / Vec3.length state.position ^ 3)) state.position ∧
      0 < Constants.MOON_MU / Vec3.length state.position ^ 3 ∧
      Vec3.length (Application.computeDerivatives state).1 =
        Constants.MOON_MU / Vec3.length state.position ^ 2) ∧
    (Application.integrateStep sc integratorType).m_state =
      Integrator.step
        (if sc.m_throttle > 0 ∧ Spacecraft.hasFuel sc then
          (Spacecraft.applyThrust sc Constants.FIXED_TIMESTEP).2 else sc).m_state
        Constants.FIXED_TIMESTEP integratorType
        (fun s => (Vec3.add (Application.computeDerivatives s).1
            (Vec3.divs (Spacecraft.computeThrustVector sc) sc.m_state.mass), s.velocity)) := by
  refine ⟨?_, rfl, ?_, ?_⟩
  · unfold Application.computeDerivatives
    have h1 : (1.0 : ℝ) = 1 := by norm_num
    simp only [h1]
    split_ifs
    · ext <;> simp [Vec3.divs, Vec3.lscale] <;> ring
    · rfl
  · intro h
    have hpos : 0 < Vec3.length state.position := lt_trans one_pos h
    have hk : 0 < Constants.MOON_MU / Vec3.length state.position ^ 3 := by
      unfold Constants.MOON_MU
      positivity
    refine ⟨Application.gravity_of_far state h, hk, ?_⟩
    rw [Application.gravity_of_far state h]
    have hneg : Vec3.lscale (-(Constants.MOON_MU / Vec3.length state.position ^ 3))
        state.position =
        Vec3.neg (Vec3.lscale (Constants.MOON_MU / Vec3.length state.position ^ 3)
          state.position) := by
      ext <;> simp [Vec3.lscale, Vec3.neg]
    rw [hneg, Vec3.length_neg, Vec3.length_lscale _ _ hk.le]
    field_simp
    ring
  · unfold Application.integrateStep
    have h0 : (0.0 : ℝ) = 0 := by norm_num
    simp only [h0, Application.thrustAccel_eq_thrust_over_mass]
    rfl

/-- Witness for C14: a state at distance 2 from the centre. -/
theorem tick_derivative_is_gravity_plus_fixed_thrust_witness :
    (Application.computeDerivatives Sample.approachState).1 =
        Vec3.lscale (-(Constants.MOON_MU / Vec3.length Sample.approachState.position ^ 3))
          Sample.approachState.position ∧
      0 < Constants.MOON_MU / Vec3.length Sample.approachState.position ^ 3 ∧
      Vec3.length (Application.computeDerivatives Sample.approachState).1 =
        Constants.MOON_MU / Vec3.length Sample.approachState.position ^ 2 :=
  (tick_derivative_is_gravity_plus_fixed_thrust Sample.approachState Sample.coasting
    IntegratorType.RK4).2.2.1
    (by
      have h : Vec3.length Sample.approachState.position = 2 :=
        Orbit.length_eq_of_dot_eq_sq _ 2 (by norm_num)
          (by norm_num [Vec3.dot, Sample.approachState])
      rw [h]
      norm_num)

/-! ## Simulation clock -/

namespace Time

theorem stdClampInt_eq (w : ℤ) : stdClampInt w 1 Constants.MAX_TIME_WARP = max 1 (min w 100) := by
  unfold stdClampInt Constants.MAX_TIME_WARP
  split_ifs with h1 h2
  · omega
  · omega
  · omega

theorem stdClampInt_bounds (w : ℤ) :
    1 ≤ stdClampInt w 1 Constants.MAX_TIME_WARP ∧ stdClampInt w 1 Constants.MAX_TIME_WARP ≤ 100 := by
  rw [stdClampInt_eq]
  omega

theorem setTimeWarp_timeWarp (t : Time) (w : ℤ) :
    (setTimeWarp t w).m_timeWarp = stdClampInt w 1 Constants.MAX_TIME_WARP := by
  unfold setTimeWarp
  dsimp only
  split <;> rfl

/-- The index `setTimeWarp` stores when the clamped value is the table entry
at `i`. -/
theorem setTimeWarp_index_of_level (t : Time) (w i : ℤ) (hi0 : 0 ≤ i) (hi5 : i ≤ 5)
    (h : stdClampInt w 1 Constants.MAX_TIME_WARP = TIME_WARP_LEVELS i) :
    (setTimeWarp t w).m_warpLevelIndex = i := by
  unfold setTimeWarp
  dsimp only
  rw [h]
  have hcases : i = 0 ∨ i = 1 ∨ i = 2 ∨ i = 3 ∨ i = 4 ∨ i = 5 := by omega
  rcases hcases with rfl | rfl | rfl | rfl | rfl | rfl <;>
    simp [findWarpLevel, TIME_WARP_LEVELS]

theorem setTimeWarp_index_of_not_level (t : Time) (w : ℤ)
    (h : ¬ IsWarpLevel (stdClampInt w 1 Constants.MAX_TIME_WARP)) :
    (setTimeWarp t w).m_warpLevelIndex = t.m_warpLevelIndex := by
  have hn : findWarpLevel (stdClampInt w 1 Constants.MAX_TIME_WARP) 6 0 = none := by
    unfold IsWarpLevel at h
    push_neg at h
    obtain ⟨h1, h2, h3, h4, h5, h6⟩ := h
    simp [findWarpLevel, TIME_WARP_LEVELS, Ne.symm h1, Ne.symm h2, Ne.symm h3, Ne.symm h4,
      Ne.symm h5, Ne.symm h6]
  unfold setTimeWarp
  dsimp only
  rw [hn]

theorem isWarpLevel_iff (w : ℤ) :
    IsWarpLevel w ↔ ∃ i : ℤ, 0 ≤ i ∧ i ≤ 5 ∧ w = TIME_WARP_LEVELS i := by
  constructor
  · rintro (h | h | h | h | h | h)
    · exact ⟨0, by norm_num, by norm_num, by rw [h]; rfl⟩
    · exact ⟨1, by norm_num, by norm_num, by rw [h]; rfl⟩
    · exact ⟨2, by norm_num, by norm_num, by rw [h]; rfl⟩
    · exact ⟨3, by norm_num, by norm_num, by rw [h]; rfl⟩
    · exact ⟨4, by norm_num, by norm_num, by rw [h]; rfl⟩
    · exact ⟨5, by norm_num, by norm_num, by rw [h]; rfl⟩
  · rintro ⟨i, hi0, hi5, h⟩
    have hcases : i = 0 ∨ i = 1 ∨ i = 2 ∨ i = 3 ∨ i = 4 ∨ i = 5 := by omega
    unfold IsWarpLevel
    rcases hcases with rfl | rfl | rfl | rfl | rfl | rfl <;> simp [h, TIME_WARP_LEVELS]

theorem level_bounds (i : ℤ) (hi0 : 0 ≤ i) (hi5 : i ≤ 5) :
    1 ≤ TIME_WARP_LEVELS i ∧ TIME_WARP_LEVELS i ≤ 100 := by
  have hcases : i = 0 ∨ i = 1 ∨ i = 2 ∨ i = 3 ∨ i = 4 ∨ i = 5 := by omega
  rcases hcases with rfl | rfl | rfl | rfl | rfl | rfl <;> simp [TIME_WARP_LEVELS]

end Time

namespace Time

theorem init_inRange (t : Time) (now : ℝ) : InRange (init t now) := by
  unfold InRange init
  norm_num

theorem setTimeWarp_inRange (t : Time) (w : ℤ) (h : InRange t) : InRange (setTimeWarp t w) := by
  obtain ⟨h0, h5, _, _⟩ := h
  have hb := stdClampInt_bounds w
  unfold InRange
  rw [setTimeWarp_timeWarp]
  by_cases hl : IsWarpLevel (stdClampInt w 1 Constants.MAX_TIME_WARP)
  · obtain ⟨i, hi0, hi5, hi⟩ := (isWarpLevel_iff _).mp hl
    rw [setTimeWarp_index_of_level t w i hi0 hi5 hi]
    exact ⟨hi0, hi5, hb.1, hb.2⟩
  · rw [setTimeWarp_index_of_not_level t w hl]
    exact ⟨h0, h5, hb.1, hb.2⟩

theorem increaseTimeWarp_inRange (t : Time) (h : InRange t) : InRange (increaseTimeWarp t) := by
  obtain ⟨h0, h5, h1, h100⟩ := h
  unfold increaseTimeWarp NUM_WARP_LEVELS
  split_ifs with hc
  · have hb := level_bounds (t.m_warpLevelIndex + 1) (by omega) (by omega)
    exact ⟨by show 0 ≤ t.m_warpLevelIndex + 1; omega, by show t.m_warpLevelIndex + 1 ≤ 5; omega,
      hb.1, hb.2⟩
  · exact ⟨h0, h5, h1, h100⟩

theorem decreaseTimeWarp_inRange (t : Time) (h : InRange t) : InRange (decreaseTimeWarp t) := by
  obtain ⟨h0, h5, h1, h100⟩ := h
  unfold decreaseTimeWarp
  split_ifs with hc
  · have hb := level_bounds (t.m_warpLevelIndex - 1) (by omega) (by omega)
    exact ⟨by show 0 ≤ t.m_warpLevelIndex - 1; omega, by show t.m_warpLevelIndex - 1 ≤ 5; omega,
      hb.1, hb.2⟩
  · exact ⟨h0, h5, h1, h100⟩

theorem run_inRange (t : Time) (op : Op) (h : InRange t) : InRange (Op.run t op) := by
  cases op with
  | setTimeWarp warp => exact setTimeWarp_inRange t warp h
  | increaseTimeWarp => exact increaseTimeWarp_inRange t h
  | decreaseTimeWarp => exact decreaseTimeWarp_inRange t h
  | togglePause => exact h
  | setPaused paused => exact h
  | update now => exact h
  | reset => exact h

theorem runOps_inRange (ops : List Op) (t : Time) (h : InRange t) : InRange (runOps t ops) := by
  induction ops generalizing t with
  | nil => exact h
  | cons op rest ih => exact ih (Op.run t op) (run_inRange t op h)

theorem run_isWarpLevel (t : Time) (op : Op) (hr : InRange t) (hl : IsWarpLevel t.m_timeWarp)
    (hop : Op.snapsToLevel op) : IsWarpLevel (Op.run t op).m_timeWarp := by
  obtain ⟨h0, h5, _, _⟩ := hr
  cases op with
  | setTimeWarp warp =>
      show IsWarpLevel (setTimeWarp t warp).m_timeWarp
      rw [setTimeWarp_timeWarp]
      exact hop
  | increaseTimeWarp =>
      show IsWarpLevel (increaseTimeWarp t).m_timeWarp
      unfold increaseTimeWarp NUM_WARP_LEVELS
      split_ifs with hc
      · exact (isWarpLevel_iff _).mpr ⟨t.m_warpLevelIndex + 1, by omega, by omega, rfl⟩
      · exact hl
  | decreaseTimeWarp =>
      show IsWarpLevel (decreaseTimeWarp t).m_timeWarp
      unfold decreaseTimeWarp
      split_ifs with hc
      · exact (isWarpLevel_iff _).mpr ⟨t.m_warpLevelIndex - 1, by omega, by omega, rfl⟩
      · exact hl
  | togglePause => exact hl
  | setPaused paused => exact hl
  | update now => exact hl
  | reset => exact hl

theorem runOps_isWarpLevel (ops : List Op) (t : Time) (hr : InRange t)
    (hl : IsWarpLevel t.m_timeWarp) (hops : ∀ op ∈ ops, Op.snapsToLevel op) :
    IsWarpLevel (runOps t ops).m_timeWarp := by
  induction ops generalizing t with
  | nil => exact hl
  | cons op rest ih =>
      exact ih (Op.run t op) (run_inRange t op hr)
        (run_isWarpLevel t op hr hl (hops op (List.mem_cons_self _ _)))
        (fun o ho => hops o (List.mem_cons_of_mem _ ho))

theorem increaseTimes_of_le (t0 : Time) (now : ℝ) (k : ℕ) (hk : k ≤ 5) :
    (increaseTimes (init t0 now) k).m_warpLevelIndex = k ∧
    (increaseTimes (init t0 now) k).m_timeWarp = TIME_WARP_LEVELS k := by
  induction k with
  | zero => exact ⟨rfl, rfl⟩
  | succ k ih =>
      obtain ⟨hi, _⟩ := ih (by omega)
      have hlt : (increaseTimes (init t0 now) k).m_warpLevelIndex < NUM_WARP_LEVELS - 1 := by
        rw [hi]
        unfold NUM_WARP_LEVELS
        omega
      show (increaseTimeWarp (increaseTimes (init t0 now) k)).m_warpLevelIndex = _ ∧
        (increaseTimeWarp (increaseTimes (init t0 now) k)).m_timeWarp = _
      unfold increaseTimeWarp
      rw [if_pos hlt]
      simp only [hi]
      push_cast
      exact ⟨rfl, rfl⟩

theorem increaseTimes_of_ge (t0 : Time) (now : ℝ) (k : ℕ) (hk : 5 ≤ k) :
    (increaseTimes (init t0 now) k).m_warpLevelIndex = 5 ∧
    (increaseTimes (init t0 now) k).m_timeWarp = 100 := by
  induction k with
  | zero => omega
  | succ k ih =>
      rcases Nat.eq_or_lt_of_le hk with h5 | h5
      · have := increaseTimes_of_le t0 now 5 le_rfl
        rw [← h5]
        exact ⟨this.1, this.2⟩
      · obtain ⟨hi, hw⟩ := ih (by omega)
        have hnlt : ¬ (increaseTimes (init t0 now) k).m_warpLevelIndex < NUM_WARP_LEVELS - 1 := by
          rw [hi]
          unfold NUM_WARP_LEVELS
          omega
        show (increaseTimeWarp (increaseTimes (init t0 now) k)).m_warpLevelIndex = _ ∧
          (increaseTimeWarp (increaseTimes (init t0 now) k)).m_timeWarp = _
        unfold increaseTimeWarp
        rw [if_neg hnlt]
        exact ⟨hi, hw⟩

end Time

/-- C16: starting from `Time::init()`, after `k` calls of `increaseTimeWarp()`
the time-warp is the `k`-th entry of `1, 2, 5, 10, 50, 100` for `k = 0..5` (and
the level index is `k`), every further call leaves it at 100, and
`decreaseTimeWarp()` at level index 0 changes nothing. -/
theorem timeWarp_stepping_from_init (t0 : Time) (now : ℝ) :
    (∀ k : ℕ, k ≤ 5 →
      ([1, 2, 5, 10, 50, 100] : List ℤ)[k]? =
        some (Time.increaseTimes (Time.init t0 now) k).m_timeWarp ∧
      (Time.increaseTimes (Time.init t0 now) k).m_warpLevelIndex = k) ∧
    (Time.increaseTimes (Time.init t0 now) 5).m_timeWarp = 100 ∧
    (∀ k : ℕ, 5 ≤ k → (Time.increaseTimes (Time.init t0 now) k).m_timeWarp = 100) ∧
    Time.decreaseTimeWarp (Time.init t0 now) = Time.init t0 now ∧
    (∀ t : Time, t.m_warpLevelIndex = 0 → Time.decreaseTimeWarp t = t) := by
  refine ⟨?_, (Time.increaseTimes_of_ge t0 now 5 le_rfl).2,
    fun k hk => (Time.increaseTimes_of_ge t0 now k hk).2, ?_, ?_⟩
  · intro k hk
    obtain ⟨hi, hw⟩ := Time.increaseTimes_of_le t0 now k hk
    refine ⟨?_, hi⟩
    rw [hw]
    interval_cases k <;> simp [Time.TIME_WARP_LEVELS]
  · unfold Time.decreaseTimeWarp
    rw [if_neg]
    show ¬ ((0 : ℤ) > 0)
    norm_num
  · intro t ht
    unfold Time.decreaseTimeWarp
    rw [if_neg]
    rw [ht]
    norm_num

/-- Witness for C16: three steps up from a fresh clock give 10, and stepping
down at index 0 changes nothing. -/
theorem timeWarp_stepping_from_init_witness :
    (([1, 2, 5, 10, 50, 100] : List ℤ)[3]? =
        some (Time.increaseTimes (Time.init {} 0) 3).m_timeWarp ∧
      (Time.increaseTimes (Time.init {} 0) 3).m_warpLevelIndex = ((3 : ℕ) : ℤ)) ∧
    Time.decreaseTimeWarp Sample.freshClock = Sample.freshClock :=
  ⟨(timeWarp_stepping_from_init {} 0).1 3 (by norm_num),
   (timeWarp_stepping_from_init {} 0).2.2.2.2 Sample.freshClock rfl⟩

/-- C17: for every integer `w`, after `Time::setTimeWarp(w)` the time-warp is
`max(1, min(w, 100))`; and when that value is the table entry at index `i` (one
of 1, 2, 5, 10, 50, 100) the level index is `i`, so that a following
`increaseTimeWarp()` yields the entry at `min(i+1, 5)` and a following
`decreaseTimeWarp()` the entry at `max(i-1, 0)`. -/
theorem setTimeWarp_clamps_and_snaps (t : Time) (w : ℤ) :
    (Time.setTimeWarp t w).m_timeWarp = max 1 (min w 100) ∧
    ∀ i : ℤ, 0 ≤ i → i ≤ 5 → max 1 (min w 100) = Time.TIME_WARP_LEVELS i →
      (Time.setTimeWarp t w).m_warpLevelIndex = i ∧
      (Time.increaseTimeWarp (Time.setTimeWarp t w)).m_timeWarp =
        Time.TIME_WARP_LEVELS (min (i + 1) 5) ∧
      (Time.decreaseTimeWarp (Time.setTimeWarp t w)).m_timeWarp =
        Time.TIME_WARP_LEVELS (max (i - 1) 0) := by
  have hw : (Time.setTimeWarp t w).m_timeWarp = max 1 (min w 100) := by
    rw [Time.setTimeWarp_timeWarp, Time.stdClampInt_eq]
  refine ⟨hw, ?_⟩
  intro i hi0 hi5 hi
  have hidx : (Time.setTimeWarp t w).m_warpLevelIndex = i :=
    Time.setTimeWarp_index_of_level t w i hi0 hi5 (by rw [Time.stdClampInt_eq]; exact hi)
  refine ⟨hidx, ?_, ?_⟩
  · unfold Time.increaseTimeWarp Time.NUM_WARP_LEVELS
    split_ifs with hc
    · show Time.TIME_WARP_LEVELS ((Time.setTimeWarp t w).m_warpLevelIndex + 1) = _
      rw [hidx] at hc ⊢
      rw [min_eq_left (by omega)]
    · rw [hidx] at hc
      have h5 : i = 5 := by omega
      rw [hw, hi, h5]
      rfl
  · unfold Time.decreaseTimeWarp
    split_ifs with hc
    · show Time.TIME_WARP_LEVELS ((Time.setTimeWarp t w).m_warpLevelIndex - 1) = _
      rw [hidx] at hc ⊢
      rw [max_eq_left (by omega)]
    · rw [hidx] at hc
      have h0 : i = 0 := by omega
      rw [hw, hi, h0]
      rfl

/-- Witness for C17: `setTimeWarp(10)` on a fresh clock. -/
theorem setTimeWarp_clamps_and_snaps_witness :
    (Time.setTimeWarp Sample.freshClock 10).m_warpLevelIndex = 3 ∧
    (Time.increaseTimeWarp (Time.setTimeWarp Sample.freshClock 10)).m_timeWarp =
      Time.TIME_WARP_LEVELS (min (3 + 1) 5) ∧
    (Time.decreaseTimeWarp (Time.setTimeWarp Sample.freshClock 10)).m_timeWarp =
      Time.TIME_WARP_LEVELS (max (3 - 1) 0) :=
  (setTimeWarp_clamps_and_snaps Sample.freshClock 10).2 3 (by norm_num) (by norm_num)
    (by simp [Time.TIME_WARP_LEVELS])

/-- C18 (counterexample): after `init()` and `setTimeWarp(3)` the time-warp is
3, which is none of the levels 1, 2, 5, 10, 50, 100. -/
theorem setTimeWarp_three_leaves_the_levels :
    (Time.runOps Sample.freshClock [Time.Op.setTimeWarp 3]).m_timeWarp = 3 ∧
    ¬ Time.IsWarpLevel (Time.runOps Sample.freshClock [Time.Op.setTimeWarp 3]).m_timeWarp := by
  have h : (Time.runOps Sample.freshClock [Time.Op.setTimeWarp 3]).m_timeWarp = 3 := by
    show (Time.setTimeWarp Sample.freshClock 3).m_timeWarp = 3
    rw [Time.setTimeWarp_timeWarp]
    simp [stdClampInt, Constants.MAX_TIME_WARP]
  refine ⟨h, ?_⟩
  rw [h]
  unfold Time.IsWarpLevel
  omega

/-- C18 (amended): in every clock state reachable from `Time::init()` by a
finite sequence of `setTimeWarp`, `increaseTimeWarp`, `decreaseTimeWarp`,
`togglePause`, `setPaused`, `update` and `reset`, the time-warp lies in
`1..100`; and when every `setTimeWarp` argument, clamped to `[1, 100]`, is one
of the levels, the time-warp is one of 1, 2, 5, 10, 50, 100. -/
theorem timeWarp_is_level_when_arguments_snap (t0 : Time) (now : ℝ) (ops : List Time.Op) :
    (1 ≤ (Time.runOps (Time.init t0 now) ops).m_timeWarp ∧
      (Time.runOps (Time.init t0 now) ops).m_timeWarp ≤ 100) ∧
    ((∀ op ∈ ops, Time.Op.snapsToLevel op) →
      Time.IsWarpLevel (Time.runOps (Time.init t0 now) ops).m_timeWarp) := by
  have hr := Time.runOps_inRange ops _ (Time.init_inRange t0 now)
  refine ⟨⟨hr.2.2.1, hr.2.2.2⟩, ?_⟩
  intro hops
  exact Time.runOps_isWarpLevel ops _ (Time.init_inRange t0 now) (Or.inl rfl) hops

/-- Witness for the amended C18: `setTimeWarp(700)`, which clamps to 100,
followed by one step down. -/
theorem timeWarp_is_level_when_arguments_snap_witness :
    Time.IsWarpLevel (Time.runOps (Time.init {} 0)
      [Time.Op.setTimeWarp 700, Time.Op.decreaseTimeWarp]).m_timeWarp :=
  (timeWarp_is_level_when_arguments_snap {} 0
    [Time.Op.setTimeWarp 700, Time.Op.decreaseTimeWarp]).2
    (by
      intro op hop
      simp only [List.mem_cons, List.mem_singleton, List.not_mem_nil, or_false] at hop
      rcases hop with rfl | rfl
      · show Time.IsWarpLevel (stdClampInt 700 1 Constants.MAX_TIME_WARP)
        simp [stdClampInt, Constants.MAX_TIME_WARP, Time.IsWarpLevel]
      · trivial)

/-- C19: with the clock reading `now` as input and `now >=` the previous
reading, `Time::update()` sets `deltaTime = min(now - lastFrameTime, 0.25)` and
`frameTime = deltaTime * 1000`; when not paused `simulationTime` grows by
`deltaTime * timeWarp`, when paused it is unchanged.  With a non-negative
time-warp (it is at least 1 in every reachable state) one update never
advances `simulationTime` by more than `0.25 * timeWarp` and never decreases
it. -/
theorem update_clamps_delta_and_advances_time (t : Time) (now : ℝ)
    (hnow : now ≥ t.m_lastFrameTime) :
    (Time.update t now).m_deltaTime = min (now - t.m_lastFrameTime) 0.25 ∧
    (Time.update t now).m_frameTime = (Time.update t now).m_deltaTime * 1000 ∧
    (t.m_paused = false → (Time.update t now).m_simulationTime =
      t.m_simulationTime + (Time.update t now).m_deltaTime * (t.m_timeWarp : ℝ)) ∧
    (t.m_paused = true → (Time.update t now).m_simulationTime = t.m_simulationTime) ∧
    (0 ≤ t.m_timeWarp →
      (Time.update t now).m_simulationTime ≤ t.m_simulationTime + 0.25 * (t.m_timeWarp : ℝ) ∧
      t.m_simulationTime ≤ (Time.update t now).m_simulationTime) := by
  have hd : (Time.update t now).m_deltaTime = min (now - t.m_lastFrameTime) 0.25 := by
    show stdMin (now - t.m_lastFrameTime) 0.25 = _
    rw [stdMin_eq_min]
  have hsim : (Time.update t now).m_simulationTime =
      if ¬ t.m_paused then
        t.m_simulationTime + (Time.update t now).m_deltaTime * (t.m_timeWarp : ℝ)
      else t.m_simulationTime := rfl
  have hd0 : 0 ≤ (Time.update t now).m_deltaTime := by
    rw [hd]
    exact le_min (by linarith) (by norm_num)
  have hd1 : (Time.update t now).m_deltaTime ≤ 0.25 := by
    rw [hd]
    exact min_le_right _ _
  refine ⟨hd, ?_, ?_, ?_, ?_⟩
  · show stdMin (now - t.m_lastFrameTime) 0.25 * 1000.0 =
      stdMin (now - t.m_lastFrameTime) 0.25 * 1000
    norm_num
  · intro hp
    rw [hsim, hp]
    simp
  · intro hp
    rw [hsim, hp]
    simp
  · intro hw
    have hw' : (0 : ℝ) ≤ (t.m_timeWarp : ℝ) := by exact_mod_cast hw
    rw [hsim]
    have hup := mul_le_mul_of_nonneg_right hd1 hw'
    have hlo := mul_nonneg hd0 hw'
    have hq : (0 : ℝ) ≤ 0.25 * (t.m_timeWarp : ℝ) := by positivity
    split_ifs <;> constructor <;> linarith

/-- Witness for C19: a fresh clock updated at reading 1. -/
theorem update_clamps_delta_and_advances_time_witness :
    (Time.update Sample.freshClock 1).m_deltaTime =
      min (1 - Sample.freshClock.m_lastFrameTime) 0.25 ∧
    (Time.update Sample.freshClock 1).m_simulationTime =
      Sample.freshClock.m_simulationTime +
        (Time.update Sample.freshClock 1).m_deltaTime * (Sample.freshClock.m_timeWarp : ℝ) :=
  have h := update_clamps_delta_and_advances_time Sample.freshClock 1
    (by norm_num [Sample.freshClock, Time.init])
  ⟨h.1, h.2.2.1 rfl⟩

/-- C20: `Time::reset()` sets `simulationTime` and the accumulator to 0 and
leaves the time-warp, the level index, the paused flag, `deltaTime`, `realTime`
and every other member as they were. -/
theorem reset_zeroes_time_and_accumulator_only (t : Time) :
    (Time.reset t).m_simulationTime = 0 ∧ (Time.reset t).m_accumulator = 0 ∧
    (Time.reset t).m_timeWarp = t.m_timeWarp ∧
    (Time.reset t).m_warpLevelIndex = t.m_warpLevelIndex ∧
    (Time.reset t).m_paused = t.m_paused ∧
    (Time.reset t).m_deltaTime = t.m_deltaTime ∧
    (Time.reset t).m_realTime = t.m_realTime ∧
    (Time.reset t).m_startTime = t.m_startTime ∧
    (Time.reset t).m_lastFrameTime = t.m_lastFrameTime ∧
    (Time.reset t).m_frameTime = t.m_frameTime ∧
    (Time.reset t).m_physicsTime = t.m_physicsTime ∧
    (Time.reset t).m_renderTime = t.m_renderTime := by
  refine ⟨?_, ?_, rfl, rfl, rfl, rfl, rfl, rfl, rfl, rfl, rfl, rfl⟩
  · show (0.0 : ℝ) = 0
    norm_num
  · show (0.0 : ℝ) = 0
    norm_num
/-! ## RK4 on the circular orbit: energy and angular momentum -/

namespace Orbit

/-- The state `createCircularOrbit` returns has radius `bodyRadius + altitude`,
squared speed `mu / r` and no radial velocity. -/
theorem createCircularOrbit_state (altitude inclination raan trueAnomaly mu bodyRadius : ℝ)
    (hr : 0 < bodyRadius + altitude) (hmu : 0 < mu) :
    ∃ position velocity : Vec3,
      createCircularOrbit altitude inclination raan trueAnomaly mu bodyRadius =
        some (position, velocity) ∧
      Vec3.dot position position = (bodyRadius + altitude) ^ 2 ∧
      Vec3.dot velocity velocity = mu / (bodyRadius + altitude) ∧
      Vec3.dot position velocity = 0 := by
  have h0 : (0.0 : ℝ) = 0 := by norm_num
  obtain ⟨position, velocity, hstate, hP, hV, hB⟩ := state_invariants
    { semiMajorAxis := Dbl.fin (bodyRadius + altitude)
      eccentricity := 0.0
      inclination := inclination
      raan := raan
      argOfPeriapsis := 0.0
      trueAnomaly := trueAnomaly } mu (bodyRadius + altitude) rfl
    (by
      show 1 + (0.0 : ℝ) * Real.cos trueAnomaly ≠ 0
      rw [h0]; norm_num)
    (by
      show 0 < mu * ((bodyRadius + altitude) * (1 - (0.0 : ℝ) * 0.0))
      rw [h0]
      positivity)
  simp only [h0, zero_mul, sub_zero, mul_one, add_zero, div_one, mul_zero, zero_pow,
    ne_eq, OfNat.ofNat_ne_zero, not_false_eq_true] at hP hV hB
  refine ⟨position, velocity, hstate, hP, ?_, hB⟩
  rw [hV]
  have hr0 : bodyRadius + altitude ≠ 0 := ne_of_gt hr
  have hmu0 : mu ≠ 0 := ne_of_gt hmu
  field_simp
  ring

end Orbit

namespace Kepler

/-- bounds on the square root of a number near 1 -/
theorem sqrt_near_one (N : ℝ) (h : |N - 1| ≤ 1 / 100) :
    99 / 100 ≤ Real.sqrt N ∧ Real.sqrt N ≤ 101 / 100 ∧ Real.sqrt N * Real.sqrt N = N := by
  have hN := abs_le.mp h
  have hN0 : 0 ≤ N := by linarith
  have hsq : Real.sqrt N * Real.sqrt N = N := Real.mul_self_sqrt hN0
  have hr0 : 0 ≤ Real.sqrt N := Real.sqrt_nonneg N
  refine ⟨?_, ?_, hsq⟩
  · by_contra hc
    push_neg at hc
    nlinarith
  · by_contra hc
    push_neg at hc
    nlinarith

theorem inv_sqrt_cube_near_one (N : ℝ) (h : |N - 1| ≤ 1 / 100) :
    |1 / (Real.sqrt N * Real.sqrt N * Real.sqrt N) - 1| ≤ 2 * |N - 1| := by
  obtain ⟨hlo, hhi, hsq⟩ := sqrt_near_one N h
  set r := Real.sqrt N with hr
  have hr0 : 0 < r := by linarith
  have hid : 1 / (r * r * r) - 1 = -(N - 1) * ((1 + r + r * r) / ((r + 1) * (r * r * r))) := by
    rw [← hsq]
    field_simp
    ring
  rw [hid, abs_mul, abs_neg, mul_comm]
  have hq0 : 0 ≤ (1 + r + r * r) / ((r + 1) * (r * r * r)) := by positivity
  rw [abs_of_nonneg hq0]
  apply mul_le_mul_of_nonneg_right _ (abs_nonneg _)
  rw [div_le_iff₀ (by positivity)]
  nlinarith [mul_pos hr0 hr0, mul_pos (mul_pos hr0 hr0) hr0]

theorem inv_sqrt_near_one (N : ℝ) (h : |N - 1| ≤ 1 / 100) :
    |1 / Real.sqrt N - 1 + (N - 1) / 2| ≤ (N - 1) ^ 2 := by
  obtain ⟨hlo, hhi, hsq⟩ := sqrt_near_one N h
  set r := Real.sqrt N with hr
  have hr0 : 0 < r := by linarith
  have hid : 1 / r - 1 + (N - 1) / 2 = (N - 1) ^ 2 * ((r + 2) / (2 * r * (r + 1) ^ 2)) := by
    rw [← hsq]
    field_simp
    ring
  rw [hid, abs_mul, abs_of_nonneg (sq_nonneg _)]
  have hq0 : 0 ≤ (r + 2) / (2 * r * (r + 1) ^ 2) := by positivity
  rw [abs_of_nonneg hq0]
  have hq1 : (r + 2) / (2 * r * (r + 1) ^ 2) ≤ 1 := by
    rw [div_le_one (by positivity)]
    nlinarith [mul_pos hr0 hr0]
  calc (N - 1) ^ 2 * ((r + 2) / (2 * r * (r + 1) ^ 2)) ≤ (N - 1) ^ 2 * 1 :=
        mul_le_mul_of_nonneg_left hq1 (sq_nonneg _)
    _ = (N - 1) ^ 2 := mul_one _

/-- bounds on the coefficients -/
theorem coeffs_bounds (x y2 y3 y4 : ℝ) (hx : 0 < x) (hxX : x ≤ 32 / 10 ^ 11)
    (h2 : |y2 - x| ≤ 2 / 10 ^ 18) (h3 : |y3 - x| ≤ 2 / 10 ^ 18) (h4 : |y4 - x| ≤ 2 / 10 ^ 18) :
    |(1 - (coeffs x y2 y3 y4).α) - x / 2| ≤ 1 / 10 ^ 18 ∧
    |(1 - (coeffs x y2 y3 y4).δ) - x / 2| ≤ 2 / 10 ^ 18 ∧
    |(1 - (coeffs x y2 y3 y4).β) - x / 6| ≤ 1 / 10 ^ 18 ∧
    |(coeffs x y2 y3 y4).γ + x| ≤ 2 / 10 ^ 18 := by
  have h2' := abs_le.mp h2
  have h3' := abs_le.mp h3
  have h4' := abs_le.mp h4
  simp only [coeffs]
  refine ⟨?_, ?_, ?_, ?_⟩
  · rw [abs_le]; constructor <;> nlinarith [mul_pos hx hx]
  · rw [abs_le]; constructor <;> nlinarith [mul_pos hx hx]
  · rw [abs_le]; constructor <;> nlinarith [mul_pos hx hx]
  · rw [abs_le]; constructor <;> nlinarith [mul_pos hx hx]

theorem abs_mul_le_mul {u v U V : ℝ} (hu : |u| ≤ U) (hv : |v| ≤ V) : |u * v| ≤ U * V := by
  rw [abs_mul]
  exact mul_le_mul hu hv (abs_nonneg _) (le_trans (abs_nonneg _) hu)

theorem abs_add_le_add {u v U V : ℝ} (hu : |u| ≤ U) (hv : |v| ≤ V) : |u + v| ≤ U + V :=
  (abs_add u v).trans (add_le_add hu hv)

theorem abs_sub_le_add {u v U V : ℝ} (hu : |u| ≤ U) (hv : |v| ≤ V) : |u - v| ≤ U + V :=
  (abs_sub u v).trans (add_le_add hu hv)

theorem abs_const_mul_le {u U : ℝ} (k : ℝ) (hk : 0 ≤ k) (hu : |u| ≤ U) : |k * u| ≤ k * U := by
  rw [abs_mul, abs_of_nonneg hk]
  exact mul_le_mul_of_nonneg_left hu hk

/-- Polynomial part of the one-step analysis: with `α = 1 - a`, `β = 1 - c`,
`γ = -x - g`, `δ = 1 - e`. -/
theorem poly_bounds (x b w a c e g : ℝ)
    (hx : |x| ≤ 32 / 10 ^ 11) (hb : |b| ≤ 1 / 10 ^ 9) (hw : |w| ≤ 33 / 10 ^ 11)
    (ha1 : |a - x / 2| ≤ 1 / 10 ^ 18) (he1 : |e - x / 2| ≤ 2 / 10 ^ 18)
    (hc1 : |c - x / 6| ≤ 1 / 10 ^ 18) (hg : |g| ≤ 2 / 10 ^ 18) :
    |nrm b w (1 - a) (1 - c) - 1 - (2 * b + (w - x))| ≤ 5 / 10 ^ 18 ∧
    |mix b w (1 - a) (1 - c) (-x - g) (1 - e) - (b + (w - x))| ≤ 3 / 10 ^ 18 ∧
    |nrm b w (-x - g) (1 - e) - w| ≤ 9 / 10 ^ 19 ∧
    |(nrm b w (-x - g) (1 - e) - w) / 2 + x * (nrm b w (1 - a) (1 - c) - 1) / 2| ≤
      5 / 10 ^ 27 ∧
    |(1 - a) * (1 - e) - (1 - c) * (-x - g) - 1| ≤ 1 / 10 ^ 17 := by
  have hx2 : |x / 2| ≤ 16 / 10 ^ 11 := by
    rw [abs_div, abs_of_pos (by norm_num : (0 : ℝ) < 2)]
    linarith
  have hx6 : |x / 6| ≤ 6 / 10 ^ 11 := by
    rw [abs_div, abs_of_pos (by norm_num : (0 : ℝ) < 6)]
    linarith
  have ha : |a| ≤ 17 / 10 ^ 11 := by
    have : a = (a - x / 2) + x / 2 := by ring
    rw [this]
    exact (abs_add_le_add ha1 hx2).trans (by norm_num)
  have he : |e| ≤ 17 / 10 ^ 11 := by
    have : e = (e - x / 2) + x / 2 := by ring
    rw [this]
    exact (abs_add_le_add he1 hx2).trans (by norm_num)
  have hc : |c| ≤ 7 / 10 ^ 11 := by
    have : c = (c - x / 6) + x / 6 := by ring
    rw [this]
    exact (abs_add_le_add hc1 hx6).trans (by norm_num)
  have hxg : |x + g| ≤ 33 / 10 ^ 11 := (abs_add_le_add hx hg).trans (by norm_num)
  refine ⟨?_, ?_, ?_, ?_, ?_⟩
  · have hid : nrm b w (1 - a) (1 - c) - 1 - (2 * b + (w - x)) =
        (a * a - 2 * (a - x / 2)) + (2 * ((a * c - a - c) * b) + (c * c - 2 * c) * w) := by
      unfold nrm; ring
    rw [hid]
    exact (abs_add_le_add
      (abs_sub_le_add (abs_mul_le_mul ha ha) (abs_const_mul_le 2 (by norm_num) ha1))
      (abs_add_le_add
        (abs_const_mul_le 2 (by norm_num)
          (abs_mul_le_mul (abs_sub_le_add (abs_sub_le_add (abs_mul_le_mul ha hc) ha) hc) hb))
        (abs_mul_le_mul (abs_sub_le_add (abs_mul_le_mul hc hc)
          (abs_const_mul_le 2 (by norm_num) hc)) hw))).trans (by norm_num)
  · have hid : mix b w (1 - a) (1 - c) (-x - g) (1 - e) - (b + (w - x)) =
        (a * (x + g) - g) +
          ((a * e - a - e - (x + g) + c * (x + g)) * b + (c * e - c - e) * w) := by
      unfold mix; ring
    rw [hid]
    exact (abs_add_le_add
      (abs_sub_le_add (abs_mul_le_mul ha hxg) hg)
      (abs_add_le_add
        (abs_mul_le_mul
          (abs_add_le_add (abs_sub_le_add (abs_sub_le_add (abs_sub_le_add
            (abs_mul_le_mul ha he) ha) he) hxg) (abs_mul_le_mul hc hxg)) hb)
        (abs_mul_le_mul (abs_sub_le_add (abs_sub_le_add (abs_mul_le_mul hc he) hc) he)
          hw))).trans (by norm_num)
  · have hid : nrm b w (-x - g) (1 - e) - w =
        (x + g) * (x + g) + (2 * (((x + g) * e - (x + g)) * b) + (e * e - 2 * e) * w) := by
      unfold nrm; ring
    rw [hid]
    exact (abs_add_le_add (abs_mul_le_mul hxg hxg)
      (abs_add_le_add
        (abs_const_mul_le 2 (by norm_num)
          (abs_mul_le_mul (abs_sub_le_add (abs_mul_le_mul hxg he) hxg) hb))
        (abs_mul_le_mul (abs_sub_le_add (abs_mul_le_mul he he)
          (abs_const_mul_le 2 (by norm_num) he)) hw))).trans (by norm_num)
  · have hid : (nrm b w (-x - g) (1 - e) - w) / 2 + x * (nrm b w (1 - a) (1 - c) - 1) / 2 =
        (1 / 2) * ((2 * (x * g) - 2 * (x * (a - x / 2)) + g * g + x * (a * a)) +
          (2 * (((x + g) * e - g - x * (a + c - a * c)) * b) +
           (e * e - 2 * (e - x / 2) + x * (c * c - 2 * c)) * w)) := by
      unfold nrm; ring
    rw [hid]
    exact (abs_const_mul_le (1 / 2) (by norm_num)
      (abs_add_le_add
        (abs_add_le_add (abs_add_le_add
          (abs_sub_le_add (abs_const_mul_le 2 (by norm_num) (abs_mul_le_mul hx hg))
            (abs_const_mul_le 2 (by norm_num) (abs_mul_le_mul hx ha1)))
          (abs_mul_le_mul hg hg)) (abs_mul_le_mul hx (abs_mul_le_mul ha ha)))
        (abs_add_le_add
          (abs_const_mul_le 2 (by norm_num)
            (abs_mul_le_mul
              (abs_sub_le_add (abs_sub_le_add (abs_mul_le_mul hxg he) hg)
                (abs_mul_le_mul hx (abs_sub_le_add (abs_add_le_add ha hc)
                  (abs_mul_le_mul ha hc)))) hb))
          (abs_mul_le_mul
            (abs_add_le_add (abs_sub_le_add (abs_mul_le_mul he he)
              (abs_const_mul_le 2 (by norm_num) he1))
              (abs_mul_le_mul hx (abs_sub_le_add (abs_mul_le_mul hc hc)
                (abs_const_mul_le 2 (by norm_num) hc)))) hw)))).trans (by norm_num)
  · have hid : (1 - a) * (1 - e) - (1 - c) * (-x - g) - 1 =
        (a * e - (a - x / 2) - (e - x / 2)) + (g - c * (x + g)) := by ring
    rw [hid]
    exact (abs_add_le_add
      (abs_sub_le_add (abs_sub_le_add (abs_mul_le_mul ha he) ha1) he1)
      (abs_sub_le_add hg (abs_mul_le_mul hc hxg))).trans (by norm_num)

theorem yOf_near (x N : ℝ) (hx : 0 < x) (hN : |N - 1| ≤ 1 / 100) :
    0 < yOf x N ∧ |yOf x N - x| ≤ x * (2 * |N - 1|) := by
  obtain ⟨hlo, _, _⟩ := sqrt_near_one N hN
  have h3 := inv_sqrt_cube_near_one N hN
  have hr : 0 < Real.sqrt N := by linarith
  refine ⟨by unfold yOf; positivity, ?_⟩
  have hid : yOf x N - x = x * (1 / (Real.sqrt N * Real.sqrt N * Real.sqrt N) - 1) := by
    unfold yOf; ring
  rw [hid, abs_mul, abs_of_pos hx]
  exact mul_le_mul_of_nonneg_left h3 hx.le

theorem yOf_stage (x N : ℝ) (hx : 0 < x) (hxX : x ≤ 32 / 10 ^ 11) (hN : |N - 1| ≤ 3 / 10 ^ 9) :
    0 < yOf x N ∧ |yOf x N - x| ≤ 2 / 10 ^ 18 := by
  obtain ⟨h1, h2⟩ := yOf_near x N hx (hN.trans (by norm_num))
  refine ⟨h1, h2.trans ?_⟩
  have : x * (2 * |N - 1|) ≤ 32 / 10 ^ 11 * (2 * (3 / 10 ^ 9)) :=
    mul_le_mul hxX (by linarith) (by positivity) (by norm_num)
  exact this.trans (by norm_num)

theorem nrm_near (b w a c : ℝ) (hb : |b| ≤ 1 / 10 ^ 9) (hw : |w| ≤ 33 / 10 ^ 11)
    (ha : |a| ≤ 2 / 10 ^ 10) (hc : |c| ≤ 1) : |nrm b w (1 - a) c - 1| ≤ 3 / 10 ^ 9 := by
  have hid : nrm b w (1 - a) c - 1 =
      (a * a - 2 * a) + (2 * ((c - a * c) * b) + c * c * w) := by
    unfold nrm; ring
  rw [hid]
  exact (abs_add_le_add
    (abs_sub_le_add (abs_mul_le_mul ha ha) (abs_const_mul_le 2 (by norm_num) ha))
    (abs_add_le_add
      (abs_const_mul_le 2 (by norm_num)
        (abs_mul_le_mul (abs_sub_le_add hc (abs_mul_le_mul ha hc)) hb))
      (abs_mul_le_mul (abs_mul_le_mul hc hc) hw))).trans (by norm_num)

theorem abs_w_le (x w : ℝ) (hx : 0 < x) (hxX : x ≤ 32 / 10 ^ 11) (hd : |w - x| ≤ 9 / 10 ^ 14) :
    |w| ≤ 33 / 10 ^ 11 := by
  have h := abs_le.mp hd
  rw [abs_le]
  constructor <;> norm_num at h hxX ⊢ <;> linarith

/-- The three intermediate stages stay at a distance within `3e-9` (relative,
squared) of the start, and their gravity factors within `2e-18` of `x`. -/
theorem stage_bounds (x b w : ℝ) (hx : 0 < x) (hxX : x ≤ 32 / 10 ^ 11)
    (hb : |b| ≤ 1 / 10 ^ 9) (hd : |w - x| ≤ 9 / 10 ^ 14) :
    |nrm b w 1 (1 / 2) - 1| ≤ 3 / 10 ^ 9 ∧
    |nrm b w (1 - x / 4) (1 / 2) - 1| ≤ 3 / 10 ^ 9 ∧
    |nrm b w (1 - stageY2 x b w / 2) (1 - stageY2 x b w / 4) - 1| ≤ 3 / 10 ^ 9 ∧
    |stageY2 x b w - x| ≤ 2 / 10 ^ 18 ∧
    |stageY3 x b w - x| ≤ 2 / 10 ^ 18 ∧
    |stageY4 x b w - x| ≤ 2 / 10 ^ 18 := by
  have hw := abs_w_le x w hx hxX hd
  have hhalf : |(1 / 2 : ℝ)| ≤ 1 := by rw [abs_of_pos] <;> norm_num
  have h2 : |nrm b w 1 (1 / 2) - 1| ≤ 3 / 10 ^ 9 := by
    have h := nrm_near b w 0 (1 / 2) hb hw (by norm_num) hhalf
    rwa [sub_zero] at h
  have h3 : |nrm b w (1 - x / 4) (1 / 2) - 1| ≤ 3 / 10 ^ 9 := by
    refine nrm_near b w (x / 4) (1 / 2) hb hw ?_ hhalf
    rw [abs_of_pos (by positivity)]
    norm_num at hxX ⊢
    linarith
  obtain ⟨hy2p, hy2⟩ := yOf_stage x _ hx hxX h2
  obtain ⟨_, hy3⟩ := yOf_stage x _ hx hxX h3
  have hy2' := abs_le.mp hy2
  have h4 : |nrm b w (1 - stageY2 x b w / 2) (1 - stageY2 x b w / 4) - 1| ≤ 3 / 10 ^ 9 := by
    have e2 : yOf x (nrm b w 1 (1 / 2)) = stageY2 x b w := rfl
    rw [e2] at hy2p hy2'
    refine nrm_near b w (stageY2 x b w / 2) _ hb hw ?_ ?_
    · rw [abs_of_pos (by positivity)]
      norm_num at hxX hy2' ⊢
      linarith
    · rw [abs_le]
      norm_num at hxX hy2' ⊢
      constructor <;> linarith
  obtain ⟨_, hy4⟩ := yOf_stage x _ hx hxX h4
  exact ⟨h2, h3, h4, hy2, hy3, hy4⟩

/-- The scalar content of one step, from the bounds on its coefficients. -/
theorem step_core (x b w α β γ δ : ℝ) (hx : 0 < x) (hxX : x ≤ 32 / 10 ^ 11)
    (hb : |b| ≤ 1 / 10 ^ 9) (hd : |w - x| ≤ 9 / 10 ^ 14)
    (hα : |(1 - α) - x / 2| ≤ 1 / 10 ^ 18) (hδ : |(1 - δ) - x / 2| ≤ 2 / 10 ^ 18)
    (hβ : |(1 - β) - x / 6| ≤ 1 / 10 ^ 18) (hγ : |γ + x| ≤ 2 / 10 ^ 18) :
    |nrm b w α β - 1| ≤ 21 / 10 ^ 10 ∧
    |mix b w α β γ δ / nrm b w α β - b| ≤ 1 / 10 ^ 13 ∧
    |(nrm b w γ δ / nrm b w α β - yOf x (nrm b w α β)) - (w - x)| ≤ 9 / 10 ^ 18 ∧
    |(nrm b w γ δ / 2 - x / Real.sqrt (nrm b w α β)) - (w / 2 - x)| ≤ 7 / 10 ^ 27 ∧
    |α * δ - β * γ - 1| ≤ 1 / 10 ^ 17 ∧
    0 < yOf x (nrm b w α β) ∧ yOf x (nrm b w α β) ≤ x * (1 + 5 / 10 ^ 9) := by
  have hw := abs_w_le x w hx hxX hd
  have hxa : |x| ≤ 32 / 10 ^ 11 := by rwa [abs_of_pos hx]
  have hg : |-x - γ| ≤ 2 / 10 ^ 18 := by
    have : -x - γ = -(γ + x) := by ring
    rwa [this, abs_neg]
  have hp := poly_bounds x b w (1 - α) (1 - β) (1 - δ) (-x - γ) hxa hb hw hα hδ hβ hg
  have e1 : 1 - (1 - α) = α := by ring
  have e2 : 1 - (1 - β) = β := by ring
  have e3 : 1 - (1 - δ) = δ := by ring
  have e4 : -x - (-x - γ) = γ := by ring
  rw [e1, e2, e3, e4] at hp
  obtain ⟨t1, t2, t3, t4, t5⟩ := hp
  generalize nrm b w α β = Np at *
  generalize mix b w α β γ δ = Nb at *
  generalize nrm b w γ δ = Nv at *
  have hbd : |2 * b + (w - x)| ≤ 2 * (1 / 10 ^ 9) + 9 / 10 ^ 14 :=
    abs_add_le_add (abs_const_mul_le 2 (by norm_num) hb) hd
  have ha : |Np - 1| ≤ 21 / 10 ^ 10 := by
    have : Np - 1 = (Np - 1 - (2 * b + (w - x))) + (2 * b + (w - x)) := by ring
    rw [this]
    exact (abs_add_le_add t1 hbd).trans (by norm_num)
  have ha' := abs_le.mp ha
  have hNp : (99 / 100 : ℝ) ≤ Np := by norm_num at ha' ⊢; linarith
  have hNp0 : 0 < Np := by linarith
  obtain ⟨hyp, hy⟩ := yOf_near x Np hx (ha.trans (by norm_num))
  have hy1 : |yOf x Np - x| ≤ 32 / 10 ^ 11 * (2 * (21 / 10 ^ 10)) :=
    hy.trans (mul_le_mul hxX (by linarith) (by positivity) (by norm_num))
  refine ⟨ha, ?_, ?_, ?_, t5, hyp, ?_⟩
  · have hid : Nb / Np - b =
        ((Nb - (b + (w - x))) - b * (Np - 1 - (2 * b + (w - x))) +
          ((w - x) - 2 * (b * b) - b * (w - x))) / Np := by
      field_simp
      ring
    rw [hid, abs_div, abs_of_pos hNp0, div_le_iff₀ hNp0]
    have hnum := abs_add_le_add (abs_sub_le_add t2 (abs_mul_le_mul hb t1))
      (abs_sub_le_add (abs_sub_le_add hd (abs_const_mul_le 2 (by norm_num)
        (abs_mul_le_mul hb hb))) (abs_mul_le_mul hb hd))
    refine hnum.trans ?_
    norm_num at hNp ⊢
    linarith
  · have hid : (Nv / Np - yOf x Np) - (w - x) =
        ((Nv - w) - w * (Np - 1)) / Np - (yOf x Np - x) := by
      field_simp
      ring
    rw [hid]
    have hnum := abs_sub_le_add t3 (abs_mul_le_mul hw ha)
    have hq : |((Nv - w) - w * (Np - 1)) / Np| ≤ 2 / 10 ^ 18 := by
      rw [abs_div, abs_of_pos hNp0, div_le_iff₀ hNp0]
      refine hnum.trans ?_
      norm_num at hNp ⊢
      linarith
    exact (abs_sub_le_add hq hy1).trans (by norm_num)
  · have hs := inv_sqrt_near_one Np (ha.trans (by norm_num))
    have hsq : (Np - 1) ^ 2 ≤ (21 / 10 ^ 10) ^ 2 := by
      rw [← sq_abs]
      exact pow_le_pow_left₀ (abs_nonneg _) ha 2
    have hs2 : |1 / Real.sqrt Np - 1 + (Np - 1) / 2| ≤ (21 / 10 ^ 10) ^ 2 := hs.trans hsq
    have hid : (Nv / 2 - x / Real.sqrt Np) - (w / 2 - x) =
        ((Nv - w) / 2 + x * (Np - 1) / 2) - x * (1 / Real.sqrt Np - 1 + (Np - 1) / 2) := by
      ring
    rw [hid]
    exact (abs_sub_le_add t4 (abs_mul_le_mul hxa hs2)).trans (by norm_num)
  · have hy' := abs_le.mp hy1
    have hy2 : |yOf x Np - x| ≤ x * (2 * (21 / 10 ^ 10)) :=
      hy.trans (mul_le_mul_of_nonneg_left (by linarith) hx.le)
    have hy3 := abs_le.mp hy2
    nlinarith

/-- The scalar content of one step. -/
theorem step_scalar (x b w : ℝ) (hx : 0 < x) (hxX : x ≤ 32 / 10 ^ 11)
    (hb : |b| ≤ 1 / 10 ^ 9) (hd : |w - x| ≤ 9 / 10 ^ 14) :
    |nrm b w (stepCoeffs x b w).α (stepCoeffs x b w).β - 1| ≤ 21 / 10 ^ 10 ∧
    |mix b w (stepCoeffs x b w).α (stepCoeffs x b w).β (stepCoeffs x b w).γ (stepCoeffs x b w).δ /
        nrm b w (stepCoeffs x b w).α (stepCoeffs x b w).β - b| ≤ 1 / 10 ^ 13 ∧
    |(nrm b w (stepCoeffs x b w).γ (stepCoeffs x b w).δ /
        nrm b w (stepCoeffs x b w).α (stepCoeffs x b w).β -
        yOf x (nrm b w (stepCoeffs x b w).α (stepCoeffs x b w).β)) - (w - x)| ≤ 9 / 10 ^ 18 ∧
    |(nrm b w (stepCoeffs x b w).γ (stepCoeffs x b w).δ / 2 -
        x / Real.sqrt (nrm b w (stepCoeffs x b w).α (stepCoeffs x b w).β)) - (w / 2 - x)| ≤
      7 / 10 ^ 27 ∧
    |(stepCoeffs x b w).α * (stepCoeffs x b w).δ -
        (stepCoeffs x b w).β * (stepCoeffs x b w).γ - 1| ≤ 1 / 10 ^ 17 ∧
    0 < yOf x (nrm b w (stepCoeffs x b w).α (stepCoeffs x b w).β) ∧
    yOf x (nrm b w (stepCoeffs x b w).α (stepCoeffs x b w).β) ≤ x * (1 + 5 / 10 ^ 9) := by
  obtain ⟨_, _, _, h2, h3, h4⟩ := stage_bounds x b w hx hxX hb hd
  obtain ⟨c1, c2, c3, c4⟩ := coeffs_bounds x _ _ _ hx hxX h2 h3 h4
  exact step_core x b w _ _ _ _ hx hxX hb hd c1 c2 c3 c4

theorem computeDerivatives_fst (s : SpacecraftState) :
    (Application.computeDerivatives s).1 = gravAt s.position := rfl

theorem dot_comb (a c a' c' : ℝ) (p u : Vec3) :
    Vec3.dot (comb a c p u) (comb a' c' p u) =
      a * a' * Vec3.dot p p + (a * c' + c * a') * Vec3.dot p u + c * c' * Vec3.dot u u := by
  simp only [comb, Vec3.dot, Vec3.add, Vec3.lscale]
  ring

theorem cross_comb (a c a' c' : ℝ) (p u : Vec3) :
    Vec3.cross (comb a c p u) (comb a' c' p u) =
      Vec3.lscale (a * c' - c * a') (Vec3.cross p u) := by
  ext <;> simp only [comb, Vec3.cross, Vec3.add, Vec3.lscale] <;> ring

theorem dot_comb_nrm (a c : ℝ) (p u : Vec3) (hP : Vec3.dot p p ≠ 0) :
    Vec3.dot (comb a c p u) (comb a c p u) =
      Vec3.dot p p * nrm (Vec3.dot p u / Vec3.dot p p) (Vec3.dot u u / Vec3.dot p p) a c := by
  rw [dot_comb]
  unfold nrm
  field_simp
  ring

theorem dot_comb_mix (a c a' c' : ℝ) (p u : Vec3) (hP : Vec3.dot p p ≠ 0) :
    Vec3.dot (comb a c p u) (comb a' c' p u) =
      Vec3.dot p p *
        mix (Vec3.dot p u / Vec3.dot p p) (Vec3.dot u u / Vec3.dot p p) a c a' c' := by
  rw [dot_comb]
  unfold mix
  field_simp

theorem length_comb (a c : ℝ) (p u : Vec3) (hP : Vec3.dot p p ≠ 0) :
    Vec3.length (comb a c p u) =
      Vec3.length p *
        Real.sqrt (nrm (Vec3.dot p u / Vec3.dot p p) (Vec3.dot u u / Vec3.dot p p) a c) := by
  have h0 : 0 ≤ Vec3.dot p p := by
    simp only [Vec3.dot]
    nlinarith [mul_self_nonneg p.x, mul_self_nonneg p.y, mul_self_nonneg p.z]
  unfold Vec3.length
  rw [dot_comb_nrm a c p u hP, Real.sqrt_mul h0]

/-- Gravity at a combination `a p + c u` whose squared distance is `N` times
that of `p`, in terms of the scaled factor `yOf x N`. -/
theorem gravAt_comb (a c h : ℝ) (p u : Vec3) (hh : h ≠ 0) (hρ : 4 ≤ Vec3.length p)
    (hN : |nrm (Vec3.dot p u / Vec3.dot p p) (Vec3.dot u u / Vec3.dot p p) a c - 1| ≤ 1 / 100) :
    gravAt (comb a c p u) =
      Vec3.lscale
        (-(yOf (h * h * Constants.MOON_MU / (Vec3.length p * Vec3.length p * Vec3.length p))
          (nrm (Vec3.dot p u / Vec3.dot p p) (Vec3.dot u u / Vec3.dot p p) a c) / (h * h)))
        (comb a c p u) := by
  have hP : Vec3.dot p p ≠ 0 := by
    intro h0
    unfold Vec3.length at hρ
    rw [h0, Real.sqrt_zero] at hρ
    norm_num at hρ
  obtain ⟨hlo, _, _⟩ := sqrt_near_one _ hN
  have hlen := length_comb a c p u hP
  generalize nrm (Vec3.dot p u / Vec3.dot p p) (Vec3.dot u u / Vec3.dot p p) a c = N at *
  have hρ0 : 0 < Vec3.length p := by linarith
  have hr0 : 0 < Real.sqrt N := by linarith
  have hgt : Vec3.length (comb a c p u) > 1.0 := by
    rw [hlen]
    norm_num
    nlinarith
  unfold gravAt Application.computeDerivatives yOf
  simp only [if_pos hgt]
  rw [hlen]
  generalize comb a c p u = q
  generalize Vec3.length p = ρ at *
  generalize Real.sqrt N = r at *
  ext <;> simp only [Vec3.divs, Vec3.lscale] <;> field_simp <;> ring

theorem stepRK4_gravity (s : SpacecraftState) (h : ℝ) :
    Integrator.stepRK4 s h Application.computeDerivatives =
      { s with
        position := Vec3.add s.position
          (Vec3.scale (Vec3.add (Vec3.add (Vec3.add s.velocity
            (Vec3.lscale 2.0 (Vec3.add s.velocity (Vec3.scale (gravAt s.position) (h * 0.5)))))
            (Vec3.lscale 2.0 (Vec3.add s.velocity
              (Vec3.scale (gravAt (Vec3.add s.position (Vec3.scale s.velocity (h * 0.5))))
                (h * 0.5)))))
            (Vec3.add s.velocity
              (Vec3.scale (gravAt (Vec3.add s.position
                (Vec3.scale (Vec3.add s.velocity (Vec3.scale (gravAt s.position) (h * 0.5)))
                  (h * 0.5)))) h))) (h / 6.0))
        velocity := Vec3.add s.velocity
          (Vec3.scale (Vec3.add (Vec3.add (Vec3.add (gravAt s.position)
            (Vec3.lscale 2.0
              (gravAt (Vec3.add s.position (Vec3.scale s.velocity (h * 0.5))))))
            (Vec3.lscale 2.0
              (gravAt (Vec3.add s.position
                (Vec3.scale (Vec3.add s.velocity (Vec3.scale (gravAt s.position) (h * 0.5)))
                  (h * 0.5))))))
            (gravAt (Vec3.add s.position
              (Vec3.scale (Vec3.add s.velocity
                (Vec3.scale (gravAt (Vec3.add s.position (Vec3.scale s.velocity (h * 0.5))))
                  (h * 0.5))) h)))) (h / 6.0)) } := rfl

theorem nrm_one_zero (b w : ℝ) : nrm b w 1 0 = 1 := by
  unfold nrm; ring

theorem yOf_one (x : ℝ) : yOf x 1 = x := by
  unfold yOf; simp

theorem comb_one_zero (p u : Vec3) : comb 1 0 p u = p := by
  ext <;> simp [comb, Vec3.add, Vec3.lscale]

/-- One RK4 step under gravity, in the basis `(p, h v)`: the new position and
`h` times the new velocity are the combinations with the coefficients
`stepCoeffs x b w`. -/
theorem step_comb (s : SpacecraftState) (h x b w : ℝ) (hh : h ≠ 0)
    (hρ : 4 ≤ Vec3.length s.position)
    (hxdef : x = h * h * Constants.MOON_MU /
      (Vec3.length s.position * Vec3.length s.position * Vec3.length s.position))
    (hbdef : b = Vec3.dot s.position (Vec3.lscale h s.velocity) /
      Vec3.dot s.position s.position)
    (hwdef : w = Vec3.dot (Vec3.lscale h s.velocity) (Vec3.lscale h s.velocity) /
      Vec3.dot s.position s.position)
    (hx : 0 < x) (hxX : x ≤ 32 / 10 ^ 11) (hb : |b| ≤ 1 / 10 ^ 9)
    (hd : |w - x| ≤ 9 / 10 ^ 14) :
    (Integrator.stepRK4 s h Application.computeDerivatives).position =
      comb (stepCoeffs x b w).α (stepCoeffs x b w).β s.position (Vec3.lscale h s.velocity) ∧
    Vec3.lscale h (Integrator.stepRK4 s h Application.computeDerivatives).velocity =
      comb (stepCoeffs x b w).γ (stepCoeffs x b w).δ s.position (Vec3.lscale h s.velocity) := by
  obtain ⟨n2, n3, n4, -, -, -⟩ := stage_bounds x b w hx hxX hb hd
  have key : ∀ a c : ℝ, |nrm b w a c - 1| ≤ 1 / 100 →
      gravAt (comb a c s.position (Vec3.lscale h s.velocity)) =
        Vec3.lscale (-(yOf x (nrm b w a c) / (h * h)))
          (comb a c s.position (Vec3.lscale h s.velocity)) := by
    intro a c hN
    rw [hbdef, hwdef] at hN
    have := gravAt_comb a c h s.position (Vec3.lscale h s.velocity) hh hρ hN
    rw [← hxdef, ← hbdef, ← hwdef] at this
    exact this
  have e1 : gravAt s.position = Vec3.lscale (-(x / (h * h))) s.position := by
    have := key 1 0 (by rw [nrm_one_zero]; norm_num)
    rwa [nrm_one_zero, yOf_one, comb_one_zero] at this
  have q2 : Vec3.add s.position (Vec3.scale s.velocity (h * 0.5)) =
      comb 1 (1 / 2) s.position (Vec3.lscale h s.velocity) := by
    ext <;> simp only [comb, Vec3.add, Vec3.scale, Vec3.lscale] <;> norm_num <;> ring
  have e2 := key 1 (1 / 2) (n2.trans (by norm_num))
  rw [← q2] at e2
  have q3 : Vec3.add s.position
      (Vec3.scale (Vec3.add s.velocity (Vec3.scale (gravAt s.position) (h * 0.5))) (h * 0.5)) =
      comb (1 - x / 4) (1 / 2) s.position (Vec3.lscale h s.velocity) := by
    rw [e1]
    ext <;> simp only [comb, Vec3.add, Vec3.scale, Vec3.lscale] <;> norm_num <;>
      field_simp <;> ring
  have e3 := key (1 - x / 4) (1 / 2) (n3.trans (by norm_num))
  rw [← q3] at e3
  have q4 : Vec3.add s.position
      (Vec3.scale (Vec3.add s.velocity
        (Vec3.scale (gravAt (Vec3.add s.position (Vec3.scale s.velocity (h * 0.5))))
          (h * 0.5))) h) =
      comb (1 - stageY2 x b w / 2) (1 - stageY2 x b w / 4) s.position
        (Vec3.lscale h s.velocity) := by
    rw [e2, q2]
    have : yOf x (nrm b w 1 (1 / 2)) = stageY2 x b w := rfl
    rw [this]
    generalize stageY2 x b w = y2
    ext <;> simp only [comb, Vec3.add, Vec3.scale, Vec3.lscale] <;> norm_num <;>
      field_simp <;> ring
  have e4 := key _ _ (n4.trans (by norm_num))
  rw [← q4] at e4
  rw [stepRK4_gravity]
  simp only []
  rw [e4, q4, e3, q3, e2, q2, e1]
  have d2 : yOf x (nrm b w 1 (1 / 2)) = stageY2 x b w := rfl
  have d3 : yOf x (nrm b w (1 - x / 4) (1 / 2)) = stageY3 x b w := rfl
  have d4 : yOf x (nrm b w (1 - stageY2 x b w / 2) (1 - stageY2 x b w / 4)) =
      stageY4 x b w := rfl
  rw [d2, d3, d4]
  simp only [stepCoeffs, coeffs]
  generalize stageY2 x b w = y2
  generalize stageY3 x b w = y3
  generalize stageY4 x b w = y4
  clear * - hh
  have hx0 : x = (x / (h * h)) * (h * h) := by field_simp
  have hy2 : y2 = (y2 / (h * h)) * (h * h) := by field_simp
  have hy3 : y3 = (y3 / (h * h)) * (h * h) := by field_simp
  have hy4 : y4 = (y4 / (h * h)) * (h * h) := by field_simp
  generalize x / (h * h) = k1 at hx0 ⊢
  generalize y2 / (h * h) = k2 at hy2 ⊢
  generalize y3 / (h * h) = k3 at hy3 ⊢
  generalize y4 / (h * h) = k4 at hy4 ⊢
  subst hx0 hy2 hy3 hy4
  have c05 : (0.5 : ℝ) = 1 / 2 := by norm_num
  have c20 : (2.0 : ℝ) = 2 := by norm_num
  have c60 : (6.0 : ℝ) = 6 := by norm_num
  rw [c05, c20, c60]
  constructor
  · ext <;> simp only [comb, Vec3.add, Vec3.scale, Vec3.lscale] <;> ring
  · ext <;> simp only [comb, Vec3.add, Vec3.scale, Vec3.lscale] <;> ring

theorem momentum_eq (s : SpacecraftState) :
    momentum s = Vec3.length (Vec3.cross s.position s.velocity) := rfl

theorem energy_eq (s : SpacecraftState) :
    energy s = Vec3.dot s.velocity s.velocity / 2 -
      Constants.MOON_MU / Vec3.length s.position := by
  unfold energy
  rw [Orbit.computeElements_specificEnergy, Vec3.length_mul_self]

theorem dot_pos_of_length (p : Vec3) (hρ : 4 ≤ Vec3.length p) : 16 ≤ Vec3.dot p p := by
  rw [← Vec3.length_mul_self]
  nlinarith

theorem energy_scaled (h : ℝ) (s : SpacecraftState) (hρ : 4 ≤ Vec3.length s.position) :
    h * h * energy s = Vec3.dot s.position s.position * (sw h s / 2 - sx h s) := by
  have hP := dot_pos_of_length _ hρ
  have hP0 : Vec3.dot s.position s.position ≠ 0 := by linarith
  have hρ0 : Vec3.length s.position ≠ 0 := by linarith
  rw [energy_eq]
  unfold sw sx
  have hu : Vec3.dot (Vec3.lscale h s.velocity) (Vec3.lscale h s.velocity) =
      h * h * Vec3.dot s.velocity s.velocity := by
    simp only [Vec3.dot, Vec3.lscale]; ring
  rw [hu, ← Vec3.length_mul_self s.position]
  field_simp
  ring

theorem cross_lscale_right (h : ℝ) (a b : Vec3) :
    Vec3.cross a (Vec3.lscale h b) = Vec3.lscale h (Vec3.cross a b) := by
  ext <;> simp only [Vec3.cross, Vec3.lscale] <;> ring

theorem length_lscale_abs (k : ℝ) (a : Vec3) :
    Vec3.length (Vec3.lscale k a) = |k| * Vec3.length a := by
  unfold Vec3.length
  have : Vec3.dot (Vec3.lscale k a) (Vec3.lscale k a) = k * k * Vec3.dot a a := by
    simp only [Vec3.dot, Vec3.lscale]; ring
  rw [this, Real.sqrt_mul (mul_self_nonneg k), Real.sqrt_mul_self_eq_abs]

/-- What one RK4 step under gravity does to the scaled quantities of a state
close to a circular orbit. -/
theorem step_summary (s : SpacecraftState) (h : ℝ) (hh : h ≠ 0)
    (hρ5 : 5 ≤ Vec3.length s.position)
    (hx : 0 < sx h s) (hxX : sx h s ≤ 32 / 10 ^ 11) (hb : |sb h s| ≤ 1 / 10 ^ 9)
    (hd : |sw h s - sx h s| ≤ 9 / 10 ^ 14) :
    |Vec3.dot (Integrator.stepRK4 s h Application.computeDerivatives).position
        (Integrator.stepRK4 s h Application.computeDerivatives).position -
      Vec3.dot s.position s.position| ≤ 21 / 10 ^ 10 * Vec3.dot s.position s.position ∧
    0 < sx h (Integrator.stepRK4 s h Application.computeDerivatives) ∧
    sx h (Integrator.stepRK4 s h Application.computeDerivatives) ≤
      sx h s * (1 + 5 / 10 ^ 9) ∧
    |sb h (Integrator.stepRK4 s h Application.computeDerivatives) - sb h s| ≤ 1 / 10 ^ 13 ∧
    |(sw h (Integrator.stepRK4 s h Application.computeDerivatives) -
        sx h (Integrator.stepRK4 s h Application.computeDerivatives)) -
      (sw h s - sx h s)| ≤ 9 / 10 ^ 18 ∧
    |h * h * energy (Integrator.stepRK4 s h Application.computeDerivatives) -
      h * h * energy s| ≤ Vec3.dot s.position s.position * (7 / 10 ^ 27) ∧
    |momentum (Integrator.stepRK4 s h Application.computeDerivatives) - momentum s| ≤
      1 / 10 ^ 17 * momentum s := by
  have hρ : 4 ≤ Vec3.length s.position := by linarith
  obtain ⟨hpos, hvel⟩ := step_comb s h (sx h s) (sb h s) (sw h s) hh hρ rfl rfl rfl hx hxX hb hd
  obtain ⟨f1, f2, f3, f4, f5, f6, f7⟩ := step_scalar (sx h s) (sb h s) (sw h s) hx hxX hb hd
  have hP := dot_pos_of_length _ hρ
  have hP0 : Vec3.dot s.position s.position ≠ 0 := by linarith
  have hρ0 : 0 < Vec3.length s.position := by linarith
  generalize hs1 : Integrator.stepRK4 s h Application.computeDerivatives = s1 at *
  generalize hc : stepCoeffs (sx h s) (sb h s) (sw h s) = c at *
  have hf1 := abs_le.mp f1
  have hNp : (99 / 100 : ℝ) ≤ nrm (sb h s) (sw h s) c.α c.β := by
    norm_num at hf1 ⊢; linarith
  obtain ⟨hr1, hr2, hr3⟩ := sqrt_near_one _ (f1.trans (by norm_num))
  -- the Gram matrix of the new state
  have gP : Vec3.dot s1.position s1.position =
      Vec3.dot s.position s.position * nrm (sb h s) (sw h s) c.α c.β := by
    rw [hpos]; exact dot_comb_nrm _ _ _ _ hP0
  have gB : Vec3.dot s1.position (Vec3.lscale h s1.velocity) =
      Vec3.dot s.position s.position * mix (sb h s) (sw h s) c.α c.β c.γ c.δ := by
    rw [hpos, hvel]; exact dot_comb_mix _ _ _ _ _ _ hP0
  have gW : Vec3.dot (Vec3.lscale h s1.velocity) (Vec3.lscale h s1.velocity) =
      Vec3.dot s.position s.position * nrm (sb h s) (sw h s) c.γ c.δ := by
    rw [hvel]; exact dot_comb_nrm _ _ _ _ hP0
  have gL : Vec3.length s1.position =
      Vec3.length s.position * Real.sqrt (nrm (sb h s) (sw h s) c.α c.β) := by
    rw [hpos]; exact length_comb _ _ _ _ hP0
  have gρ : 4 ≤ Vec3.length s1.position := by
    rw [gL]; nlinarith
  have ex : sx h s1 = yOf (sx h s) (nrm (sb h s) (sw h s) c.α c.β) := by
    unfold yOf
    rw [show sx h s1 = h * h * Constants.MOON_MU /
      (Vec3.length s1.position * Vec3.length s1.position * Vec3.length s1.position) from rfl,
      show sx h s = h * h * Constants.MOON_MU /
      (Vec3.length s.position * Vec3.length s.position * Vec3.length s.position) from rfl, gL]
    have hne : Real.sqrt (nrm (sb h s) (sw h s) c.α c.β) ≠ 0 := by linarith
    have hgen : ∀ ρ r : ℝ, ρ ≠ 0 → r ≠ 0 →
        h * h * Constants.MOON_MU / (ρ * r * (ρ * r) * (ρ * r)) =
          h * h * Constants.MOON_MU / (ρ * ρ * ρ) / (r * r * r) := by
      intro ρ r h1 h2
      rw [div_div]
      congr 1
      ring
    exact hgen _ _ (ne_of_gt hρ0) hne
  have eb : sb h s1 = mix (sb h s) (sw h s) c.α c.β c.γ c.δ / nrm (sb h s) (sw h s) c.α c.β := by
    rw [show sb h s1 = Vec3.dot s1.position (Vec3.lscale h s1.velocity) /
      Vec3.dot s1.position s1.position from rfl, gB, gP]
    have : nrm (sb h s) (sw h s) c.α c.β ≠ 0 := by linarith
    field_simp
    ring
  have ew : sw h s1 = nrm (sb h s) (sw h s) c.γ c.δ / nrm (sb h s) (sw h s) c.α c.β := by
    rw [show sw h s1 = Vec3.dot (Vec3.lscale h s1.velocity) (Vec3.lscale h s1.velocity) /
      Vec3.dot s1.position s1.position from rfl, gW, gP]
    have : nrm (sb h s) (sw h s) c.α c.β ≠ 0 := by linarith
    field_simp
    ring
  refine ⟨?_, ?_, ?_, ?_, ?_, ?_, ?_⟩
  · rw [gP]
    have : Vec3.dot s.position s.position * nrm (sb h s) (sw h s) c.α c.β -
        Vec3.dot s.position s.position =
        Vec3.dot s.position s.position * (nrm (sb h s) (sw h s) c.α c.β - 1) := by ring
    rw [this, abs_mul, abs_of_pos (by linarith : 0 < Vec3.dot s.position s.position), mul_comm]
    exact mul_le_mul_of_nonneg_right f1 (by linarith)
  · rw [ex]; exact f6
  · rw [ex]; exact f7
  · rw [eb]; exact f2
  · rw [ew, ex]; exact f3
  · rw [energy_scaled h s1 gρ, energy_scaled h s hρ, gP, ew, ex]
    have hid : Vec3.dot s.position s.position * nrm (sb h s) (sw h s) c.α c.β *
        (nrm (sb h s) (sw h s) c.γ c.δ / nrm (sb h s) (sw h s) c.α c.β / 2 -
          yOf (sx h s) (nrm (sb h s) (sw h s) c.α c.β)) -
        Vec3.dot s.position s.position * (sw h s / 2 - sx h s) =
        Vec3.dot s.position s.position *
          ((nrm (sb h s) (sw h s) c.γ c.δ / 2 -
            sx h s / Real.sqrt (nrm (sb h s) (sw h s) c.α c.β)) - (sw h s / 2 - sx h s)) := by
      unfold yOf
      generalize nrm (sb h s) (sw h s) c.α c.β = Np at *
      generalize Real.sqrt Np = r at *
      have hr0 : r ≠ 0 := by linarith
      subst hr3
      field_simp
      ring
    rw [hid, abs_mul, abs_of_pos (by linarith : 0 < Vec3.dot s.position s.position)]
    exact mul_le_mul_of_nonneg_left f4 (by linarith)
  · have hcr : Vec3.cross s1.position s1.velocity =
        Vec3.lscale (c.α * c.δ - c.β * c.γ) (Vec3.cross s.position s.velocity) := by
      have h1 : Vec3.lscale h (Vec3.cross s1.position s1.velocity) =
          Vec3.lscale h (Vec3.lscale (c.α * c.δ - c.β * c.γ)
            (Vec3.cross s.position s.velocity)) := by
        rw [← cross_lscale_right, hvel, hpos, cross_comb, cross_lscale_right]
        ext <;> simp only [Vec3.lscale] <;> ring
      have h2 := congrArg Vec3.x h1
      have h3 := congrArg Vec3.y h1
      have h4 := congrArg Vec3.z h1
      simp only [Vec3.lscale] at h2 h3 h4
      ext
      · exact mul_left_cancel₀ hh h2
      · exact mul_left_cancel₀ hh h3
      · exact mul_left_cancel₀ hh h4
    rw [momentum_eq, momentum_eq, hcr, length_lscale_abs]
    have hL0 : 0 ≤ Vec3.length (Vec3.cross s.position s.velocity) := Vec3.length_nonneg _
    have hlam := abs_le.mp f5
    have hlam0 : 0 ≤ c.α * c.δ - c.β * c.γ := by norm_num at hlam ⊢; linarith
    rw [abs_of_nonneg hlam0]
    have : (c.α * c.δ - c.β * c.γ) * Vec3.length (Vec3.cross s.position s.velocity) -
        Vec3.length (Vec3.cross s.position s.velocity) =
        (c.α * c.δ - c.β * c.γ - 1) * Vec3.length (Vec3.cross s.position s.velocity) := by ring
    rw [this, abs_mul, abs_of_nonneg hL0]
    exact mul_le_mul_of_nonneg_right f5 hL0

theorem momentum_nonneg (s : SpacecraftState) : 0 ≤ momentum s := by
  rw [momentum_eq]; exact Vec3.length_nonneg _

theorem inv_zero (h : ℝ) (s0 : SpacecraftState) (hx : 0 < sx h s0) (hb : sb h s0 = 0)
    (hw : sw h s0 = sx h s0) : Inv h s0 0 s0 := by
  constructor <;> simp [hx, hb, hw]

theorem inv_pre (c P0 P x0 x b d : ℝ) (hc : c ≤ 9999) (hc0 : 0 ≤ c) (hP0 : 100 ≤ P0)
    (hx0 : x0 ≤ 319 / 10 ^ 12)
    (pLo : P0 * (1 - c * (3 / 10 ^ 9)) ≤ P) (pHi : P ≤ P0 * (1 + c * (3 / 10 ^ 9)))
    (xHi : x ≤ x0 * (1 + c * (6 / 10 ^ 9)))
    (bAbs : |b| ≤ c * (1 / 10 ^ 13)) (dAbs : |d| ≤ c * (9 / 10 ^ 18)) :
    90 ≤ P ∧ P ≤ 2 * P0 ∧ x ≤ 32 / 10 ^ 11 ∧ |b| ≤ 1 / 10 ^ 9 ∧ |d| ≤ 9 / 10 ^ 14 := by
  refine ⟨?_, ?_, ?_, ?_, ?_⟩
  · refine le_trans ?_ pLo
    norm_num at hc ⊢
    nlinarith
  · refine le_trans pHi ?_
    norm_num at hc ⊢
    nlinarith
  · refine le_trans xHi ?_
    by_cases hpos : 0 ≤ x0
    · have : x0 * (1 + c * (6 / 10 ^ 9)) ≤ 319 / 10 ^ 12 * (1 + 9999 * (6 / 10 ^ 9)) :=
        mul_le_mul hx0 (by linarith) (by positivity) (by norm_num)
      exact this.trans (by norm_num)
    · push_neg at hpos
      have : x0 * (1 + c * (6 / 10 ^ 9)) ≤ 0 :=
        mul_nonpos_of_nonpos_of_nonneg hpos.le (by positivity)
      exact this.trans (by norm_num)
  · refine le_trans bAbs ?_
    norm_num at hc ⊢
    linarith
  · refine le_trans dAbs ?_
    norm_num at hc ⊢
    linarith

theorem grow_lo (c P0 P P1 : ℝ) (hc0 : 0 ≤ c) (hP0 : 0 ≤ P0)
    (pLo : P0 * (1 - c * (3 / 10 ^ 9)) ≤ P) (g1 : |P1 - P| ≤ 21 / 10 ^ 10 * P) :
    P0 * (1 - (c + 1) * (3 / 10 ^ 9)) ≤ P1 := by
  have g1' := (abs_le.mp g1).1
  have h1 : P * (1 - 21 / 10 ^ 10) ≤ P1 := by linarith
  have h2 : P0 * (1 - c * (3 / 10 ^ 9)) * (1 - 21 / 10 ^ 10) ≤ P * (1 - 21 / 10 ^ 10) :=
    mul_le_mul_of_nonneg_right pLo (by norm_num)
  have h4 : (1 - (c + 1) * (3 / 10 ^ 9)) ≤ (1 - c * (3 / 10 ^ 9)) * (1 - 21 / 10 ^ 10) := by
    norm_num
    linarith
  have h3 : P0 * (1 - (c + 1) * (3 / 10 ^ 9)) ≤
      P0 * ((1 - c * (3 / 10 ^ 9)) * (1 - 21 / 10 ^ 10)) :=
    mul_le_mul_of_nonneg_left h4 hP0
  rw [← mul_assoc] at h3
  exact h3.trans (h2.trans h1)

theorem grow_hi (c P0 P P1 : ℝ) (hc : c ≤ 9999) (hP0 : 0 ≤ P0)
    (pHi : P ≤ P0 * (1 + c * (3 / 10 ^ 9))) (g1 : |P1 - P| ≤ 21 / 10 ^ 10 * P) :
    P1 ≤ P0 * (1 + (c + 1) * (3 / 10 ^ 9)) := by
  have g1' := (abs_le.mp g1).2
  have h1 : P1 ≤ P * (1 + 21 / 10 ^ 10) := by linarith
  have h2 : P * (1 + 21 / 10 ^ 10) ≤ P0 * (1 + c * (3 / 10 ^ 9)) * (1 + 21 / 10 ^ 10) :=
    mul_le_mul_of_nonneg_right pHi (by norm_num)
  have h4 : (1 + c * (3 / 10 ^ 9)) * (1 + 21 / 10 ^ 10) ≤ (1 + (c + 1) * (3 / 10 ^ 9)) := by
    norm_num at hc ⊢
    linarith
  have h3 : P0 * ((1 + c * (3 / 10 ^ 9)) * (1 + 21 / 10 ^ 10)) ≤
      P0 * (1 + (c + 1) * (3 / 10 ^ 9)) :=
    mul_le_mul_of_nonneg_left h4 hP0
  rw [← mul_assoc] at h3
  exact h1.trans (h2.trans h3)

theorem grow_x (c x0 x x1 : ℝ) (hc : c ≤ 9999) (hx0 : 0 ≤ x0)
    (xHi : x ≤ x0 * (1 + c * (6 / 10 ^ 9))) (g3 : x1 ≤ x * (1 + 5 / 10 ^ 9)) :
    x1 ≤ x0 * (1 + (c + 1) * (6 / 10 ^ 9)) := by
  have h2 : x * (1 + 5 / 10 ^ 9) ≤ x0 * (1 + c * (6 / 10 ^ 9)) * (1 + 5 / 10 ^ 9) :=
    mul_le_mul_of_nonneg_right xHi (by norm_num)
  have h4 : (1 + c * (6 / 10 ^ 9)) * (1 + 5 / 10 ^ 9) ≤ (1 + (c + 1) * (6 / 10 ^ 9)) := by
    norm_num at hc ⊢
    linarith
  have h3 : x0 * ((1 + c * (6 / 10 ^ 9)) * (1 + 5 / 10 ^ 9)) ≤
      x0 * (1 + (c + 1) * (6 / 10 ^ 9)) :=
    mul_le_mul_of_nonneg_left h4 hx0
  rw [← mul_assoc] at h3
  exact g3.trans (h2.trans h3)

theorem grow_abs (c k b b1 : ℝ) (bAbs : |b| ≤ c * k) (g4 : |b1 - b| ≤ k) :
    |b1| ≤ (c + 1) * k := by
  have : b1 = b + (b1 - b) := by ring
  rw [this]
  refine (abs_add_le_add bAbs g4).trans ?_
  linarith

theorem grow_e (c K P P0 e0 e e1 : ℝ) (hK : 0 ≤ K) (hPhi : P ≤ 2 * P0)
    (eAbs : |e - e0| ≤ c * (2 * P0 * K)) (g6 : |e1 - e| ≤ P * K) :
    |e1 - e0| ≤ (c + 1) * (2 * P0 * K) := by
  have : e1 - e0 = (e - e0) + (e1 - e) := by ring
  rw [this]
  have h2 : P * K ≤ 2 * P0 * K := mul_le_mul_of_nonneg_right hPhi hK
  refine (abs_add_le_add eAbs (g6.trans h2)).trans ?_
  linarith

theorem grow_l (c L0 L L1 : ℝ) (hc : c ≤ 9999) (hL0 : 0 ≤ L0)
    (lAbs : |L - L0| ≤ c * (2 / 10 ^ 17) * L0) (g7 : |L1 - L| ≤ 1 / 10 ^ 17 * L) :
    |L1 - L0| ≤ (c + 1) * (2 / 10 ^ 17) * L0 := by
  have lAbs' := (abs_le.mp lAbs).2
  have h1 : L ≤ (1 + c * (2 / 10 ^ 17)) * L0 := by linarith
  have h2 : 1 / 10 ^ 17 * L ≤ 1 / 10 ^ 17 * ((1 + c * (2 / 10 ^ 17)) * L0) :=
    mul_le_mul_of_nonneg_left h1 (by norm_num)
  have h4 : 1 / 10 ^ 17 * (1 + c * (2 / 10 ^ 17)) ≤ (2 / 10 ^ 17 : ℝ) := by
    norm_num at hc ⊢
    linarith
  have h3 : 1 / 10 ^ 17 * (1 + c * (2 / 10 ^ 17)) * L0 ≤ 2 / 10 ^ 17 * L0 :=
    mul_le_mul_of_nonneg_right h4 hL0
  rw [mul_assoc] at h3
  have : L1 - L0 = (L - L0) + (L1 - L) := by ring
  rw [this]
  refine (abs_add_le_add lAbs (g7.trans (h2.trans h3))).trans ?_
  linarith

theorem inv_succ (h : ℝ) (s0 s : SpacecraftState) (n : ℕ) (hh : h ≠ 0) (hn : n < 10000)
    (hP0 : 100 ≤ Vec3.dot s0.position s0.position)
    (hx0p : 0 < sx h s0) (hx0 : sx h s0 ≤ 319 / 10 ^ 12) (hinv : Inv h s0 n s) :
    Inv h s0 (n + 1) (Integrator.stepRK4 s h Application.computeDerivatives) := by
  obtain ⟨pLo, pHi, xPos, xHi, bAbs, dAbs, eAbs, lAbs⟩ := hinv
  have hc : (n : ℝ) ≤ 9999 := by
    have : n ≤ 9999 := by omega
    exact_mod_cast this
  have hc0 : (0 : ℝ) ≤ n := Nat.cast_nonneg n
  have hcast : ((n + 1 : ℕ) : ℝ) = (n : ℝ) + 1 := by push_cast; ring
  obtain ⟨hPlo, hPhi, hxX, hb, hd⟩ :=
    inv_pre _ _ _ _ _ _ _ hc hc0 hP0 hx0 pLo pHi xHi bAbs dAbs
  have hρ5 : 5 ≤ Vec3.length s.position := by
    unfold Vec3.length
    apply Real.le_sqrt_of_sq_le
    linarith
  obtain ⟨g1, g2, g3, g4, g5, g6, g7⟩ := step_summary s h hh hρ5 xPos hxX hb hd
  have hP0n : 0 ≤ Vec3.dot s0.position s0.position := by linarith
  have a1 := grow_lo _ _ _ _ hc0 hP0n pLo g1
  have a2 := grow_hi _ _ _ _ hc hP0n pHi g1
  have a3 := grow_x _ _ _ _ hc hx0p.le xHi g3
  have a4 := grow_abs _ _ _ _ bAbs g4
  have a5 := grow_abs _ _ _ _ dAbs g5
  have a6 := grow_e _ _ _ _ _ _ _ (by norm_num) hPhi eAbs g6
  have a7 := grow_l _ _ _ _ hc (momentum_nonneg s0) lAbs g7
  exact ⟨by rw [hcast]; exact a1, by rw [hcast]; exact a2, g2, by rw [hcast]; exact a3,
    by rw [hcast]; exact a4, by rw [hcast]; exact a5, by rw [hcast]; exact a6,
    by rw [hcast]; exact a7⟩

theorem inv_iterate (h : ℝ) (s0 : SpacecraftState) (hh : h ≠ 0)
    (hP0 : 100 ≤ Vec3.dot s0.position s0.position)
    (hx : 0 < sx h s0) (hx0 : sx h s0 ≤ 319 / 10 ^ 12) (hb : sb h s0 = 0)
    (hw : sw h s0 = sx h s0) (n : ℕ) (hn : n ≤ 10000) :
    Inv h s0 n (Integrator.rk4Iterate s0 h Application.computeDerivatives n) := by
  induction n with
  | zero => exact inv_zero h s0 hx hb hw
  | succ k ih =>
    exact inv_succ h s0 _ k hh (by omega) hP0 hx hx0 (ih (by omega))

/-- Conservation over up to 10000 steps from any state on a circular orbit
whose scaled gravity factor lies between `3e-10` and `3.19e-10`. -/
theorem rk4_conserves (h : ℝ) (s0 : SpacecraftState) (hh : h ≠ 0)
    (hP0 : 100 ≤ Vec3.dot s0.position s0.position)
    (hxlo : 3 / 10 ^ 10 ≤ sx h s0) (hx0 : sx h s0 ≤ 319 / 10 ^ 12) (hb : sb h s0 = 0)
    (hw : sw h s0 = sx h s0) (n : ℕ) (hn : n ≤ 10000) :
    |energy (Integrator.rk4Iterate s0 h Application.computeDerivatives n) - energy s0| ≤
      1e-9 * |energy s0| ∧
    |momentum (Integrator.rk4Iterate s0 h Application.computeDerivatives n) - momentum s0| ≤
      1e-9 * momentum s0 := by
  have hx : 0 < sx h s0 := lt_of_lt_of_le (by norm_num) hxlo
  obtain ⟨-, -, -, -, -, -, eAbs, lAbs⟩ := inv_iterate h s0 hh hP0 hx hx0 hb hw n hn
  have hc : (n : ℝ) ≤ 10000 := by exact_mod_cast hn
  have hc0 : (0 : ℝ) ≤ n := Nat.cast_nonneg n
  generalize Integrator.rk4Iterate s0 h Application.computeDerivatives n = s at *
  have hρ : 4 ≤ Vec3.length s0.position := by
    unfold Vec3.length
    apply Real.le_sqrt_of_sq_le
    linarith
  have hL0 := momentum_nonneg s0
  have hhh : 0 < h * h := mul_self_pos.mpr hh
  constructor
  · have hE0 : h * h * energy s0 = -(Vec3.dot s0.position s0.position * (sx h s0 / 2)) := by
      rw [energy_scaled h s0 hρ, hw]; ring
    have hE0abs : h * h * |energy s0| = Vec3.dot s0.position s0.position * (sx h s0 / 2) := by
      have habs : |h * h * energy s0| = h * h * |energy s0| := by
        rw [abs_mul, abs_of_pos hhh]
      rw [← habs, hE0, abs_neg, abs_of_nonneg]
      positivity
    have hdiff : h * h * |energy s - energy s0| = |h * h * energy s - h * h * energy s0| := by
      rw [← mul_sub, abs_mul, abs_of_pos hhh]
    have hbound : (n : ℝ) * (2 * Vec3.dot s0.position s0.position * (7 / 10 ^ 27)) ≤
        1e-9 * (Vec3.dot s0.position s0.position * (sx h s0 / 2)) := by
      generalize Vec3.dot s0.position s0.position = P0 at hP0 ⊢
      generalize sx h s0 = x0 at hxlo ⊢
      generalize (n : ℝ) = c at hc hc0 ⊢
      have h1 : c * (2 * P0 * (7 / 10 ^ 27)) ≤ 10000 * (2 * P0 * (7 / 10 ^ 27)) :=
        mul_le_mul_of_nonneg_right hc (by positivity)
      have h2 : P0 * (3 / 10 ^ 10 / 2) ≤ P0 * (x0 / 2) :=
        mul_le_mul_of_nonneg_left (by linarith) (by linarith)
      norm_num at h1 h2 hP0 ⊢
      linarith
    have : h * h * |energy s - energy s0| ≤ h * h * (1e-9 * |energy s0|) := by
      rw [hdiff, show h * h * (1e-9 * |energy s0|) = 1e-9 * (h * h * |energy s0|) by ring,
        hE0abs]
      exact eAbs.trans hbound
    exact le_of_mul_le_mul_left this hhh
  · refine lAbs.trans ?_
    apply mul_le_mul_of_nonneg_right _ hL0
    generalize (n : ℝ) = c at hc hc0 ⊢
    norm_num at hc ⊢
    linarith

end Kepler

/-- C15: from the state of the 100 km circular lunar orbit set up by
`Application::initScenario(0)`, after `n <= 10000` calls of
`Integrator::stepRK4` with `dt = 0.02` and the gravity-only derivative function
`Application::computeDerivatives`, the specific orbital energy `v^2/2 - mu/r`
and the angular-momentum magnitude `|r x v|` differ from their initial values
by at most `1e-9` of the initial magnitude (in exact real arithmetic). -/
theorem rk4_keeps_energy_and_momentum_on_circular_orbit (sc : Spacecraft) (n : ℕ)
    (hn : n ≤ 10000) :
    ∃ sc0 : Spacecraft, Application.initScenario 0 sc = some sc0 ∧
      |(Orbit.computeElements
          (Integrator.rk4Iterate sc0.m_state 0.02 Application.computeDerivatives n).position
          (Integrator.rk4Iterate sc0.m_state 0.02 Application.computeDerivatives n).velocity
          Constants.MOON_MU).specificEnergy -
        (Orbit.computeElements sc0.m_state.position sc0.m_state.velocity
          Constants.MOON_MU).specificEnergy| ≤
        1e-9 * |(Orbit.computeElements sc0.m_state.position sc0.m_state.velocity
          Constants.MOON_MU).specificEnergy| ∧
      |(Orbit.computeElements
          (Integrator.rk4Iterate sc0.m_state 0.02 Application.computeDerivatives n).position
          (Integrator.rk4Iterate sc0.m_state 0.02 Application.computeDerivatives n).velocity
          Constants.MOON_MU).angularMomentum -
        (Orbit.computeElements sc0.m_state.position sc0.m_state.velocity
          Constants.MOON_MU).angularMomentum| ≤
        1e-9 * (Orbit.computeElements sc0.m_state.position sc0.m_state.velocity
          Constants.MOON_MU).angularMomentum := by
  obtain ⟨position, velocity, hstate, hP, hV, hB⟩ :=
    Orbit.createCircularOrbit_state 100000.0 (28.0 * Constants.DEG_TO_RAD) 0.0 0.0
      Constants.MOON_MU Constants.MOON_RADIUS
      (by norm_num [Constants.MOON_RADIUS]) (by norm_num [Constants.MOON_MU])
  refine ⟨{ Spacecraft.init sc with
    m_state := { (Spacecraft.init sc).m_state with
      position := position, velocity := velocity } }, ?_, ?_⟩
  · unfold Application.initScenario
    simp only [if_true, hstate]
  · have hlen : Vec3.length position = Constants.MOON_RADIUS + 100000.0 :=
      Orbit.length_eq_of_dot_eq_sq position _ (by norm_num [Constants.MOON_RADIUS]) hP
    have hu : ∀ a : Vec3, Vec3.dot a (Vec3.lscale 0.02 velocity) = 0.02 * Vec3.dot a velocity := by
      intro a
      simp only [Vec3.dot, Vec3.lscale]; ring
    have hu2 : Vec3.dot (Vec3.lscale 0.02 velocity) (Vec3.lscale 0.02 velocity) =
        0.02 * 0.02 * Vec3.dot velocity velocity := by
      simp only [Vec3.dot, Vec3.lscale]; ring
    refine Kepler.rk4_conserves 0.02 _ (by norm_num) ?_ ?_ ?_ ?_ ?_ n hn
    · show 100 ≤ Vec3.dot position position
      rw [hP]; norm_num [Constants.MOON_RADIUS]
    · show 3 / 10 ^ 10 ≤ 0.02 * 0.02 * Constants.MOON_MU /
        (Vec3.length position * Vec3.length position * Vec3.length position)
      rw [hlen]; norm_num [Constants.MOON_RADIUS, Constants.MOON_MU]
    · show 0.02 * 0.02 * Constants.MOON_MU /
        (Vec3.length position * Vec3.length position * Vec3.length position) ≤ 319 / 10 ^ 12
      rw [hlen]; norm_num [Constants.MOON_RADIUS, Constants.MOON_MU]
    · show Vec3.dot position (Vec3.lscale 0.02 velocity) / Vec3.dot position position = 0
      rw [hu, hB]; norm_num
    · show Vec3.dot (Vec3.lscale 0.02 velocity) (Vec3.lscale 0.02 velocity) /
          Vec3.dot position position =
        0.02 * 0.02 * Constants.MOON_MU /
          (Vec3.length position * Vec3.length position * Vec3.length position)
      rw [hu2, hV, hP, hlen]
      norm_num [Constants.MOON_RADIUS, Constants.MOON_MU]

/-- Witness for C15: the full run of 10000 steps from a default-constructed
spacecraft. -/
theorem rk4_keeps_energy_and_momentum_on_circular_orbit_witness :
    ∃ sc0 : Spacecraft, Application.initScenario 0 {} = some sc0 ∧
      |(Orbit.computeElements
          (Integrator.rk4Iterate sc0.m_state 0.02 Application.computeDerivatives 10000).position
          (Integrator.rk4Iterate sc0.m_state 0.02 Application.computeDerivatives 10000).velocity
          Constants.MOON_MU).specificEnergy -
        (Orbit.computeElements sc0.m_state.position sc0.m_state.velocity
          Constants.MOON_MU).specificEnergy| ≤
        1e-9 * |(Orbit.computeElements sc0.m_state.position sc0.m_state.velocity
          Constants.MOON_MU).specificEnergy| ∧
      |(Orbit.computeElements
          (Integrator.rk4Iterate sc0.m_state 0.02 Application.computeDerivatives 10000).position
          (Integrator.rk4Iterate sc0.m_state 0.02 Application.computeDerivatives 10000).velocity
          Constants.MOON_MU).angularMomentum -
        (Orbit.computeElements sc0.m_state.position sc0.m_state.velocity
          Constants.MOON_MU).angularMomentum| ≤
        1e-9 * (Orbit.computeElements sc0.m_state.position sc0.m_state.velocity
          Constants.MOON_MU).angularMomentum :=
  rk4_keeps_energy_and_momentum_on_circular_orbit {} 10000 (by norm_num)

/-! ## Orbit: ranges of the angles -/

namespace Orbit

theorem stdClamp_unit_lt_one (c : ℝ) (h : c < 1) : stdClamp c (-1) 1 < 1 := by
  unfold stdClamp
  split_ifs with h1 h2
  · norm_num
  · exact absurd h (not_lt.mpr h2.le)
  · exact h

/-- An angle resolved by `acos` and reflected to `TWO_PI - angle` under a
condition lies in `[0, TWO_PI)` as soon as the condition forces the cosine
below 1. -/
theorem reflected_angle_mem (c : ℝ) (neg : Prop) [Decidable neg] (h : neg → c < 1) :
    0 ≤ (if neg then Constants.TWO_PI - Real.arccos (stdClamp c (-1) 1)
      else Real.arccos (stdClamp c (-1) 1)) ∧
    (if neg then Constants.TWO_PI - Real.arccos (stdClamp c (-1) 1)
      else Real.arccos (stdClamp c (-1) 1)) < Constants.TWO_PI := by
  have h0 := Real.arccos_nonneg (stdClamp c (-1) 1)
  have h1 := Real.arccos_le_pi (stdClamp c (-1) 1)
  have hpi := Real.pi_pos
  rw [two_pi_eq]
  by_cases hn : neg
  · rw [if_pos hn]
    have hpos : 0 < Real.arccos (stdClamp c (-1) 1) :=
      Real.arccos_pos.mpr (stdClamp_unit_lt_one c (h hn))
    constructor <;> linarith
  · rw [if_neg hn]
    constructor <;> linarith

/-- A vector with a non-zero `y` component has `x` component below its length. -/
theorem x_div_length_lt_one (a : Vec3) (hy : a.y ≠ 0) : a.x / Vec3.length a < 1 := by
  have hy2 : 0 < a.y * a.y := mul_self_pos.mpr hy
  have hlen : a.x < Vec3.length a := by
    unfold Vec3.length
    by_cases hx : 0 ≤ a.x
    · rw [Real.lt_sqrt hx]
      simp only [Vec3.dot]
      nlinarith [mul_self_nonneg a.z]
    · push_neg at hx
      exact lt_of_lt_of_le hx (Real.sqrt_nonneg _)
  have hpos : 0 < Vec3.length a := by
    unfold Vec3.length
    apply Real.sqrt_pos.mpr
    simp only [Vec3.dot]
    nlinarith [mul_self_nonneg a.x, mul_self_nonneg a.z]
  rw [div_lt_one hpos]
  exact hlen

/-- A vector `a` with a non-zero `z` component is not along a non-zero vector
`b` of the `xy` plane: `a . b < |a| |b|`. -/
theorem dot_lt_of_off_plane (a b : Vec3) (hb : b.z = 0) (ha : a.z ≠ 0)
    (hbpos : 0 < Vec3.length b) : Vec3.dot a b < Vec3.length a * Vec3.length b := by
  have hA := Vec3.length_mul_self a
  have hB := Vec3.length_mul_self b
  have hla := Vec3.length_nonneg a
  have hz : 0 < a.z * a.z := mul_self_pos.mpr ha
  have hbb : 0 < Vec3.dot b b := by rw [← hB]; exact mul_pos hbpos hbpos
  have hsq : Vec3.dot a b * Vec3.dot a b < Vec3.dot a a * Vec3.dot b b := by
    have hcs : Vec3.dot a b * Vec3.dot a b ≤ (a.x * a.x + a.y * a.y) * Vec3.dot b b := by
      simp only [Vec3.dot, hb]
      nlinarith [mul_self_nonneg (a.x * b.y - a.y * b.x)]
    have hlt : (a.x * a.x + a.y * a.y) * Vec3.dot b b < Vec3.dot a a * Vec3.dot b b := by
      apply mul_lt_mul_of_pos_right _ hbb
      simp only [Vec3.dot]
      linarith
    linarith
  by_contra hge
  push_neg at hge
  have hprod : 0 ≤ Vec3.length a * Vec3.length b := mul_nonneg hla hbpos.le
  have h2 : (Vec3.length a * Vec3.length b) * (Vec3.length a * Vec3.length b) ≤
      Vec3.dot a b * Vec3.dot a b := mul_self_le_mul_self hprod hge
  have h3 : (Vec3.length a * Vec3.length b) * (Vec3.length a * Vec3.length b) =
      Vec3.dot a a * Vec3.dot b b := by
    rw [← hA, ← hB]; ring
  linarith

theorem node_z (position velocity : Vec3) :
    (Vec3.cross ⟨0.0, 0.0, 1.0⟩ (Vec3.cross position velocity)).z = 0 := by
  simp only [Vec3.cross]
  norm_num

theorem dot_comm (a b : Vec3) : Vec3.dot a b = Vec3.dot b a := by
  simp only [Vec3.dot]; ring

/-- The eccentricity vector is never along the position when the radial
velocity is not zero: `e . p < |e| |p|`. -/
theorem dot_eccentricityVector_position_lt (position velocity : Vec3) (mu : ℝ) (hmu : 0 < mu)
    (hr : 0 < Vec3.length position)
    (he : 0 < Vec3.length (eccentricityVector position velocity mu))
    (hB : Vec3.dot position velocity ≠ 0) :
    Vec3.dot (eccentricityVector position velocity mu) position <
      Vec3.length (eccentricityVector position velocity mu) * Vec3.length position := by
  have h1 := dot_eccentricityVector_position position velocity mu hmu.ne' hr.ne'
  have h2 := dot_eccentricityVector_self position velocity mu hmu.ne' hr.ne'
  have hH := Vec3.dot_cross_self position velocity
  have hH0 := Vec3.dot_self_nonneg (Vec3.cross position velocity)
  have hP := Vec3.length_mul_self position
  have hV := Vec3.length_mul_self velocity
  have hE := Vec3.length_mul_self (eccentricityVector position velocity mu)
  have hB2 : 0 < Vec3.dot position velocity * Vec3.dot position velocity := mul_self_pos.mpr hB
  generalize Vec3.dot (eccentricityVector position velocity mu) position = ep at *
  generalize Vec3.dot (eccentricityVector position velocity mu)
    (eccentricityVector position velocity mu) = ee at *
  generalize Vec3.length (eccentricityVector position velocity mu) = e at *
  generalize Vec3.dot (Vec3.cross position velocity) (Vec3.cross position velocity) = H at *
  generalize Vec3.dot position velocity = B at *
  generalize Vec3.dot position position = P at *
  generalize Vec3.dot velocity velocity = V at *
  generalize Vec3.length position = r at *
  generalize Vec3.length velocity = v at *
  by_contra hge
  push_neg at hge
  have hprod : 0 ≤ e * r := mul_nonneg he.le hr.le
  have hsq : (e * r) * (e * r) ≤ ep * ep := mul_self_le_mul_self hprod hge
  have hep0 : 0 ≤ ep := le_trans hprod hge
  -- the difference `e^2 r^2 - (e . p)^2` is `H B^2 / mu^2`
  have hdiff : ee * (r * r) - ep * ep = H * (B * B) / mu ^ 2 := by
    rw [h1, h2, hH, ← hP, ← hV]
    field_simp
    ring
  have hHpos : 0 < H := by
    rw [h1] at hep0
    have : r ≤ H / mu := by linarith
    have h3 : 0 < H / mu := lt_of_lt_of_le hr this
    rcases lt_or_eq_of_le hH0 with hlt | heq
    · exact hlt
    · rw [← heq] at h3; simp at h3
  have hpos : 0 < H * (B * B) / mu ^ 2 := by positivity
  have : ee * (r * r) = (e * r) * (e * r) := by rw [← hE]; ring
  linarith

end Orbit

namespace Orbit

theorem computeElements_argOfPeriapsis (position velocity : Vec3) (mu : ℝ) :
    (computeElements position velocity mu).argOfPeriapsis =
      if Vec3.length (Vec3.cross ⟨0.0, 0.0, 1.0⟩ (Vec3.cross position velocity)) > 1e-10 ∧
          Vec3.length (eccentricityVector position velocity mu) > 1e-10 then
        if (eccentricityVector position velocity mu).z < 0 then
          Constants.TWO_PI - Real.arccos (stdClamp
            (Vec3.dot (eccentricityVector position velocity mu)
                (Vec3.cross ⟨0.0, 0.0, 1.0⟩ (Vec3.cross position velocity)) /
              (Vec3.length (eccentricityVector position velocity mu) *
                Vec3.length (Vec3.cross ⟨0.0, 0.0, 1.0⟩ (Vec3.cross position velocity))))
            (-1) 1)
        else
          Real.arccos (stdClamp
            (Vec3.dot (eccentricityVector position velocity mu)
                (Vec3.cross ⟨0.0, 0.0, 1.0⟩ (Vec3.cross position velocity)) /
              (Vec3.length (eccentricityVector position velocity mu) *
                Vec3.length (Vec3.cross ⟨0.0, 0.0, 1.0⟩ (Vec3.cross position velocity))))
            (-1) 1)
      else 0 := by
  show (if Vec3.length (Vec3.cross ⟨0.0, 0.0, 1.0⟩ (Vec3.cross position velocity)) > 1e-10 ∧
          Vec3.length (eccentricityVector position velocity mu) > 1e-10 then
        if (eccentricityVector position velocity mu).z < 0 then
          Constants.TWO_PI - Real.arccos (stdClamp
            (Vec3.dot (eccentricityVector position velocity mu)
                (Vec3.cross ⟨0.0, 0.0, 1.0⟩ (Vec3.cross position velocity)) /
              (Vec3.length (eccentricityVector position velocity mu) *
                Vec3.length (Vec3.cross ⟨0.0, 0.0, 1.0⟩ (Vec3.cross position velocity))))
            (-1.0) 1.0)
        else
          Real.arccos (stdClamp
            (Vec3.dot (eccentricityVector position velocity mu)
                (Vec3.cross ⟨0.0, 0.0, 1.0⟩ (Vec3.cross position velocity)) /
              (Vec3.length (eccentricityVector position velocity mu) *
                Vec3.length (Vec3.cross ⟨0.0, 0.0, 1.0⟩ (Vec3.cross position velocity))))
            (-1.0) 1.0)
      else 0) = _
  norm_num

theorem computeElements_trueAnomaly_of_circular (position velocity : Vec3) (mu : ℝ)
    (he : ¬ (computeElements position velocity mu).eccentricity > 1e-10) :
    (computeElements position velocity mu).trueAnomaly =
      if Vec3.length (Vec3.cross ⟨0.0, 0.0, 1.0⟩ (Vec3.cross position velocity)) > 1e-10 then
        if position.z < 0 then
          Constants.TWO_PI - Real.arccos (stdClamp
            (Vec3.dot (Vec3.cross ⟨0.0, 0.0, 1.0⟩ (Vec3.cross position velocity)) position /
              (Vec3.length (Vec3.cross ⟨0.0, 0.0, 1.0⟩ (Vec3.cross position velocity)) *
                Vec3.length position)) (-1) 1)
        else
          Real.arccos (stdClamp
            (Vec3.dot (Vec3.cross ⟨0.0, 0.0, 1.0⟩ (Vec3.cross position velocity)) position /
              (Vec3.length (Vec3.cross ⟨0.0, 0.0, 1.0⟩ (Vec3.cross position velocity)) *
                Vec3.length position)) (-1) 1)
      else 0 := by
  show (if (computeElements position velocity mu).eccentricity > 1e-10 then _
      else if Vec3.length (Vec3.cross ⟨0.0, 0.0, 1.0⟩ (Vec3.cross position velocity)) > 1e-10
      then
        if position.z < 0 then
          Constants.TWO_PI - Real.arccos (stdClamp
            (Vec3.dot (Vec3.cross ⟨0.0, 0.0, 1.0⟩ (Vec3.cross position velocity)) position /
              (Vec3.length (Vec3.cross ⟨0.0, 0.0, 1.0⟩ (Vec3.cross position velocity)) *
                Vec3.length position)) (-1.0) 1.0)
        else
          Real.arccos (stdClamp
            (Vec3.dot (Vec3.cross ⟨0.0, 0.0, 1.0⟩ (Vec3.cross position velocity)) position /
              (Vec3.length (Vec3.cross ⟨0.0, 0.0, 1.0⟩ (Vec3.cross position velocity)) *
                Vec3.length position)) (-1.0) 1.0)
      else 0) = _
  rw [if_neg he]
  norm_num

theorem zero_mem_angle_range : (0 : ℝ) ≤ 0 ∧ (0 : ℝ) < Constants.TWO_PI := by
  rw [two_pi_eq]
  exact ⟨le_refl _, by linarith [Real.pi_pos]⟩

theorem raan_mem (position velocity : Vec3) (mu : ℝ) :
    0 ≤ (computeElements position velocity mu).raan ∧
    (computeElements position velocity mu).raan < Constants.TWO_PI := by
  rw [computeElements_raan]
  by_cases hn : Vec3.length (Vec3.cross ⟨0.0, 0.0, 1.0⟩ (Vec3.cross position velocity)) > 1e-10
  · rw [if_pos hn]
    exact reflected_angle_mem _ _ (fun hy => x_div_length_lt_one _ (ne_of_lt hy))
  · rw [if_neg hn]
    exact zero_mem_angle_range

theorem argOfPeriapsis_mem (position velocity : Vec3) (mu : ℝ) :
    0 ≤ (computeElements position velocity mu).argOfPeriapsis ∧
    (computeElements position velocity mu).argOfPeriapsis < Constants.TWO_PI := by
  rw [computeElements_argOfPeriapsis]
  by_cases hn : Vec3.length (Vec3.cross ⟨0.0, 0.0, 1.0⟩ (Vec3.cross position velocity)) > 1e-10 ∧
      Vec3.length (eccentricityVector position velocity mu) > 1e-10
  · rw [if_pos hn]
    have hnpos : 0 < Vec3.length (Vec3.cross ⟨0.0, 0.0, 1.0⟩ (Vec3.cross position velocity)) :=
      lt_trans (by norm_num) hn.1
    have hepos : 0 < Vec3.length (eccentricityVector position velocity mu) :=
      lt_trans (by norm_num) hn.2
    refine reflected_angle_mem _ _ (fun hz => ?_)
    rw [div_lt_one (mul_pos hepos hnpos)]
    exact dot_lt_of_off_plane _ _ (node_z position velocity) (ne_of_lt hz) hnpos
  · rw [if_neg hn]
    exact zero_mem_angle_range

theorem trueAnomaly_mem (position velocity : Vec3) (mu : ℝ) (hr : Vec3.length position > 0)
    (hmu : mu > 0) :
    0 ≤ (computeElements position velocity mu).trueAnomaly ∧
    (computeElements position velocity mu).trueAnomaly < Constants.TWO_PI := by
  by_cases he : (computeElements position velocity mu).eccentricity > 1e-10
  · rw [computeElements_trueAnomaly position velocity mu he, computeElements_eccentricity]
    have hepos : 0 < Vec3.length (eccentricityVector position velocity mu) := by
      rw [computeElements_eccentricity] at he
      exact lt_trans (by norm_num) he
    refine reflected_angle_mem _ _ (fun hB => ?_)
    rw [div_lt_one (mul_pos hepos hr)]
    exact dot_eccentricityVector_position_lt position velocity mu hmu hr hepos (ne_of_lt hB)
  · rw [computeElements_trueAnomaly_of_circular position velocity mu he]
    by_cases hn : Vec3.length (Vec3.cross ⟨0.0, 0.0, 1.0⟩ (Vec3.cross position velocity)) > 1e-10
    · rw [if_pos hn]
      have hnpos : 0 < Vec3.length (Vec3.cross ⟨0.0, 0.0, 1.0⟩ (Vec3.cross position velocity)) :=
        lt_trans (by norm_num) hn
      refine reflected_angle_mem _ _ (fun hz => ?_)
      rw [div_lt_one (mul_pos hnpos hr), dot_comm, mul_comm]
      exact dot_lt_of_off_plane _ _ (node_z position velocity) (ne_of_lt hz) hnpos
    · rw [if_neg hn]
      exact zero_mem_angle_range

theorem inclination_mem (position velocity : Vec3) (mu : ℝ) :
    0 ≤ (computeElements position velocity mu).inclination ∧
    (computeElements position velocity mu).inclination ≤ Constants.PI := by
  rw [computeElements_inclination]
  unfold Constants.PI
  split_ifs
  · exact ⟨Real.arccos_nonneg _, Real.arccos_le_pi _⟩
  · exact ⟨le_refl _, Real.pi_pos.le⟩

end Orbit

/-- C21: for every position with `|position| > 0`, every velocity and every
`mu > 0`, the angles returned by `Orbit::computeElements` satisfy
`0 <= raan < 2 pi`, `0 <= argOfPeriapsis < 2 pi`, `0 <= trueAnomaly < 2 pi` and
`0 <= inclination <= pi`: whenever a reflection `TWO_PI - angle` is applied, the
angle is positive. -/
theorem computeElements_angles_in_range (position velocity : Vec3) (mu : ℝ)
    (hr : Vec3.length position > 0) (hmu : mu > 0) :
    (0 ≤ (Orbit.computeElements position velocity mu).raan ∧
      (Orbit.computeElements position velocity mu).raan < Constants.TWO_PI) ∧
    (0 ≤ (Orbit.computeElements position velocity mu).argOfPeriapsis ∧
      (Orbit.computeElements position velocity mu).argOfPeriapsis < Constants.TWO_PI) ∧
    (0 ≤ (Orbit.computeElements position velocity mu).trueAnomaly ∧
      (Orbit.computeElements position velocity mu).trueAnomaly < Constants.TWO_PI) ∧
    (0 ≤ (Orbit.computeElements position velocity mu).inclination ∧
      (Orbit.computeElements position velocity mu).inclination ≤ Constants.PI) :=
  ⟨Orbit.raan_mem position velocity mu, Orbit.argOfPeriapsis_mem position velocity mu,
    Orbit.trueAnomaly_mem position velocity mu hr hmu, Orbit.inclination_mem position velocity mu⟩

/-- Witness for C21: a descending state (negative radial velocity) on an
inclined orbit, where the true anomaly is reflected. -/
theorem computeElements_angles_in_range_witness :
    (0 ≤ (Orbit.computeElements ⟨1, 0, 0⟩ ⟨-1, 1, 1⟩ 1).raan ∧
      (Orbit.computeElements ⟨1, 0, 0⟩ ⟨-1, 1, 1⟩ 1).raan < Constants.TWO_PI) ∧
    (0 ≤ (Orbit.computeElements ⟨1, 0, 0⟩ ⟨-1, 1, 1⟩ 1).argOfPeriapsis ∧
      (Orbit.computeElements ⟨1, 0, 0⟩ ⟨-1, 1, 1⟩ 1).argOfPeriapsis < Constants.TWO_PI) ∧
    (0 ≤ (Orbit.computeElements ⟨1, 0, 0⟩ ⟨-1, 1, 1⟩ 1).trueAnomaly ∧
      (Orbit.computeElements ⟨1, 0, 0⟩ ⟨-1, 1, 1⟩ 1).trueAnomaly < Constants.TWO_PI) ∧
    (0 ≤ (Orbit.computeElements ⟨1, 0, 0⟩ ⟨-1, 1, 1⟩ 1).inclination ∧
      (Orbit.computeElements ⟨1, 0, 0⟩ ⟨-1, 1, 1⟩ 1).inclination ≤ Constants.PI) :=
  computeElements_angles_in_range ⟨1, 0, 0⟩ ⟨-1, 1, 1⟩ 1
    (by
      have h : Vec3.length ⟨1, 0, 0⟩ = 1 :=
        Orbit.length_eq_of_dot_eq_sq _ 1 (by norm_num) (by norm_num [Vec3.dot])
      rw [h]; norm_num)
    (by norm_num)

/-! ## Orbit: eccentricity, energy and the open-orbit branch -/

namespace Orbit

theorem computeElements_angularMomentum (position velocity : Vec3) (mu : ℝ) :
    (computeElements position velocity mu).angularMomentum =
      Vec3.length (Vec3.cross position velocity) := rfl

/-- The identity `e^2 = 1 + 2 E h^2 / mu^2` between the returned fields. -/
theorem eccentricity_sq (position velocity : Vec3) (mu : ℝ) (hr : Vec3.length position > 0)
    (hmu : mu > 0) :
    (computeElements position velocity mu).eccentricity ^ 2 =
      1 + 2 * (computeElements position velocity mu).specificEnergy *
        (computeElements position velocity mu).angularMomentum ^ 2 / mu ^ 2 := by
  rw [computeElements_eccentricity, computeElements_specificEnergy,
    computeElements_angularMomentum, sq,
    Vec3.length_mul_self (eccentricityVector position velocity mu),
    dot_eccentricityVector_self position velocity mu hmu.ne' hr.ne',
    sq (Vec3.length (Vec3.cross position velocity)),
    Vec3.length_mul_self (Vec3.cross position velocity)]

theorem eccentricity_nonneg (position velocity : Vec3) (mu : ℝ) :
    0 ≤ (computeElements position velocity mu).eccentricity := by
  rw [computeElements_eccentricity]
  exact Vec3.length_nonneg _

/-- An eccentricity above 1 means a positive energy. -/
theorem specificEnergy_pos_of_hyperbolic (position velocity : Vec3) (mu : ℝ)
    (hr : Vec3.length position > 0) (hmu : mu > 0)
    (he : 1 < (computeElements position velocity mu).eccentricity) :
    0 < (computeElements position velocity mu).specificEnergy := by
  have h := eccentricity_sq position velocity mu hr hmu
  have hL : 0 ≤ (computeElements position velocity mu).angularMomentum ^ 2 := sq_nonneg _
  have hmu2 : 0 < mu ^ 2 := by positivity
  generalize (computeElements position velocity mu).eccentricity = e at *
  generalize (computeElements position velocity mu).specificEnergy = E at *
  generalize (computeElements position velocity mu).angularMomentum ^ 2 = L2 at *
  have he2 : 1 < e ^ 2 := by nlinarith
  have hpos : 0 < 2 * E * L2 / mu ^ 2 := by linarith
  have hnum : 0 < 2 * E * L2 := by
    by_contra hneg
    push_neg at hneg
    have : 2 * E * L2 / mu ^ 2 ≤ 0 := div_nonpos_of_nonpos_of_nonneg hneg hmu2.le
    linarith
  by_contra hE
  push_neg at hE
  have : 2 * E * L2 ≤ 0 := by
    have : E * L2 ≤ 0 := mul_nonpos_of_nonpos_of_nonneg hE hL
    linarith
  linarith

theorem computeElements_open_orbit (position velocity : Vec3) (mu : ℝ)
    (he : (computeElements position velocity mu).eccentricity ≥ 1) :
    (computeElements position velocity mu).apoapsisAltitude = Dbl.posInf ∧
    (computeElements position velocity mu).orbitalPeriod = Dbl.posInf := by
  have h1 : ¬ (Dbl.gtZero (computeElements position velocity mu).semiMajorAxis ∧
      (computeElements position velocity mu).eccentricity < 1.0) := by
    intro hc
    have := hc.2
    norm_num at this
    linarith
  have h2 : (computeElements position velocity mu).eccentricity ≥ 1.0 := by
    norm_num
    exact he
  constructor
  · show (if Dbl.gtZero (computeElements position velocity mu).semiMajorAxis ∧
        (computeElements position velocity mu).eccentricity < 1.0 then _
        else if (computeElements position velocity mu).eccentricity ≥ 1.0 then
          ((_ : Dbl), Dbl.posInf, Dbl.posInf)
        else _).2.1 = _
    rw [if_neg h1, if_pos h2]
  · show (if Dbl.gtZero (computeElements position velocity mu).semiMajorAxis ∧
        (computeElements position velocity mu).eccentricity < 1.0 then _
        else if (computeElements position velocity mu).eccentricity ≥ 1.0 then
          ((_ : Dbl), Dbl.posInf, Dbl.posInf)
        else _).2.2 = _
    rw [if_neg h1, if_pos h2]

theorem computeElements_periapsis_of_hyperbolic (position velocity : Vec3) (mu a : ℝ)
    (ha : (computeElements position velocity mu).semiMajorAxis = Dbl.fin a) (hneg : a < 0)
    (he : (computeElements position velocity mu).eccentricity ≥ 1) :
    (computeElements position velocity mu).periapsisAltitude =
      Dbl.fin (-a * ((computeElements position velocity mu).eccentricity - 1) -
        Constants.MOON_RADIUS) := by
  have h1 : ¬ (Dbl.gtZero (computeElements position velocity mu).semiMajorAxis ∧
      (computeElements position velocity mu).eccentricity < 1.0) := by
    intro hc
    have := hc.2
    norm_num at this
    linarith
  have h2 : (computeElements position velocity mu).eccentricity ≥ 1.0 := by
    norm_num
    exact he
  have h3 : Dbl.ltZero (computeElements position velocity mu).semiMajorAxis := by
    rw [ha]; exact hneg
  show (if Dbl.gtZero (computeElements position velocity mu).semiMajorAxis ∧
      (computeElements position velocity mu).eccentricity < 1.0 then _
      else if (computeElements position velocity mu).eccentricity ≥ 1.0 then
        (Dbl.subReal
          (if Dbl.ltZero (computeElements position velocity mu).semiMajorAxis then
            Dbl.mulReal (Dbl.neg (computeElements position velocity mu).semiMajorAxis)
              ((computeElements position velocity mu).eccentricity - 1.0)
          else Dbl.mulReal (computeElements position velocity mu).semiMajorAxis
              (1.0 - (computeElements position velocity mu).eccentricity))
          Constants.MOON_RADIUS, Dbl.posInf, Dbl.posInf)
      else _).1 = _
  rw [if_neg h1, if_pos h2, if_pos h3, ha]
  show Dbl.fin _ = Dbl.fin _
  norm_num

theorem length_fastVelocity : Vec3.length Sample.fastVelocity = 2 :=
  length_eq_of_dot_eq_sq _ _ (by norm_num) (by norm_num [Vec3.dot, Sample.fastVelocity])

theorem eccentricity_fast :
    (computeElements Sample.unitPosition Sample.fastVelocity 1).eccentricity = 3 := by
  rw [computeElements_eccentricity]
  apply length_eq_of_dot_eq_sq _ _ (by norm_num)
  unfold eccentricityVector
  simp only [length_unitPosition, length_fastVelocity]
  norm_num [Vec3.dot, Vec3.divs, Vec3.sub, Vec3.lscale, Sample.unitPosition,
    Sample.fastVelocity]

end Orbit

/-- C22: for `|position| > 0` and `mu > 0`, `Orbit::computeElements` returns
`semiMajorAxis = +infinity` when `|eccentricity - 1| <= 1e-10` and
`-mu / (2 * specificEnergy)` otherwise (the energy is then not zero); whenever
`eccentricity >= 1` it returns `apoapsisAltitude = +infinity` and
`orbitalPeriod = +infinity`; and for `eccentricity > 1 + 1e-10` the semi-major
axis is a negative number `a`, `periapsisAltitude` is
`-a * (eccentricity - 1) - MOON_RADIUS` and `-a * (eccentricity - 1) > 0`. -/
theorem computeElements_parabolic_and_hyperbolic (position velocity : Vec3) (mu : ℝ)
    (hr : Vec3.length position > 0) (hmu : mu > 0) :
    (|(Orbit.computeElements position velocity mu).eccentricity - 1| ≤ 1e-10 →
      (Orbit.computeElements position velocity mu).semiMajorAxis = Dbl.posInf) ∧
    (¬ |(Orbit.computeElements position velocity mu).eccentricity - 1| ≤ 1e-10 →
      (Orbit.computeElements position velocity mu).specificEnergy ≠ 0 ∧
      (Orbit.computeElements position velocity mu).semiMajorAxis =
        Dbl.fin (-mu / (2 * (Orbit.computeElements position velocity mu).specificEnergy))) ∧
    ((Orbit.computeElements position velocity mu).eccentricity ≥ 1 →
      (Orbit.computeElements position velocity mu).apoapsisAltitude = Dbl.posInf ∧
      (Orbit.computeElements position velocity mu).orbitalPeriod = Dbl.posInf) ∧
    ((Orbit.computeElements position velocity mu).eccentricity > 1 + 1e-10 →
      ∃ a : ℝ, a < 0 ∧
        (Orbit.computeElements position velocity mu).semiMajorAxis = Dbl.fin a ∧
        (Orbit.computeElements position velocity mu).periapsisAltitude =
          Dbl.fin (-a * ((Orbit.computeElements position velocity mu).eccentricity - 1) -
            Constants.MOON_RADIUS) ∧
        0 < -a * ((Orbit.computeElements position velocity mu).eccentricity - 1)) := by
  have hsma := Orbit.computeElements_semiMajorAxis position velocity mu
  refine ⟨?_, ?_, ?_, ?_⟩
  · intro h
    rw [hsma, if_neg (not_lt.mpr h)]
  · intro h
    refine ⟨?_, ?_⟩
    · intro hE
      have hsq := Orbit.eccentricity_sq position velocity mu hr hmu
      rw [hE] at hsq
      have h0 := Orbit.eccentricity_nonneg position velocity mu
      have h1 : (Orbit.computeElements position velocity mu).eccentricity = 1 := by
        have : (Orbit.computeElements position velocity mu).eccentricity ^ 2 = 1 := by
          rw [hsq]; ring
        nlinarith
      apply h
      rw [h1]
      norm_num
    · rw [hsma, if_pos (not_le.mp h)]
  · exact Orbit.computeElements_open_orbit position velocity mu
  · intro h
    have h1 : 1 < (Orbit.computeElements position velocity mu).eccentricity := by
      have : (0 : ℝ) < 1e-10 := by norm_num
      linarith
    have hE := Orbit.specificEnergy_pos_of_hyperbolic position velocity mu hr hmu h1
    have habs : |(Orbit.computeElements position velocity mu).eccentricity - 1| > 1e-10 := by
      rw [abs_of_pos (by linarith)]
      linarith
    have ha : (Orbit.computeElements position velocity mu).semiMajorAxis =
        Dbl.fin (-mu / (2 * (Orbit.computeElements position velocity mu).specificEnergy)) := by
      rw [hsma, if_pos habs]
    have hneg : -mu / (2 * (Orbit.computeElements position velocity mu).specificEnergy) < 0 :=
      div_neg_of_neg_of_pos (by linarith) (by linarith)
    refine ⟨_, hneg, ha, ?_, ?_⟩
    · exact Orbit.computeElements_periapsis_of_hyperbolic position velocity mu _ ha hneg h1.le
    · exact mul_pos (by linarith) (by linarith)

/-- C28: for `|position| > 0` and `mu > 0` the fields returned by
`Orbit::computeElements` satisfy
`eccentricity^2 = 1 + 2 * specificEnergy * angularMomentum^2 / mu^2`; a state
with zero angular momentum, in particular one whose velocity is a multiple
`k * position` of the position (zero for `k = 0`), is reported with
`eccentricity = 1` and `semiMajorAxis = +infinity`. -/
theorem computeElements_eccentricity_energy_momentum (position velocity : Vec3) (mu : ℝ)
    (hr : Vec3.length position > 0) (hmu : mu > 0) :
    (Orbit.computeElements position velocity mu).eccentricity ^ 2 =
      1 + 2 * (Orbit.computeElements position velocity mu).specificEnergy *
        (Orbit.computeElements position velocity mu).angularMomentum ^ 2 / mu ^ 2 ∧
    ((Orbit.computeElements position velocity mu).angularMomentum = 0 →
      (Orbit.computeElements position velocity mu).eccentricity = 1 ∧
      (Orbit.computeElements position velocity mu).semiMajorAxis = Dbl.posInf) ∧
    (∀ k : ℝ, velocity = Vec3.lscale k position →
      (Orbit.computeElements position velocity mu).angularMomentum = 0) := by
  have hsq := Orbit.eccentricity_sq position velocity mu hr hmu
  refine ⟨hsq, ?_, ?_⟩
  · intro hL
    rw [hL] at hsq
    have h0 := Orbit.eccentricity_nonneg position velocity mu
    have h1 : (Orbit.computeElements position velocity mu).eccentricity = 1 := by
      have : (Orbit.computeElements position velocity mu).eccentricity ^ 2 = 1 := by
        rw [hsq]; ring
      nlinarith
    refine ⟨h1, ?_⟩
    rw [Orbit.computeElements_semiMajorAxis, h1, if_neg]
    norm_num
  · intro k hk
    rw [Orbit.computeElements_angularMomentum, hk]
    have hz : Vec3.cross position (Vec3.lscale k position) = ⟨0, 0, 0⟩ := by
      ext <;> simp only [Vec3.cross, Vec3.lscale] <;> ring
    rw [hz]
    unfold Vec3.length
    simp [Vec3.dot]

/-- Witness for C22: the hyperbolic state `position = (1, 0, 0)`,
`velocity = (0, 2, 0)` with `mu = 1`, of eccentricity 3. -/
theorem computeElements_parabolic_and_hyperbolic_witness :
    ∃ a : ℝ, a < 0 ∧
      (Orbit.computeElements Sample.unitPosition Sample.fastVelocity 1).semiMajorAxis =
        Dbl.fin a ∧
      (Orbit.computeElements Sample.unitPosition Sample.fastVelocity 1).periapsisAltitude =
        Dbl.fin (-a *
          ((Orbit.computeElements Sample.unitPosition Sample.fastVelocity 1).eccentricity - 1) -
          Constants.MOON_RADIUS) ∧
      0 < -a *
        ((Orbit.computeElements Sample.unitPosition Sample.fastVelocity 1).eccentricity - 1) :=
  (computeElements_parabolic_and_hyperbolic Sample.unitPosition Sample.fastVelocity 1
    (by rw [Orbit.length_unitPosition]; norm_num) (by norm_num)).2.2.2
    (by rw [Orbit.eccentricity_fast]; norm_num)

/-- Witness for C28: a radial state, `velocity = 3 * position`, with `mu = 1`. -/
theorem computeElements_eccentricity_energy_momentum_witness :
    (Orbit.computeElements ⟨1, 0, 0⟩ ⟨3, 0, 0⟩ 1).eccentricity = 1 ∧
    (Orbit.computeElements ⟨1, 0, 0⟩ ⟨3, 0, 0⟩ 1).semiMajorAxis = Dbl.posInf :=
  have h : Vec3.length ⟨1, 0, 0⟩ = 1 :=
    Orbit.length_eq_of_dot_eq_sq _ 1 (by norm_num) (by norm_num [Vec3.dot])
  have hc := computeElements_eccentricity_energy_momentum ⟨1, 0, 0⟩ ⟨3, 0, 0⟩ 1
    (by rw [h]; norm_num) (by norm_num)
  hc.2.1 (hc.2.2 3 (by ext <;> simp [Vec3.lscale]))

/-! ## Spacecraft: the steering axes -/

namespace Spacecraft

theorem computeThrustVector_eq_axes (s : Spacecraft) :
    computeThrustVector s =
      if s.m_throttle < 1e-10 ∨ ¬ hasFuel s then Vec3.zero
      else
        Vec3.scale (Vec3.scale
          (match s.m_thrustMode with
            | ThrustMode.Prograde => (steeringAxes s).2.1
            | ThrustMode.Retrograde => Vec3.neg (steeringAxes s).2.1
            | ThrustMode.RadialIn => Vec3.neg (steeringAxes s).1
            | ThrustMode.RadialOut => (steeringAxes s).1
            | ThrustMode.Normal => (steeringAxes s).2.2
            | ThrustMode.AntiNormal => Vec3.neg (steeringAxes s).2.2
            | ThrustMode.Custom => s.m_thrustDirection) s.m_throttle) s.m_maxThrust := rfl

theorem dot_normalize_left (a b : Vec3) :
    Vec3.dot (Vec3.normalize a) b = Vec3.dot a b / Vec3.length a := by
  simp only [Vec3.normalize, Vec3.dot, Vec3.scale, Vec3.length]
  ring

theorem dot_normalize_right (a b : Vec3) :
    Vec3.dot a (Vec3.normalize b) = Vec3.dot a b / Vec3.length b := by
  simp only [Vec3.normalize, Vec3.dot, Vec3.scale, Vec3.length]
  ring

theorem dot_cross_left (a b : Vec3) : Vec3.dot a (Vec3.cross a b) = 0 := by
  simp only [Vec3.dot, Vec3.cross]; ring

theorem dot_cross_right (a b : Vec3) : Vec3.dot b (Vec3.cross a b) = 0 := by
  simp only [Vec3.dot, Vec3.cross]; ring

theorem normalize_zero : Vec3.normalize Vec3.zero = Vec3.zero := by
  ext <;> simp [Vec3.normalize, Vec3.scale, Vec3.zero]

theorem cross_zero_left (b : Vec3) : Vec3.cross Vec3.zero b = Vec3.zero := by
  ext <;> simp [Vec3.cross, Vec3.zero]

theorem cross_zero_right (a : Vec3) : Vec3.cross a Vec3.zero = Vec3.zero := by
  ext <;> simp [Vec3.cross, Vec3.zero]

theorem length_zero : Vec3.length Vec3.zero = 0 := by
  simp [Vec3.length, Vec3.dot, Vec3.zero]

/-- The guard on the cross product of the unit vectors excludes a zero
position and a zero velocity. -/
theorem ne_zero_of_normal_guard (p v : Vec3)
    (h : Vec3.length (Vec3.cross (Vec3.normalize p) (Vec3.normalize v)) > 1e-10) :
    p ≠ Vec3.zero ∧ v ≠ Vec3.zero := by
  have hpos : (0 : ℝ) < 1e-10 := by norm_num
  constructor
  · intro hp
    rw [hp, normalize_zero, cross_zero_left, length_zero] at h
    linarith
  · intro hv
    rw [hv, normalize_zero, cross_zero_right, length_zero] at h
    linarith

end Spacecraft

/-- C26, as the code has it: when the guard
`|cross(radial, prograde)| > 1e-10` of `Spacecraft::computeThrustVector` holds
(so position and velocity are non-zero and not parallel), `radial`, `prograde`
and `normal` have unit length and `normal` is orthogonal to `radial` and to
`prograde`; `radial . prograde` is `dot(position, velocity)` divided by
`|position| |velocity|`, which is zero exactly when the radial velocity
`dot(position, velocity)` is zero. -/
theorem steering_axes_unit_and_normal_orthogonal (s : Spacecraft)
    (h : Vec3.length (Vec3.cross (Vec3.normalize s.m_state.position)
      (Vec3.normalize s.m_state.velocity)) > 1e-10) :
    Vec3.length (Spacecraft.steeringAxes s).1 = 1 ∧
    Vec3.length (Spacecraft.steeringAxes s).2.1 = 1 ∧
    Vec3.length (Spacecraft.steeringAxes s).2.2 = 1 ∧
    Vec3.dot (Spacecraft.steeringAxes s).1 (Spacecraft.steeringAxes s).2.2 = 0 ∧
    Vec3.dot (Spacecraft.steeringAxes s).2.1 (Spacecraft.steeringAxes s).2.2 = 0 ∧
    Vec3.dot (Spacecraft.steeringAxes s).1 (Spacecraft.steeringAxes s).2.1 =
      Vec3.dot s.m_state.position s.m_state.velocity /
        (Vec3.length s.m_state.position * Vec3.length s.m_state.velocity) ∧
    (Vec3.dot (Spacecraft.steeringAxes s).1 (Spacecraft.steeringAxes s).2.1 = 0 ↔
      Vec3.dot s.m_state.position s.m_state.velocity = 0) := by
  obtain ⟨hp, hv⟩ := Spacecraft.ne_zero_of_normal_guard _ _ h
  have hlp := Vec3.length_pos _ hp
  have hlv := Vec3.length_pos _ hv
  have hrp : Vec3.dot (Vec3.normalize s.m_state.position) (Vec3.normalize s.m_state.velocity) =
      Vec3.dot s.m_state.position s.m_state.velocity /
        (Vec3.length s.m_state.position * Vec3.length s.m_state.velocity) := by
    rw [Spacecraft.dot_normalize_left, Spacecraft.dot_normalize_right, div_div, mul_comm]
  have hn : (Spacecraft.steeringAxes s).2.2 =
      Vec3.normalize (Vec3.cross (Vec3.normalize s.m_state.position)
        (Vec3.normalize s.m_state.velocity)) := by
    show (if Vec3.length (Vec3.cross (Vec3.normalize s.m_state.position)
        (Vec3.normalize s.m_state.velocity)) > 1e-10 then _ else _) = _
    rw [if_pos h]
  refine ⟨Vec3.length_normalize _ hp, Vec3.length_normalize _ hv, ?_, ?_, ?_, hrp, ?_⟩
  · exact Spacecraft.length_normal_axis _
  · rw [hn, Spacecraft.dot_normalize_right]
    show Vec3.dot (Vec3.normalize s.m_state.position) _ / _ = 0
    rw [Spacecraft.dot_cross_left, zero_div]
  · rw [hn, Spacecraft.dot_normalize_right]
    show Vec3.dot (Vec3.normalize s.m_state.velocity) _ / _ = 0
    rw [Spacecraft.dot_cross_right, zero_div]
  · show Vec3.dot (Vec3.normalize s.m_state.position) (Vec3.normalize s.m_state.velocity) = 0 ↔ _
    rw [hrp, div_eq_zero_iff]
    constructor
    · rintro (h0 | h0)
      · exact h0
      · exact absurd h0 (mul_pos hlp hlv).ne'
    · intro h0
      exact Or.inl h0

namespace Sample

theorem normalize_climbing_position :
    Vec3.normalize climbing.m_state.position = ⟨1, 0, 0⟩ := by
  have h : Real.sqrt (Vec3.dot climbing.m_state.position climbing.m_state.position) = 1 := by
    have : Vec3.dot climbing.m_state.position climbing.m_state.position = 1 := by
      norm_num [Vec3.dot, climbing]
    rw [this, Real.sqrt_one]
  unfold Vec3.normalize
  rw [h]
  ext <;> norm_num [Vec3.scale, climbing]

theorem normalize_climbing_velocity :
    Vec3.normalize climbing.m_state.velocity = ⟨3 / 5, 4 / 5, 0⟩ := by
  have h : Real.sqrt (Vec3.dot climbing.m_state.velocity climbing.m_state.velocity) = 5 := by
    have : Vec3.dot climbing.m_state.velocity climbing.m_state.velocity = 5 ^ 2 := by
      norm_num [Vec3.dot, climbing]
    rw [this, Real.sqrt_sq (by norm_num)]
  unfold Vec3.normalize
  rw [h]
  ext <;> norm_num [Vec3.scale, climbing]

theorem climbing_guard :
    Vec3.length (Vec3.cross (Vec3.normalize climbing.m_state.position)
      (Vec3.normalize climbing.m_state.velocity)) = 4 / 5 := by
  rw [normalize_climbing_position, normalize_climbing_velocity]
  exact Orbit.length_eq_of_dot_eq_sq _ _ (by norm_num) (by norm_num [Vec3.dot, Vec3.cross])

theorem normalize_grazing_position :
    Vec3.normalize grazing.m_state.position = ⟨0, 0, 1⟩ := by
  have h : Real.sqrt (Vec3.dot grazing.m_state.position grazing.m_state.position) = 1 := by
    have : Vec3.dot grazing.m_state.position grazing.m_state.position = 1 := by
      norm_num [Vec3.dot, grazing]
    rw [this, Real.sqrt_one]
  unfold Vec3.normalize
  rw [h]
  ext <;> norm_num [Vec3.scale, grazing]

theorem normalize_grazing_velocity :
    Vec3.normalize grazing.m_state.velocity =
      ⟨2 * 10 ^ 11 / (10 ^ 22 + 1), 0, (10 ^ 22 - 1) / (10 ^ 22 + 1)⟩ := by
  have h : Real.sqrt (Vec3.dot grazing.m_state.velocity grazing.m_state.velocity) =
      10 ^ 22 + 1 := by
    have : Vec3.dot grazing.m_state.velocity grazing.m_state.velocity = (10 ^ 22 + 1) ^ 2 := by
      norm_num [Vec3.dot, grazing]
    rw [this, Real.sqrt_sq (by norm_num)]
  unfold Vec3.normalize
  rw [h]
  ext <;> norm_num [Vec3.scale, grazing]

theorem grazing_guard :
    Vec3.length (Vec3.cross (Vec3.normalize grazing.m_state.position)
      (Vec3.normalize grazing.m_state.velocity)) = 2 * 10 ^ 11 / (10 ^ 22 + 1) := by
  rw [normalize_grazing_position, normalize_grazing_velocity]
  exact Orbit.length_eq_of_dot_eq_sq _ _ (by norm_num) (by norm_num [Vec3.dot, Vec3.cross])

end Sample

/-- C26 fails as stated.  At position `(1, 0, 0)` and velocity `(3, 4, 0)`,
which are non-zero and not parallel, `radial . prograde = 3/5`.  At position
`(0, 0, 1)` and velocity `(2e11, 0, 1e22 - 1)`, non-zero and not parallel
either, the cross product of the unit vectors is within the `1e-10` guard, the
fixed axis `(0, 0, 1)` is taken as `normal`, and `radial . normal = 1`. -/
theorem steering_axes_not_orthogonal :
    (Sample.climbing.m_state.position ≠ Vec3.zero ∧
      Sample.climbing.m_state.velocity ≠ Vec3.zero ∧
      Vec3.cross Sample.climbing.m_state.position Sample.climbing.m_state.velocity ≠
        Vec3.zero ∧
      Vec3.dot (Spacecraft.steeringAxes Sample.climbing).1
        (Spacecraft.steeringAxes Sample.climbing).2.1 = 3 / 5) ∧
    (Sample.grazing.m_state.position ≠ Vec3.zero ∧
      Sample.grazing.m_state.velocity ≠ Vec3.zero ∧
      Vec3.cross Sample.grazing.m_state.position Sample.grazing.m_state.velocity ≠
        Vec3.zero ∧
      Vec3.dot (Spacecraft.steeringAxes Sample.grazing).1
        (Spacecraft.steeringAxes Sample.grazing).2.2 = 1) := by
  refine ⟨⟨?_, ?_, ?_, ?_⟩, ⟨?_, ?_, ?_, ?_⟩⟩
  · intro h
    have := congrArg Vec3.x h
    norm_num [Sample.climbing, Vec3.zero] at this
  · intro h
    have := congrArg Vec3.x h
    norm_num [Sample.climbing, Vec3.zero] at this
  · intro h
    have := congrArg Vec3.z h
    norm_num [Sample.climbing, Vec3.zero, Vec3.cross] at this
  · show Vec3.dot (Vec3.normalize Sample.climbing.m_state.position)
      (Vec3.normalize Sample.climbing.m_state.velocity) = 3 / 5
    rw [Sample.normalize_climbing_position, Sample.normalize_climbing_velocity]
    norm_num [Vec3.dot]
  · intro h
    have := congrArg Vec3.z h
    norm_num [Sample.grazing, Vec3.zero] at this
  · intro h
    have := congrArg Vec3.x h
    norm_num [Sample.grazing, Vec3.zero] at this
  · intro h
    have := congrArg Vec3.y h
    norm_num [Sample.grazing, Vec3.zero, Vec3.cross] at this
  · have hg : ¬ Vec3.length (Vec3.cross (Vec3.normalize Sample.grazing.m_state.position)
        (Vec3.normalize Sample.grazing.m_state.velocity)) > 1e-10 := by
      rw [Sample.grazing_guard]
      norm_num
    show Vec3.dot (Vec3.normalize Sample.grazing.m_state.position)
      (if Vec3.length (Vec3.cross (Vec3.normalize Sample.grazing.m_state.position)
        (Vec3.normalize Sample.grazing.m_state.velocity)) > 1e-10 then _
        else ⟨0.0, 0.0, 1.0⟩) = 1
    rw [if_neg hg, Sample.normalize_grazing_position]
    norm_num [Vec3.dot]

/-- Witness for the amended C26: position `(1, 0, 0)`, velocity `(3, 4, 0)`. -/
theorem steering_axes_unit_and_normal_orthogonal_witness :
    Vec3.length (Spacecraft.steeringAxes Sample.climbing).1 = 1 ∧
    Vec3.length (Spacecraft.steeringAxes Sample.climbing).2.1 = 1 ∧
    Vec3.length (Spacecraft.steeringAxes Sample.climbing).2.2 = 1 ∧
    Vec3.dot (Spacecraft.steeringAxes Sample.climbing).1
      (Spacecraft.steeringAxes Sample.climbing).2.2 = 0 ∧
    Vec3.dot (Spacecraft.steeringAxes Sample.climbing).2.1
      (Spacecraft.steeringAxes Sample.climbing).2.2 = 0 :=
  have h := steering_axes_unit_and_normal_orthogonal Sample.climbing
    (by rw [Sample.climbing_guard]; norm_num)
  ⟨h.1, h.2.1, h.2.2.1, h.2.2.2.1, h.2.2.2.2.1⟩

/-! ## Integrator: angular momentum under the semi-implicit Euler step -/

namespace Integrator

theorem step_semiImplicitEuler (state : SpacecraftState) (dt : ℝ)
    (computeDerivatives : SpacecraftState → Vec3 × Vec3) :
    step state dt IntegratorType.SemiImplicitEuler computeDerivatives =
      stepSemiImplicitEuler state dt computeDerivatives := by
  unfold step
  rw [if_neg (by decide), if_pos rfl]

/-- The cross product after a semi-implicit Euler step whose acceleration is
`k` times the position. -/
theorem cross_stepSemiImplicitEuler (state : SpacecraftState) (dt k : ℝ)
    (computeDerivatives : SpacecraftState → Vec3 × Vec3)
    (h : (computeDerivatives state).1 = Vec3.lscale k state.position) :
    Vec3.cross (stepSemiImplicitEuler state dt computeDerivatives).position
        (stepSemiImplicitEuler state dt computeDerivatives).velocity =
      Vec3.cross state.position state.velocity := by
  show Vec3.cross
      (Vec3.add state.position
        (Vec3.scale (Vec3.add state.velocity (Vec3.scale (computeDerivatives state).1 dt)) dt))
      (Vec3.add state.velocity (Vec3.scale (computeDerivatives state).1 dt)) = _
  rw [h]
  ext <;> simp only [Vec3.cross, Vec3.add, Vec3.scale, Vec3.lscale] <;> ring

end Integrator

namespace Application

/-- The gravity of `computeDerivatives` is a multiple of the position. -/
theorem computeDerivatives_central (state : SpacecraftState) :
    ∃ k : ℝ, (computeDerivatives state).1 = Vec3.lscale k state.position := by
  by_cases hr : Vec3.length state.position > 1.0
  · refine ⟨-Constants.MOON_MU /
      (Vec3.length state.position * Vec3.length state.position * Vec3.length state.position), ?_⟩
    unfold computeDerivatives
    simp only [if_pos hr]
    ext <;> simp only [Vec3.divs, Vec3.lscale] <;> ring
  · refine ⟨0, ?_⟩
    unfold computeDerivatives
    simp only [if_neg hr]
    ext <;> simp [Vec3.zero, Vec3.lscale]

end Application

/-- C27: for every state, every `dt` and every derivative function whose
acceleration at the state is a multiple of the position, one `Integrator::step`
with `Type::SemiImplicitEuler` leaves `cross(position, velocity)` unchanged;
the gravity of `Application::computeDerivatives` is such a function. -/
theorem semi_implicit_euler_keeps_angular_momentum :
    (∀ (state : SpacecraftState) (dt : ℝ)
        (computeDerivatives : SpacecraftState → Vec3 × Vec3),
      (∃ k : ℝ, (computeDerivatives state).1 = Vec3.lscale k state.position) →
      Vec3.cross
          (Integrator.step state dt IntegratorType.SemiImplicitEuler
            computeDerivatives).position
          (Integrator.step state dt IntegratorType.SemiImplicitEuler
            computeDerivatives).velocity =
        Vec3.cross state.position state.velocity) ∧
    (∀ (state : SpacecraftState) (dt : ℝ),
      Vec3.cross
          (Integrator.step state dt IntegratorType.SemiImplicitEuler
            Application.computeDerivatives).position
          (Integrator.step state dt IntegratorType.SemiImplicitEuler
            Application.computeDerivatives).velocity =
        Vec3.cross state.position state.velocity) := by
  have key : ∀ (state : SpacecraftState) (dt : ℝ)
      (computeDerivatives : SpacecraftState → Vec3 × Vec3),
      (∃ k : ℝ, (computeDerivatives state).1 = Vec3.lscale k state.position) →
      Vec3.cross
          (Integrator.step state dt IntegratorType.SemiImplicitEuler
            computeDerivatives).position
          (Integrator.step state dt IntegratorType.SemiImplicitEuler
            computeDerivatives).velocity =
        Vec3.cross state.position state.velocity := by
    intro state dt f hc
    obtain ⟨k, hk⟩ := hc
    rw [Integrator.step_semiImplicitEuler]
    exact Integrator.cross_stepSemiImplicitEuler state dt k f hk
  exact ⟨key, fun state dt => key state dt _ (Application.computeDerivatives_central state)⟩

/-- Witness for C27: the state at `(2, 0, 0)` with velocity `(1, 0, 0)` under a
force-free derivative function, whose acceleration is `0 * position`. -/
theorem semi_implicit_euler_keeps_angular_momentum_witness :
    Vec3.cross
        (Integrator.step Sample.approachState 1 IntegratorType.SemiImplicitEuler
          Sample.coastDerivatives).position
        (Integrator.step Sample.approachState 1 IntegratorType.SemiImplicitEuler
          Sample.coastDerivatives).velocity =
      Vec3.cross Sample.approachState.position Sample.approachState.velocity :=
  semi_implicit_euler_keeps_angular_momentum.1 Sample.approachState 1 Sample.coastDerivatives
    ⟨0, by ext <;> simp [Sample.coastDerivatives, Vec3.zero, Vec3.lscale]⟩

/-! ## Simulation clock: time-warp and level index -/

namespace Time

theorem level_mono (i j : ℤ) (hi0 : 0 ≤ i) (hij : i ≤ j) (hj5 : j ≤ 5) :
    TIME_WARP_LEVELS i ≤ TIME_WARP_LEVELS j := by
  have hi : i = 0 ∨ i = 1 ∨ i = 2 ∨ i = 3 ∨ i = 4 ∨ i = 5 := by omega
  have hj : j = 0 ∨ j = 1 ∨ j = 2 ∨ j = 3 ∨ j = 4 ∨ j = 5 := by omega
  rcases hi with rfl | rfl | rfl | rfl | rfl | rfl <;>
    rcases hj with rfl | rfl | rfl | rfl | rfl | rfl <;>
    first
      | (exfalso; omega)
      | simp [TIME_WARP_LEVELS]

theorem run_synced (t : Time) (op : Op) (hs : Synced t) (hop : Op.snapsToLevel op) :
    Synced (Op.run t op) := by
  cases op with
  | setTimeWarp warp =>
      obtain ⟨i, hi0, hi5, hi⟩ := (isWarpLevel_iff _).mp hop
      show (setTimeWarp t warp).m_timeWarp =
        TIME_WARP_LEVELS (setTimeWarp t warp).m_warpLevelIndex
      rw [setTimeWarp_timeWarp, setTimeWarp_index_of_level t warp i hi0 hi5 hi, hi]
  | increaseTimeWarp =>
      show (increaseTimeWarp t).m_timeWarp =
        TIME_WARP_LEVELS (increaseTimeWarp t).m_warpLevelIndex
      unfold increaseTimeWarp
      split_ifs
      · rfl
      · exact hs
  | decreaseTimeWarp =>
      show (decreaseTimeWarp t).m_timeWarp =
        TIME_WARP_LEVELS (decreaseTimeWarp t).m_warpLevelIndex
      unfold decreaseTimeWarp
      split_ifs
      · rfl
      · exact hs
  | togglePause => exact hs
  | setPaused paused => exact hs
  | update now => exact hs
  | reset => exact hs

theorem runOps_synced (ops : List Op) (t : Time) (hs : Synced t)
    (hops : ∀ op ∈ ops, Op.snapsToLevel op) : Synced (runOps t ops) := by
  induction ops generalizing t with
  | nil => exact hs
  | cons op rest ih =>
      exact ih (Op.run t op) (run_synced t op hs (hops op (List.mem_cons_self _ _)))
        (fun o ho => hops o (List.mem_cons_of_mem _ ho))

theorem init_synced (t : Time) (now : ℝ) : Synced (init t now) := rfl

theorem decreaseTimeWarp_le (t : Time) (hr : InRange t) (hs : Synced t) :
    (decreaseTimeWarp t).m_timeWarp ≤ t.m_timeWarp := by
  obtain ⟨h0, h5, _, _⟩ := hr
  unfold decreaseTimeWarp
  split_ifs with hc
  · show TIME_WARP_LEVELS (t.m_warpLevelIndex - 1) ≤ t.m_timeWarp
    rw [hs]
    exact level_mono _ _ (by omega) (by omega) h5
  · exact le_refl _

theorem le_increaseTimeWarp (t : Time) (hr : InRange t) (hs : Synced t) :
    t.m_timeWarp ≤ (increaseTimeWarp t).m_timeWarp := by
  obtain ⟨h0, h5, _, _⟩ := hr
  unfold increaseTimeWarp NUM_WARP_LEVELS
  split_ifs with hc
  · show t.m_timeWarp ≤ TIME_WARP_LEVELS (t.m_warpLevelIndex + 1)
    rw [hs]
    exact level_mono _ _ h0 (by omega) (by omega)
  · exact le_refl _

end Time

/-- C29 fails as stated.  After `init()` and `setTimeWarp(99)` the time-warp
is 99 while the level index is still 0, whose table entry is 1, and
`increaseTimeWarp()` then leaves the time-warp 2; after five
`increaseTimeWarp()` and `setTimeWarp(3)` the time-warp is 3 at level index 5,
and `decreaseTimeWarp()` then leaves 50. -/
theorem timeWarp_and_level_index_diverge :
    ((Time.runOps Sample.freshClock [Time.Op.setTimeWarp 99]).m_timeWarp = 99 ∧
      Time.TIME_WARP_LEVELS
        (Time.runOps Sample.freshClock [Time.Op.setTimeWarp 99]).m_warpLevelIndex = 1 ∧
      (Time.increaseTimeWarp
        (Time.runOps Sample.freshClock [Time.Op.setTimeWarp 99])).m_timeWarp = 2) ∧
    ((Time.runOps Sample.freshClock
        [Time.Op.increaseTimeWarp, Time.Op.increaseTimeWarp, Time.Op.increaseTimeWarp,
          Time.Op.increaseTimeWarp, Time.Op.increaseTimeWarp,
          Time.Op.setTimeWarp 3]).m_timeWarp = 3 ∧
      (Time.decreaseTimeWarp (Time.runOps Sample.freshClock
        [Time.Op.increaseTimeWarp, Time.Op.increaseTimeWarp, Time.Op.increaseTimeWarp,
          Time.Op.increaseTimeWarp, Time.Op.increaseTimeWarp,
          Time.Op.setTimeWarp 3])).m_timeWarp = 50) := by
  refine ⟨⟨?_, ?_, ?_⟩, ⟨?_, ?_⟩⟩ <;>
    simp [Time.runOps, Time.Op.run, Time.setTimeWarp, Time.findWarpLevel, Time.TIME_WARP_LEVELS,
      Time.increaseTimeWarp, Time.decreaseTimeWarp, Time.NUM_WARP_LEVELS, Sample.freshClock,
      Time.init, stdClampInt, Constants.MAX_TIME_WARP]

/-- C29, as the code has it: in every clock state reached from `Time::init()`
by a finite sequence of `setTimeWarp`, `increaseTimeWarp`, `decreaseTimeWarp`,
`togglePause`, `setPaused`, `update` and `reset` in which every `setTimeWarp`
argument clamps to one of the levels 1, 2, 5, 10, 50, 100, the time-warp is
`TIME_WARP_LEVELS[level index]`; there `decreaseTimeWarp()` does not leave a
larger time-warp than it found and `increaseTimeWarp()` not a smaller one. -/
theorem timeWarp_is_table_entry_when_arguments_snap (t0 : Time) (now : ℝ)
    (ops : List Time.Op) (hops : ∀ op ∈ ops, Time.Op.snapsToLevel op) :
    (Time.runOps (Time.init t0 now) ops).m_timeWarp =
      Time.TIME_WARP_LEVELS (Time.runOps (Time.init t0 now) ops).m_warpLevelIndex ∧
    (Time.decreaseTimeWarp (Time.runOps (Time.init t0 now) ops)).m_timeWarp ≤
      (Time.runOps (Time.init t0 now) ops).m_timeWarp ∧
    (Time.runOps (Time.init t0 now) ops).m_timeWarp ≤
      (Time.increaseTimeWarp (Time.runOps (Time.init t0 now) ops)).m_timeWarp := by
  have hr := Time.runOps_inRange ops _ (Time.init_inRange t0 now)
  have hs := Time.runOps_synced ops _ (Time.init_synced t0 now) hops
  exact ⟨hs, Time.decreaseTimeWarp_le _ hr hs, Time.le_increaseTimeWarp _ hr hs⟩

/-- Witness for the amended C29: `setTimeWarp(500)`, which clamps to 100, an
update, and a step down. -/
theorem timeWarp_is_table_entry_when_arguments_snap_witness :
    (Time.runOps (Time.init {} 0)
        [Time.Op.setTimeWarp 500, Time.Op.update 1, Time.Op.decreaseTimeWarp]).m_timeWarp =
      Time.TIME_WARP_LEVELS (Time.runOps (Time.init {} 0)
        [Time.Op.setTimeWarp 500, Time.Op.update 1,
          Time.Op.decreaseTimeWarp]).m_warpLevelIndex ∧
    (Time.decreaseTimeWarp (Time.runOps (Time.init {} 0)
        [Time.Op.setTimeWarp 500, Time.Op.update 1, Time.Op.decreaseTimeWarp])).m_timeWarp ≤
      (Time.runOps (Time.init {} 0)
        [Time.Op.setTimeWarp 500, Time.Op.update 1, Time.Op.decreaseTimeWarp]).m_timeWarp ∧
    (Time.runOps (Time.init {} 0)
        [Time.Op.setTimeWarp 500, Time.Op.update 1, Time.Op.decreaseTimeWarp]).m_timeWarp ≤
      (Time.increaseTimeWarp (Time.runOps (Time.init {} 0)
        [Time.Op.setTimeWarp 500, Time.Op.update 1, Time.Op.decreaseTimeWarp])).m_timeWarp :=
  timeWarp_is_table_entry_when_arguments_snap {} 0
    [Time.Op.setTimeWarp 500, Time.Op.update 1, Time.Op.decreaseTimeWarp]
    (by
      intro op hop
      simp only [List.mem_cons, List.mem_singleton, List.not_mem_nil, or_false] at hop
      rcases hop with rfl | rfl | rfl
      · show Time.IsWarpLevel (stdClampInt 500 1 Constants.MAX_TIME_WARP)
        unfold Time.IsWarpLevel stdClampInt Constants.MAX_TIME_WARP
        norm_num
      · trivial
      · trivial)

/-! ## Conversion to `float`: accuracy -/

namespace Binary32

theorem abs_roundNearestEven_sub_le (y : ℝ) : |(roundNearestEven y : ℝ) - y| ≤ 1 / 2 := by
  have h1 : (⌊y⌋ : ℝ) ≤ y := Int.floor_le y
  have h2 : y < (⌊y⌋ : ℝ) + 1 := Int.lt_floor_add_one y
  unfold roundNearestEven
  rw [abs_le]
  split_ifs with a b c
  · constructor <;> linarith
  · push_cast
    constructor <;> linarith
  · constructor <;> linarith
  · push_cast
    constructor <;> linarith

theorem spacing_pos (x : ℝ) : 0 < spacing x := zpow_pos (by norm_num) _

theorem abs_nearest_sub_le (x : ℝ) : |nearest x - x| ≤ spacing x / 2 := by
  have hs := spacing_pos x
  have h := abs_roundNearestEven_sub_le (x / spacing x)
  have e : nearest x - x = ((roundNearestEven (x / spacing x) : ℝ) - x / spacing x) * spacing x := by
    unfold nearest
    field_simp
  rw [e, abs_mul, abs_of_pos hs]
  calc |(roundNearestEven (x / spacing x) : ℝ) - x / spacing x| * spacing x
      ≤ 1 / 2 * spacing x := mul_le_mul_of_nonneg_right h hs.le
    _ = spacing x / 2 := by ring

/-- Above the subnormal range the spacing is at most `2^-23` of the
magnitude. -/
theorem spacing_le_of_normal (x : ℝ) (h : 1 / 2 ^ 126 ≤ |x|) :
    spacing x ≤ 1 / 2 ^ 23 * |x| := by
  have hpos : 0 < |x| := lt_of_lt_of_le (by positivity) h
  have hlog : (-126 : ℤ) ≤ Int.log 2 |x| := by
    rw [← Int.zpow_le_iff_le_log (by norm_num) hpos]
    refine le_trans (le_of_eq ?_) h
    rw [zpow_neg, ← one_div]
    norm_num
  have hexp : exponent x = Int.log 2 |x| := by
    unfold exponent
    exact max_eq_left hlog
  have hle : (2 : ℝ) ^ Int.log 2 |x| ≤ |x| := by
    have := Int.zpow_log_le_self (show 1 < 2 by norm_num) hpos
    exact_mod_cast this
  unfold spacing
  rw [hexp, zpow_sub₀ (by norm_num : (2 : ℝ) ≠ 0)]
  have h23 : (2 : ℝ) ^ (23 : ℤ) = 2 ^ 23 := by norm_num
  rw [h23, div_eq_mul_inv, mul_comm, ← one_div]
  exact mul_le_mul_of_nonneg_left hle (by positivity)

end Binary32

namespace Ui

/-- In the normal range of `float` the conversion keeps a value within a
relative error of `2^-24`. -/
theorem toFloat_of_normal (x : ℝ) (h1 : 1 / 2 ^ 126 ≤ |x|) (h2 : |x| ≤ 2 ^ 127) :
    ∃ y : ℝ, toFloat x = Dbl.fin y ∧ |y - x| ≤ 1 / 2 ^ 24 * |x| := by
  have hn := Binary32.abs_nearest_sub_le x
  have hs := Binary32.spacing_le_of_normal x h1
  have hclose : |Binary32.nearest x - x| ≤ 1 / 2 ^ 24 * |x| := by
    refine le_trans hn ?_
    have : Binary32.spacing x / 2 ≤ 1 / 2 ^ 23 * |x| / 2 := by linarith
    refine le_trans this (le_of_eq ?_)
    ring
  have habs : |Binary32.nearest x| < 2 ^ 128 := by
    have t : |Binary32.nearest x| ≤ |Binary32.nearest x - x| + |x| := by
      have := abs_add (Binary32.nearest x - x) x
      simpa using this
    have hx0 : 0 ≤ |x| := abs_nonneg x
    have : 1 / 2 ^ 24 * |x| ≤ |x| := by
      have : (1 : ℝ) / 2 ^ 24 ≤ 1 := by norm_num
      nlinarith
    have : |Binary32.nearest x| ≤ 2 * 2 ^ 127 := by linarith
    refine lt_of_le_of_lt (le_trans t (add_le_add hclose (le_refl _))) ?_
    have h24 : 1 / 2 ^ 24 * |x| ≤ 1 / 2 ^ 24 * 2 ^ 127 :=
      mul_le_mul_of_nonneg_left h2 (by positivity)
    have : (1 : ℝ) / 2 ^ 24 * 2 ^ 127 + 2 ^ 127 < 2 ^ 128 := by norm_num
    linarith
  rw [abs_lt] at habs
  refine ⟨Binary32.nearest x, ?_, hclose⟩
  unfold toFloat
  simp only
  rw [if_neg (not_le.mpr habs.2), if_neg (not_le.mpr habs.1)]

end Ui

namespace Sample

/-- The value `1234567.89 / 1000` lies between two `float` values; the nearer
one is `10113580 / 2^13`. -/
theorem toFloat_surveyAltitude :
    Ui.toFloat (1234567.89 / 1000.0) = Dbl.fin 1234.56787109375 := by
  have hx : (1234567.89 : ℝ) / 1000.0 = 1234.56789 := by norm_num
  rw [hx]
  have habs : |(1234.56789 : ℝ)| = 1234.56789 := abs_of_pos (by norm_num)
  have hlog : Int.log 2 (1234.56789 : ℝ) = 10 := by
    have hpos : (0 : ℝ) < 1234.56789 := by norm_num
    have hlo : (10 : ℤ) ≤ Int.log 2 (1234.56789 : ℝ) := by
      rw [← Int.zpow_le_iff_le_log (by norm_num) hpos]
      norm_num
    have hhi : Int.log 2 (1234.56789 : ℝ) < 11 := by
      rw [← Int.lt_zpow_iff_log_lt (by norm_num) hpos]
      norm_num
    omega
  have hsp : Binary32.spacing 1234.56789 = 1 / 8192 := by
    unfold Binary32.spacing Binary32.exponent
    rw [habs, hlog]
    norm_num
  have hfloor : ⌊(1234.56789 : ℝ) / (1 / 8192)⌋ = 10113580 := by
    rw [Int.floor_eq_iff]
    constructor <;> norm_num
  have hround : Binary32.roundNearestEven ((1234.56789 : ℝ) / (1 / 8192)) = 10113580 := by
    unfold Binary32.roundNearestEven
    rw [hfloor, if_pos (by norm_num)]
  have hnear : Binary32.nearest 1234.56789 = 1234.56787109375 := by
    unfold Binary32.nearest
    rw [hsp, hround]
    norm_num
  unfold Ui.toFloat
  simp only
  rw [hnear, if_neg (by norm_num), if_neg (by norm_num)]

end Sample

/-! ## Ui: the telemetry history -/

namespace Spec

theorem lastN_of_length_le {α : Type} (n : ℕ) (xs : List α) (h : xs.length ≤ n) :
    lastN n xs = xs := by
  unfold lastN
  rw [Nat.sub_eq_zero_of_le h, List.drop_zero]

theorem length_lastN {α : Type} (n : ℕ) (xs : List α) : (lastN n xs).length = min n xs.length := by
  unfold lastN
  rw [List.length_drop]
  omega

theorem length_lastN_le {α : Type} (n : ℕ) (xs : List α) : (lastN n xs).length ≤ n := by
  rw [length_lastN]
  exact Nat.min_le_left _ _

/-- Appending to the last `n` entries: nothing is dropped while the result
has at most `n` entries, and otherwise the front entry goes. -/
theorem lastN_append_singleton {α : Type} (n : ℕ) (xs : List α) (a : α) :
    lastN n (xs ++ [a]) =
      if (lastN n xs ++ [a]).length ≤ n then lastN n xs ++ [a]
      else (lastN n xs ++ [a]).tail := by
  have hlen := length_lastN n xs
  split_ifs with h
  · rw [List.length_append, List.length_singleton, hlen] at h
    have hx : xs.length < n := by omega
    rw [lastN_of_length_le n xs hx.le, lastN_of_length_le n (xs ++ [a])]
    rw [List.length_append, List.length_singleton]
    omega
  · rw [List.length_append, List.length_singleton, hlen] at h
    have hx : n ≤ xs.length := by omega
    unfold lastN
    rw [List.length_append, List.length_singleton, ← List.drop_one, ← List.drop_append_of_le_length
      (by omega : xs.length - n ≤ xs.length), List.drop_drop]
    congr 1
    omega

theorem chain_acceptedSamples (last : ℝ) (calls : List Ui.TelemetryCall) :
    List.Chain (fun a b => b - a ≥ 1) last
      ((acceptedSamples last calls).map Ui.TelemetryCall.simTime) := by
  induction calls generalizing last with
  | nil => exact List.Chain.nil
  | cons c cs ih =>
      unfold acceptedSamples
      split_ifs with h
      · exact ih last
      · rw [List.map_cons]
        refine List.Chain.cons ?_ (ih c.simTime)
        norm_num at h
        linarith

theorem isChain_acceptedSamples (last : ℝ) (calls : List Ui.TelemetryCall) :
    List.Chain' (fun a b => b - a ≥ 1)
      ((acceptedSamples last calls).map Ui.TelemetryCall.simTime) := by
  have h := chain_acceptedSamples last calls
  generalize (acceptedSamples last calls).map Ui.TelemetryCall.simTime = l at h
  cases l with
  | nil => exact List.chain'_nil
  | cons b t => exact (List.chain_cons.mp h).2

theorem lastN_suffix {α : Type} (n : ℕ) (xs : List α) : lastN n xs <:+ xs :=
  List.drop_suffix _ _

end Spec

namespace Ui

theorem trimHistory_of_le (ui : Ui) (h : ui.m_timeHistory.length ≤ MAX_HISTORY_POINTS) :
    trimHistory ui = ui := by
  rw [trimHistory, dif_neg (not_lt.mpr h)]

theorem trimHistory_of_succ (ui : Ui)
    (h : ui.m_timeHistory.length = MAX_HISTORY_POINTS + 1) :
    trimHistory ui =
      { ui with
        m_timeHistory := ui.m_timeHistory.tail
        m_altitudeHistory := ui.m_altitudeHistory.tail
        m_speedHistory := ui.m_speedHistory.tail
        m_eccentricityHistory := ui.m_eccentricityHistory.tail } := by
  rw [trimHistory, dif_pos (by omega)]
  apply trimHistory_of_le
  show ui.m_timeHistory.tail.length ≤ MAX_HISTORY_POINTS
  rw [List.length_tail]
  omega

end Ui

namespace Spec

theorem lastN_map_append {α β : Type} (n : ℕ) (f : α → β) (pre : List α) (c : α) :
    lastN n ((pre ++ [c]).map f) =
      if min n pre.length + 1 ≤ n then lastN n (pre.map f) ++ [f c]
      else (lastN n (pre.map f) ++ [f c]).tail := by
  rw [List.map_append, List.map_singleton, lastN_append_singleton]
  have hlen : (lastN n (pre.map f) ++ [f c]).length = min n pre.length + 1 := by
    rw [List.length_append, List.length_singleton, length_lastN, List.length_map]
  rw [hlen]

end Spec

namespace Ui

theorem recordTelemetry_of_reject (ui : Ui) (c : TelemetryCall)
    (h : c.simTime - ui.m_lastRecordTime < 1.0) :
    recordTelemetry ui c.simTime c.altitude c.speed c.eccentricity = ui := by
  unfold recordTelemetry
  rw [if_pos h]

theorem recordTelemetry_of_accept (ui : Ui) (pre : List TelemetryCall) (c : TelemetryCall)
    (hh : Holds ui pre) (h : ¬ c.simTime - ui.m_lastRecordTime < 1.0) :
    Holds (recordTelemetry ui c.simTime c.altitude c.speed c.eccentricity) (pre ++ [c]) ∧
    (recordTelemetry ui c.simTime c.altitude c.speed c.eccentricity).m_lastRecordTime =
      c.simTime := by
  obtain ⟨h1, h2, h3, h4⟩ := hh
  unfold recordTelemetry
  rw [if_neg h]
  have hlen : (ui.m_timeHistory ++ [c.simTime]).length =
      min MAX_HISTORY_POINTS pre.length + 1 := by
    rw [h1, List.length_append, List.length_singleton, Spec.length_lastN, List.length_map]
  by_cases hle : min MAX_HISTORY_POINTS pre.length + 1 ≤ MAX_HISTORY_POINTS
  · rw [trimHistory_of_le _ (by show (ui.m_timeHistory ++ [c.simTime]).length ≤ _; omega)]
    refine ⟨⟨?_, ?_, ?_, ?_⟩, rfl⟩
    · show ui.m_timeHistory ++ [c.simTime] = _
      rw [Spec.lastN_map_append, if_pos hle, h1]
    · show ui.m_altitudeHistory ++ [toFloat (c.altitude / 1000.0)] = _
      rw [Spec.lastN_map_append, if_pos hle, h2]
    · show ui.m_speedHistory ++ [toFloat c.speed] = _
      rw [Spec.lastN_map_append, if_pos hle, h3]
    · show ui.m_eccentricityHistory ++ [toFloat c.eccentricity] = _
      rw [Spec.lastN_map_append, if_pos hle, h4]
  · have hmin : min MAX_HISTORY_POINTS pre.length ≤ MAX_HISTORY_POINTS := Nat.min_le_left _ _
    rw [trimHistory_of_succ _ (by show (ui.m_timeHistory ++ [c.simTime]).length = _; omega)]
    refine ⟨⟨?_, ?_, ?_, ?_⟩, rfl⟩
    · show (ui.m_timeHistory ++ [c.simTime]).tail = _
      rw [Spec.lastN_map_append, if_neg hle, h1]
    · show (ui.m_altitudeHistory ++ [toFloat (c.altitude / 1000.0)]).tail = _
      rw [Spec.lastN_map_append, if_neg hle, h2]
    · show (ui.m_speedHistory ++ [toFloat c.speed]).tail = _
      rw [Spec.lastN_map_append, if_neg hle, h3]
    · show (ui.m_eccentricityHistory ++ [toFloat c.eccentricity]).tail = _
      rw [Spec.lastN_map_append, if_neg hle, h4]

/-- After any sequence of calls the history holds the last samples of the
accepted ones. -/
theorem recordAll_holds (calls : List TelemetryCall) (ui : Ui) (pre : List TelemetryCall)
    (hh : Holds ui pre) :
    Holds (recordAll ui calls) (pre ++ Spec.acceptedSamples ui.m_lastRecordTime calls) := by
  induction calls generalizing ui pre with
  | nil =>
      show Holds ui (pre ++ [])
      rw [List.append_nil]
      exact hh
  | cons c cs ih =>
      show Holds (recordAll (recordTelemetry ui c.simTime c.altitude c.speed c.eccentricity) cs) _
      unfold Spec.acceptedSamples
      by_cases h : c.simTime - ui.m_lastRecordTime < 1.0
      · rw [if_pos h, recordTelemetry_of_reject ui c h]
        exact ih ui pre hh
      · rw [if_neg h]
        obtain ⟨hh1, hlast⟩ := recordTelemetry_of_accept ui pre c hh h
        have := ih _ _ hh1
        rw [hlast, List.append_assoc, List.singleton_append] at this
        exact this

theorem holds_default : Holds {} [] := by
  constructor <;> rfl

end Ui

/-- C24 (counterexample): on a newly constructed `Ui` the call
`recordTelemetry(1, 1234567.89, 1500, 0.5)` is accepted, and the altitude it
stores is `1234.56787109375`, the `float` nearest to `1234.56789`, which is
not the supplied altitude divided by 1000. -/
theorem recordTelemetry_stores_float_altitude :
    (Ui.recordAll {} [Sample.surveyCall]).m_timeHistory = [1] ∧
    (Ui.recordAll {} [Sample.surveyCall]).m_altitudeHistory = [Dbl.fin 1234.56787109375] ∧
    (1234.56787109375 : ℝ) ≠ Sample.surveyCall.altitude / 1000 := by
  have hacc : ¬ Sample.surveyCall.simTime - ({} : Ui).m_lastRecordTime < 1.0 := by
    show ¬ (1 : ℝ) - 0.0 < 1.0
    norm_num
  have hrun : Ui.recordAll {} [Sample.surveyCall] =
      { ({} : Ui) with
        m_lastRecordTime := 1
        m_timeHistory := [1]
        m_altitudeHistory := [Ui.toFloat (1234567.89 / 1000.0)]
        m_speedHistory := [Ui.toFloat 1500]
        m_eccentricityHistory := [Ui.toFloat 0.5] } := by
    show Ui.recordTelemetry {} Sample.surveyCall.simTime Sample.surveyCall.altitude
      Sample.surveyCall.speed Sample.surveyCall.eccentricity = _
    unfold Ui.recordTelemetry
    rw [if_neg hacc]
    exact Ui.trimHistory_of_le _ (by
      show ([] ++ [(1 : ℝ)]).length ≤ Ui.MAX_HISTORY_POINTS
      unfold Ui.MAX_HISTORY_POINTS
      simp)
  rw [hrun]
  refine ⟨rfl, ?_, ?_⟩
  · show [Ui.toFloat (1234567.89 / 1000.0)] = _
    rw [Sample.toFloat_surveyAltitude]
  · show (1234.56787109375 : ℝ) ≠ 1234567.89 / 1000
    norm_num

/-- C24 (amended): after any finite sequence of `Ui::recordTelemetry` calls on
a newly constructed `Ui`, the time history is the last 500 entries (all of
them, if fewer) of the times of the accepted calls, in acceptance order, and
the altitude, speed and eccentricity histories are the last 500 entries of the
accepted altitudes divided by 1000, speeds and eccentricities, each converted
to `float`; so the four have the same length, at most 500, and each time is at
least 1.0 after the one stored before it.  The conversion keeps a value of
magnitude between `2^-126` and `2^127` within a relative error of `2^-24`. -/
theorem recordTelemetry_history_of_floats (calls : List Ui.TelemetryCall) :
    (Ui.recordAll {} calls).m_timeHistory =
      Spec.lastN 500 ((Spec.acceptedSamples 0 calls).map Ui.TelemetryCall.simTime) ∧
    (Ui.recordAll {} calls).m_altitudeHistory =
      Spec.lastN 500
        ((Spec.acceptedSamples 0 calls).map (fun c => Ui.toFloat (c.altitude / 1000))) ∧
    (Ui.recordAll {} calls).m_speedHistory =
      Spec.lastN 500 ((Spec.acceptedSamples 0 calls).map (fun c => Ui.toFloat c.speed)) ∧
    (Ui.recordAll {} calls).m_eccentricityHistory =
      Spec.lastN 500
        ((Spec.acceptedSamples 0 calls).map (fun c => Ui.toFloat c.eccentricity)) ∧
    (Ui.recordAll {} calls).m_timeHistory.length ≤ 500 ∧
    (Ui.recordAll {} calls).m_altitudeHistory.length =
      (Ui.recordAll {} calls).m_timeHistory.length ∧
    (Ui.recordAll {} calls).m_speedHistory.length =
      (Ui.recordAll {} calls).m_timeHistory.length ∧
    (Ui.recordAll {} calls).m_eccentricityHistory.length =
      (Ui.recordAll {} calls).m_timeHistory.length ∧
    List.Chain' (fun a b => b - a ≥ 1) (Ui.recordAll {} calls).m_timeHistory ∧
    ∀ x : ℝ, 1 / 2 ^ 126 ≤ |x| → |x| ≤ 2 ^ 127 →
      ∃ y : ℝ, Ui.toFloat x = Dbl.fin y ∧ |y - x| ≤ 1 / 2 ^ 24 * |x| := by
  have h := Ui.recordAll_holds calls {} [] Ui.holds_default
  rw [List.nil_append] at h
  have h0 : ({} : Ui).m_lastRecordTime = 0 := by
    show (0.0 : ℝ) = 0
    norm_num
  rw [h0] at h
  obtain ⟨h1, h2, h3, h4⟩ := h
  unfold Ui.MAX_HISTORY_POINTS at h1 h2 h3 h4
  have e2 : (fun c : Ui.TelemetryCall => Ui.toFloat (c.altitude / 1000.0)) =
      (fun c => Ui.toFloat (c.altitude / 1000)) := by
    funext c
    have : c.altitude / 1000.0 = c.altitude / 1000 := by norm_num
    rw [this]
  rw [e2] at h2
  refine ⟨h1, h2, h3, h4, ?_, ?_, ?_, ?_, ?_, Ui.toFloat_of_normal⟩
  · exact le_of_eq_of_le (congrArg List.length h1) (Spec.length_lastN_le _ _)
  · rw [congrArg List.length h1, congrArg List.length h2, Spec.length_lastN,
      Spec.length_lastN, List.length_map, List.length_map]
  · rw [congrArg List.length h1, congrArg List.length h3, Spec.length_lastN,
      Spec.length_lastN, List.length_map, List.length_map]
  · rw [congrArg List.length h1, congrArg List.length h4, Spec.length_lastN,
      Spec.length_lastN, List.length_map, List.length_map]
  · have hsuf : (Ui.recordAll {} calls).m_timeHistory <:+
        (Spec.acceptedSamples 0 calls).map Ui.TelemetryCall.simTime := by
      rw [h1]
      exact Spec.lastN_suffix _ _
    exact (Spec.isChain_acceptedSamples 0 calls).suffix hsuf

/-- Witness for C24 (amended): the altitude history after the one call
`recordTelemetry(1, 1234567.89, 1500, 0.5)`, and the accuracy of the
conversion at `1234.56789`. -/
theorem recordTelemetry_history_of_floats_witness :
    (Ui.recordAll {} [Sample.surveyCall]).m_altitudeHistory =
      Spec.lastN 500
        ((Spec.acceptedSamples 0 [Sample.surveyCall]).map
          (fun c => Ui.toFloat (c.altitude / 1000))) ∧
    ∃ y : ℝ, Ui.toFloat 1234.56789 = Dbl.fin y ∧
      |y - 1234.56789| ≤ 1 / 2 ^ 24 * |(1234.56789 : ℝ)| :=
  ⟨(recordTelemetry_history_of_floats [Sample.surveyCall]).2.1,
    (recordTelemetry_history_of_floats [Sample.surveyCall]).2.2.2.2.2.2.2.2.2 1234.56789
      (by rw [abs_of_pos (by norm_num)]; norm_num)
      (by rw [abs_of_pos (by norm_num)]; norm_num)⟩

/-! ## Application: the physics tick -/

namespace Ui

theorem trimHistory_impactOccurred (ui : Ui) :
    (trimHistory ui).m_impactOccurred = ui.m_impactOccurred := by
  induction ui using trimHistory.induct with
  | case1 ui h ih =>
      rw [trimHistory, dif_pos h]
      exact ih
  | case2 ui h =>
      rw [trimHistory, dif_neg h]

theorem recordTelemetry_impactOccurred (ui : Ui) (simTime altitude speed eccentricity : ℝ) :
    (recordTelemetry ui simTime altitude speed eccentricity).m_impactOccurred =
      ui.m_impactOccurred := by
  unfold recordTelemetry
  split_ifs
  · rfl
  · rw [trimHistory_impactOccurred]

end Ui

namespace Application

theorem endTick_spacecraft (app : Application) (physicsTime : ℝ) :
    (endTick app physicsTime).m_spacecraft = app.m_spacecraft := by
  unfold endTick
  dsimp only
  split_ifs <;> rfl

theorem endTick_physicsAccumulator (app : Application) (physicsTime : ℝ) :
    (endTick app physicsTime).m_physicsAccumulator = app.m_physicsAccumulator := by
  unfold endTick
  dsimp only
  split_ifs <;> rfl

theorem endTick_time (app : Application) (physicsTime : ℝ) :
    (endTick app physicsTime).m_time = Time.setPhysicsTime app.m_time physicsTime := by
  unfold endTick
  dsimp only
  split_ifs <;> rfl

theorem endTick_impactOccurred (app : Application) (physicsTime : ℝ) :
    (endTick app physicsTime).m_ui.m_impactOccurred = app.m_ui.m_impactOccurred := by
  unfold endTick
  dsimp only
  split_ifs
  · show (Ui.recordTelemetry _ _ _ _ _).m_impactOccurred = _
    rw [Ui.recordTelemetry_impactOccurred]
  · show (Ui.recordTelemetry _ _ _ _ _).m_impactOccurred = _
    rw [Ui.recordTelemetry_impactOccurred]

theorem beginTick_impactOccurred (app : Application) :
    (beginTick app).m_ui.m_impactOccurred = app.m_ui.m_impactOccurred := rfl

theorem beginTick_time (app : Application) : (beginTick app).m_time = app.m_time := rfl

/-- The iteration of the stepping loop in which the step ends at or below the
surface. -/
theorem stepLoop_of_impact (integratorType : IntegratorType) (fuel : ℕ) (app : Application)
    (hacc : app.m_physicsAccumulator ≥ Constants.FIXED_TIMESTEP)
    (halt : Orbit.computeAltitude (integrateStep app.m_spacecraft integratorType).m_state.position
      Constants.MOON_RADIUS ≤ 0) :
    stepLoop integratorType (fuel + 1) app =
      some ({ app with
        m_ui := Ui.setImpactOccurred app.m_ui true
        m_spacecraft :=
          Spacecraft.setThrottle (integrateStep app.m_spacecraft integratorType) 0.0 }, 1) := by
  simp only [stepLoop, if_pos hacc, if_pos halt]

theorem stepLoop_of_step (integratorType : IntegratorType) (fuel : ℕ) (app app1 : Application)
    (k : ℕ) (hacc : app.m_physicsAccumulator ≥ Constants.FIXED_TIMESTEP)
    (halt : ¬ Orbit.computeAltitude
      (integrateStep app.m_spacecraft integratorType).m_state.position
      Constants.MOON_RADIUS ≤ 0)
    (hrec : stepLoop integratorType fuel
      { app with
        m_spacecraft := integrateStep app.m_spacecraft integratorType
        m_physicsAccumulator := app.m_physicsAccumulator - Constants.FIXED_TIMESTEP } =
      some (app1, k)) :
    stepLoop integratorType (fuel + 1) app = some (app1, k + 1) := by
  simp only [stepLoop, if_pos hacc, if_neg halt, hrec]

theorem stepLoop_of_step_none (integratorType : IntegratorType) (fuel : ℕ) (app : Application)
    (hacc : app.m_physicsAccumulator ≥ Constants.FIXED_TIMESTEP)
    (halt : ¬ Orbit.computeAltitude
      (integrateStep app.m_spacecraft integratorType).m_state.position
      Constants.MOON_RADIUS ≤ 0)
    (hrec : stepLoop integratorType fuel
      { app with
        m_spacecraft := integrateStep app.m_spacecraft integratorType
        m_physicsAccumulator := app.m_physicsAccumulator - Constants.FIXED_TIMESTEP } = none) :
    stepLoop integratorType (fuel + 1) app = none := by
  simp only [stepLoop, if_pos hacc, if_neg halt, hrec]

theorem stepLoop_of_done (integratorType : IntegratorType) (fuel : ℕ) (app : Application)
    (hacc : ¬ app.m_physicsAccumulator ≥ Constants.FIXED_TIMESTEP) :
    stepLoop integratorType fuel app = some (app, 0) := by
  cases fuel with
  | zero => simp only [stepLoop, if_neg hacc]
  | succ n => simp only [stepLoop, if_neg hacc]

theorem setThrottle_zero (sc : Spacecraft) : (Spacecraft.setThrottle sc 0.0).m_throttle = 0 := by
  show stdClamp 0.0 0.0 1.0 = 0
  unfold stdClamp
  norm_num

theorem setThrottle_state (sc : Spacecraft) (x : ℝ) :
    (Spacecraft.setThrottle sc x).m_state = sc.m_state := rfl

/-- When the stepping loop ends with the impact flag newly set, the spacecraft
is where the last step left it, at or below the surface, with zero throttle,
and the loop has made at least one step. -/
theorem stepLoop_impact_state (integratorType : IntegratorType) (fuel : ℕ) (app res : Application)
    (k : ℕ) (h : stepLoop integratorType fuel app = some (res, k))
    (h0 : app.m_ui.m_impactOccurred = false) (h1 : res.m_ui.m_impactOccurred = true) :
    res.m_spacecraft.m_throttle = 0 ∧
    Orbit.computeAltitude res.m_spacecraft.m_state.position Constants.MOON_RADIUS ≤ 0 ∧
    1 ≤ k := by
  induction fuel generalizing app res k with
  | zero =>
      by_cases hacc : app.m_physicsAccumulator ≥ Constants.FIXED_TIMESTEP
      · simp only [stepLoop, if_pos hacc] at h
        exact absurd h (by simp)
      · rw [stepLoop_of_done _ _ _ hacc] at h
        simp only [Option.some.injEq, Prod.mk.injEq] at h
        rw [← h.1, h0] at h1
        exact absurd h1 (by simp)
  | succ n ih =>
      by_cases hacc : app.m_physicsAccumulator ≥ Constants.FIXED_TIMESTEP
      · by_cases halt : Orbit.computeAltitude
            (integrateStep app.m_spacecraft integratorType).m_state.position
            Constants.MOON_RADIUS ≤ 0
        · rw [stepLoop_of_impact _ _ _ hacc halt] at h
          simp only [Option.some.injEq, Prod.mk.injEq] at h
          obtain ⟨hres, hk⟩ := h
          subst hres
          refine ⟨setThrottle_zero _, ?_, by omega⟩
          show Orbit.computeAltitude (Spacecraft.setThrottle _ 0.0).m_state.position _ ≤ 0
          rw [setThrottle_state]
          exact halt
        · cases hrec : stepLoop integratorType n
              { app with
                m_spacecraft := integrateStep app.m_spacecraft integratorType
                m_physicsAccumulator :=
                  app.m_physicsAccumulator - Constants.FIXED_TIMESTEP } with
          | none =>
              rw [stepLoop_of_step_none _ _ _ hacc halt hrec] at h
              exact absurd h (by simp)
          | some r =>
              obtain ⟨app1, k1⟩ := r
              rw [stepLoop_of_step _ _ _ _ _ hacc halt hrec] at h
              simp only [Option.some.injEq, Prod.mk.injEq] at h
              obtain ⟨hres, hk⟩ := h
              subst hres
              obtain ⟨a, b, c⟩ := ih _ _ _ hrec h0 h1
              exact ⟨a, b, by omega⟩
      · rw [stepLoop_of_done _ _ _ hacc] at h
        simp only [Option.some.injEq, Prod.mk.injEq] at h
        rw [← h.1, h0] at h1
        exact absurd h1 (by simp)

theorem update_of_halted (app : Application) (physicsTime : ℝ) (fuel : ℕ)
    (h : app.m_ui.m_impactOccurred = true ∨ app.m_time.m_paused = true) :
    update app physicsTime fuel = some (app, 0) := by
  unfold update
  rw [if_pos h]

theorem update_of_running (app app1 : Application) (physicsTime : ℝ) (fuel k : ℕ)
    (h : ¬ (app.m_ui.m_impactOccurred = true ∨ app.m_time.m_paused = true))
    (hloop : stepLoop ⟨app.m_ui.m_selectedIntegrator⟩ fuel (beginTick app) = some (app1, k)) :
    update app physicsTime fuel = some (endTick app1 physicsTime, k) := by
  unfold update
  rw [if_neg h, hloop]

theorem update_of_running_none (app : Application) (physicsTime : ℝ) (fuel : ℕ)
    (h : ¬ (app.m_ui.m_impactOccurred = true ∨ app.m_time.m_paused = true))
    (hloop : stepLoop ⟨app.m_ui.m_selectedIntegrator⟩ fuel (beginTick app) = none) :
    update app physicsTime fuel = none := by
  unfold update
  rw [if_neg h, hloop]

end Application

namespace Sample

theorem grounded_step :
    Orbit.computeAltitude
      (Application.integrateStep groundedApplication.m_spacecraft
        IntegratorType.Euler).m_state.position
      Constants.MOON_RADIUS ≤ 0 := by
  have hthr : ¬ ((({} : Spacecraft).m_throttle > 0.0) ∧ Spacecraft.hasFuel ({} : Spacecraft)) := by
    intro h
    have := h.1
    norm_num at this
  have hp : (Application.integrateStep ({} : Spacecraft) IntegratorType.Euler).m_state.position =
      ⟨0, 0, 0⟩ := by
    unfold Application.integrateStep
    simp only [if_neg hthr]
    unfold Integrator.step
    rw [if_pos rfl]
    ext <;> simp [Integrator.stepEuler, Vec3.add, Vec3.scale] <;> norm_num
  show Orbit.computeAltitude
    (Application.integrateStep ({} : Spacecraft) IntegratorType.Euler).m_state.position _ ≤ 0
  rw [hp]
  unfold Orbit.computeAltitude Constants.MOON_RADIUS
  have hz : Vec3.length ⟨0, 0, 0⟩ = 0 := by
    simp [Vec3.length, Vec3.dot]
  rw [hz]
  norm_num

end Sample

/-- C23: in the stepping loop of `Application::update`, an iteration whose
integration step ends at altitude `|position| - MOON_RADIUS <= 0` sets the
impact flag and the throttle to 0 and ends the loop, so that step is the last
of the tick; a call of `update()` that finds the flag clear and leaves it set
leaves the spacecraft at or below the surface with zero throttle; and a call
of `update()` made while the flag is set makes no step and changes nothing:
position, velocity, mass and the current orbital elements stay as they are. -/
theorem impact_halts_integration :
    (∀ (integratorType : IntegratorType) (fuel : ℕ) (app : Application),
      app.m_physicsAccumulator ≥ Constants.FIXED_TIMESTEP →
      Orbit.computeAltitude
        (Application.integrateStep app.m_spacecraft integratorType).m_state.position
        Constants.MOON_RADIUS ≤ 0 →
      Application.stepLoop integratorType (fuel + 1) app =
        some ({ app with
          m_ui := Ui.setImpactOccurred app.m_ui true
          m_spacecraft := Spacecraft.setThrottle
            (Application.integrateStep app.m_spacecraft integratorType) 0.0 }, 1)) ∧
    (∀ (app res : Application) (physicsTime : ℝ) (fuel k : ℕ),
      Application.update app physicsTime fuel = some (res, k) →
      app.m_ui.m_impactOccurred = false → res.m_ui.m_impactOccurred = true →
      res.m_spacecraft.m_throttle = 0 ∧
      Orbit.computeAltitude res.m_spacecraft.m_state.position Constants.MOON_RADIUS ≤ 0) ∧
    (∀ (app : Application) (physicsTime : ℝ) (fuel : ℕ),
      app.m_ui.m_impactOccurred = true →
      Application.update app physicsTime fuel = some (app, 0)) := by
  refine ⟨?_, ?_, ?_⟩
  · intro integratorType fuel app hacc halt
    exact Application.stepLoop_of_impact integratorType fuel app hacc halt
  · intro app res physicsTime fuel k h h0 h1
    by_cases hg : app.m_ui.m_impactOccurred = true ∨ app.m_time.m_paused = true
    · rw [Application.update_of_halted app physicsTime fuel hg] at h
      simp only [Option.some.injEq, Prod.mk.injEq] at h
      rw [← h.1, h0] at h1
      exact absurd h1 (by simp)
    · cases hloop : Application.stepLoop ⟨app.m_ui.m_selectedIntegrator⟩ fuel
          (Application.beginTick app) with
      | none =>
          rw [Application.update_of_running_none app physicsTime fuel hg hloop] at h
          exact absurd h (by simp)
      | some r =>
          obtain ⟨app1, k1⟩ := r
          rw [Application.update_of_running app app1 physicsTime fuel k1 hg hloop] at h
          simp only [Option.some.injEq, Prod.mk.injEq] at h
          obtain ⟨hres, _⟩ := h
          subst hres
          rw [Application.endTick_impactOccurred] at h1
          rw [Application.endTick_spacecraft]
          obtain ⟨a, b, _⟩ := Application.stepLoop_impact_state _ fuel _ app1 k1 hloop
            (by rw [Application.beginTick_impactOccurred]; exact h0) h1
          exact ⟨a, b⟩
  · intro app physicsTime fuel h
    exact Application.update_of_halted app physicsTime fuel (Or.inl h)

/-- Witness for C23: a spacecraft at the origin, whose first Euler step ends
below the surface, and a call of `update()` after an impact. -/
theorem impact_halts_integration_witness :
    Application.stepLoop IntegratorType.Euler 1 Sample.groundedApplication =
      some ({ Sample.groundedApplication with
        m_ui := Ui.setImpactOccurred Sample.groundedApplication.m_ui true
        m_spacecraft := Spacecraft.setThrottle
          (Application.integrateStep Sample.groundedApplication.m_spacecraft
            IntegratorType.Euler) 0.0 }, 1) ∧
    Application.update Sample.crashedApplication 0 25 = some (Sample.crashedApplication, 0) :=
  ⟨impact_halts_integration.1 IntegratorType.Euler 0 Sample.groundedApplication
      (by
        show (1 : ℝ) ≥ Constants.FIXED_TIMESTEP
        unfold Constants.FIXED_TIMESTEP
        norm_num)
      Sample.grounded_step,
    impact_halts_integration.2.2 Sample.crashedApplication 0 25 rfl⟩

namespace Application

/-- With an accumulator in `[0, dt * (fuel + 1))` the stepping loop ends within
`fuel` iterations; it leaves the clock alone, and when no impact occurs it has
taken `dt` off the accumulator once per step and leaves less than `dt`. -/
theorem stepLoop_returns (integratorType : IntegratorType) (fuel : ℕ) (app : Application)
    (h0 : 0 ≤ app.m_physicsAccumulator)
    (h1 : app.m_physicsAccumulator < Constants.FIXED_TIMESTEP * ((fuel : ℝ) + 1)) :
    ∃ (res : Application) (k : ℕ),
      stepLoop integratorType fuel app = some (res, k) ∧ k ≤ fuel ∧
      res.m_time = app.m_time ∧
      (app.m_ui.m_impactOccurred = false → res.m_ui.m_impactOccurred = false →
        res.m_physicsAccumulator =
          app.m_physicsAccumulator - Constants.FIXED_TIMESTEP * (k : ℝ) ∧
        0 ≤ res.m_physicsAccumulator ∧
        res.m_physicsAccumulator < Constants.FIXED_TIMESTEP) := by
  induction fuel generalizing app with
  | zero =>
      have hacc : ¬ app.m_physicsAccumulator ≥ Constants.FIXED_TIMESTEP := by
        push_neg
        simpa using h1
      refine ⟨app, 0, stepLoop_of_done _ _ _ hacc, le_refl _, rfl, ?_⟩
      intro _ _
      push_neg at hacc
      refine ⟨by simp, h0, hacc⟩
  | succ n ih =>
      by_cases hacc : app.m_physicsAccumulator ≥ Constants.FIXED_TIMESTEP
      · by_cases halt : Orbit.computeAltitude
            (integrateStep app.m_spacecraft integratorType).m_state.position
            Constants.MOON_RADIUS ≤ 0
        · refine ⟨_, 1, stepLoop_of_impact _ _ _ hacc halt, by omega, rfl, ?_⟩
          intro _ hres
          exact absurd hres (by simp [Ui.setImpactOccurred])
        · obtain ⟨res, k, hrec, hk, htime, hrest⟩ := ih
            { app with
              m_spacecraft := integrateStep app.m_spacecraft integratorType
              m_physicsAccumulator := app.m_physicsAccumulator - Constants.FIXED_TIMESTEP }
            (by
              show 0 ≤ app.m_physicsAccumulator - Constants.FIXED_TIMESTEP
              linarith)
            (by
              show app.m_physicsAccumulator - Constants.FIXED_TIMESTEP <
                Constants.FIXED_TIMESTEP * ((n : ℝ) + 1)
              push_cast at h1
              linarith)
          refine ⟨res, k + 1, stepLoop_of_step _ _ _ _ _ hacc halt hrec, by omega, htime, ?_⟩
          intro hf hres
          obtain ⟨a, b, c⟩ := hrest hf hres
          refine ⟨?_, b, c⟩
          rw [a]
          show app.m_physicsAccumulator - Constants.FIXED_TIMESTEP -
            Constants.FIXED_TIMESTEP * (k : ℝ) = _
          push_cast
          ring
      · refine ⟨app, 0, stepLoop_of_done _ _ _ hacc, by omega, rfl, ?_⟩
        intro _ _
        push_neg at hacc
        refine ⟨by simp, h0, hacc⟩

theorem stepLoop_fuel_succ (integratorType : IntegratorType) (fuel : ℕ) (app : Application)
    (r : Application × ℕ) (h : stepLoop integratorType fuel app = some r) :
    stepLoop integratorType (fuel + 1) app = some r := by
  induction fuel generalizing app r with
  | zero =>
      by_cases hacc : app.m_physicsAccumulator ≥ Constants.FIXED_TIMESTEP
      · simp only [stepLoop, if_pos hacc] at h
        exact absurd h (by simp)
      · rw [stepLoop_of_done _ _ _ hacc] at h
        rw [stepLoop_of_done _ _ _ hacc, h]
  | succ n ih =>
      by_cases hacc : app.m_physicsAccumulator ≥ Constants.FIXED_TIMESTEP
      · by_cases halt : Orbit.computeAltitude
            (integrateStep app.m_spacecraft integratorType).m_state.position
            Constants.MOON_RADIUS ≤ 0
        · rw [stepLoop_of_impact _ _ _ hacc halt] at h
          rw [stepLoop_of_impact _ _ _ hacc halt, h]
        · cases hrec : stepLoop integratorType n
              { app with
                m_spacecraft := integrateStep app.m_spacecraft integratorType
                m_physicsAccumulator :=
                  app.m_physicsAccumulator - Constants.FIXED_TIMESTEP } with
          | none =>
              rw [stepLoop_of_step_none _ _ _ hacc halt hrec] at h
              exact absurd h (by simp)
          | some r1 =>
              obtain ⟨app1, k1⟩ := r1
              rw [stepLoop_of_step _ _ _ _ _ hacc halt hrec] at h
              rw [stepLoop_of_step _ _ _ _ _ hacc halt (ih _ _ hrec), h]
      · rw [stepLoop_of_done _ _ _ hacc] at h
        rw [stepLoop_of_done _ _ _ hacc, h]

theorem stepLoop_fuel_le (integratorType : IntegratorType) (fuel fuel1 : ℕ) (app : Application)
    (r : Application × ℕ) (hle : fuel ≤ fuel1)
    (h : stepLoop integratorType fuel app = some r) :
    stepLoop integratorType fuel1 app = some r := by
  induction fuel1, hle using Nat.le_induction with
  | base => exact h
  | succ m _ ih => exact stepLoop_fuel_succ _ _ _ _ ih

/-- The accumulator that enters the stepping loop. -/
theorem beginTick_physicsAccumulator (app : Application)
    (h0 : 0 ≤ app.m_physicsAccumulator) (hd : 0 ≤ app.m_time.m_deltaTime)
    (hw : 1 ≤ app.m_time.m_timeWarp) :
    0 ≤ (beginTick app).m_physicsAccumulator ∧ (beginTick app).m_physicsAccumulator ≤ 0.5 ∧
    (app.m_physicsAccumulator + app.m_time.m_deltaTime * (app.m_time.m_timeWarp : ℝ) ≤ 0.5 →
      (beginTick app).m_physicsAccumulator =
        app.m_physicsAccumulator + app.m_time.m_deltaTime * (app.m_time.m_timeWarp : ℝ)) := by
  have hwr : (1 : ℝ) ≤ (app.m_time.m_timeWarp : ℝ) := by exact_mod_cast hw
  have hprod : 0 ≤ app.m_time.m_deltaTime * (app.m_time.m_timeWarp : ℝ) :=
    mul_nonneg hd (by linarith)
  show 0 ≤ (if app.m_physicsAccumulator + app.m_time.m_deltaTime * (app.m_time.m_timeWarp : ℝ) >
        (0.5 : ℝ) then (0.5 : ℝ)
      else app.m_physicsAccumulator + app.m_time.m_deltaTime * (app.m_time.m_timeWarp : ℝ)) ∧
    (if app.m_physicsAccumulator + app.m_time.m_deltaTime * (app.m_time.m_timeWarp : ℝ) >
        (0.5 : ℝ) then (0.5 : ℝ)
      else app.m_physicsAccumulator + app.m_time.m_deltaTime * (app.m_time.m_timeWarp : ℝ)) ≤
      0.5 ∧
    (app.m_physicsAccumulator + app.m_time.m_deltaTime * (app.m_time.m_timeWarp : ℝ) ≤ 0.5 →
      (if app.m_physicsAccumulator + app.m_time.m_deltaTime * (app.m_time.m_timeWarp : ℝ) >
          (0.5 : ℝ) then (0.5 : ℝ)
        else app.m_physicsAccumulator + app.m_time.m_deltaTime * (app.m_time.m_timeWarp : ℝ)) =
        app.m_physicsAccumulator + app.m_time.m_deltaTime * (app.m_time.m_timeWarp : ℝ))
  split_ifs with hc
  · refine ⟨by norm_num, le_refl _, ?_⟩
    intro hle
    linarith
  · push_neg at hc
    exact ⟨by linarith, hc, fun _ => rfl⟩

end Application

/-- C25: for every accumulator `>= 0` carried into a tick, every clock delta
`>= 0` and every time-warp `>= 1`, one call of `Application::update` ends with
at most 25 calls of `Integrator::step`: 25 iterations of the stepping loop are
enough and more change nothing; and when the tick runs (the clock is not paused
and no impact was signalled before) and no impact occurs, the accumulator left
lies in `[0, 0.02)`. -/
theorem update_step_bound (app : Application) (physicsTime : ℝ)
    (h0 : 0 ≤ app.m_physicsAccumulator) (hd : 0 ≤ app.m_time.m_deltaTime)
    (hw : 1 ≤ app.m_time.m_timeWarp) :
    ∃ (res : Application) (k : ℕ),
      Application.update app physicsTime 25 = some (res, k) ∧ k ≤ 25 ∧
      (∀ fuel : ℕ, 25 ≤ fuel → Application.update app physicsTime fuel = some (res, k)) ∧
      (app.m_ui.m_impactOccurred = false → app.m_time.m_paused = false →
        res.m_ui.m_impactOccurred = false →
        0 ≤ res.m_physicsAccumulator ∧ res.m_physicsAccumulator < 0.02) := by
  by_cases hg : app.m_ui.m_impactOccurred = true ∨ app.m_time.m_paused = true
  · refine ⟨app, 0, Application.update_of_halted app physicsTime 25 hg, by omega,
      fun fuel _ => Application.update_of_halted app physicsTime fuel hg, ?_⟩
    intro hf hp _
    rcases hg with hg | hg
    · rw [hf] at hg; exact absurd hg (by simp)
    · rw [hp] at hg; exact absurd hg (by simp)
  · obtain ⟨b0, b1, _⟩ := Application.beginTick_physicsAccumulator app h0 hd hw
    obtain ⟨app1, k, hloop, hk, _, hrest⟩ := Application.stepLoop_returns
      ⟨app.m_ui.m_selectedIntegrator⟩ 25 (Application.beginTick app) b0
      (by
        unfold Constants.FIXED_TIMESTEP
        norm_num at b1 ⊢
        linarith)
    refine ⟨Application.endTick app1 physicsTime, k,
      Application.update_of_running app app1 physicsTime 25 k hg hloop, hk, ?_, ?_⟩
    · intro fuel hfuel
      exact Application.update_of_running app app1 physicsTime fuel k hg
        (Application.stepLoop_fuel_le _ 25 fuel _ _ hfuel hloop)
    · intro hf _ hres
      rw [Application.endTick_impactOccurred] at hres
      rw [Application.endTick_physicsAccumulator]
      obtain ⟨_, a, b⟩ := hrest (by rw [Application.beginTick_impactOccurred]; exact hf) hres
      unfold Constants.FIXED_TIMESTEP at b
      exact ⟨a, b⟩

/-- Witness for C25: a tick that enters with one second in the accumulator. -/
theorem update_step_bound_witness :
    ∃ (res : Application) (k : ℕ),
      Application.update Sample.groundedApplication 0 25 = some (res, k) ∧ k ≤ 25 ∧
      (∀ fuel : ℕ, 25 ≤ fuel →
        Application.update Sample.groundedApplication 0 fuel = some (res, k)) ∧
      (Sample.groundedApplication.m_ui.m_impactOccurred = false →
        Sample.groundedApplication.m_time.m_paused = false →
        res.m_ui.m_impactOccurred = false →
        0 ≤ res.m_physicsAccumulator ∧ res.m_physicsAccumulator < 0.02) :=
  update_step_bound Sample.groundedApplication 0
    (by show (0 : ℝ) ≤ 1; norm_num)
    (by show (0 : ℝ) ≤ 0.0; norm_num)
    (by show (1 : ℤ) ≤ 1; norm_num)

/-! ## Application: integrated time and simulation time -/

namespace Application

theorem run_warpCommand (t : Time) (op : Time.Op) (h : isWarpCommand op) :
    (Time.Op.run t op).m_paused = t.m_paused ∧
    (Time.Op.run t op).m_simulationTime = t.m_simulationTime ∧
    (Time.Op.run t op).m_lastFrameTime = t.m_lastFrameTime := by
  cases op with
  | setTimeWarp warp =>
      show (Time.setTimeWarp t warp).m_paused = _ ∧ (Time.setTimeWarp t warp).m_simulationTime = _ ∧
        (Time.setTimeWarp t warp).m_lastFrameTime = _
      unfold Time.setTimeWarp
      dsimp only
      split <;> exact ⟨rfl, rfl, rfl⟩
  | increaseTimeWarp =>
      show (Time.increaseTimeWarp t).m_paused = _ ∧ (Time.increaseTimeWarp t).m_simulationTime = _ ∧
        (Time.increaseTimeWarp t).m_lastFrameTime = _
      unfold Time.increaseTimeWarp
      split_ifs <;> exact ⟨rfl, rfl, rfl⟩
  | decreaseTimeWarp =>
      show (Time.decreaseTimeWarp t).m_paused = _ ∧ (Time.decreaseTimeWarp t).m_simulationTime = _ ∧
        (Time.decreaseTimeWarp t).m_lastFrameTime = _
      unfold Time.decreaseTimeWarp
      split_ifs <;> exact ⟨rfl, rfl, rfl⟩
  | togglePause => exact absurd h id
  | setPaused paused => exact absurd h id
  | update now => exact absurd h id
  | reset => exact absurd h id

theorem runOps_warpCommands (ops : List Time.Op) (t : Time)
    (h : ∀ op ∈ ops, isWarpCommand op) :
    (Time.runOps t ops).m_paused = t.m_paused ∧
    (Time.runOps t ops).m_simulationTime = t.m_simulationTime ∧
    (Time.runOps t ops).m_lastFrameTime = t.m_lastFrameTime := by
  induction ops generalizing t with
  | nil => exact ⟨rfl, rfl, rfl⟩
  | cons op rest ih =>
      obtain ⟨a, b, c⟩ := run_warpCommand t op (h op (List.mem_cons_self _ _))
      obtain ⟨a1, b1, c1⟩ := ih (Time.Op.run t op) (fun o ho => h o (List.mem_cons_of_mem _ ho))
      exact ⟨a1.trans a, b1.trans b, c1.trans c⟩

theorem stdMin_nonneg (x : ℝ) (hx : 0 ≤ x) : 0 ≤ stdMin x 0.25 := by
  unfold stdMin
  split_ifs
  · norm_num
  · exact hx

/-- The clock that `Application::update` sees in a frame whose clock commands
are time-warp commands and whose clock reading is not before the last one. -/
theorem frameClock_facts (t : Time) (inp : FrameInput) (hr : Time.InRange t)
    (hp : t.m_paused = false) (hops : ∀ op ∈ inp.clockOps, isWarpCommand op)
    (hnow : (Time.runOps t inp.clockOps).m_lastFrameTime ≤ inp.now) :
    (frameClock t inp).m_paused = false ∧ Time.InRange (frameClock t inp) ∧
    0 ≤ (frameClock t inp).m_deltaTime ∧
    (frameClock t inp).m_simulationTime =
      t.m_simulationTime +
        (frameClock t inp).m_deltaTime * ((frameClock t inp).m_timeWarp : ℝ) := by
  obtain ⟨a, b, _⟩ := runOps_warpCommands inp.clockOps t hops
  have hr1 := Time.runOps_inRange inp.clockOps t hr
  have hp1 : (Time.runOps t inp.clockOps).m_paused = false := by rw [a, hp]
  refine ⟨hp1, hr1, ?_, ?_⟩
  · show 0 ≤ stdMin (inp.now - (Time.runOps t inp.clockOps).m_lastFrameTime) 0.25
    exact stdMin_nonneg _ (by linarith)
  · show (if ¬ (Time.runOps t inp.clockOps).m_paused = true then
        (Time.runOps t inp.clockOps).m_simulationTime +
          stdMin (inp.now - (Time.runOps t inp.clockOps).m_lastFrameTime) 0.25 *
            ((Time.runOps t inp.clockOps).m_timeWarp : ℝ)
      else (Time.runOps t inp.clockOps).m_simulationTime) = _
    rw [if_pos (by rw [hp1]; simp), b]
    rfl

theorem setPhysicsTime_inRange (t : Time) (x : ℝ) (h : Time.InRange t) :
    Time.InRange (Time.setPhysicsTime t x) := h

/-- One frame below the accumulator cap keeps
`simulationTime = dt * steps + accumulator` with the accumulator in
`[0, dt)`, unless an impact occurs. -/
theorem frame_tracks (app : Application) (inp : FrameInput) (n : ℕ)
    (hf : app.m_ui.m_impactOccurred = false) (hp : app.m_time.m_paused = false)
    (hr : Time.InRange app.m_time)
    (hJ : app.m_time.m_simulationTime =
      Constants.FIXED_TIMESTEP * (n : ℝ) + app.m_physicsAccumulator)
    (h0 : 0 ≤ app.m_physicsAccumulator)
    (h1 : app.m_physicsAccumulator < Constants.FIXED_TIMESTEP)
    (hops : ∀ op ∈ inp.clockOps, isWarpCommand op)
    (hnow : (Time.runOps app.m_time inp.clockOps).m_lastFrameTime ≤ inp.now)
    (hcap : (frameClock app.m_time inp).m_deltaTime *
      ((frameClock app.m_time inp).m_timeWarp : ℝ) ≤ 0.48) :
    ∃ (res : Application) (k : ℕ),
      frame app inp 25 = some (res, k) ∧
      res.m_time = Time.setPhysicsTime (frameClock app.m_time inp) inp.physicsTime ∧
      (res.m_ui.m_impactOccurred = false →
        res.m_time.m_simulationTime =
          Constants.FIXED_TIMESTEP * ((n + k : ℕ) : ℝ) + res.m_physicsAccumulator ∧
        0 ≤ res.m_physicsAccumulator ∧
        res.m_physicsAccumulator < Constants.FIXED_TIMESTEP) := by
  obtain ⟨c1, c2, c3, c4⟩ := frameClock_facts app.m_time inp hr hp hops hnow
  generalize happ1 : ({ app with
      m_time := frameClock app.m_time inp
      m_ui :=
        { app.m_ui with
          m_selectedIntegrator := inp.selectedIntegrator
          m_throttle := inp.throttle
          m_thrustMode := inp.thrustMode
          m_burnActive := inp.burnActive } } : Application) = app1
  have e1 : app1.m_time = frameClock app.m_time inp := by rw [← happ1]
  have e2 : app1.m_ui.m_impactOccurred = false := by rw [← happ1]; exact hf
  have e3 : app1.m_physicsAccumulator = app.m_physicsAccumulator := by rw [← happ1]
  have hframe : frame app inp 25 = update app1 inp.physicsTime 25 := by
    rw [← happ1]; rfl
  have hg : ¬ (app1.m_ui.m_impactOccurred = true ∨ app1.m_time.m_paused = true) := by
    rw [e2, e1, c1]
    simp
  have hw : 1 ≤ app1.m_time.m_timeWarp := by rw [e1]; exact c2.2.2.1
  have hd : 0 ≤ app1.m_time.m_deltaTime := by rw [e1]; exact c3
  have hsum : app1.m_physicsAccumulator +
      app1.m_time.m_deltaTime * (app1.m_time.m_timeWarp : ℝ) ≤ 0.5 := by
    rw [e3, e1]
    unfold Constants.FIXED_TIMESTEP at h1
    norm_num at h1 hcap ⊢
    linarith
  obtain ⟨b0, b1, b2⟩ := beginTick_physicsAccumulator app1 (by rw [e3]; exact h0) hd hw
  have b3 := b2 hsum
  obtain ⟨app2, k, hloop, _, htime, hrest⟩ := stepLoop_returns
    ⟨app1.m_ui.m_selectedIntegrator⟩ 25 (beginTick app1) b0
    (by
      unfold Constants.FIXED_TIMESTEP
      norm_num at b1 ⊢
      linarith)
  refine ⟨endTick app2 inp.physicsTime, k, ?_, ?_, ?_⟩
  · rw [hframe]
    exact update_of_running app1 app2 inp.physicsTime 25 k hg hloop
  · rw [endTick_time, htime, beginTick_time, e1]
  · intro hres
    rw [endTick_impactOccurred] at hres
    obtain ⟨a, b, c⟩ := hrest (by rw [beginTick_impactOccurred]; exact e2) hres
    rw [endTick_physicsAccumulator, endTick_time, htime, beginTick_time, e1]
    refine ⟨?_, b, c⟩
    show (frameClock app.m_time inp).m_simulationTime = _
    rw [c4, hJ, a, b3, e3, e1]
    push_cast
    ring

theorem frame_of_halted (app : Application) (inp : FrameInput) (fuel : ℕ)
    (hf : app.m_ui.m_impactOccurred = true) :
    ∃ res : Application, frame app inp fuel = some (res, 0) ∧
      res.m_ui.m_impactOccurred = true :=
  ⟨_, update_of_halted _ inp.physicsTime fuel (Or.inl hf), hf⟩

theorem runFrames_of_halted (frames : List FrameInput) (app : Application) (fuel : ℕ)
    (hf : app.m_ui.m_impactOccurred = true) :
    ∃ res : Application, runFrames fuel app frames = some (res, 0) ∧
      res.m_ui.m_impactOccurred = true := by
  induction frames generalizing app with
  | nil => exact ⟨app, rfl, hf⟩
  | cons inp rest ih =>
      obtain ⟨app1, h1, hf1⟩ := frame_of_halted app inp fuel hf
      obtain ⟨res, h2, hf2⟩ := ih app1 hf1
      refine ⟨res, ?_, hf2⟩
      simp only [runFrames, h1, h2]

/-- A run of frames below the accumulator cap keeps
`simulationTime = dt * steps + accumulator` with the accumulator in
`[0, dt)`, unless an impact occurs. -/
theorem runFrames_tracks (frames : List FrameInput) (app : Application) (n : ℕ)
    (hf : app.m_ui.m_impactOccurred = false) (hp : app.m_time.m_paused = false)
    (hr : Time.InRange app.m_time)
    (hJ : app.m_time.m_simulationTime =
      Constants.FIXED_TIMESTEP * (n : ℝ) + app.m_physicsAccumulator)
    (h0 : 0 ≤ app.m_physicsAccumulator)
    (h1 : app.m_physicsAccumulator < Constants.FIXED_TIMESTEP)
    (hcap : BelowCap app.m_time frames) :
    ∃ (res : Application) (m : ℕ),
      runFrames 25 app frames = some (res, m) ∧
      (res.m_ui.m_impactOccurred = false →
        res.m_time.m_simulationTime =
          Constants.FIXED_TIMESTEP * ((n + m : ℕ) : ℝ) + res.m_physicsAccumulator ∧
        0 ≤ res.m_physicsAccumulator ∧
        res.m_physicsAccumulator < Constants.FIXED_TIMESTEP) := by
  induction frames generalizing app n with
  | nil =>
      exact ⟨app, 0, rfl, fun _ => ⟨hJ, h0, h1⟩⟩
  | cons inp rest ih =>
      obtain ⟨hops, hnow, hc, hrestcap⟩ := hcap
      obtain ⟨app1, k, hfr, htime, htrack⟩ :=
        frame_tracks app inp n hf hp hr hJ h0 h1 hops hnow hc
      obtain ⟨c1, c2, _, _⟩ := frameClock_facts app.m_time inp hr hp hops hnow
      by_cases hf1 : app1.m_ui.m_impactOccurred = false
      · obtain ⟨a, b, c⟩ := htrack hf1
        obtain ⟨res, m, hrun, hres⟩ := ih app1 (n + k) hf1
          (by rw [htime]; exact c1)
          (by rw [htime]; exact setPhysicsTime_inRange _ _ c2)
          a b c (by rw [htime]; exact hrestcap)
        refine ⟨res, k + m, ?_, ?_⟩
        · simp only [runFrames, hfr, hrun]
        · intro hfin
          obtain ⟨x, y, z⟩ := hres hfin
          refine ⟨?_, y, z⟩
          rw [x, Nat.add_assoc]
      · have hf1t : app1.m_ui.m_impactOccurred = true := by
          cases hb : app1.m_ui.m_impactOccurred with
          | false => exact absurd hb hf1
          | true => rfl
        obtain ⟨res, hrun, hfin⟩ := runFrames_of_halted rest app1 25 hf1t
        refine ⟨res, k + 0, ?_, ?_⟩
        · simp only [runFrames, hfr, hrun]
        · intro hcontra
          rw [hfin] at hcontra
          exact absurd hcontra (by simp)

theorem updateTrajectoryPrediction_fields (app : Application) :
    (updateTrajectoryPrediction app).m_time = app.m_time ∧
    (updateTrajectoryPrediction app).m_ui = app.m_ui ∧
    (updateTrajectoryPrediction app).m_physicsAccumulator = app.m_physicsAccumulator ∧
    (updateTrajectoryPrediction app).m_spacecraft = app.m_spacecraft :=
  ⟨rfl, rfl, rfl, rfl⟩

/-- What `initScenario` leaves: the clock reset, an empty accumulator, the UI
untouched. -/
theorem initScenarioAll_fields (index : ℤ) (app0 app : Application)
    (h : initScenarioAll index app0 = some app) :
    app.m_time = Time.reset app0.m_time ∧ app.m_ui = app0.m_ui ∧
    app.m_physicsAccumulator = 0 ∧
    initScenario index app0.m_spacecraft = some app.m_spacecraft := by
  unfold initScenarioAll at h
  cases hsc : initScenario index app0.m_spacecraft with
  | none =>
      rw [hsc] at h
      exact absurd h (by simp)
  | some sc =>
      rw [hsc] at h
      simp only [Option.some.injEq] at h
      rw [← h]
      refine ⟨rfl, rfl, ?_, rfl⟩
      show (0.0 : ℝ) = 0
      norm_num

end Application

/-! ## Application: the accumulator cap -/

namespace Application

/-- The spacecraft `initScenario(0)` sets up: zero throttle, radius
`MOON_RADIUS + 100 km`, circular speed, no radial velocity. -/
theorem initScenario_zero (sc : Spacecraft) :
    ∃ sc0 : Spacecraft, initScenario 0 sc = some sc0 ∧ sc0.m_throttle = 0 ∧
      Vec3.dot sc0.m_state.position sc0.m_state.position =
        (Constants.MOON_RADIUS + 100000.0) ^ 2 ∧
      Vec3.dot sc0.m_state.velocity sc0.m_state.velocity =
        Constants.MOON_MU / (Constants.MOON_RADIUS + 100000.0) ∧
      Vec3.dot sc0.m_state.position sc0.m_state.velocity = 0 := by
  obtain ⟨position, velocity, hstate, hP, hV, hB⟩ :=
    Orbit.createCircularOrbit_state 100000.0 (28.0 * Constants.DEG_TO_RAD) 0.0 0.0
      Constants.MOON_MU Constants.MOON_RADIUS
      (by norm_num [Constants.MOON_RADIUS]) (by norm_num [Constants.MOON_MU])
  refine ⟨{ Spacecraft.init sc with
    m_state := { (Spacecraft.init sc).m_state with
      position := position, velocity := velocity } }, ?_, ?_, hP, hV, hB⟩
  · unfold initScenario
    simp only [if_true, hstate]
  · show (0.0 : ℝ) = 0
    norm_num

/-- On the orbit of scenario 0 the RK4 iterates stay above the surface. -/
theorem altitude_pos_of_scenario_zero (s0 : SpacecraftState)
    (hP : Vec3.dot s0.position s0.position = (Constants.MOON_RADIUS + 100000.0) ^ 2)
    (hV : Vec3.dot s0.velocity s0.velocity =
      Constants.MOON_MU / (Constants.MOON_RADIUS + 100000.0))
    (hB : Vec3.dot s0.position s0.velocity = 0) (k : ℕ) (hk : k ≤ 10000) :
    0 < Orbit.computeAltitude
      (Integrator.rk4Iterate s0 Constants.FIXED_TIMESTEP computeDerivatives k).position
      Constants.MOON_RADIUS := by
  have hlen : Vec3.length s0.position = Constants.MOON_RADIUS + 100000.0 :=
    Orbit.length_eq_of_dot_eq_sq s0.position _ (by norm_num [Constants.MOON_RADIUS]) hP
  have hu : ∀ a : Vec3, Vec3.dot a (Vec3.lscale Constants.FIXED_TIMESTEP s0.velocity) =
      Constants.FIXED_TIMESTEP * Vec3.dot a s0.velocity := by
    intro a
    simp only [Vec3.dot, Vec3.lscale]; ring
  have hu2 : Vec3.dot (Vec3.lscale Constants.FIXED_TIMESTEP s0.velocity)
      (Vec3.lscale Constants.FIXED_TIMESTEP s0.velocity) =
      Constants.FIXED_TIMESTEP * Constants.FIXED_TIMESTEP * Vec3.dot s0.velocity s0.velocity := by
    simp only [Vec3.dot, Vec3.lscale]; ring
  have hinv := Kepler.inv_iterate Constants.FIXED_TIMESTEP s0
    (by norm_num [Constants.FIXED_TIMESTEP])
    (by rw [hP]; norm_num [Constants.MOON_RADIUS])
    (by
      show 0 < Constants.FIXED_TIMESTEP * Constants.FIXED_TIMESTEP * Constants.MOON_MU /
        (Vec3.length s0.position * Vec3.length s0.position * Vec3.length s0.position)
      rw [hlen]
      norm_num [Constants.MOON_RADIUS, Constants.MOON_MU, Constants.FIXED_TIMESTEP])
    (by
      show Constants.FIXED_TIMESTEP * Constants.FIXED_TIMESTEP * Constants.MOON_MU /
        (Vec3.length s0.position * Vec3.length s0.position * Vec3.length s0.position) ≤
          319 / 10 ^ 12
      rw [hlen]
      norm_num [Constants.MOON_RADIUS, Constants.MOON_MU, Constants.FIXED_TIMESTEP])
    (by
      show Vec3.dot s0.position (Vec3.lscale Constants.FIXED_TIMESTEP s0.velocity) /
        Vec3.dot s0.position s0.position = 0
      rw [hu, hB]
      norm_num)
    (by
      show Vec3.dot (Vec3.lscale Constants.FIXED_TIMESTEP s0.velocity)
          (Vec3.lscale Constants.FIXED_TIMESTEP s0.velocity) /
          Vec3.dot s0.position s0.position =
        Constants.FIXED_TIMESTEP * Constants.FIXED_TIMESTEP * Constants.MOON_MU /
          (Vec3.length s0.position * Vec3.length s0.position * Vec3.length s0.position)
      rw [hu2, hV, hP, hlen]
      norm_num [Constants.MOON_RADIUS, Constants.MOON_MU, Constants.FIXED_TIMESTEP])
    k hk
  have hlo := hinv.pLo
  rw [hP] at hlo
  have hc : ((k : ℕ) : ℝ) ≤ 10000 := by exact_mod_cast hk
  have hsq : Constants.MOON_RADIUS ^ 2 <
      Vec3.dot (Integrator.rk4Iterate s0 Constants.FIXED_TIMESTEP computeDerivatives k).position
        (Integrator.rk4Iterate s0 Constants.FIXED_TIMESTEP computeDerivatives k).position := by
    refine lt_of_lt_of_le ?_ hlo
    generalize (k : ℝ) = c at hc
    norm_num [Constants.MOON_RADIUS]
    linarith
  unfold Orbit.computeAltitude Vec3.length
  have := (Real.lt_sqrt (by norm_num [Constants.MOON_RADIUS])).mpr hsq
  linarith

/-- With zero throttle and the RK4 integrator selected, one iteration of the
stepping loop is one call of `stepRK4` with the gravity-only derivatives. -/
theorem integrateStep_coasting (sc : Spacecraft) (h : sc.m_throttle = 0) :
    integrateStep sc ⟨2⟩ =
      { sc with
        m_state := Integrator.stepRK4 sc.m_state Constants.FIXED_TIMESTEP computeDerivatives } := by
  have hno : ¬ (sc.m_throttle > 0.0 ∧ Spacecraft.hasFuel sc) := by
    rw [h]
    norm_num
  have hd : derivatives Vec3.zero = computeDerivatives := by
    funext s
    unfold derivatives
    have : Vec3.add (computeDerivatives s).1 Vec3.zero = (computeDerivatives s).1 := by
      simp only [Vec3.add, Vec3.zero, add_zero]
    rw [this]
  unfold integrateStep thrustAccel
  simp only [if_neg hno]
  rw [Integrator.step_of_other _ _ _ _ (by decide) (by decide), hd]

/-- The stepping loop on a coasting spacecraft that stays above the surface
makes as many RK4 steps as fixed timesteps fit into the accumulator. -/
theorem stepLoop_coasting (j : ℕ) : ∀ (fuel : ℕ) (app : Application),
    j ≤ fuel →
    app.m_spacecraft.m_throttle = 0 →
    Constants.FIXED_TIMESTEP * (j : ℝ) ≤ app.m_physicsAccumulator →
    app.m_physicsAccumulator < Constants.FIXED_TIMESTEP * ((j : ℝ) + 1) →
    (∀ k : ℕ, 1 ≤ k → k ≤ j →
      0 < Orbit.computeAltitude
        (Integrator.rk4Iterate app.m_spacecraft.m_state Constants.FIXED_TIMESTEP
          computeDerivatives k).position Constants.MOON_RADIUS) →
    ∃ res : Application, stepLoop ⟨2⟩ fuel app = some (res, j) ∧
      res.m_ui = app.m_ui ∧ res.m_time = app.m_time := by
  induction j with
  | zero =>
      intro fuel app _ _ _ h1 _
      refine ⟨app, stepLoop_of_done _ _ _ ?_, rfl, rfl⟩
      push_neg
      simpa using h1
  | succ j ih =>
      intro fuel app hfuel hthr h0 h1 halt
      obtain ⟨f, rfl⟩ : ∃ f, fuel = f + 1 := ⟨fuel - 1, by omega⟩
      have hacc : app.m_physicsAccumulator ≥ Constants.FIXED_TIMESTEP := by
        have hj : (0 : ℝ) ≤ (j : ℝ) := Nat.cast_nonneg j
        unfold Constants.FIXED_TIMESTEP at h0 ⊢
        push_cast at h0
        nlinarith
      have hstep := integrateStep_coasting app.m_spacecraft hthr
      have hpos1 : ¬ Orbit.computeAltitude
          (integrateStep app.m_spacecraft ⟨2⟩).m_state.position Constants.MOON_RADIUS ≤ 0 := by
        rw [hstep]
        exact not_le.mpr (halt 1 (le_refl 1) (by omega))
      obtain ⟨res, hres, hui, htime⟩ := ih f
        { app with
          m_spacecraft := integrateStep app.m_spacecraft ⟨2⟩
          m_physicsAccumulator := app.m_physicsAccumulator - Constants.FIXED_TIMESTEP }
        (by omega)
        (by rw [hstep]; exact hthr)
        (by
          show Constants.FIXED_TIMESTEP * (j : ℝ) ≤
            app.m_physicsAccumulator - Constants.FIXED_TIMESTEP
          push_cast at h0
          linarith)
        (by
          show app.m_physicsAccumulator - Constants.FIXED_TIMESTEP <
            Constants.FIXED_TIMESTEP * ((j : ℝ) + 1)
          push_cast at h1
          linarith)
        (by
          intro k hk1 hk2
          show 0 < Orbit.computeAltitude
            (Integrator.rk4Iterate (integrateStep app.m_spacecraft ⟨2⟩).m_state
              Constants.FIXED_TIMESTEP computeDerivatives k).position Constants.MOON_RADIUS
          rw [hstep]
          show 0 < Orbit.computeAltitude
            (Integrator.rk4Iterate
              (Integrator.stepRK4 app.m_spacecraft.m_state Constants.FIXED_TIMESTEP
                computeDerivatives)
              Constants.FIXED_TIMESTEP computeDerivatives k).position Constants.MOON_RADIUS
          rw [Integrator.rk4Iterate_step]
          exact halt (k + 1) (by omega) (by omega))
      exact ⟨res, stepLoop_of_step _ f app res j hacc hpos1 hres, hui, htime⟩

end Application

namespace Sample

/-- The clock of the warped frame after a reset: a quarter of a second at
time-warp 100 adds 25 s of simulation time. -/
theorem warpedFrame_clock :
    (Application.frameClock (Time.reset (Time.init {} 0)) warpedFrame).m_paused = false ∧
    (Application.frameClock (Time.reset (Time.init {} 0)) warpedFrame).m_deltaTime = 0.25 ∧
    (Application.frameClock (Time.reset (Time.init {} 0)) warpedFrame).m_timeWarp = 100 ∧
    (Application.frameClock (Time.reset (Time.init {} 0)) warpedFrame).m_simulationTime = 25 := by
  have hset : Time.setTimeWarp (Time.reset (Time.init {} 0)) 100 =
      { Time.reset (Time.init {} 0) with m_timeWarp := 100, m_warpLevelIndex := 5 } := by
    unfold Time.setTimeWarp
    have h1 : stdClampInt 100 1 Constants.MAX_TIME_WARP = 100 := by decide
    have h2 : Time.findWarpLevel 100 6 0 = some 5 := by decide
    simp only [h1, h2]
  have hmin : stdMin ((0.25 : ℝ) - 0) 0.25 = 0.25 := by
    unfold stdMin
    norm_num
  have hclock : Application.frameClock (Time.reset (Time.init {} 0)) warpedFrame =
      Time.update (Time.setTimeWarp (Time.reset (Time.init {} 0)) 100) 0.25 := rfl
  rw [hclock, hset]
  refine ⟨rfl, ?_, rfl, ?_⟩
  · show stdMin ((0.25 : ℝ) - 0) 0.25 = 0.25
    exact hmin
  · show (if ¬ (false = true) then (0.0 : ℝ) + stdMin ((0.25 : ℝ) - 0) 0.25 * ((100 : ℤ) : ℝ)
      else 0.0) = 25
    rw [hmin]
    norm_num

end Sample

namespace Application

theorem beginTick_coasting (app : Application) (h : app.m_ui.m_burnActive = false) :
    (beginTick app).m_spacecraft.m_throttle = 0 ∧
    (beginTick app).m_spacecraft.m_state = app.m_spacecraft.m_state ∧
    (beginTick app).m_ui = app.m_ui := by
  have hb : beginTick app =
      { app with
        m_physicsAccumulator := (beginTick app).m_physicsAccumulator
        m_spacecraft :=
          Spacecraft.setThrustMode (Spacecraft.setThrottle app.m_spacecraft 0.0)
            app.m_ui.m_thrustMode } := by
    unfold beginTick
    simp only [h, Bool.false_eq_true, if_false]
  rw [hb]
  refine ⟨?_, rfl, rfl⟩
  show stdClamp 0.0 0.0 1.0 = 0
  unfold stdClamp
  norm_num

theorem beginTick_accumulator (app : Application) :
    (beginTick app).m_physicsAccumulator =
      if app.m_physicsAccumulator + app.m_time.m_deltaTime * (app.m_time.m_timeWarp : ℝ) > 0.5
      then 0.5
      else app.m_physicsAccumulator + app.m_time.m_deltaTime * (app.m_time.m_timeWarp : ℝ) :=
  rfl

/-- One frame of a coasting spacecraft under RK4 that stays above the surface:
`j` steps when `j` fixed timesteps fit into the capped accumulator. -/
theorem frame_coasting (app : Application) (inp : FrameInput) (j : ℕ) (c : ℝ)
    (hj : j ≤ 25) (hf : app.m_ui.m_impactOccurred = false)
    (hp : (frameClock app.m_time inp).m_paused = false)
    (hint : inp.selectedIntegrator = 2) (hb : inp.burnActive = false)
    (hc : (if app.m_physicsAccumulator + (frameClock app.m_time inp).m_deltaTime *
        ((frameClock app.m_time inp).m_timeWarp : ℝ) > 0.5 then 0.5
      else app.m_physicsAccumulator + (frameClock app.m_time inp).m_deltaTime *
        ((frameClock app.m_time inp).m_timeWarp : ℝ)) = c)
    (hc0 : Constants.FIXED_TIMESTEP * (j : ℝ) ≤ c)
    (hc1 : c < Constants.FIXED_TIMESTEP * ((j : ℝ) + 1))
    (halt : ∀ k : ℕ, 1 ≤ k → k ≤ j →
      0 < Orbit.computeAltitude
        (Integrator.rk4Iterate app.m_spacecraft.m_state Constants.FIXED_TIMESTEP
          computeDerivatives k).position Constants.MOON_RADIUS) :
    ∃ res : Application, frame app inp 25 = some (res, j) ∧
      res.m_ui.m_impactOccurred = false ∧
      res.m_time = Time.setPhysicsTime (frameClock app.m_time inp) inp.physicsTime := by
  generalize happ1 : ({ app with
      m_time := frameClock app.m_time inp
      m_ui :=
        { app.m_ui with
          m_selectedIntegrator := inp.selectedIntegrator
          m_throttle := inp.throttle
          m_thrustMode := inp.thrustMode
          m_burnActive := inp.burnActive } } : Application) = app1
  have e1 : app1.m_time = frameClock app.m_time inp := by rw [← happ1]
  have e2 : app1.m_ui.m_impactOccurred = false := by rw [← happ1]; exact hf
  have e3 : app1.m_physicsAccumulator = app.m_physicsAccumulator := by rw [← happ1]
  have e4 : app1.m_ui.m_selectedIntegrator = 2 := by rw [← happ1]; exact hint
  have e5 : app1.m_ui.m_burnActive = false := by rw [← happ1]; exact hb
  have e6 : app1.m_spacecraft = app.m_spacecraft := by rw [← happ1]
  have hframe : frame app inp 25 = update app1 inp.physicsTime 25 := by
    rw [← happ1]; rfl
  have hg : ¬ (app1.m_ui.m_impactOccurred = true ∨ app1.m_time.m_paused = true) := by
    rw [e2, e1, hp]
    simp
  obtain ⟨b1, b2, b3⟩ := beginTick_coasting app1 e5
  have b4 : (beginTick app1).m_physicsAccumulator = c := by
    rw [beginTick_accumulator, e3, e1]
    exact hc
  obtain ⟨res, hloop, hui, htime⟩ := stepLoop_coasting j 25 (beginTick app1) hj b1
    (by rw [b4]; exact hc0) (by rw [b4]; exact hc1)
    (by
      intro k hk1 hk2
      rw [b2, e6]
      exact halt k hk1 hk2)
  refine ⟨endTick res inp.physicsTime, ?_, ?_, ?_⟩
  · rw [hframe]
    refine update_of_running app1 res inp.physicsTime 25 j hg ?_
    rw [e4]
    exact hloop
  · rw [endTick_impactOccurred, hui, b3]
    exact e2
  · rw [endTick_time, htime, beginTick_time, e1]

theorem runFrames_single (app res : Application) (inp : FrameInput) (fuel j : ℕ)
    (h : frame app inp fuel = some (res, j)) :
    runFrames fuel app [inp] = some (res, j) := by
  simp only [runFrames, h, Nat.add_zero]

theorem initScenarioAll_zero (app0 : Application) :
    ∃ app : Application, initScenarioAll 0 app0 = some app := by
  obtain ⟨sc0, hsc, _⟩ := initScenario_zero app0.m_spacecraft
  unfold initScenarioAll
  rw [hsc]
  exact ⟨_, rfl⟩

/-- After `initScenario(0)` the RK4 iterates of the spacecraft stay above the
surface for 10000 steps. -/
theorem altitude_pos_after_initScenario_zero (app0 app : Application)
    (h : initScenarioAll 0 app0 = some app) (k : ℕ) (hk : k ≤ 10000) :
    0 < Orbit.computeAltitude
      (Integrator.rk4Iterate app.m_spacecraft.m_state Constants.FIXED_TIMESTEP
        computeDerivatives k).position Constants.MOON_RADIUS := by
  obtain ⟨sc0, hsc, _, hP, hV, hB⟩ := initScenario_zero app0.m_spacecraft
  obtain ⟨_, _, _, hsc1⟩ := initScenarioAll_fields 0 app0 app h
  rw [hsc] at hsc1
  simp only [Option.some.injEq] at hsc1
  rw [← hsc1]
  exact altitude_pos_of_scenario_zero sc0.m_state hP hV hB k hk

end Application

namespace Sample

theorem calmFrame_clock :
    (Application.frameClock (Time.reset (Time.init {} 0)) calmFrame).m_paused = false ∧
    (Application.frameClock (Time.reset (Time.init {} 0)) calmFrame).m_deltaTime = 0.05 ∧
    (Application.frameClock (Time.reset (Time.init {} 0)) calmFrame).m_timeWarp = 1 := by
  refine ⟨rfl, ?_, rfl⟩
  show stdMin ((0.05 : ℝ) - 0) 0.25 = 0.05
  unfold stdMin
  norm_num

theorem calmFrame_belowCap :
    Application.BelowCap (Time.reset freshApplication.m_time) [calmFrame] := by
  obtain ⟨_, hd, hw⟩ := calmFrame_clock
  refine ⟨?_, ?_, ?_, trivial⟩
  · intro op hop
    exact absurd hop (List.not_mem_nil op)
  · show (0 : ℝ) ≤ 0.05
    norm_num
  · show (Application.frameClock (Time.reset (Time.init {} 0)) calmFrame).m_deltaTime *
      (((Application.frameClock (Time.reset (Time.init {} 0)) calmFrame).m_timeWarp : ℤ) : ℝ) ≤
        0.48
    rw [hd, hw]
    norm_num

end Sample

/-- C30 (counterexample): after `initScenario(0)` on a freshly initialised
application, one frame a quarter of a second later in which the time-warp has
been set to 100 advances `simulationTime` by 25 s, while the accumulator is
capped at 0.5 s: the frame makes at most 25 steps, no impact occurs, the clock
is not paused, and the integrated time, `0.02` times the number of steps, is
at least 24.5 s behind the clock. -/
theorem accumulator_cap_drops_integrated_time :
    ∃ (app res : Application) (k : ℕ),
      Application.initScenarioAll 0 Sample.freshApplication = some app ∧
      Application.runFrames 25 app [Sample.warpedFrame] = some (res, k) ∧ k ≤ 25 ∧
      res.m_ui.m_impactOccurred = false ∧ res.m_time.m_paused = false ∧
      res.m_time.m_simulationTime = 25 ∧
      24.5 ≤ res.m_time.m_simulationTime - 0.02 * (k : ℝ) ∧
      ¬ |0.02 * (k : ℝ) - res.m_time.m_simulationTime| < 0.02 := by
  obtain ⟨app, hinit⟩ := Application.initScenarioAll_zero Sample.freshApplication
  obtain ⟨htime, hui, hacc, _⟩ :=
    Application.initScenarioAll_fields 0 Sample.freshApplication app hinit
  have htime1 : app.m_time = Time.reset (Time.init {} 0) := htime
  obtain ⟨c1, c2, c3, c4⟩ := Sample.warpedFrame_clock
  obtain ⟨res, hfr, hflag, hres⟩ := Application.frame_coasting app Sample.warpedFrame 25 0.5
    (le_refl 25) (by rw [hui]; rfl) (by rw [htime1]; exact c1) rfl rfl
    (by
      rw [htime1, hacc, c2, c3]
      norm_num)
    (by norm_num [Constants.FIXED_TIMESTEP])
    (by norm_num [Constants.FIXED_TIMESTEP])
    (fun k _ hk => Application.altitude_pos_after_initScenario_zero _ app hinit k (by omega))
  have hsim : res.m_time.m_simulationTime = 25 := by
    rw [hres, htime1]
    exact c4
  refine ⟨app, res, 25, hinit, Application.runFrames_single app res _ 25 25 hfr, le_refl 25,
    hflag, ?_, hsim, ?_, ?_⟩
  · rw [hres, htime1]
    exact c1
  · rw [hsim]
    norm_num
  · rw [hsim]
    norm_num [abs_lt]

/-- C30 (amended): in exact real arithmetic, over every run of frames after
`Application::initScenario` in which the clock is never paused (it is running
at the start and the frames carry time-warp commands only), no impact occurs,
clock readings do not decrease, and in every frame the clamped clock delta
times the time-warp is at most 0.48 s, so that the accumulator never reaches
its 0.5 s cap, the physical time integrated, `0.02` times the number of
integration steps, differs from the clock's `simulationTime` by less than one
fixed timestep. -/
theorem integrated_time_tracks_clock_below_cap (index : ℤ) (app0 app : Application)
    (frames : List Application.FrameInput)
    (hinit : Application.initScenarioAll index app0 = some app)
    (hp : app0.m_time.m_paused = false) (hr : Time.InRange app0.m_time)
    (hcap : Application.BelowCap (Time.reset app0.m_time) frames) :
    ∃ (res : Application) (m : ℕ),
      Application.runFrames 25 app frames = some (res, m) ∧
      (res.m_ui.m_impactOccurred = false →
        |0.02 * (m : ℝ) - res.m_time.m_simulationTime| < 0.02) := by
  obtain ⟨htime, hui, hacc, _⟩ := Application.initScenarioAll_fields index app0 app hinit
  cases hflag : app0.m_ui.m_impactOccurred with
  | true =>
      obtain ⟨res, hrun, hfin⟩ :=
        Application.runFrames_of_halted frames app 25 (by rw [hui]; exact hflag)
      refine ⟨res, 0, hrun, ?_⟩
      intro hcontra
      rw [hfin] at hcontra
      exact absurd hcontra (by simp)
  | false =>
      obtain ⟨res, m, hrun, htrack⟩ := Application.runFrames_tracks frames app 0
        (by rw [hui]; exact hflag)
        (by rw [htime]; exact hp)
        (by rw [htime]; exact hr)
        (by
          rw [htime, hacc]
          show (0.0 : ℝ) = Constants.FIXED_TIMESTEP * ((0 : ℕ) : ℝ) + 0
          norm_num)
        (by rw [hacc])
        (by rw [hacc]; norm_num [Constants.FIXED_TIMESTEP])
        (by rw [htime]; exact hcap)
      refine ⟨res, m, hrun, ?_⟩
      intro hres
      obtain ⟨a, b, c⟩ := htrack hres
      rw [a, Nat.zero_add]
      unfold Constants.FIXED_TIMESTEP at c ⊢
      rw [abs_lt]
      constructor <;> norm_num at c ⊢ <;> linarith

/-- Witness for C30 (amended): `initScenario(0)` on a freshly initialised
application, then one frame a twentieth of a second later at time-warp 1; the
frame makes two steps and ends without impact, 0.01 s behind the clock. -/
theorem integrated_time_tracks_clock_below_cap_witness :
    ∃ app : Application,
      Application.initScenarioAll 0 Sample.freshApplication = some app ∧
      Application.BelowCap (Time.reset Sample.freshApplication.m_time) [Sample.calmFrame] ∧
      ∃ (res : Application) (m : ℕ),
        Application.runFrames 25 app [Sample.calmFrame] = some (res, m) ∧ m = 2 ∧
        res.m_ui.m_impactOccurred = false ∧
        |0.02 * (m : ℝ) - res.m_time.m_simulationTime| < 0.02 := by
  obtain ⟨app, hinit⟩ := Application.initScenarioAll_zero Sample.freshApplication
  obtain ⟨htime, hui, hacc, _⟩ :=
    Application.initScenarioAll_fields 0 Sample.freshApplication app hinit
  have htime1 : app.m_time = Time.reset (Time.init {} 0) := htime
  obtain ⟨c1, c2, c3⟩ := Sample.calmFrame_clock
  obtain ⟨res1, hfr, hflag, _⟩ := Application.frame_coasting app Sample.calmFrame 2 0.05
    (by norm_num) (by rw [hui]; rfl) (by rw [htime1]; exact c1) rfl rfl
    (by
      rw [htime1, hacc, c2, c3]
      norm_num)
    (by norm_num [Constants.FIXED_TIMESTEP])
    (by norm_num [Constants.FIXED_TIMESTEP])
    (fun k _ hk => Application.altitude_pos_after_initScenario_zero _ app hinit k (by omega))
  have hrun1 := Application.runFrames_single app res1 _ 25 2 hfr
  obtain ⟨res, m, hrun, hclose⟩ :=
    integrated_time_tracks_clock_below_cap 0 Sample.freshApplication app [Sample.calmFrame]
      hinit rfl (Time.init_inRange {} 0) Sample.calmFrame_belowCap
  have heq : res = res1 ∧ m = 2 := by
    rw [hrun1] at hrun
    simp only [Option.some.injEq, Prod.mk.injEq] at hrun
    exact ⟨hrun.1.symm, hrun.2.symm⟩
  exact ⟨app, hinit, Sample.calmFrame_belowCap, res, m, hrun, heq.2, by rw [heq.1]; exact hflag,
    hclose (by rw [heq.1]; exact hflag)⟩

